import Mathlib

/-! Channel modes of ircd-hybrid (`src/channel_mode.c`).

A shallow embedding of the channel-mode subsystem: the ban/exception/invex
list store (`add_id`, `del_id`), the per-letter mode handlers (`chm_*`), the
dispatch loop (`set_channel_mode`) and the two propagation formatters
(`send_mode_changes_client`, `send_mode_changes_server`).

Conventions of the embedding.

* A C string is a `List Char` (the bytes before the terminating NUL); a
  nullable `char *` is an `Option (List Char)`.
* `unsigned int` bit sets are `Nat`; `~x` on a 32-bit word is
  `0xFFFFFFFF ^^^ x`.
* The file-static scratch storage (`mode_changes`, `mode_count`,
  `mode_limit`, `simple_modes_mask`) and the arguments passed by pointer to
  every handler (`*parn`, `*errors`, the channel) are the fields of `ModeState`;
  `mode_count` is the length of `mode_changes`.
* Everything the requester, the channel members or the peer servers are sent
  is appended, in emission order, to `ModeState.out`.
* Functions, macros and constants that `channel_mode.c` uses but that live in
  other translation units (`split_nuh`, `collapse`, `find_chasing`, `atoi`,
  `IRCD_BUFSIZE`, the configuration, ...) are the fields of `Env`.
-/

namespace Hybrid

/-! ## Constants of `include/channel_mode.h` -/

/-- Maximum mode changes allowed per client (`MAXMODEPARAMS`). -/
def MAXMODEPARAMS : Nat := 6

def MODE_QUERY : Nat := 0
def MODE_DEL : Nat := 1
def MODE_ADD : Nat := 2

def CHACCESS_NOTONCHAN : Int := -1
def CHACCESS_PEON : Int := 0
def CHACCESS_HALFOP : Int := 1
def CHACCESS_CHANOP : Int := 2
def CHACCESS_REMOTE : Int := 3

def CHFL_CHANOP : Nat := 0x00000001
def CHFL_HALFOP : Nat := 0x00000002
def CHFL_VOICE : Nat := 0x00000004
def CHFL_BAN : Nat := 0x00000008
def CHFL_EXCEPTION : Nat := 0x00000010
def CHFL_INVEX : Nat := 0x00000020
def CHFL_BAN_CHECKED : Nat := 0x00000040
def CHFL_BAN_SILENCED : Nat := 0x00000080

def MODE_PRIVATE : Nat := 0x00000001
def MODE_SECRET : Nat := 0x00000002
def MODE_MODERATED : Nat := 0x00000004
def MODE_TOPICLIMIT : Nat := 0x00000008
def MODE_INVITEONLY : Nat := 0x00000010
def MODE_NOPRIVMSGS : Nat := 0x00000020
def MODE_SSLONLY : Nat := 0x00000040
def MODE_OPERONLY : Nat := 0x00000080
def MODE_REGISTERED : Nat := 0x00000100
def MODE_REGONLY : Nat := 0x00000200
def MODE_NOCTRL : Nat := 0x00000400
def MODE_MODREG : Nat := 0x00000800
def MODE_NOCTCP : Nat := 0x00001000
def MODE_NONOTICE : Nat := 0x00002000
def MODE_HIDEBMASKS : Nat := 0x00004000
def MODE_EXTLIMIT : Nat := 0x00008000

/-- Bitwise complement of a 32-bit `unsigned int` (the C operator `~`). -/
def bnot32 (x : Nat) : Nat := 0xFFFFFFFF ^^^ x

/-! ## Error bits of `set_channel_mode` (the anonymous `enum` of `SM_ERR_*`) -/

def SM_ERR_NOOPS : Nat := 1 <<< 0
def SM_ERR_UNKNOWN : Nat := 1 <<< 1
def SM_ERR_RPL_B : Nat := 1 <<< 2
def SM_ERR_RPL_E : Nat := 1 <<< 3
def SM_ERR_RPL_I : Nat := 1 <<< 4
def SM_ERR_NOTONCHANNEL : Nat := 1 <<< 5
def SM_ERR_NOTOPER : Nat := 1 <<< 6
def SM_ERR_ONLYSERVER : Nat := 1 <<< 7

/-! ## Data model -/

/-- The fields of `struct Client` that `channel_mode.c` reads. -/
structure Client where
  name : List Char
  username : List Char
  host : List Char
  id : List Char
  /-- `MyConnect(x)`: the client is connected to this server. -/
  connected : Bool
  /-- `IsClient(x)`: a registered user. -/
  is_client : Bool
  /-- `IsServer(x)`. -/
  is_server : Bool
  /-- `HasUMode(x, UMODE_OPER)`. -/
  umode_oper : Bool
  /-- `HasFlag(x, FLAGS_SERVICE)`. -/
  flag_service : Bool
  /-- `IsHidden(x)`. -/
  hidden : Bool
deriving DecidableEq, Repr

/-- The macro `MyClient(x)` of `client.h`: `MyConnect(x) && IsClient(x)`. -/
def MyClient (x : Client) : Bool := x.connected && x.is_client

/-- A `struct Membership`: the member, its flag word, and whether the node is
linked into the channel's `locmembers` list. -/
structure Membership where
  client_p : Client
  flags : Nat
  loc : Bool
deriving DecidableEq, Repr

/-- A `struct Ban`, the element of the ban, exception and invex lists. -/
structure Ban where
  name : List Char
  user : List Char
  host : List Char
  who : List Char
  when : Nat
  len : Nat
  type : Nat
deriving DecidableEq, Repr

/-- The `struct Mode` embedded in a channel. -/
structure Mode where
  mode : Nat
  limit : Nat
  key : List Char
deriving DecidableEq, Repr

/-- The fields of `struct Channel` that `channel_mode.c` reads or writes.
`members` holds every membership; the sublist with `loc = true` is
`locmembers`. -/
structure Channel where
  name : List Char
  creationtime : Nat
  mode : Mode
  members : List Membership
  banlist : List Ban
  exceptlist : List Ban
  invexlist : List Ban
deriving DecidableEq, Repr

/-- The numeric replies sent by `channel_mode.c` (names of `numeric.h`). -/
inductive Numeric where
  | ERR_UNKNOWNMODE
  | ERR_NOPRIVILEGES
  | ERR_NOTONCHANNEL
  | ERR_CHANOPRIVSNEEDED
  | ERR_BANLISTFULL
  | ERR_ONLYSERVERSCANCHANGE
  | ERR_USERNOTINCHANNEL
  | ERR_NOSUCHNICK
  | RPL_BANLIST
  | RPL_ENDOFBANLIST
  | RPL_EXCEPTLIST
  | RPL_ENDOFEXCEPTLIST
  | RPL_INVEXLIST
  | RPL_ENDOFINVEXLIST
deriving DecidableEq, Repr

/-- One message leaving the subsystem.
* `numeric n args`: `sendto_one_numeric(source_p, &me, n, args...)`;
* `channel_local flags modebuf parabuf`:
  `sendto_channel_local(NULL, chptr, flags, 0, 0, "%s %s", modebuf, parabuf)`;
* `server modebuf parabuf`:
  `sendto_server(source_p, 0, 0, "%s %s", modebuf, parabuf)`. -/
inductive Out where
  | numeric (n : Numeric) (args : List (List Char))
  | channel_local (flags : Nat) (modebuf parabuf : List Char)
  | server (modebuf parabuf : List Char)
deriving DecidableEq, Repr

/-- A `struct ChModeChange`. A cleared `letter` is the NUL character. -/
structure ChModeChange where
  letter : Char
  arg : Option (List Char)
  id : Option (List Char)
  dir : Nat
  flags : Nat
deriving DecidableEq, Repr

/-- What `channel_mode.c` takes from the rest of the daemon and from libc. -/
structure Env where
  /-- `IRCD_BUFSIZE` of `ircd_defs.h`. -/
  IRCD_BUFSIZE : Nat
  /-- `KEYLEN` of `ircd_defs.h`. -/
  KEYLEN : Nat
  /-- `ConfigChannel.max_bans`. -/
  max_bans : Nat
  /-- `ConfigChannel.max_bans_large`. -/
  max_bans_large : Nat
  /-- `ConfigServerHide.hide_servers`. -/
  hide_servers : Bool
  /-- `me.name`. -/
  me_name : List Char
  /-- `CurrentTime`. -/
  CurrentTime : Nat
  /-- The case-folding table behind `irccmp`. -/
  ToUpper : Char → Char
  /-- The character class `IsSpace`. -/
  IsSpace : Char → Bool
  /-- The nick, user and host buffers filled by `split_nuh`. -/
  split_nuh : List Char → List Char × List Char × List Char
  /-- The string left in the buffer by `collapse`. -/
  collapse : List Char → List Char
  /-- The netmask type returned by `parse_netmask`. -/
  parse_netmask : List Char → Nat
  /-- The client found by `find_chasing(source_p, name)`; on `none` the
  function has sent `ERR_NOSUCHNICK` itself. -/
  find_chasing : Client → List Char → Option Client
  /-- The libc function `atoi`. -/
  atoi : List Char → Int
  /-- The macro `IsMember(who, chan)` of `channel.h`. -/
  IsMember : Client → Channel → Bool

/-- The state threaded through the handlers of one `set_channel_mode` call. -/
structure ModeState where
  chptr : Channel
  parn : Nat
  errors : Nat
  mode_changes : List ChModeChange
  mode_limit : Nat
  simple_modes_mask : Nat
  out : List Out
deriving DecidableEq, Repr

/-- The `unsigned int mode_count`: the number of slots of `mode_changes` in use. -/
def ModeState.mode_count (st : ModeState) : Nat := st.mode_changes.length

/-! ## Macros -/

/-- The macro `HasCMode(x, y)`, as a truth value. -/
def HasCMode (x : Channel) (y : Nat) : Bool := x.mode.mode &&& y != 0

/-- The macro `AddCMode(x, y)`. -/
def AddCMode (x : Channel) (y : Nat) : Channel :=
  { x with mode := { x.mode with mode := x.mode.mode ||| y } }

/-- The macro `DelCMode(x, y)`. -/
def DelCMode (x : Channel) (y : Nat) : Channel :=
  { x with mode := { x.mode with mode := x.mode.mode &&& bnot32 y } }

/-- The function `has_member_flags` of `channel.h`: `member->flags & flags`. -/
def has_member_flags (member : Membership) (flags : Nat) : Bool :=
  member.flags &&& flags != 0

/-- The macro `AddMemberFlag(x, y)`. -/
def AddMemberFlag (x : Membership) (y : Nat) : Membership :=
  { x with flags := x.flags ||| y }

/-- The macro `DelMemberFlag(x, y)`. -/
def DelMemberFlag (x : Membership) (y : Nat) : Membership :=
  { x with flags := x.flags &&& bnot32 y }

/-- Decimal digits of a number, as written by `%d`, `%u` and `%ju`. -/
def decimal (n : Nat) : List Char := Nat.toDigits 10 n

/-! ## The list store -/

/-- The function `check_string`: cut at the first white space; `"*"` for an
empty result. -/
def check_string (env : Env) (s : List Char) : List Char :=
  if s = [] then ['*']
  else
    let str := s.takeWhile (fun c => !env.IsSpace c)
    if str = [] then ['*'] else str

/-- Modelled from the spec: `irccmp` is not under `src/`; list entries are
"compared case-insensitively", so two strings compare equal (result `0`) when
they agree after folding every character with `ToUpper`. -/
def irccmp (env : Env) (s1 s2 : List Char) : Nat :=
  if s1.map env.ToUpper = s2.map env.ToUpper then 0 else 1

/-- The loop test of `add_id` and `del_id`: all three `irccmp` calls return 0. -/
def ban_matches (env : Env) (name user host : List Char) (ban : Ban) : Bool :=
  irccmp env ban.name name == 0 && irccmp env ban.user user == 0 &&
    irccmp env ban.host host == 0

/-- Clearing the two cache bits of one membership (the loop body of
`clear_ban_cache_list`). -/
def clear_ban_cache (member : Membership) : Membership :=
  { member with flags := member.flags &&& bnot32 (CHFL_BAN_SILENCED ||| CHFL_BAN_CHECKED) }

/-- The function `clear_ban_cache_list(&chptr->locmembers)`, on the member list
of the channel: the memberships linked into `locmembers` lose both cache bits. -/
def clear_ban_cache_list (members : List Membership) : List Membership :=
  members.map (fun member => if member.loc then clear_ban_cache member else member)

/-- The result of `add_id` and `del_id`: the return value, the channel, the mask
buffer `banid` as the call leaves it, and the replies sent. -/
structure IdResult where
  ret : Nat
  chptr : Channel
  banid : List Char
  out : List Out
deriving DecidableEq, Repr

/-- The list selected by the `switch (type)` of `add_id` and `del_id`, after
its side effect on the ban cache; `none` stands for the `default:` branch,
which leaves `list = NULL` and crashes at the first use. -/
def select_list (chptr : Channel) (type : Nat) : Option (Channel × List Ban) :=
  if type = CHFL_BAN then
    some ({ chptr with members := clear_ban_cache_list chptr.members }, chptr.banlist)
  else if type = CHFL_EXCEPTION then
    some ({ chptr with members := clear_ban_cache_list chptr.members }, chptr.exceptlist)
  else if type = CHFL_INVEX then
    some (chptr, chptr.invexlist)
  else none

/-- Storing back the list selected by `type`. -/
def store_list (chptr : Channel) (type : Nat) (list : List Ban) : Channel :=
  if type = CHFL_BAN then { chptr with banlist := list }
  else if type = CHFL_EXCEPTION then { chptr with exceptlist := list }
  else if type = CHFL_INVEX then { chptr with invexlist := list }
  else chptr

/-- The string written to `ban->who` by `add_id`. -/
def ban_who (env : Env) (client_p : Client) : List Char :=
  if client_p.is_client then
    client_p.name ++ ['!'] ++ client_p.username ++ ['@'] ++ client_p.host
  else if client_p.hidden || env.hide_servers then env.me_name
  else client_p.name

/-- The function `add_id`. -/
def add_id (env : Env) (client_p : Client) (chptr : Channel) (banid : List Char)
    (type : Nat) : Option IdResult :=
  let num_mask := chptr.banlist.length + chptr.exceptlist.length + chptr.invexlist.length
  if MyClient client_p ∧
      num_mask ≥ (if HasCMode chptr MODE_EXTLIMIT then env.max_bans_large else env.max_bans) then
    some { ret := 0, chptr := chptr, banid := banid,
           out := [Out.numeric Numeric.ERR_BANLISTFULL [chptr.name, banid]] }
  else
    let banid1 := if MyClient client_p then env.collapse banid else banid
    let nuh := env.split_nuh (check_string env banid1)
    let name := nuh.1
    let user := nuh.2.1
    let host := nuh.2.2
    let full := name ++ ['!'] ++ user ++ ['@'] ++ host
    let len := full.length
    let banid2 := full.take (env.IRCD_BUFSIZE - 1)
    match select_list chptr type with
    | none => none
    | some (chptr1, list) =>
      if list.any (ban_matches env name user host) then
        some { ret := 0, chptr := chptr1, banid := banid2, out := [] }
      else
        let ban : Ban :=
          { name := name, user := user, host := host, who := ban_who env client_p,
            when := env.CurrentTime, len := len - 2, type := env.parse_netmask host }
        some { ret := 1, chptr := store_list chptr1 type (ban :: list), banid := banid2,
               out := [] }

/-- The function `del_id`. -/
def del_id (env : Env) (chptr : Channel) (banid : List Char) (type : Nat) :
    Option IdResult :=
  let nuh := env.split_nuh (check_string env banid)
  let name := nuh.1
  let user := nuh.2.1
  let host := nuh.2.2
  let banid2 := (name ++ ['!'] ++ user ++ ['@'] ++ host).take (env.IRCD_BUFSIZE - 1)
  match select_list chptr type with
  | none => none
  | some (chptr1, list) =>
    if list.any (ban_matches env name user host) then
      some { ret := 1,
             chptr := store_list chptr1 type (list.eraseP (ban_matches env name user host)),
             banid := banid2, out := [] }
    else
      some { ret := 0, chptr := chptr1, banid := banid2, out := [] }

/-! ## The mode table -/

/-- The handler a table entry points to (the member `func` of `struct chan_mode`). -/
inductive ChmFunc where
  | chm_simple
  | chm_ban
  | chm_except
  | chm_invex
  | chm_voice
  | chm_hop
  | chm_op
  | chm_limit
  | chm_key
deriving DecidableEq, Repr

/-- A `struct chan_mode`. -/
structure chan_mode where
  letter : Char
  mode : Nat
  only_opers : Nat
  only_servers : Nat
  func : ChmFunc
deriving DecidableEq, Repr

/-- The table `cmode_tab`, without its terminating entry. -/
def cmode_tab : List chan_mode :=
  [ { letter := 'b', mode := 0, only_opers := 0, only_servers := 0, func := ChmFunc.chm_ban },
    { letter := 'c', mode := MODE_NOCTRL, only_opers := 0, only_servers := 0, func := ChmFunc.chm_simple },
    { letter := 'e', mode := 0, only_opers := 0, only_servers := 0, func := ChmFunc.chm_except },
    { letter := 'h', mode := 0, only_opers := 0, only_servers := 0, func := ChmFunc.chm_hop },
    { letter := 'i', mode := MODE_INVITEONLY, only_opers := 0, only_servers := 0, func := ChmFunc.chm_simple },
    { letter := 'k', mode := 0, only_opers := 0, only_servers := 0, func := ChmFunc.chm_key },
    { letter := 'l', mode := 0, only_opers := 0, only_servers := 0, func := ChmFunc.chm_limit },
    { letter := 'm', mode := MODE_MODERATED, only_opers := 0, only_servers := 0, func := ChmFunc.chm_simple },
    { letter := 'n', mode := MODE_NOPRIVMSGS, only_opers := 0, only_servers := 0, func := ChmFunc.chm_simple },
    { letter := 'o', mode := 0, only_opers := 0, only_servers := 0, func := ChmFunc.chm_op },
    { letter := 'p', mode := MODE_PRIVATE, only_opers := 0, only_servers := 0, func := ChmFunc.chm_simple },
    { letter := 'r', mode := MODE_REGISTERED, only_opers := 0, only_servers := 1, func := ChmFunc.chm_simple },
    { letter := 's', mode := MODE_SECRET, only_opers := 0, only_servers := 0, func := ChmFunc.chm_simple },
    { letter := 't', mode := MODE_TOPICLIMIT, only_opers := 0, only_servers := 0, func := ChmFunc.chm_simple },
    { letter := 'u', mode := MODE_HIDEBMASKS, only_opers := 0, only_servers := 0, func := ChmFunc.chm_simple },
    { letter := 'v', mode := 0, only_opers := 0, only_servers := 0, func := ChmFunc.chm_voice },
    { letter := 'C', mode := MODE_NOCTCP, only_opers := 0, only_servers := 0, func := ChmFunc.chm_simple },
    { letter := 'I', mode := 0, only_opers := 0, only_servers := 0, func := ChmFunc.chm_invex },
    { letter := 'L', mode := MODE_EXTLIMIT, only_opers := 1, only_servers := 0, func := ChmFunc.chm_simple },
    { letter := 'M', mode := MODE_MODREG, only_opers := 0, only_servers := 0, func := ChmFunc.chm_simple },
    { letter := 'O', mode := MODE_OPERONLY, only_opers := 1, only_servers := 0, func := ChmFunc.chm_simple },
    { letter := 'R', mode := MODE_REGONLY, only_opers := 0, only_servers := 0, func := ChmFunc.chm_simple },
    { letter := 'S', mode := MODE_SSLONLY, only_opers := 0, only_servers := 0, func := ChmFunc.chm_simple },
    { letter := 'T', mode := MODE_NONOTICE, only_opers := 0, only_servers := 0, func := ChmFunc.chm_simple } ]

/-- The array `cmode_map` as filled by `channel_mode_init`: the table entry of
a letter, `none` for a NULL slot. -/
def cmode_map (c : Char) : Option chan_mode :=
  cmode_tab.find? (fun tab => tab.letter == c)

/-! ## The mode summary -/

/-- The function `channel_modes`: the result is the pair of the strings left in
`mbuf` and `pbuf`. -/
def channel_modes (env : Env) (chptr : Channel) (client_p : Client) : List Char × List Char :=
  let mbuf0 : List Char := ['+']
  let pbuf0 : List Char := []
  let mbuf1 := cmode_tab.foldl (fun mbuf tab =>
    if tab.mode ≠ 0 ∧ HasCMode chptr tab.mode then mbuf ++ [tab.letter] else mbuf) mbuf0
  let (mbuf2, pbuf2) :=
    if chptr.mode.limit ≠ 0 then
      (mbuf1 ++ ['l'],
       if client_p.is_server ∨ env.IsMember client_p chptr then
         pbuf0 ++ decimal chptr.mode.limit ++ [' ']
       else pbuf0)
    else (mbuf1, pbuf0)
  if chptr.mode.key ≠ [] then
    (mbuf2 ++ ['k'],
     if client_p.is_server ∨ env.IsMember client_p chptr then
       pbuf2 ++ chptr.mode.key ++ [' ']
     else pbuf2)
  else (mbuf2, pbuf2)

/-! ## The mode handlers -/

/-- Appending one message to the output. -/
def ModeState.send (st : ModeState) (o : Out) : ModeState :=
  { st with out := st.out ++ [o] }

/-- Filling the slot `mode_changes[mode_count++]`. -/
def ModeState.record (st : ModeState) (mc : ChModeChange) : ModeState :=
  { st with mode_changes := st.mode_changes ++ [mc] }

/-- The rank-gate block every handler repeats: reply once with
`ERR_NOTONCHANNEL` or `ERR_CHANOPRIVSNEEDED`, set `SM_ERR_NOOPS`, return. -/
def reject_noops (alev : Int) (st : ModeState) : ModeState :=
  let st1 :=
    if st.errors &&& SM_ERR_NOOPS = 0 then
      st.send (Out.numeric
        (if alev = CHACCESS_NOTONCHAN then Numeric.ERR_NOTONCHANNEL
         else Numeric.ERR_CHANOPRIVSNEEDED) [st.chptr.name])
    else st
  { st1 with errors := st1.errors ||| SM_ERR_NOOPS }

/-- The handler `chm_nosuch`. -/
def chm_nosuch (c : Char) (st : ModeState) : ModeState :=
  if st.errors &&& SM_ERR_UNKNOWN ≠ 0 then st
  else
    ({ st with errors := st.errors ||| SM_ERR_UNKNOWN }).send
      (Out.numeric Numeric.ERR_UNKNOWNMODE [[c]])

/-- The handler `chm_simple`. -/
def chm_simple (source_p : Client) (alev : Int) (dir : Nat) (mode : chan_mode)
    (st : ModeState) : ModeState :=
  if mode.only_opers ≠ 0 ∧ MyClient source_p ∧ ¬ source_p.umode_oper then
    let st1 :=
      if st.errors &&& SM_ERR_NOTOPER = 0 then
        st.send (Out.numeric Numeric.ERR_NOPRIVILEGES [])
      else st
    { st1 with errors := st1.errors ||| SM_ERR_NOTOPER }
  else if mode.only_servers ≠ 0 ∧ ¬ source_p.is_server ∧ ¬ source_p.flag_service then
    let st1 :=
      if st.errors &&& SM_ERR_ONLYSERVER = 0 then
        st.send (Out.numeric
          (if alev = CHACCESS_NOTONCHAN then Numeric.ERR_NOTONCHANNEL
           else Numeric.ERR_ONLYSERVERSCANCHANGE) [st.chptr.name])
      else st
    { st1 with errors := st1.errors ||| SM_ERR_ONLYSERVER }
  else if alev < CHACCESS_HALFOP then reject_noops alev st
  else if st.simple_modes_mask &&& mode.mode ≠ 0 then st
  else
    let st1 := { st with simple_modes_mask := st.simple_modes_mask ||| mode.mode }
    let change : ChModeChange :=
      { letter := mode.letter, arg := none, id := none, flags := 0, dir := dir }
    if dir = MODE_ADD then
      if MyClient source_p ∧ HasCMode st1.chptr mode.mode then st1
      else ({ st1 with chptr := AddCMode st1.chptr mode.mode }).record change
    else if dir = MODE_DEL then
      if MyClient source_p ∧ ¬ HasCMode st1.chptr mode.mode then st1
      else ({ st1 with chptr := DelCMode st1.chptr mode.mode }).record change
    else st1.record change

/-- The `DLINK_FOREACH` loop of the query branch of a list handler: one reply
per entry, unless the lists are hidden from the requester. -/
def list_entries (rpl : Numeric) (chptr : Channel) (alev : Int) (list : List Ban) : List Out :=
  list.filterMap (fun ban =>
    if ¬ HasCMode chptr MODE_HIDEBMASKS ∨ alev ≥ CHACCESS_HALFOP then
      some (Out.numeric rpl [chptr.name, ban.name, ban.user, ban.host, ban.who, decimal ban.when])
    else none)

/-- The tail of a list handler, from `if (dir == MODE_ADD)` on: the call of
`add_id` or `del_id` on the copied `mask`, and the recording of the change when
the call did not return 0. The `none` branch is the crash of `add_id` and
`del_id` on a list type the handlers never pass. -/
def list_apply (type : Nat) (env : Env) (source_p : Client) (dir : Nat) (mode : chan_mode)
    (mask : List Char) (st2 : ModeState) : ModeState :=
  let res : Option IdResult :=
    if dir = MODE_ADD then add_id env source_p st2.chptr mask type
    else if dir = MODE_DEL then del_id env st2.chptr mask type
    else some { ret := 1, chptr := st2.chptr, banid := mask, out := [] }
  match res with
  | none => st2
  | some r =>
    let st3 := { st2 with chptr := r.chptr, out := st2.out ++ r.out }
    if r.ret = 0 then st3
    else
      st3.record
        { letter := mode.letter, arg := some r.banid, id := none,
          flags := if HasCMode st3.chptr MODE_HIDEBMASKS then CHFL_CHANOP ||| CHFL_HALFOP
                   else 0,
          dir := dir }

/-- The three list handlers `chm_ban`, `chm_except` and `chm_invex` have the
same text up to the error bit, the list, the two numerics and the list type;
this is that text with the five as parameters. -/
def chm_list (errbit : Nat) (list : Channel → List Ban) (rpl rpl_end : Numeric) (type : Nat)
    (env : Env) (source_p : Client) (parc : Nat) (parv : List (List Char))
    (alev : Int) (dir : Nat) (mode : chan_mode) (st : ModeState) : ModeState :=
  if dir = MODE_QUERY ∨ parc ≤ st.parn then
    if st.errors &&& errbit ≠ 0 then st
    else
      { st with errors := st.errors ||| errbit,
                out := st.out ++ list_entries rpl st.chptr alev (list st.chptr) ++
                  [Out.numeric rpl_end [st.chptr.name]] }
  else if alev < CHACCESS_HALFOP then reject_noops alev st
  else
    let st1 := if MyClient source_p then { st with mode_limit := st.mode_limit + 1 } else st
    if MyClient source_p ∧ st1.mode_limit > MAXMODEPARAMS then st1
    else
      let mask := (parv.getD st1.parn []).take (env.IRCD_BUFSIZE - 1)
      let st2 := { st1 with parn := st1.parn + 1 }
      if mask.head? = some ':' ∨ (¬ source_p.connected ∧ ' ' ∈ mask) then st2
      else list_apply type env source_p dir mode mask st2

/-- The handler `chm_ban`. -/
def chm_ban := chm_list SM_ERR_RPL_B Channel.banlist Numeric.RPL_BANLIST
  Numeric.RPL_ENDOFBANLIST CHFL_BAN

/-- The handler `chm_except`. -/
def chm_except := chm_list SM_ERR_RPL_E Channel.exceptlist Numeric.RPL_EXCEPTLIST
  Numeric.RPL_ENDOFEXCEPTLIST CHFL_EXCEPTION

/-- The handler `chm_invex`. -/
def chm_invex := chm_list SM_ERR_RPL_I Channel.invexlist Numeric.RPL_INVEXLIST
  Numeric.RPL_ENDOFINVEXLIST CHFL_INVEX

/-- Modelled from the spec: `find_channel_link` is not under `src/`; it
"resolves [the client] to that client's membership on the channel". The result
is the position and the value of the first membership of that client. -/
def find_channel_link (target_p : Client) (chptr : Channel) : Option (Nat × Membership) :=
  let i := chptr.members.findIdx (fun member => member.client_p == target_p)
  match chptr.members[i]? with
  | some member => some (i, member)
  | none => none

/-- Writing a membership back at its position in the channel. -/
def set_member (chptr : Channel) (i : Nat) (member : Membership) : Channel :=
  { chptr with members := chptr.members.set i member }

/-- The three rank handlers `chm_voice`, `chm_hop` and `chm_op` have the same
text up to the access level required and the membership flag toggled; this is
that text with the two as parameters. -/
def chm_rank (need : Int) (flag : Nat)
    (env : Env) (source_p : Client) (parc : Nat) (parv : List (List Char))
    (alev : Int) (dir : Nat) (mode : chan_mode) (st : ModeState) : ModeState :=
  if alev < need then reject_noops alev st
  else if dir = MODE_QUERY ∨ parc ≤ st.parn then st
  else
    let name := parv.getD st.parn []
    let st1 := { st with parn := st.parn + 1 }
    match env.find_chasing source_p name with
    | none => st1.send (Out.numeric Numeric.ERR_NOSUCHNICK [name])
    | some target_p =>
      match find_channel_link target_p st1.chptr with
      | none =>
        let st2 :=
          if st1.errors &&& SM_ERR_NOTONCHANNEL = 0 then
            st1.send (Out.numeric Numeric.ERR_USERNOTINCHANNEL [target_p.name, st1.chptr.name])
          else st1
        { st2 with errors := st2.errors ||| SM_ERR_NOTONCHANNEL }
      | some (i, member) =>
        let st2 := if MyClient source_p then { st1 with mode_limit := st1.mode_limit + 1 } else st1
        if MyClient source_p ∧ st2.mode_limit > MAXMODEPARAMS then st2
        else
          let change : ChModeChange :=
            { letter := mode.letter, arg := some target_p.name, id := some target_p.id,
              flags := 0, dir := dir }
          if dir = MODE_ADD then
            if has_member_flags member flag then st2
            else ({ st2 with chptr := set_member st2.chptr i (AddMemberFlag member flag) }).record
              change
          else if dir = MODE_DEL then
            if ¬ has_member_flags member flag then st2
            else ({ st2 with chptr := set_member st2.chptr i (DelMemberFlag member flag) }).record
              change
          else st2.record change

/-- The handler `chm_voice`. -/
def chm_voice := chm_rank CHACCESS_HALFOP CHFL_VOICE

/-- The handler `chm_hop`. -/
def chm_hop := chm_rank CHACCESS_CHANOP CHFL_HALFOP

/-- The handler `chm_op`. -/
def chm_op := chm_rank CHACCESS_CHANOP CHFL_CHANOP

/-- The loop of `chm_limit` and `chm_key` that clears the letter of every
earlier change with the same letter and direction `MODE_ADD`. -/
def void_earlier (letter : Char) (changes : List ChModeChange) : List ChModeChange :=
  changes.map (fun mc =>
    if mc.letter = letter ∧ mc.dir = MODE_ADD then { mc with letter := Char.ofNat 0 } else mc)

/-- The handler `chm_limit`. -/
def chm_limit (env : Env) (parc : Nat) (parv : List (List Char))
    (alev : Int) (dir : Nat) (mode : chan_mode) (st : ModeState) : ModeState :=
  if alev < CHACCESS_HALFOP then reject_noops alev st
  else if dir = MODE_QUERY then st
  else if dir = MODE_ADD ∧ parc > st.parn then
    let lstr := parv.getD st.parn []
    let st1 := { st with parn := st.parn + 1 }
    let limit : Int := env.atoi lstr
    if lstr = [] ∨ limit ≤ 0 then st1
    else
      let lstr1 := decimal limit.toNat
      { st1 with
        mode_changes := void_earlier mode.letter st1.mode_changes ++
          [{ letter := mode.letter, arg := some lstr1, id := none, flags := 0, dir := dir }],
        chptr := { st1.chptr with mode := { st1.chptr.mode with limit := limit.toNat } } }
  else if dir = MODE_DEL then
    if st.chptr.mode.limit = 0 then st
    else
      ({ st with chptr := { st.chptr with mode := { st.chptr.mode with limit := 0 } } }).record
        { letter := mode.letter, arg := none, id := none, flags := 0, dir := dir }
  else st

/-- The function `fix_key`: of the first `KEYLEN` bytes, each is masked to
seven bits and kept unless it is `':'`, `','` or not above the space. -/
def fix_key (env : Env) (arg : List Char) : List Char :=
  (arg.take env.KEYLEN).filterMap (fun ch =>
    let c := Char.ofNat (ch.toNat &&& 0x7f)
    if c ≠ ':' ∧ c > ' ' ∧ c ≠ ',' then some c else none)

/-- The handler `chm_key`. -/
def chm_key (env : Env) (parc : Nat) (parv : List (List Char))
    (alev : Int) (dir : Nat) (mode : chan_mode) (st : ModeState) : ModeState :=
  if alev < CHACCESS_HALFOP then reject_noops alev st
  else if dir = MODE_QUERY then st
  else if dir = MODE_ADD ∧ parc > st.parn then
    let key := fix_key env (parv.getD st.parn [])
    let st1 := { st with parn := st.parn + 1 }
    if key = [] then st1
    else
      { st1 with
        chptr := { st1.chptr with mode := { st1.chptr.mode with key := key.take env.KEYLEN } },
        mode_changes := void_earlier mode.letter st1.mode_changes ++
          [{ letter := mode.letter, arg := some key, id := none, flags := 0, dir := dir }] }
  else if dir = MODE_DEL then
    let st1 := if parc > st.parn then { st with parn := st.parn + 1 } else st
    if st1.chptr.mode.key = [] then st1
    else
      ({ st1 with chptr := { st1.chptr with mode := { st1.chptr.mode with key := [] } } }).record
        { letter := mode.letter, arg := some ['*'], id := none, flags := 0, dir := dir }
  else st

/-- The function `get_channel_access`. -/
def get_channel_access (source_p : Client) (member : Option Membership) : Int :=
  if ¬ MyClient source_p then CHACCESS_REMOTE
  else
    match member with
    | none => CHACCESS_NOTONCHAN
    | some m =>
      if has_member_flags m CHFL_CHANOP then CHACCESS_CHANOP
      else if has_member_flags m CHFL_HALFOP then CHACCESS_HALFOP
      else CHACCESS_PEON

/-! ## The propagation formatters -/

/-- The local variables of the formatting loops: the two buffers, the two
counters, the direction of the last sigil written, and the lines sent so far.
The lengths `mbl` and `pbl` are the lengths of the buffers. -/
structure LineState where
  modebuf : List Char
  parabuf : List Char
  modecount : Nat
  paracount : Nat
  dir : Nat
  sent : List Out
deriving DecidableEq, Repr

/-- The state at the top of a formatting loop: `modebuf` holds the header. -/
def LineState.init (header : List Char) : LineState :=
  { modebuf := header, parabuf := [], modecount := 0, paracount := 0, dir := MODE_QUERY,
    sent := [] }

/-- The first half of the loop body of `send_mode_changes_server` and
`send_mode_changes_client`: when the line has `MAXMODEPARAMS` arguments, or the
argument of length `arglen` would creep past the buffer size, the line is sent
(if it has a letter) and the buffers are reset to the `header`. `emit` is the
send call, `header` the text the `snprintf` calls write into `modebuf`. -/
def line_flush (env : Env) (header : List Char) (emit : List Char → List Char → Out)
    (arglen : Nat) (s : LineState) : LineState :=
  let mbl := s.modebuf.length
  let pbl := s.parabuf.length
  if s.paracount = MAXMODEPARAMS ∨ arglen + mbl + pbl + 2 > env.IRCD_BUFSIZE then
    { modebuf := header, parabuf := [], modecount := 0, paracount := 0, dir := MODE_QUERY,
      sent := if s.modecount ≠ 0 then s.sent ++ [emit s.modebuf s.parabuf] else s.sent }
  else s

/-- The second half of the loop body: the sigil when the direction changes,
the letter, and the argument `arg` if there is one. -/
def line_append (arg : Option (List Char)) (mc : ChModeChange) (s1 : LineState) : LineState :=
  let s2 : LineState :=
    if s1.dir ≠ mc.dir then
      { s1 with modebuf := s1.modebuf ++ [if mc.dir = MODE_ADD then '+' else '-'],
                dir := mc.dir }
    else s1
  let s3 : LineState :=
    { s2 with modebuf := s2.modebuf ++ [mc.letter], modecount := s2.modecount + 1 }
  match arg with
  | some a =>
    { s3 with parabuf := s3.parabuf ++ (if s3.parabuf.length = 0 then a else ' ' :: a),
              paracount := s3.paracount + 1 }
  | none => s3

/-- The length `arglen` of the argument chosen for a change. -/
def arg_length (arg : Option (List Char)) : Nat :=
  match arg with
  | some a => a.length
  | none => 0

/-- The body of the loops of `send_mode_changes_server` and
`send_mode_changes_client` for one change that is not skipped; `arg` is the
argument chosen for it. -/
def line_step (env : Env) (header : List Char) (emit : List Char → List Char → Out)
    (arg : Option (List Char)) (mc : ChModeChange) (s : LineState) : LineState :=
  line_append arg mc (line_flush env header emit (arg_length arg) s)

/-- The send after a formatting loop: the pending line, if it has a letter. -/
def line_finish (emit : List Char → List Char → Out) (s : LineState) : List Out :=
  if s.modecount ≠ 0 then s.sent ++ [emit s.modebuf s.parabuf] else s.sent

/-- The header `":%s TMODE %ju %s "` of a server line. -/
def server_header (source_p : Client) (chptr : Channel) : List Char :=
  [':'] ++ source_p.id ++ " TMODE ".toList ++ decimal chptr.creationtime ++ [' '] ++
    chptr.name ++ [' ']

/-- The argument `send_mode_changes_server` writes for a change. -/
def server_arg (mc : ChModeChange) : Option (List Char) :=
  if mc.id.isSome then mc.id else mc.arg

/-- The function `send_mode_changes_server`, on the recorded changes. -/
def send_mode_changes_server (env : Env) (source_p : Client) (chptr : Channel)
    (mode_changes : List ChModeChange) : List Out :=
  let header := server_header source_p chptr
  line_finish Out.server
    (mode_changes.foldl (fun s mc =>
      if mc.letter = Char.ofNat 0 then s
      else line_step env header Out.server (server_arg mc) mc s) (LineState.init header))

/-- The header `":%s MODE %s "` or `":%s!%s@%s MODE %s "` of a client line. -/
def client_header (env : Env) (source_p : Client) (chptr : Channel) : List Char :=
  if source_p.is_server then
    [':'] ++ (if source_p.hidden || env.hide_servers then env.me_name else source_p.name) ++
      " MODE ".toList ++ chptr.name ++ [' ']
  else
    [':'] ++ source_p.name ++ ['!'] ++ source_p.username ++ ['@'] ++ source_p.host ++
      " MODE ".toList ++ chptr.name ++ [' ']

/-- One pass of the outer loop of `send_mode_changes_client`, for the
visibility `flags`. -/
def client_pass (env : Env) (source_p : Client) (chptr : Channel)
    (mode_changes : List ChModeChange) (flags : Nat) : List Out :=
  let header := client_header env source_p chptr
  line_finish (Out.channel_local flags)
    (mode_changes.foldl (fun s mc =>
      if mc.letter = Char.ofNat 0 ∨ mc.flags ≠ flags then s
      else line_step env header (Out.channel_local flags) mc.arg mc s) (LineState.init header))

/-- The function `send_mode_changes_client`: the pass for `flags = 0`, then the
pass for `flags = CHFL_CHANOP | CHFL_HALFOP`. -/
def send_mode_changes_client (env : Env) (source_p : Client) (chptr : Channel)
    (mode_changes : List ChModeChange) : List Out :=
  client_pass env source_p chptr mode_changes 0 ++
    client_pass env source_p chptr mode_changes (CHFL_CHANOP ||| CHFL_HALFOP)

/-! ## The dispatch loop -/

/-- The call `mode->func(...)` of `set_channel_mode`. -/
def call_handler (env : Env) (source_p : Client) (parc : Nat) (parv : List (List Char))
    (alev : Int) (dir : Nat) (mode : chan_mode) (st : ModeState) : ModeState :=
  match mode.func with
  | ChmFunc.chm_simple => chm_simple source_p alev dir mode st
  | ChmFunc.chm_ban => chm_ban env source_p parc parv alev dir mode st
  | ChmFunc.chm_except => chm_except env source_p parc parv alev dir mode st
  | ChmFunc.chm_invex => chm_invex env source_p parc parv alev dir mode st
  | ChmFunc.chm_voice => chm_voice env source_p parc parv alev dir mode st
  | ChmFunc.chm_hop => chm_hop env source_p parc parv alev dir mode st
  | ChmFunc.chm_op => chm_op env source_p parc parv alev dir mode st
  | ChmFunc.chm_limit => chm_limit env parc parv alev dir mode st
  | ChmFunc.chm_key => chm_key env parc parv alev dir mode st

/-- The `default:` branch of the `switch (*ml)`: the handler of the letter. -/
def dispatch (env : Env) (source_p : Client) (parc : Nat) (parv : List (List Char))
    (alev : Int) (dir : Nat) (ml : Char) (st : ModeState) : ModeState :=
  match cmode_map ml with
  | some mode => call_handler env source_p parc parv alev dir mode st
  | none => chm_nosuch ml st

/-- The scan of the mode string `parv[0]` in `set_channel_mode`, from the
direction `dir` and the state `st`. -/
def mode_loop (env : Env) (source_p : Client) (parc : Nat) (parv : List (List Char))
    (alev : Int) : List Char → Nat → ModeState → ModeState
  | [], _, st => st
  | ml :: rest, dir, st =>
    if ml = '+' then mode_loop env source_p parc parv alev rest MODE_ADD st
    else if ml = '-' then mode_loop env source_p parc parv alev rest MODE_DEL st
    else if ml = '=' then mode_loop env source_p parc parv alev rest MODE_QUERY st
    else mode_loop env source_p parc parv alev rest dir
      (dispatch env source_p parc parv alev dir ml st)

/-- The state `set_channel_mode` starts the scan from. -/
def ModeState.init (chptr : Channel) : ModeState :=
  { chptr := chptr, parn := 1, errors := 0, mode_changes := [], mode_limit := 0,
    simple_modes_mask := 0, out := [] }

/-- The scan of `set_channel_mode`, before the propagation. -/
def scan_modes (env : Env) (source_p : Client) (chptr : Channel) (member : Option Membership)
    (parc : Nat) (parv : List (List Char)) : ModeState :=
  mode_loop env source_p parc parv (get_channel_access source_p member) (parv.headD [])
    MODE_ADD (ModeState.init chptr)

/-- The function `set_channel_mode`. The result holds the channel as the call
leaves it, the recorded changes, and in `out` the replies followed by the lines
of `send_mode_changes_client` and `send_mode_changes_server`. -/
def set_channel_mode (env : Env) (source_p : Client) (chptr : Channel)
    (member : Option Membership) (parc : Nat) (parv : List (List Char)) : ModeState :=
  let st := scan_modes env source_p chptr member parc parv
  if st.mode_count = 0 then st
  else
    { st with out := st.out ++ send_mode_changes_client env source_p st.chptr st.mode_changes ++
                send_mode_changes_server env source_p st.chptr st.mode_changes }

/-! ## The file-scope storage

The functions above thread the recorded changes as a list that starts empty.
In `channel_mode.c` the changes live in the array `mode_changes`, of which
`mode_count` slots are in use, and the mask of a list change is a pointer into
the array `nuh_mask`; both arrays, and the counters `mode_limit` and
`simple_modes_mask`, are file-scope variables that keep their contents from
one call to the next. The definitions `Static.*` below are the same functions
on that storage: a change is recorded by writing the slot `mode_count`, the
loops run over the indices below `mode_count`, and a mask is read through its
row of `nuh_mask`. -/

/-- The pointer `arg` of a `struct ChModeChange`: `NULL`, a string outside the
storage of `channel_mode.c` (an argument of the command, the name of a client,
a literal), or the row `nuh_mask[row]`. -/
inductive ArgPtr where
  | null
  | text (s : List Char)
  | mask (row : Nat)
deriving DecidableEq, Repr

/-- A slot of the array `mode_changes`. -/
structure Slot where
  letter : Char
  arg : ArgPtr
  id : Option (List Char)
  dir : Nat
  flags : Nat
deriving DecidableEq, Repr

/-- The variables `nuh_mask`, `mode_changes`, `mode_count`, `mode_limit` and
`simple_modes_mask` of `channel_mode.c`, which outlive a call. `nuh_mask` holds
every row and `mode_changes` every slot of the arrays, used or not. -/
structure Scratch where
  nuh_mask : List (List Char)
  mode_changes : List Slot
  mode_count : Nat
  mode_limit : Nat
  simple_modes_mask : Nat
deriving DecidableEq, Repr

/-- The string a pointer `arg` leads to. -/
def Scratch.deref (s : Scratch) : ArgPtr → Option (List Char)
  | ArgPtr.null => none
  | ArgPtr.text t => some t
  | ArgPtr.mask row => some (s.nuh_mask.getD row [])

/-- A slot as a reader of `mode_changes[i]` sees it: its fields, with the
string behind `arg`. -/
def Scratch.change (s : Scratch) (slot : Slot) : ChModeChange :=
  { letter := slot.letter, arg := s.deref slot.arg, id := slot.id, dir := slot.dir,
    flags := slot.flags }

/-- The slots of `mode_changes` in use, the first `mode_count` ones, as a
reader sees them. -/
def Scratch.in_use (s : Scratch) : List ChModeChange :=
  (s.mode_changes.take s.mode_count).map s.change

/-- The statements that fill the five fields of `mode_changes[mode_count]` and
increment `mode_count`. -/
def Scratch.record (s : Scratch) (slot : Slot) : Scratch :=
  { s with mode_changes := s.mode_changes.set s.mode_count slot,
           mode_count := s.mode_count + 1 }

/-- The locals `parn` and `errors` of `set_channel_mode`, the channel, the
messages sent, and the file-scope storage. -/
structure StaticState where
  chptr : Channel
  parn : Nat
  errors : Nat
  out : List Out
  scratch : Scratch
deriving DecidableEq, Repr

/-- Appending one message to the output. -/
def StaticState.send (ss : StaticState) (o : Out) : StaticState :=
  { ss with out := ss.out ++ [o] }

/-- Filling the slot `mode_changes[mode_count++]`. -/
def StaticState.record (ss : StaticState) (slot : Slot) : StaticState :=
  { ss with scratch := ss.scratch.record slot }

/-- The state of the scan as the functions on lists have it: the slots in use
as the recorded changes. -/
def StaticState.view (ss : StaticState) : ModeState :=
  { chptr := ss.chptr, parn := ss.parn, errors := ss.errors,
    mode_changes := ss.scratch.in_use, mode_limit := ss.scratch.mode_limit,
    simple_modes_mask := ss.scratch.simple_modes_mask, out := ss.out }

/-- The rank-gate block every handler repeats, on the storage. -/
def Static.reject_noops (alev : Int) (ss : StaticState) : StaticState :=
  let ss1 :=
    if ss.errors &&& SM_ERR_NOOPS = 0 then
      ss.send (Out.numeric
        (if alev = CHACCESS_NOTONCHAN then Numeric.ERR_NOTONCHANNEL
         else Numeric.ERR_CHANOPRIVSNEEDED) [ss.chptr.name])
    else ss
  { ss1 with errors := ss1.errors ||| SM_ERR_NOOPS }

/-- The handler `chm_nosuch`, on the storage. -/
def Static.chm_nosuch (c : Char) (ss : StaticState) : StaticState :=
  if ss.errors &&& SM_ERR_UNKNOWN ≠ 0 then ss
  else
    ({ ss with errors := ss.errors ||| SM_ERR_UNKNOWN }).send
      (Out.numeric Numeric.ERR_UNKNOWNMODE [[c]])

/-- The handler `chm_simple`, on the storage. -/
def Static.chm_simple (source_p : Client) (alev : Int) (dir : Nat) (mode : chan_mode)
    (ss : StaticState) : StaticState :=
  if mode.only_opers ≠ 0 ∧ MyClient source_p ∧ ¬ source_p.umode_oper then
    let ss1 :=
      if ss.errors &&& SM_ERR_NOTOPER = 0 then
        ss.send (Out.numeric Numeric.ERR_NOPRIVILEGES [])
      else ss
    { ss1 with errors := ss1.errors ||| SM_ERR_NOTOPER }
  else if mode.only_servers ≠ 0 ∧ ¬ source_p.is_server ∧ ¬ source_p.flag_service then
    let ss1 :=
      if ss.errors &&& SM_ERR_ONLYSERVER = 0 then
        ss.send (Out.numeric
          (if alev = CHACCESS_NOTONCHAN then Numeric.ERR_NOTONCHANNEL
           else Numeric.ERR_ONLYSERVERSCANCHANGE) [ss.chptr.name])
      else ss
    { ss1 with errors := ss1.errors ||| SM_ERR_ONLYSERVER }
  else if alev < CHACCESS_HALFOP then Static.reject_noops alev ss
  else if ss.scratch.simple_modes_mask &&& mode.mode ≠ 0 then ss
  else
    let ss1 := { ss with scratch :=
      { ss.scratch with simple_modes_mask := ss.scratch.simple_modes_mask ||| mode.mode } }
    let slot : Slot :=
      { letter := mode.letter, arg := ArgPtr.null, id := none, flags := 0, dir := dir }
    if dir = MODE_ADD then
      if MyClient source_p ∧ HasCMode ss1.chptr mode.mode then ss1
      else ({ ss1 with chptr := AddCMode ss1.chptr mode.mode }).record slot
    else if dir = MODE_DEL then
      if MyClient source_p ∧ ¬ HasCMode ss1.chptr mode.mode then ss1
      else ({ ss1 with chptr := DelCMode ss1.chptr mode.mode }).record slot
    else ss1.record slot

/-- The tail of a list handler, from `if (dir == MODE_ADD)` on, on the storage:
`mask` points to the row `nuh_mask[row]`, which `add_id` and `del_id` read and
rewrite, and the recorded change points to the same row. -/
def Static.list_apply (type : Nat) (env : Env) (source_p : Client) (dir : Nat)
    (mode : chan_mode) (row : Nat) (ss2 : StaticState) : StaticState :=
  let mask := ss2.scratch.nuh_mask.getD row []
  let res : Option IdResult :=
    if dir = MODE_ADD then add_id env source_p ss2.chptr mask type
    else if dir = MODE_DEL then del_id env ss2.chptr mask type
    else some { ret := 1, chptr := ss2.chptr, banid := mask, out := [] }
  match res with
  | none => ss2
  | some r =>
    let ss3 : StaticState :=
      { ss2 with chptr := r.chptr, out := ss2.out ++ r.out,
                 scratch := { ss2.scratch with
                   nuh_mask := ss2.scratch.nuh_mask.set row r.banid } }
    if r.ret = 0 then ss3
    else
      ss3.record
        { letter := mode.letter, arg := ArgPtr.mask row, id := none,
          flags := if HasCMode ss3.chptr MODE_HIDEBMASKS then CHFL_CHANOP ||| CHFL_HALFOP
                   else 0,
          dir := dir }

/-- The text of the three list handlers, on the storage: the argument is copied
into the row `nuh_mask[*parn]` by `strlcpy`, and read from there. -/
def Static.chm_list (errbit : Nat) (list : Channel → List Ban) (rpl rpl_end : Numeric)
    (type : Nat) (env : Env) (source_p : Client) (parc : Nat) (parv : List (List Char))
    (alev : Int) (dir : Nat) (mode : chan_mode) (ss : StaticState) : StaticState :=
  if dir = MODE_QUERY ∨ parc ≤ ss.parn then
    if ss.errors &&& errbit ≠ 0 then ss
    else
      { ss with errors := ss.errors ||| errbit,
                out := ss.out ++ list_entries rpl ss.chptr alev (list ss.chptr) ++
                  [Out.numeric rpl_end [ss.chptr.name]] }
  else if alev < CHACCESS_HALFOP then Static.reject_noops alev ss
  else
    let ss1 :=
      if MyClient source_p then
        { ss with scratch := { ss.scratch with mode_limit := ss.scratch.mode_limit + 1 } }
      else ss
    if MyClient source_p ∧ ss1.scratch.mode_limit > MAXMODEPARAMS then ss1
    else
      let row := ss1.parn
      let ss2 : StaticState :=
        { ss1 with
          scratch := { ss1.scratch with
            nuh_mask := ss1.scratch.nuh_mask.set row
              ((parv.getD row []).take (env.IRCD_BUFSIZE - 1)) },
          parn := ss1.parn + 1 }
      let mask := ss2.scratch.nuh_mask.getD row []
      if mask.head? = some ':' ∨ (¬ source_p.connected ∧ ' ' ∈ mask) then ss2
      else Static.list_apply type env source_p dir mode row ss2

/-- The handler `chm_ban`, on the storage. -/
def Static.chm_ban := Static.chm_list SM_ERR_RPL_B Channel.banlist Numeric.RPL_BANLIST
  Numeric.RPL_ENDOFBANLIST CHFL_BAN

/-- The handler `chm_except`, on the storage. -/
def Static.chm_except := Static.chm_list SM_ERR_RPL_E Channel.exceptlist Numeric.RPL_EXCEPTLIST
  Numeric.RPL_ENDOFEXCEPTLIST CHFL_EXCEPTION

/-- The handler `chm_invex`, on the storage. -/
def Static.chm_invex := Static.chm_list SM_ERR_RPL_I Channel.invexlist Numeric.RPL_INVEXLIST
  Numeric.RPL_ENDOFINVEXLIST CHFL_INVEX

/-- The text of the three rank handlers, on the storage. -/
def Static.chm_rank (need : Int) (flag : Nat)
    (env : Env) (source_p : Client) (parc : Nat) (parv : List (List Char))
    (alev : Int) (dir : Nat) (mode : chan_mode) (ss : StaticState) : StaticState :=
  if alev < need then Static.reject_noops alev ss
  else if dir = MODE_QUERY ∨ parc ≤ ss.parn then ss
  else
    let name := parv.getD ss.parn []
    let ss1 := { ss with parn := ss.parn + 1 }
    match env.find_chasing source_p name with
    | none => ss1.send (Out.numeric Numeric.ERR_NOSUCHNICK [name])
    | some target_p =>
      match find_channel_link target_p ss1.chptr with
      | none =>
        let ss2 :=
          if ss1.errors &&& SM_ERR_NOTONCHANNEL = 0 then
            ss1.send (Out.numeric Numeric.ERR_USERNOTINCHANNEL [target_p.name, ss1.chptr.name])
          else ss1
        { ss2 with errors := ss2.errors ||| SM_ERR_NOTONCHANNEL }
      | some (i, member) =>
        let ss2 :=
          if MyClient source_p then
            { ss1 with scratch := { ss1.scratch with mode_limit := ss1.scratch.mode_limit + 1 } }
          else ss1
        if MyClient source_p ∧ ss2.scratch.mode_limit > MAXMODEPARAMS then ss2
        else
          let slot : Slot :=
            { letter := mode.letter, arg := ArgPtr.text target_p.name, id := some target_p.id,
              flags := 0, dir := dir }
          if dir = MODE_ADD then
            if has_member_flags member flag then ss2
            else ({ ss2 with chptr := set_member ss2.chptr i (AddMemberFlag member flag) }).record
              slot
          else if dir = MODE_DEL then
            if ¬ has_member_flags member flag then ss2
            else ({ ss2 with chptr := set_member ss2.chptr i (DelMemberFlag member flag) }).record
              slot
          else ss2.record slot

/-- The handler `chm_voice`, on the storage. -/
def Static.chm_voice := Static.chm_rank CHACCESS_HALFOP CHFL_VOICE

/-- The handler `chm_hop`, on the storage. -/
def Static.chm_hop := Static.chm_rank CHACCESS_CHANOP CHFL_HALFOP

/-- The handler `chm_op`, on the storage. -/
def Static.chm_op := Static.chm_rank CHACCESS_CHANOP CHFL_CHANOP

/-- The loop `for (i = 0; i < mode_count; ++i)` of `chm_limit` and `chm_key`:
a slot below `mode_count` with the letter and the direction `MODE_ADD` gets the
letter 0. -/
def Static.void_earlier (letter : Char) (s : Scratch) : Scratch :=
  { s with mode_changes :=
      (List.range s.mode_count).foldl (fun changes i =>
        match changes[i]? with
        | some slot =>
          if slot.letter = letter ∧ slot.dir = MODE_ADD then
            changes.set i { slot with letter := Char.ofNat 0 }
          else changes
        | none => changes) s.mode_changes }

/-- The handler `chm_limit`, on the storage. -/
def Static.chm_limit (env : Env) (parc : Nat) (parv : List (List Char))
    (alev : Int) (dir : Nat) (mode : chan_mode) (ss : StaticState) : StaticState :=
  if alev < CHACCESS_HALFOP then Static.reject_noops alev ss
  else if dir = MODE_QUERY then ss
  else if dir = MODE_ADD ∧ parc > ss.parn then
    let lstr := parv.getD ss.parn []
    let ss1 := { ss with parn := ss.parn + 1 }
    let limit : Int := env.atoi lstr
    if lstr = [] ∨ limit ≤ 0 then ss1
    else
      let lstr1 := decimal limit.toNat
      let ss2 := { ss1 with scratch := Static.void_earlier mode.letter ss1.scratch }
      let ss3 := ss2.record
        { letter := mode.letter, arg := ArgPtr.text lstr1, id := none, flags := 0, dir := dir }
      { ss3 with chptr := { ss3.chptr with mode := { ss3.chptr.mode with limit := limit.toNat } } }
  else if dir = MODE_DEL then
    if ss.chptr.mode.limit = 0 then ss
    else
      ({ ss with chptr := { ss.chptr with mode := { ss.chptr.mode with limit := 0 } } }).record
        { letter := mode.letter, arg := ArgPtr.null, id := none, flags := 0, dir := dir }
  else ss

/-- The handler `chm_key`, on the storage. -/
def Static.chm_key (env : Env) (parc : Nat) (parv : List (List Char))
    (alev : Int) (dir : Nat) (mode : chan_mode) (ss : StaticState) : StaticState :=
  if alev < CHACCESS_HALFOP then Static.reject_noops alev ss
  else if dir = MODE_QUERY then ss
  else if dir = MODE_ADD ∧ parc > ss.parn then
    let key := fix_key env (parv.getD ss.parn [])
    let ss1 := { ss with parn := ss.parn + 1 }
    if key = [] then ss1
    else
      let ss2 : StaticState :=
        { ss1 with
          chptr := { ss1.chptr with mode := { ss1.chptr.mode with key := key.take env.KEYLEN } },
          scratch := Static.void_earlier mode.letter ss1.scratch }
      ss2.record
        { letter := mode.letter, arg := ArgPtr.text key, id := none, flags := 0, dir := dir }
  else if dir = MODE_DEL then
    let ss1 := if parc > ss.parn then { ss with parn := ss.parn + 1 } else ss
    if ss1.chptr.mode.key = [] then ss1
    else
      ({ ss1 with chptr := { ss1.chptr with mode := { ss1.chptr.mode with key := [] } } }).record
        { letter := mode.letter, arg := ArgPtr.text ['*'], id := none, flags := 0, dir := dir }
  else ss

/-- The loop `for (i = 0; i < mode_count; ++i)` of the two formatters, which
reads the slot `mode_changes[i]` in each round. -/
def Static.for_slots {σ : Type} (s : Scratch) (body : σ → Slot → σ) (init : σ) : σ :=
  (List.range s.mode_count).foldl (fun acc i =>
    match s.mode_changes[i]? with
    | some slot => body acc slot
    | none => acc) init

/-- The function `send_mode_changes_server`, on the storage. -/
def Static.send_mode_changes_server (env : Env) (source_p : Client) (chptr : Channel)
    (s : Scratch) : List Out :=
  let header := server_header source_p chptr
  line_finish Out.server
    (Static.for_slots s (fun ls slot =>
      if slot.letter = Char.ofNat 0 then ls
      else
        line_step env header Out.server
          (if slot.id.isSome then slot.id else s.deref slot.arg) (s.change slot) ls)
      (LineState.init header))

/-- One pass of the outer loop of `send_mode_changes_client`, on the storage. -/
def Static.client_pass (env : Env) (source_p : Client) (chptr : Channel)
    (s : Scratch) (flags : Nat) : List Out :=
  let header := client_header env source_p chptr
  line_finish (Out.channel_local flags)
    (Static.for_slots s (fun ls slot =>
      if slot.letter = Char.ofNat 0 ∨ slot.flags ≠ flags then ls
      else
        line_step env header (Out.channel_local flags) (s.deref slot.arg) (s.change slot) ls)
      (LineState.init header))

/-- The function `send_mode_changes_client`, on the storage. -/
def Static.send_mode_changes_client (env : Env) (source_p : Client) (chptr : Channel)
    (s : Scratch) : List Out :=
  Static.client_pass env source_p chptr s 0 ++
    Static.client_pass env source_p chptr s (CHFL_CHANOP ||| CHFL_HALFOP)

/-- The call `mode->func(...)` of `set_channel_mode`, on the storage. -/
def Static.call_handler (env : Env) (source_p : Client) (parc : Nat)
    (parv : List (List Char)) (alev : Int) (dir : Nat) (mode : chan_mode)
    (ss : StaticState) : StaticState :=
  match mode.func with
  | ChmFunc.chm_simple => Static.chm_simple source_p alev dir mode ss
  | ChmFunc.chm_ban => Static.chm_ban env source_p parc parv alev dir mode ss
  | ChmFunc.chm_except => Static.chm_except env source_p parc parv alev dir mode ss
  | ChmFunc.chm_invex => Static.chm_invex env source_p parc parv alev dir mode ss
  | ChmFunc.chm_voice => Static.chm_voice env source_p parc parv alev dir mode ss
  | ChmFunc.chm_hop => Static.chm_hop env source_p parc parv alev dir mode ss
  | ChmFunc.chm_op => Static.chm_op env source_p parc parv alev dir mode ss
  | ChmFunc.chm_limit => Static.chm_limit env parc parv alev dir mode ss
  | ChmFunc.chm_key => Static.chm_key env parc parv alev dir mode ss

/-- The `default:` branch of the `switch (*ml)`, on the storage. -/
def Static.dispatch (env : Env) (source_p : Client) (parc : Nat) (parv : List (List Char))
    (alev : Int) (dir : Nat) (ml : Char) (ss : StaticState) : StaticState :=
  match cmode_map ml with
  | some mode => Static.call_handler env source_p parc parv alev dir mode ss
  | none => Static.chm_nosuch ml ss

/-- The scan of the mode string in `set_channel_mode`, on the storage. -/
def Static.mode_loop (env : Env) (source_p : Client) (parc : Nat) (parv : List (List Char))
    (alev : Int) : List Char → Nat → StaticState → StaticState
  | [], _, ss => ss
  | ml :: rest, dir, ss =>
    if ml = '+' then Static.mode_loop env source_p parc parv alev rest MODE_ADD ss
    else if ml = '-' then Static.mode_loop env source_p parc parv alev rest MODE_DEL ss
    else if ml = '=' then Static.mode_loop env source_p parc parv alev rest MODE_QUERY ss
    else Static.mode_loop env source_p parc parv alev rest dir
      (Static.dispatch env source_p parc parv alev dir ml ss)

/-- The function `set_channel_mode`, started with the storage `s` as earlier
calls have left it: the three assignments at its top, the scan, and the
propagation when `mode_count` is not 0. -/
def Static.set_channel_mode (env : Env) (source_p : Client) (chptr : Channel)
    (member : Option Membership) (parc : Nat) (parv : List (List Char)) (s : Scratch) :
    StaticState :=
  let s1 := { s with mode_count := 0 }
  let s2 := { s1 with mode_limit := 0 }
  let s3 := { s2 with simple_modes_mask := 0 }
  let ss0 : StaticState := { chptr := chptr, parn := 1, errors := 0, out := [], scratch := s3 }
  let ss := Static.mode_loop env source_p parc parv (get_channel_access source_p member)
    (parv.headD []) MODE_ADD ss0
  if ss.scratch.mode_count = 0 then ss
  else
    { ss with out := ss.out ++ Static.send_mode_changes_client env source_p ss.chptr ss.scratch ++
                Static.send_mode_changes_server env source_p ss.chptr ss.scratch }

/-- Every pointer into `nuh_mask` held by a slot in use leads to a row below
`parn`, a row written earlier in this call. -/
def StaticState.rows_below (ss : StaticState) : Prop :=
  ∀ slot ∈ ss.scratch.mode_changes.take ss.scratch.mode_count,
    ∀ row, slot.arg = ArgPtr.mask row → row < ss.parn

/-- The relation between a handler call on the storage, from `ss` to `ss1`, and
the result `st1` of the same call on the recorded changes: `ss1` read as a list
of changes is `st1`, at most one more slot is in use, the arrays keep their
sizes, and the pointers into `nuh_mask` still lead to rows below `parn`. -/
def StaticState.simulates (ss ss1 : StaticState) (st1 : ModeState) : Prop :=
  ss1.view = st1 ∧
  ss1.scratch.mode_count ≤ ss.scratch.mode_count + 1 ∧
  ss1.scratch.mode_changes.length = ss.scratch.mode_changes.length ∧
  ss1.scratch.nuh_mask.length = ss.scratch.nuh_mask.length ∧
  ss1.rows_below

/-- A storage with 15 rows and 20 slots as an earlier call may have left it:
every row holds a mask, every slot a limit change that points into a row, seven
slots are in use, and both counters are set. -/
def used_scratch : Scratch :=
  { nuh_mask := List.replicate 15 "old!*@*".toList,
    mode_changes := List.replicate 20
      { letter := 'l', arg := ArgPtr.mask 3, id := some "0AAold".toList, dir := MODE_ADD,
        flags := CHFL_CHANOP ||| CHFL_HALFOP },
    mode_count := 7, mode_limit := 5, simple_modes_mask := 0xffff }

/-- A storage with 15 rows and 20 slots, all of them zero, as at the start of
the program. -/
def zero_scratch : Scratch :=
  { nuh_mask := List.replicate 15 [],
    mode_changes := List.replicate 20
      { letter := Char.ofNat 0, arg := ArgPtr.null, id := none, dir := 0, flags := 0 },
    mode_count := 0, mode_limit := 0, simple_modes_mask := 0 }

/-! ## A concrete environment

The values used to run the definitions on concrete inputs. -/

/-- Modelled from the spec: `split_nuh` is not under `src/`; it "splits an
arbitrary input mask on its structural delimiters (`!`, `@`) into
name/user/host parts, defaulting any missing part to a wildcard". A mask
without delimiter is a name. -/
def spec_split_nuh (mask : List Char) : List Char × List Char × List Char :=
  let star (s : List Char) : List Char := if s = [] then ['*'] else s
  if '!' ∈ mask then
    let name := mask.takeWhile (fun c => c != '!')
    let rest := (mask.dropWhile (fun c => c != '!')).drop 1
    (star name, star (rest.takeWhile (fun c => c != '@')),
      star ((rest.dropWhile (fun c => c != '@')).drop 1))
  else if '@' ∈ mask then
    (['*'], star (mask.takeWhile (fun c => c != '@')),
      star ((mask.dropWhile (fun c => c != '@')).drop 1))
  else (star mask, ['*'], ['*'])

/-- The value of `atoi` on a string of decimal digits (leading digits are read,
the rest is ignored). -/
def digits_atoi (s : List Char) : Int :=
  ((s.takeWhile Char.isDigit).foldl (fun acc c => 10 * acc + (c.toNat - 48)) 0 : Nat)

/-- A user connected to this server. -/
def local_user (nick : String) : Client :=
  { name := nick.toList, username := "u".toList, host := "h".toList,
    id := "0AA".toList ++ nick.toList, connected := true, is_client := true,
    is_server := false, umode_oper := false, flag_service := false, hidden := false }

/-- A user behind a peer server. -/
def remote_user (nick : String) : Client :=
  { local_user nick with connected := false }

/-- A network of seven users, `op` and `n1` to `n6`; buffers of 512 bytes, keys
of 23 bytes, lists of 2 masks (4 on an extended channel). -/
def demo_env : Env :=
  { IRCD_BUFSIZE := 512, KEYLEN := 23, max_bans := 2, max_bans_large := 4,
    hide_servers := false, me_name := "irc.example".toList, CurrentTime := 1000,
    ToUpper := Char.toUpper, IsSpace := Char.isWhitespace,
    split_nuh := spec_split_nuh, collapse := id, parse_netmask := fun _ => 0,
    find_chasing := fun _ name =>
      if name ∈ ["op", "hop", "n1", "n2", "n3", "n4", "n5", "n6"].map String.toList then
        some (local_user (String.mk name))
      else none,
    atoi := digits_atoi,
    IsMember := fun who chan => chan.members.any (fun member => member.client_p == who) }

/-- The membership of a local user. -/
def member_of (nick : String) (flags : Nat) : Membership :=
  { client_p := local_user nick, flags := flags, loc := true }

/-- A channel with the operator `op`, the half-operator `hop` and six plain
members. -/
def demo_chan : Channel :=
  { name := "#c".toList, creationtime := 900,
    mode := { mode := MODE_NOPRIVMSGS ||| MODE_TOPICLIMIT, limit := 0, key := [] },
    members := [member_of "op" CHFL_CHANOP, member_of "hop" CHFL_HALFOP, member_of "n1" 0,
      member_of "n2" 0, member_of "n3" 0, member_of "n4" 0, member_of "n5" 0,
      member_of "n6" 0],
    banlist := [], exceptlist := [], invexlist := [] }

/-- The channel `demo_chan` with two bans, the capacity of `demo_env`, where
the members `n1` and `n2` have cached ban verdicts. -/
def demo_full_chan : Channel :=
  { demo_chan with
    members := [member_of "op" CHFL_CHANOP,
      member_of "n1" (CHFL_VOICE ||| CHFL_BAN_CHECKED ||| CHFL_BAN_SILENCED),
      member_of "n2" CHFL_BAN_CHECKED],
    banlist := [
      { name := "x".toList, user := "*".toList, host := "*".toList, who := "op!u@h".toList,
        when := 990, len := 3, type := 0 },
      { name := "y".toList, user := "*".toList, host := "*".toList, who := "op!u@h".toList,
        when := 980, len := 3, type := 0 }] }

/-- The environment `demo_env` with room for a hundred masks per channel. -/
def wide_env : Env := { demo_env with max_bans := 100, max_bans_large := 500 }

/-- A mask `nick!user@host` with a nick of 30 bytes starting with `c`, a user
of 10 bytes and a host of `hostlen` bytes. -/
def long_mask (c : Char) (hostlen : Nat) : List Char :=
  c :: List.replicate 29 'n' ++ ['!'] ++ List.replicate 10 'u' ++ ['@'] ++
    List.replicate hostlen 'h'

/-- The arguments of `MODE #c +bbbbb` with four masks of 100 bytes and one of
86 bytes; with the five separating spaces, the command line is 505 bytes long. -/
def overflow_parv : List (List Char) :=
  ["+bbbbb".toList, long_mask '1' 58, long_mask '2' 58, long_mask '3' 58, long_mask '4' 58,
    long_mask '5' 44]

/-- The call of `set_channel_mode` by the operator `op` with `overflow_parv`. -/
def overflow_result : ModeState :=
  set_channel_mode wide_env (local_user "op") demo_chan (some (member_of "op" CHFL_CHANOP)) 6
    overflow_parv

/-- The bytes a message takes on the wire: for a line sent with the format
`"%s %s"`, the two buffers, the space between them and the two bytes of the
line terminator. -/
def Out.wire_length : Out → Nat
  | Out.numeric _ args => (args.map List.length).sum
  | Out.channel_local _ modebuf parabuf => modebuf.length + 1 + parabuf.length + 2
  | Out.server modebuf parabuf => modebuf.length + 1 + parabuf.length + 2

/-! ## Predicates used to state the properties -/

/-- The list of a channel that `type` selects. -/
def list_of (chptr : Channel) (type : Nat) : List Ban :=
  if type = CHFL_BAN then chptr.banlist
  else if type = CHFL_EXCEPTION then chptr.exceptlist
  else chptr.invexlist

/-- Two entries carry the same (name, user, host) triple under `irccmp`. -/
def same_triple (env : Env) (a b : Ban) : Prop :=
  irccmp env a.name b.name = 0 ∧ irccmp env a.user b.user = 0 ∧ irccmp env a.host b.host = 0

/-- A list holds at most one entry per triple. -/
def ban_unique (env : Env) (list : List Ban) : Prop :=
  list.Pairwise (fun a b => ¬ same_triple env a b)

/-- The triple `add_id` splits the mask `banid` of `client_p` into. -/
def add_triple (env : Env) (client_p : Client) (banid : List Char) :
    List Char × List Char × List Char :=
  env.split_nuh (check_string env (if MyClient client_p then env.collapse banid else banid))

/-- The triple `del_id` splits the mask `banid` into. -/
def del_triple (env : Env) (banid : List Char) : List Char × List Char × List Char :=
  env.split_nuh (check_string env banid)

/-- The test `ban_matches` on a triple. -/
def triple_matches (env : Env) (t : List Char × List Char × List Char) (ban : Ban) : Bool :=
  ban_matches env t.1 t.2.1 t.2.2 ban

/-- The text `add_id` and `del_id` write back into the mask buffer for a triple. -/
def canonical_mask (env : Env) (t : List Char × List Char × List Char) : List Char :=
  (t.1 ++ ['!'] ++ t.2.1 ++ ['@'] ++ t.2.2).take (env.IRCD_BUFSIZE - 1)

/-- The entry `add_id` allocates for a triple. -/
def new_ban (env : Env) (client_p : Client) (t : List Char × List Char × List Char) : Ban :=
  { name := t.1, user := t.2.1, host := t.2.2, who := ban_who env client_p,
    when := env.CurrentTime, len := (t.1 ++ ['!'] ++ t.2.1 ++ ['@'] ++ t.2.2).length - 2,
    type := env.parse_netmask t.2.2 }

/-- The combined length of the three lists (`num_mask` in `add_id`). -/
def num_mask (chptr : Channel) : Nat :=
  chptr.banlist.length + chptr.exceptlist.length + chptr.invexlist.length

/-- The capacity `add_id` compares `num_mask` with. -/
def ban_capacity (env : Env) (chptr : Channel) : Nat :=
  if HasCMode chptr MODE_EXTLIMIT then env.max_bans_large else env.max_bans

/-- The relation between a membership before and after its ban cache is
invalidated: the two cache bits are clear, every other bit of the 32-bit flag
word is as before. -/
def cache_cleared (m m1 : Membership) : Prop :=
  m1.client_p = m.client_p ∧ m1.loc = m.loc ∧
  m1.flags &&& CHFL_BAN_CHECKED = 0 ∧ m1.flags &&& CHFL_BAN_SILENCED = 0 ∧
  ∀ i, i < 32 → i ≠ 6 → i ≠ 7 → m1.flags.testBit i = m.flags.testBit i

/-- The relation between the member list before and after a list change that
invalidates the ban cache. -/
def cache_invalidated (before after : List Membership) : Prop :=
  List.Forall₂ (fun m m1 => if m.loc then cache_cleared m m1 else m1 = m) before after

/-- The message is a numeric reply to the requester. -/
def Out.is_numeric : Out → Bool
  | Out.numeric _ _ => true
  | _ => false

/-- The message is the numeric reply `n`. -/
def Out.is_reply (n : Numeric) : Out → Bool
  | Out.numeric m _ => m == n
  | _ => false

/-- How many times the numeric `n` was sent. -/
def count_reply (n : Numeric) (out : List Out) : Nat := out.countP (Out.is_reply n)

/-- The property kept by the scan for a requester below half-operator: the
channel is `chptr`, nothing is recorded, only numerics were sent. -/
def untouched (chptr : Channel) (st : ModeState) : Prop :=
  st.chptr = chptr ∧ st.mode_changes = [] ∧ st.out.all Out.is_numeric = true

/-- The reply of the rank-gate block. -/
def noops_reply (alev : Int) (st : ModeState) : List Out :=
  if st.errors &&& SM_ERR_NOOPS = 0 then
    [Out.numeric (if alev = CHACCESS_NOTONCHAN then Numeric.ERR_NOTONCHANNEL
      else Numeric.ERR_CHANOPRIVSNEEDED) [st.chptr.name]]
  else []

/-- The value of an error bit of `errors`: 1 when set, 0 when clear. -/
def err_flag (errors bit : Nat) : Nat := if errors &&& bit = 0 then 0 else 1

/-- The bound on the error replies sent so far, in terms of the error bits set
so far: each reply is sent only while its bit is clear, and sets it. -/
def reply_bound (errors : Nat) (out : List Out) : Prop :=
  count_reply Numeric.ERR_UNKNOWNMODE out ≤ err_flag errors SM_ERR_UNKNOWN ∧
  count_reply Numeric.ERR_NOPRIVILEGES out ≤ err_flag errors SM_ERR_NOTOPER ∧
  count_reply Numeric.ERR_CHANOPRIVSNEEDED out ≤ err_flag errors SM_ERR_NOOPS ∧
  count_reply Numeric.ERR_ONLYSERVERSCANCHANGE out ≤ err_flag errors SM_ERR_ONLYSERVER ∧
  count_reply Numeric.ERR_NOTONCHANNEL out ≤
    err_flag errors SM_ERR_NOOPS + err_flag errors SM_ERR_ONLYSERVER

/-- None of the five deduplicated error replies occurs in `extra`. -/
def no_error_reply (extra : List Out) : Prop :=
  count_reply Numeric.ERR_UNKNOWNMODE extra = 0 ∧
  count_reply Numeric.ERR_NOPRIVILEGES extra = 0 ∧
  count_reply Numeric.ERR_CHANOPRIVSNEEDED extra = 0 ∧
  count_reply Numeric.ERR_ONLYSERVERSCANCHANGE extra = 0 ∧
  count_reply Numeric.ERR_NOTONCHANNEL extra = 0

/-- The numeric is none of the five deduplicated error replies. -/
def not_error (n : Numeric) : Prop :=
  n ≠ Numeric.ERR_UNKNOWNMODE ∧ n ≠ Numeric.ERR_NOPRIVILEGES ∧
  n ≠ Numeric.ERR_CHANOPRIVSNEEDED ∧ n ≠ Numeric.ERR_ONLYSERVERSCANCHANGE ∧
  n ≠ Numeric.ERR_NOTONCHANNEL

/-- The bound `reply_bound` on a state. -/
def bounded (st : ModeState) : Prop := reply_bound st.errors st.out

/-- The letter belongs to a list handler (`b`, `e`, `I`) or to a rank handler
(`o`, `h`, `v`): the handlers that count against `MAXMODEPARAMS`. -/
def counted_letter (c : Char) : Bool :=
  c == 'b' || c == 'e' || c == 'I' || c == 'o' || c == 'h' || c == 'v'

/-- The number of recorded changes of the list and rank handlers. -/
def counted_changes (changes : List ChModeChange) : Nat :=
  changes.countP (fun mc => counted_letter mc.letter)

/-- The change consumed a parameter: a list or rank change, or a limit or key
change that carries an argument. -/
def takes_param (mc : ChModeChange) : Bool :=
  counted_letter mc.letter || ((mc.letter == 'l' || mc.letter == 'k') && mc.arg.isSome)

/-- The number of recorded changes that consumed a parameter. -/
def param_changes (changes : List ChModeChange) : Nat := changes.countP takes_param

/-- The property kept by the scan for a local requester: the counted changes
are at most `mode_limit` and at most `MAXMODEPARAMS`. -/
def within_limit (st : ModeState) : Prop :=
  counted_changes st.mode_changes ≤ st.mode_limit ∧
  counted_changes st.mode_changes ≤ MAXMODEPARAMS

/-- The sigils and letters a formatter writes for the changes of one line,
`dir` being the direction of the last sigil written. -/
def mode_letters (dir : Nat) : List ChModeChange → List Char
  | [] => []
  | mc :: rest =>
    (if dir ≠ mc.dir then [if mc.dir = MODE_ADD then '+' else '-'] else []) ++
      mc.letter :: mode_letters mc.dir rest

/-- The parameter buffer after the arguments `args` are written behind `buf`:
an argument is preceded by a space unless the buffer is still empty. -/
def para_text (buf : List Char) : List (List Char) → List Char
  | [] => buf
  | a :: rest => para_text (buf ++ (if buf.length = 0 then a else ' ' :: a)) rest

/-- The line that carries exactly the changes `batch`: the header, their sigils
and letters, and their arguments (`argf` chooses the argument of a change). -/
def batch_line (emit : List Char → List Char → Out) (header : List Char)
    (argf : ChModeChange → Option (List Char)) (batch : List ChModeChange) : Out :=
  emit (header ++ mode_letters MODE_QUERY batch) (para_text [] (batch.filterMap argf))

/-- The change has not been cleared by a later `+l` or `+k`. -/
def ChModeChange.live (mc : ChModeChange) : Bool := mc.letter != Char.ofNat 0

/-- The visibility filter a list handler gives a change recorded on `chptr`. -/
def list_filter (chptr : Channel) : Nat :=
  if HasCMode chptr MODE_HIDEBMASKS then CHFL_CHANOP ||| CHFL_HALFOP else 0

/-- What a list handler may have done to the channel modes and to the recorded
changes between the states `st` and `st1`: the mode bits are the same, and
either nothing is recorded or one change of the letter, with an argument and
the filter of the channel. -/
def list_recorded (mode : chan_mode) (dir : Nat) (st st1 : ModeState) : Prop :=
  st1.chptr.mode = st.chptr.mode ∧
  (st1.mode_changes = st.mode_changes ∨
    ∃ arg, st1.mode_changes =
      st.mode_changes ++ [{ letter := mode.letter, arg := some arg, id := none, dir := dir,
                            flags := list_filter st.chptr }])

/-- The characters a key may hold: not `':'`, not `','`, and above the space
(so none of the bytes `0x00`..`0x20`). -/
def key_char (c : Char) : Bool := c != ':' && c != ',' && decide (0x20 < c.toNat)

/-- The invariant of a stored key: at most `KEYLEN` characters, every one of
them a `key_char`. The empty key is the absent key. -/
def key_ok (env : Env) (key : List Char) : Prop :=
  key.length ≤ env.KEYLEN ∧ ∀ c ∈ key, key_char c = true

/-- The invariant of the `struct Mode` of a channel: the limit is absent (0) or
positive, and the key is `key_ok`. -/
def mode_ok (env : Env) (mode : Mode) : Prop :=
  (mode.limit = 0 ∨ 0 < mode.limit) ∧ key_ok env mode.key

/-- The key the sentence "drop, then truncate" describes: the argument with
every `':'`, `','` and byte up to `0x20` dropped, then cut to `KEYLEN`. -/
def spec_fix_key (env : Env) (arg : List Char) : List Char :=
  (arg.filter key_char).take env.KEYLEN

/-- The reply a list query sends for one entry of a list: the channel, the
mask, the setter and the time of setting. -/
def entry_reply (rpl : Numeric) (chptr : Channel) (ban : Ban) : Out :=
  Out.numeric rpl [chptr.name, ban.name, ban.user, ban.host, ban.who, decimal ban.when]

/-- What a rank change may do to the membership `m` of the target, `m1` being
the membership afterwards: the member and its link are the same, and every bit
of the 32-bit flag word outside `flag` is as before. -/
def rank_bit_only (flag : Nat) (m m1 : Membership) : Prop :=
  m1.client_p = m.client_p ∧ m1.loc = m.loc ∧
  ∀ i, i < 32 → flag.testBit i = false → m1.flags.testBit i = m.flags.testBit i

/-- The channel with the membership at position `i` replaced by `m1`, and
nothing else changed. -/
def with_member (chptr : Channel) (i : Nat) (m1 : Membership) : Channel :=
  { chptr with members := chptr.members.set i m1 }

/-- The change a rank handler records for the target `target_p`. -/
def rank_change (mode : chan_mode) (dir : Nat) (target_p : Client) : ChModeChange :=
  { letter := mode.letter, arg := some target_p.name, id := some target_p.id, flags := 0,
    dir := dir }

/-- The change `chm_ban` records for the removal of the mask `banid`, on a
channel without the hide-lists flag. -/
def unban_change (banid : List Char) : ChModeChange :=
  { letter := 'b', arg := some banid, id := none, dir := MODE_DEL, flags := 0 }

/-- The table entry of the letter `o`. -/
def mode_o : chan_mode :=
  { letter := 'o', mode := 0, only_opers := 0, only_servers := 0, func := ChmFunc.chm_op }

/-- The table entry of the letter `b`. -/
def mode_b : chan_mode :=
  { letter := 'b', mode := 0, only_opers := 0, only_servers := 0, func := ChmFunc.chm_ban }

/-- The change `chm_key` records for the argument `a` of a `+k`. -/
def key_change (env : Env) (a : List Char) : ChModeChange :=
  { letter := 'k', arg := some (fix_key env a), id := none, dir := MODE_ADD, flags := 0 }

/-- The channel with its key set to `key`. -/
def with_key (chptr : Channel) (key : List Char) : Channel :=
  { chptr with mode := { chptr.mode with key := key } }

/-- Every change that has not been cleared is a key-add. -/
def only_key_adds (st : ModeState) : Prop :=
  ∀ mc ∈ st.mode_changes, mc.live = true → mc.letter = 'k' ∧ mc.dir = MODE_ADD

/-- The letters `channel_modes` writes for the simple modes of a channel: the
letters of the table entries with a mode bit that the channel has set, in
table order. -/
def simple_letters (chptr : Channel) : List Char :=
  (cmode_tab.filter (fun tab => tab.mode != 0 && HasCMode chptr tab.mode)).map chan_mode.letter

/-- The channel with its limit and key replaced. -/
def with_limit_key (chptr : Channel) (limit : Nat) (key : List Char) : Channel :=
  { chptr with mode := { chptr.mode with limit := limit, key := key } }

/-- What one handler call may do to the recorded changes for the letter
`letter`: nothing; or one more change with that letter, behind the changes so
far, or behind the changes so far with the earlier adds of that letter
cleared. -/
def records_step (letter : Char) (before after : List ChModeChange) : Prop :=
  after = before ∨
  ∃ mc : ChModeChange, mc.letter = letter ∧
    (after = before ++ [mc] ∨ after = void_earlier letter before ++ [mc])

/-- The number of characters of a mode string other than `'+'`, `'-'` and
`'='`: the characters for which a handler is called. -/
def letter_count (ms : List Char) : Nat :=
  (ms.filter (fun c => c != '+' && c != '-' && c != '=')).length

/-- The last recorded change, if there is one, has a letter that is not
cleared. -/
def last_live (changes : List ChModeChange) : Prop :=
  ∀ mc, changes.getLast? = some mc → mc.live = true

/-- The argument vectors `parv` and `parv2` hold the same strings below the
index `parc`. -/
def parv_agree (parc : Nat) (parv parv2 : List (List Char)) : Prop :=
  ∀ i, i < parc → parv.getD i [] = parv2.getD i []

/-- The change is an add of `letter`; for a letter of the table, an add of
that letter whose letter has not been cleared. -/
def ChModeChange.is_add (letter : Char) (mc : ChModeChange) : Bool :=
  mc.letter == letter && mc.dir == MODE_ADD

/-- The direction in force after the characters `ms` of a mode string, from the
direction `dir`: the cases `'+'`, `'-'` and `'='` of the `switch` in
`set_channel_mode`. -/
def scan_dir : List Char → Nat → Nat
  | [], dir => dir
  | ml :: rest, dir =>
    if ml = '+' then scan_dir rest MODE_ADD
    else if ml = '-' then scan_dir rest MODE_DEL
    else if ml = '=' then scan_dir rest MODE_QUERY
    else scan_dir rest dir

/-- The table entry of the letter `l`. -/
def mode_l : chan_mode :=
  { letter := 'l', mode := 0, only_opers := 0, only_servers := 0, func := ChmFunc.chm_limit }

/-- The table entry of the letter `k`. -/
def mode_k : chan_mode :=
  { letter := 'k', mode := 0, only_opers := 0, only_servers := 0, func := ChmFunc.chm_key }

/-! ## The list store: `add_id`, `del_id` -/

theorem irccmp_symm (env : Env) (a b : List Char) : irccmp env a b = irccmp env b a := by
  unfold irccmp
  by_cases h : a.map env.ToUpper = b.map env.ToUpper
  · rw [if_pos h, if_pos h.symm]
  · rw [if_neg h, if_neg (fun h1 => h h1.symm)]

theorem irccmp_self (env : Env) (a : List Char) : irccmp env a a = 0 := by
  simp [irccmp]

theorem irccmp_trans (env : Env) (a b c : List Char)
    (h1 : irccmp env a b = 0) (h2 : irccmp env b c = 0) : irccmp env a c = 0 := by
  unfold irccmp at *
  by_cases hab : a.map env.ToUpper = b.map env.ToUpper
  · by_cases hbc : b.map env.ToUpper = c.map env.ToUpper
    · rw [if_pos (hab.trans hbc)]
    · rw [if_neg hbc] at h2; exact absurd h2 (by decide)
  · rw [if_neg hab] at h1; exact absurd h1 (by decide)

theorem clear_ban_cache_spec (m : Membership) : cache_cleared m (clear_ban_cache m) := by
  refine ⟨rfl, rfl, ?_, ?_, ?_⟩
  · show m.flags &&& bnot32 (CHFL_BAN_SILENCED ||| CHFL_BAN_CHECKED) &&& CHFL_BAN_CHECKED = 0
    rw [Nat.and_assoc]
    have h : bnot32 (CHFL_BAN_SILENCED ||| CHFL_BAN_CHECKED) &&& CHFL_BAN_CHECKED = 0 := by decide
    rw [h]; exact Nat.and_zero _
  · show m.flags &&& bnot32 (CHFL_BAN_SILENCED ||| CHFL_BAN_CHECKED) &&& CHFL_BAN_SILENCED = 0
    rw [Nat.and_assoc]
    have h : bnot32 (CHFL_BAN_SILENCED ||| CHFL_BAN_CHECKED) &&& CHFL_BAN_SILENCED = 0 := by decide
    rw [h]; exact Nat.and_zero _
  · intro i hi h6 h7
    show (m.flags &&& bnot32 (CHFL_BAN_SILENCED ||| CHFL_BAN_CHECKED)).testBit i = _
    have key : (bnot32 (CHFL_BAN_SILENCED ||| CHFL_BAN_CHECKED)).testBit i = true := by
      interval_cases i <;> first | contradiction | decide
    rw [Nat.testBit_and, key, Bool.and_true]

theorem select_list_valid (chptr : Channel) (type : Nat)
    (htype : type = CHFL_BAN ∨ type = CHFL_EXCEPTION ∨ type = CHFL_INVEX) :
    ∃ chptr1, select_list chptr type = some (chptr1, list_of chptr type) ∧
      chptr1.name = chptr.name ∧ chptr1.mode = chptr.mode ∧
      chptr1.banlist = chptr.banlist ∧ chptr1.exceptlist = chptr.exceptlist ∧
      chptr1.invexlist = chptr.invexlist ∧
      (type = CHFL_INVEX → chptr1 = chptr) ∧
      (type ≠ CHFL_INVEX → chptr1.members = clear_ban_cache_list chptr.members) := by
  rcases htype with h | h | h <;> subst h <;>
    simp [select_list, list_of, CHFL_BAN, CHFL_EXCEPTION, CHFL_INVEX]

theorem store_list_spec (chptr : Channel) (type : Nat) (list : List Ban)
    (htype : type = CHFL_BAN ∨ type = CHFL_EXCEPTION ∨ type = CHFL_INVEX) :
    list_of (store_list chptr type list) type = list ∧
    (store_list chptr type list).members = chptr.members ∧
    (store_list chptr type list).mode = chptr.mode ∧
    (store_list chptr type list).name = chptr.name ∧
    (∀ t, t = CHFL_BAN ∨ t = CHFL_EXCEPTION ∨ t = CHFL_INVEX → t ≠ type →
      list_of (store_list chptr type list) t = list_of chptr t) ∧
    num_mask (store_list chptr type list) + (list_of chptr type).length =
      num_mask chptr + list.length := by
  rcases htype with h | h | h <;> subst h <;>
    refine ⟨by simp [store_list, list_of, CHFL_BAN, CHFL_EXCEPTION, CHFL_INVEX], rfl, rfl, rfl,
      ?_, ?_⟩
  all_goals first
    | (intro t ht hne
       rcases ht with h | h | h <;> subst h <;>
         simp_all [store_list, list_of, CHFL_BAN, CHFL_EXCEPTION, CHFL_INVEX])
    | (simp [store_list, list_of, num_mask, CHFL_BAN, CHFL_EXCEPTION, CHFL_INVEX]; omega)

/-- What `add_id` returns, by cases, for a valid list type. -/
theorem add_id_cases (env : Env) (client_p : Client) (chptr : Channel) (banid : List Char)
    (type : Nat) (chptr1 : Channel)
    (hsel : select_list chptr type = some (chptr1, list_of chptr type)) :
    add_id env client_p chptr banid type =
      if MyClient client_p = true ∧ ban_capacity env chptr ≤ num_mask chptr then
        some { ret := 0, chptr := chptr, banid := banid,
               out := [Out.numeric Numeric.ERR_BANLISTFULL [chptr.name, banid]] }
      else if (list_of chptr type).any (triple_matches env (add_triple env client_p banid)) then
        some { ret := 0, chptr := chptr1,
               banid := canonical_mask env (add_triple env client_p banid), out := [] }
      else
        some { ret := 1,
               chptr := store_list chptr1 type
                 (new_ban env client_p (add_triple env client_p banid) :: list_of chptr type),
               banid := canonical_mask env (add_triple env client_p banid), out := [] } := by
  unfold add_id
  simp only [hsel, ban_capacity, num_mask, ge_iff_le, add_triple, triple_matches, canonical_mask,
    new_ban]
  rfl

/-- What `del_id` returns, by cases, for a valid list type. -/
theorem del_id_cases (env : Env) (chptr : Channel) (banid : List Char)
    (type : Nat) (chptr1 : Channel)
    (hsel : select_list chptr type = some (chptr1, list_of chptr type)) :
    del_id env chptr banid type =
      if (list_of chptr type).any (triple_matches env (del_triple env banid)) then
        some { ret := 1,
               chptr := store_list chptr1 type
                 ((list_of chptr type).eraseP (triple_matches env (del_triple env banid))),
               banid := canonical_mask env (del_triple env banid), out := [] }
      else
        some { ret := 0, chptr := chptr1, banid := canonical_mask env (del_triple env banid),
               out := [] } := by
  unfold del_id
  simp only [hsel, del_triple, triple_matches, canonical_mask]
  rfl

theorem ban_capacity_of_mode (env : Env) (a b : Channel) (h : a.mode = b.mode) :
    ban_capacity env a = ban_capacity env b := by
  simp [ban_capacity, HasCMode, h]

theorem triple_matches_new_ban (env : Env) (client_p : Client)
    (t : List Char × List Char × List Char) :
    triple_matches env t (new_ban env client_p t) = true := by
  simp [triple_matches, ban_matches, new_ban, irccmp_self]

theorem same_triple_of_matches (env : Env) (client_p : Client)
    (t : List Char × List Char × List Char) (b : Ban)
    (h : same_triple env (new_ban env client_p t) b) : triple_matches env t b = true := by
  obtain ⟨h1, h2, h3⟩ := h
  simp only [new_ban] at h1 h2 h3
  rw [irccmp_symm] at h1 h2 h3
  simp [triple_matches, ban_matches, h1, h2, h3]

theorem clear_ban_cache_list_invalidates (members : List Membership) :
    cache_invalidated members (clear_ban_cache_list members) := by
  unfold cache_invalidated clear_ban_cache_list
  induction members with
  | nil => exact List.Forall₂.nil
  | cons m rest ih =>
    refine List.Forall₂.cons ?_ ih
    by_cases h : m.loc = true
    · simp only [h, if_true]; exact clear_ban_cache_spec m
    · simp [h]

/-- C9. At or above capacity, `add_id` from a local client returns 0 with one
list-full reply and leaves the channel and the mask as they were; from any other
requester there is no capacity check, and a new triple is inserted, taking the
combined length above the capacity. -/
theorem add_id_at_capacity (env : Env) (client_p : Client) (chptr : Channel)
    (banid : List Char) (type : Nat)
    (htype : type = CHFL_BAN ∨ type = CHFL_EXCEPTION ∨ type = CHFL_INVEX)
    (hfull : ban_capacity env chptr ≤ num_mask chptr) :
    (MyClient client_p = true →
      add_id env client_p chptr banid type =
        some { ret := 0, chptr := chptr, banid := banid,
               out := [Out.numeric Numeric.ERR_BANLISTFULL [chptr.name, banid]] }) ∧
    (MyClient client_p = false →
      (list_of chptr type).any (triple_matches env (add_triple env client_p banid)) = false →
      ∃ r, add_id env client_p chptr banid type = some r ∧ r.ret = 1 ∧ r.out = [] ∧
        list_of r.chptr type =
          new_ban env client_p (add_triple env client_p banid) :: list_of chptr type ∧
        num_mask r.chptr = num_mask chptr + 1 ∧
        ban_capacity env r.chptr < num_mask r.chptr) := by
  obtain ⟨chptr1, hsel, -, hmode, hb, he, hi, -, -⟩ := select_list_valid chptr type htype
  have hcases := add_id_cases env client_p chptr banid type chptr1 hsel
  constructor
  · intro hloc
    rw [hcases, if_pos ⟨hloc, hfull⟩]
  · intro hrem hnew
    rw [if_neg (by simp [hrem]), hnew] at hcases
    simp only [Bool.false_eq_true, if_false] at hcases
    refine ⟨_, hcases, rfl, rfl, ?_⟩
    obtain ⟨h1, -, h3, -, -, h6⟩ := store_list_spec chptr1 type
      (new_ban env client_p (add_triple env client_p banid) :: list_of chptr type) htype
    have hl1 : list_of chptr1 type = list_of chptr type := by
      simp [list_of, hb, he, hi]
    have hn1 : num_mask chptr1 = num_mask chptr := by
      simp [num_mask, hb, he, hi]
    simp only [hl1, hn1, List.length_cons] at h6
    have hnum : num_mask (store_list chptr1 type
        (new_ban env client_p (add_triple env client_p banid) :: list_of chptr type)) =
        num_mask chptr + 1 := by omega
    refine ⟨h1, hnum, ?_⟩
    show ban_capacity env (store_list chptr1 type _) < num_mask (store_list chptr1 type _)
    rw [ban_capacity_of_mode env _ chptr (h3.trans hmode), hnum]
    omega

/-- C10. A successful `add_id` or `del_id` on the ban or the exception list
leaves every membership linked in `locmembers` with both ban-cache bits clear
and every other flag bit as before, and every other membership untouched; on the
invex list both functions leave the member list as it was. -/
theorem ban_cache_invalidated (env : Env) (client_p : Client) (chptr : Channel)
    (banid : List Char) (type : Nat) (ra rd : IdResult)
    (hadd : add_id env client_p chptr banid type = some ra)
    (hdel : del_id env chptr banid type = some rd) :
    (type = CHFL_BAN ∨ type = CHFL_EXCEPTION →
      (ra.ret = 1 → cache_invalidated chptr.members ra.chptr.members) ∧
      (rd.ret = 1 → cache_invalidated chptr.members rd.chptr.members)) ∧
    (type = CHFL_INVEX →
      ra.chptr.members = chptr.members ∧ rd.chptr.members = chptr.members) := by
  constructor
  · intro ht
    have htype : type = CHFL_BAN ∨ type = CHFL_EXCEPTION ∨ type = CHFL_INVEX := by tauto
    have hne : type ≠ CHFL_INVEX := by
      rcases ht with h | h <;> subst h <;> decide
    obtain ⟨chptr1, hsel, -, -, -, -, -, -, hmem⟩ := select_list_valid chptr type htype
    have hmem := hmem hne
    constructor
    · intro hret
      rw [add_id_cases env client_p chptr banid type chptr1 hsel] at hadd
      split_ifs at hadd <;> simp only [Option.some.injEq] at hadd <;> subst hadd
      · simp at hret
      · simp at hret
      · show cache_invalidated chptr.members (store_list chptr1 type _).members
        rw [(store_list_spec chptr1 type _ htype).2.1, hmem]
        exact clear_ban_cache_list_invalidates _
    · intro hret
      rw [del_id_cases env chptr banid type chptr1 hsel] at hdel
      split_ifs at hdel <;> simp only [Option.some.injEq] at hdel <;> subst hdel
      · show cache_invalidated chptr.members (store_list chptr1 type _).members
        rw [(store_list_spec chptr1 type _ htype).2.1, hmem]
        exact clear_ban_cache_list_invalidates _
      · simp at hret
  · intro ht
    have htype : type = CHFL_BAN ∨ type = CHFL_EXCEPTION ∨ type = CHFL_INVEX := by tauto
    obtain ⟨chptr1, hsel, -, -, -, -, -, hinv, -⟩ := select_list_valid chptr type htype
    have hc := hinv ht
    subst hc
    constructor
    · rw [add_id_cases env client_p chptr1 banid type chptr1 hsel] at hadd
      split_ifs at hadd <;> simp only [Option.some.injEq] at hadd <;> subst hadd
      · rfl
      · rfl
      · exact (store_list_spec chptr1 type _ htype).2.1
    · rw [del_id_cases env chptr1 banid type chptr1 hsel] at hdel
      split_ifs at hdel <;> simp only [Option.some.injEq] at hdel <;> subst hdel
      · exact (store_list_spec chptr1 type _ htype).2.1
      · rfl

theorem reject_noops_changes (alev : Int) (st : ModeState) :
    (reject_noops alev st).mode_changes = st.mode_changes ∧
    (reject_noops alev st).chptr = st.chptr ∧
    (reject_noops alev st).parn = st.parn ∧
    (reject_noops alev st).mode_limit = st.mode_limit := by
  unfold reject_noops ModeState.send
  split_ifs <;> simp

/-- In a state whose selected list already holds the triple of the next mask,
the list handler records nothing on an add. -/
theorem chm_list_duplicate (errbit : Nat) (list : Channel → List Ban) (rpl rpl_end : Numeric)
    (type : Nat) (env : Env) (source_p : Client) (parc : Nat) (parv : List (List Char))
    (alev : Int) (mode : chan_mode) (st : ModeState)
    (htype : type = CHFL_BAN ∨ type = CHFL_EXCEPTION ∨ type = CHFL_INVEX)
    (hdup : (list_of st.chptr type).any (triple_matches env (add_triple env source_p
      ((parv.getD st.parn []).take (env.IRCD_BUFSIZE - 1)))) = true) :
    (chm_list errbit list rpl rpl_end type env source_p parc parv alev MODE_ADD mode
      st).mode_changes = st.mode_changes := by
  obtain ⟨chptr1, hsel, -⟩ := select_list_valid st.chptr type htype
  have hc := add_id_cases env source_p st.chptr
    ((parv.getD st.parn []).take (env.IRCD_BUFSIZE - 1)) type chptr1 hsel
  rw [hdup] at hc
  simp only [if_true] at hc
  have happly : ∀ st2 : ModeState, st2.chptr = st.chptr → st2.mode_changes = st.mode_changes →
      (list_apply type env source_p MODE_ADD mode
        ((parv.getD st.parn []).take (env.IRCD_BUFSIZE - 1)) st2).mode_changes =
        st.mode_changes := by
    intro st2 h1 h2
    unfold list_apply
    simp only [if_true, h1, hc]
    split_ifs <;> simp [h2]
  unfold chm_list
  by_cases hq : MODE_ADD = MODE_QUERY ∨ parc ≤ st.parn
  · rw [if_pos hq]; split_ifs <;> rfl
  rw [if_neg hq]
  by_cases ha : alev < CHACCESS_HALFOP
  · rw [if_pos ha]; exact (reject_noops_changes alev st).1
  rw [if_neg ha]
  by_cases hloc : MyClient source_p = true
  · simp only [hloc, if_true, true_and]
    by_cases hlim : st.mode_limit + 1 > MAXMODEPARAMS
    · rw [if_pos hlim]
    · rw [if_neg hlim]
      split_ifs with hbad
      · rfl
      · exact happly _ rfl rfl
  · simp only [hloc, Bool.false_eq_true, if_false, false_and]
    split_ifs with hbad
    · rfl
    · exact happly _ rfl rfl

/-! ## The dispatch loop -/

theorem cmode_map_mem (ml : Char) (mode : chan_mode) (h : cmode_map ml = some mode) :
    mode ∈ cmode_tab ∧ mode.letter = ml := by
  unfold cmode_map at h
  refine ⟨List.mem_of_find?_eq_some h, ?_⟩
  have := List.find?_some h
  simpa using this

/-- A property kept by every handler is kept by the whole scan. -/
theorem mode_loop_invariant (P : ModeState → Prop) (env : Env) (source_p : Client) (parc : Nat)
    (parv : List (List Char)) (alev : Int)
    (hnosuch : ∀ c st, P st → P (chm_nosuch c st))
    (hhandler : ∀ mode ∈ cmode_tab, ∀ dir st, P st →
      P (call_handler env source_p parc parv alev dir mode st)) :
    ∀ (ms : List Char) (dir : Nat) (st : ModeState), P st →
      P (mode_loop env source_p parc parv alev ms dir st) := by
  intro ms
  induction ms with
  | nil => intro dir st h; exact h
  | cons ml rest ih =>
    intro dir st h
    unfold mode_loop
    split_ifs
    · exact ih _ _ h
    · exact ih _ _ h
    · exact ih _ _ h
    · apply ih
      unfold dispatch
      cases hm : cmode_map ml with
      | none => exact hnosuch _ _ h
      | some mode => exact hhandler mode (cmode_map_mem ml mode hm).1 _ _ h

/-! ## What the shared blocks of the handlers change -/

@[simp] theorem send_chptr (st : ModeState) (o : Out) : (st.send o).chptr = st.chptr := rfl
@[simp] theorem send_parn (st : ModeState) (o : Out) : (st.send o).parn = st.parn := rfl
@[simp] theorem send_errors (st : ModeState) (o : Out) : (st.send o).errors = st.errors := rfl
@[simp] theorem send_mode_changes (st : ModeState) (o : Out) :
    (st.send o).mode_changes = st.mode_changes := rfl
@[simp] theorem send_mode_limit (st : ModeState) (o : Out) :
    (st.send o).mode_limit = st.mode_limit := rfl
@[simp] theorem send_simple_modes_mask (st : ModeState) (o : Out) :
    (st.send o).simple_modes_mask = st.simple_modes_mask := rfl
@[simp] theorem send_out (st : ModeState) (o : Out) : (st.send o).out = st.out ++ [o] := rfl

@[simp] theorem record_chptr (st : ModeState) (mc : ChModeChange) :
    (st.record mc).chptr = st.chptr := rfl
@[simp] theorem record_parn (st : ModeState) (mc : ChModeChange) :
    (st.record mc).parn = st.parn := rfl
@[simp] theorem record_errors (st : ModeState) (mc : ChModeChange) :
    (st.record mc).errors = st.errors := rfl
@[simp] theorem record_mode_changes (st : ModeState) (mc : ChModeChange) :
    (st.record mc).mode_changes = st.mode_changes ++ [mc] := rfl
@[simp] theorem record_mode_limit (st : ModeState) (mc : ChModeChange) :
    (st.record mc).mode_limit = st.mode_limit := rfl
@[simp] theorem record_simple_modes_mask (st : ModeState) (mc : ChModeChange) :
    (st.record mc).simple_modes_mask = st.simple_modes_mask := rfl
@[simp] theorem record_out (st : ModeState) (mc : ChModeChange) :
    (st.record mc).out = st.out := rfl

theorem reject_noops_eq (alev : Int) (st : ModeState) :
    reject_noops alev st =
      { st with errors := st.errors ||| SM_ERR_NOOPS, out := st.out ++ noops_reply alev st } := by
  unfold reject_noops noops_reply ModeState.send
  split_ifs <;> simp

theorem list_entries_numeric (rpl : Numeric) (chptr : Channel) (alev : Int) (list : List Ban) :
    (list_entries rpl chptr alev list).all Out.is_numeric = true := by
  unfold list_entries
  rw [List.all_eq_true]
  intro o ho
  rw [List.mem_filterMap] at ho
  obtain ⟨ban, -, ho⟩ := ho
  by_cases c : ¬ HasCMode chptr MODE_HIDEBMASKS = true ∨ alev ≥ CHACCESS_HALFOP
  · rw [if_pos c] at ho
    simp only [Option.some.injEq] at ho
    subst ho; rfl
  · rw [if_neg c] at ho
    cases ho

theorem noops_reply_numeric (alev : Int) (st : ModeState) :
    (noops_reply alev st).all Out.is_numeric = true := by
  unfold noops_reply
  split_ifs <;> rfl

/-! ## Requesters below half-operator -/

theorem untouched_reject (chptr : Channel) (alev : Int) (st : ModeState)
    (h : untouched chptr st) : untouched chptr (reject_noops alev st) := by
  obtain ⟨h1, h2, h3⟩ := h
  rw [reject_noops_eq]
  exact ⟨h1, h2, by simp [List.all_append, h3, noops_reply_numeric]⟩

theorem untouched_nosuch (chptr : Channel) (c : Char) (st : ModeState)
    (h : untouched chptr st) : untouched chptr (chm_nosuch c st) := by
  obtain ⟨h1, h2, h3⟩ := h
  unfold chm_nosuch
  split_ifs
  · exact ⟨h1, h2, h3⟩
  · exact ⟨h1, h2, by simp [List.all_append, h3, Out.is_numeric]⟩

theorem untouched_simple (chptr : Channel) (source_p : Client) (alev : Int) (dir : Nat)
    (mode : chan_mode) (st : ModeState) (hlev : alev < CHACCESS_HALFOP)
    (h : untouched chptr st) : untouched chptr (chm_simple source_p alev dir mode st) := by
  unfold chm_simple
  by_cases g1 : mode.only_opers ≠ 0 ∧ MyClient source_p = true ∧ ¬ source_p.umode_oper = true
  · rw [if_pos g1]
    obtain ⟨h1, h2, h3⟩ := h
    refine ⟨?_, ?_, ?_⟩ <;> dsimp only <;> split_ifs <;>
      simp [List.all_append, h1, h2, h3, Out.is_numeric]
  rw [if_neg g1]
  by_cases g2 : mode.only_servers ≠ 0 ∧ ¬ source_p.is_server = true ∧
      ¬ source_p.flag_service = true
  · rw [if_pos g2]
    obtain ⟨h1, h2, h3⟩ := h
    refine ⟨?_, ?_, ?_⟩ <;> dsimp only <;> split_ifs <;>
      simp [List.all_append, h1, h2, h3, Out.is_numeric]
  rw [if_neg g2, if_pos hlev]
  exact untouched_reject chptr alev st h

theorem untouched_list (errbit : Nat) (list : Channel → List Ban) (rpl rpl_end : Numeric)
    (type : Nat) (chptr : Channel) (env : Env) (source_p : Client) (parc : Nat)
    (parv : List (List Char)) (alev : Int) (dir : Nat) (mode : chan_mode) (st : ModeState)
    (hlev : alev < CHACCESS_HALFOP) (h : untouched chptr st) :
    untouched chptr
      (chm_list errbit list rpl rpl_end type env source_p parc parv alev dir mode st) := by
  unfold chm_list
  by_cases hq : dir = MODE_QUERY ∨ parc ≤ st.parn
  · rw [if_pos hq]
    by_cases he : st.errors &&& errbit ≠ 0
    · rw [if_pos he]; exact h
    · rw [if_neg he]
      obtain ⟨h1, h2, h3⟩ := h
      exact ⟨h1, h2, by simp [List.all_append, h3, list_entries_numeric, Out.is_numeric]⟩
  · rw [if_neg hq, if_pos hlev]
    exact untouched_reject chptr alev st h

theorem untouched_rank (need : Int) (flag : Nat) (chptr : Channel) (env : Env)
    (source_p : Client) (parc : Nat) (parv : List (List Char)) (alev : Int) (dir : Nat)
    (mode : chan_mode) (st : ModeState) (hlev : alev < need) (h : untouched chptr st) :
    untouched chptr (chm_rank need flag env source_p parc parv alev dir mode st) := by
  unfold chm_rank
  rw [if_pos hlev]
  exact untouched_reject chptr alev st h

theorem untouched_handler (chptr : Channel) (env : Env) (source_p : Client) (parc : Nat)
    (parv : List (List Char)) (alev : Int) (dir : Nat) (mode : chan_mode) (st : ModeState)
    (hlev : alev < CHACCESS_HALFOP) (h : untouched chptr st) :
    untouched chptr (call_handler env source_p parc parv alev dir mode st) := by
  have hlev2 : alev < CHACCESS_CHANOP := by
    unfold CHACCESS_HALFOP at hlev; unfold CHACCESS_CHANOP; omega
  unfold call_handler
  cases mode.func with
  | chm_simple => exact untouched_simple chptr source_p alev dir mode st hlev h
  | chm_ban => exact untouched_list _ _ _ _ _ chptr env source_p parc parv alev dir mode st hlev h
  | chm_except =>
    exact untouched_list _ _ _ _ _ chptr env source_p parc parv alev dir mode st hlev h
  | chm_invex =>
    exact untouched_list _ _ _ _ _ chptr env source_p parc parv alev dir mode st hlev h
  | chm_voice => exact untouched_rank _ _ chptr env source_p parc parv alev dir mode st hlev h
  | chm_hop => exact untouched_rank _ _ chptr env source_p parc parv alev dir mode st hlev2 h
  | chm_op => exact untouched_rank _ _ chptr env source_p parc parv alev dir mode st hlev2 h
  | chm_limit =>
    show untouched chptr (chm_limit env parc parv alev dir mode st)
    unfold chm_limit
    rw [if_pos hlev]
    exact untouched_reject chptr alev st h
  | chm_key =>
    show untouched chptr (chm_key env parc parv alev dir mode st)
    unfold chm_key
    rw [if_pos hlev]
    exact untouched_reject chptr alev st h

/-- C2. A requester whose access level is below half-operator (a local client
that is not on the channel or is a plain member) changes nothing: after
`set_channel_mode` the channel (mode bits, limit, key, the three lists, every
membership) is as before, no ModeChange is recorded, and every message sent is
a numeric reply to the requester, so no propagation line is emitted. -/
theorem below_halfop_changes_nothing (env : Env) (source_p : Client) (chptr : Channel)
    (member : Option Membership) (parc : Nat) (parv : List (List Char))
    (hlev : get_channel_access source_p member < CHACCESS_HALFOP) :
    (set_channel_mode env source_p chptr member parc parv).chptr = chptr ∧
    (set_channel_mode env source_p chptr member parc parv).mode_changes = [] ∧
    ∀ o ∈ (set_channel_mode env source_p chptr member parc parv).out, o.is_numeric = true := by
  have hscan : untouched chptr (scan_modes env source_p chptr member parc parv) := by
    unfold scan_modes
    apply mode_loop_invariant (untouched chptr)
    · exact fun c st h => untouched_nosuch chptr c st h
    · exact fun mode _ dir st h =>
        untouched_handler chptr env source_p parc parv _ dir mode st hlev h
    · exact ⟨rfl, rfl, rfl⟩
  have hcount : (scan_modes env source_p chptr member parc parv).mode_count = 0 := by
    simp [ModeState.mode_count, hscan.2.1]
  unfold set_channel_mode
  simp only [hcount, if_true]
  exact ⟨hscan.1, hscan.2.1, fun o ho => List.all_eq_true.mp hscan.2.2 o ho⟩

/-! ## The rank gates of `chm_op`, `chm_hop` and `chm_voice` -/

/-- C3 (as the code has it). The letters `o` and `h` are refused to every
requester below operator, the letter `v` to every requester below
half-operator: the handler then changes nothing in the channel (no membership
flag) and records no ModeChange. A half-operator is not refused `v`. -/
theorem rank_gate (env : Env) (source_p : Client) (parc : Nat) (parv : List (List Char))
    (alev : Int) (dir : Nat) (c : Char) (st : ModeState)
    (hc : c = 'o' ∨ c = 'h' ∨ c = 'v')
    (hlev : alev < if c = 'v' then CHACCESS_HALFOP else CHACCESS_CHANOP) :
    (dispatch env source_p parc parv alev dir c st).chptr = st.chptr ∧
    (dispatch env source_p parc parv alev dir c st).mode_changes = st.mode_changes := by
  rcases hc with rfl | rfl | rfl
  · have hm : cmode_map 'o' = some
        { letter := 'o', mode := 0, only_opers := 0, only_servers := 0,
          func := ChmFunc.chm_op } := by decide
    have hlev1 : alev < CHACCESS_CHANOP := by simpa using hlev
    simp only [dispatch, hm, call_handler, chm_op, chm_rank, if_pos hlev1, reject_noops_eq,
      and_self]
  · have hm : cmode_map 'h' = some
        { letter := 'h', mode := 0, only_opers := 0, only_servers := 0,
          func := ChmFunc.chm_hop } := by decide
    have hlev1 : alev < CHACCESS_CHANOP := by simpa using hlev
    simp only [dispatch, hm, call_handler, chm_hop, chm_rank, if_pos hlev1, reject_noops_eq,
      and_self]
  · have hm : cmode_map 'v' = some
        { letter := 'v', mode := 0, only_opers := 0, only_servers := 0,
          func := ChmFunc.chm_voice } := by decide
    have hlev1 : alev < CHACCESS_HALFOP := by simpa using hlev
    simp only [dispatch, hm, call_handler, chm_voice, chm_rank, if_pos hlev1, reject_noops_eq,
      and_self]

/-- C3, counterexample. The local half-operator `hop`, whose access level is
below operator, gives voice to the member `n1`: the handler of `v` sets the
voice bit of that membership and records a ModeChange. -/
theorem rank_gate_voice_counterexample :
    MyClient (local_user "hop") = true ∧
    get_channel_access (local_user "hop") (some (member_of "hop" CHFL_HALFOP)) < CHACCESS_CHANOP ∧
    (dispatch demo_env (local_user "hop") 2 ["+v".toList, "n1".toList]
      (get_channel_access (local_user "hop") (some (member_of "hop" CHFL_HALFOP))) MODE_ADD 'v'
      (ModeState.init demo_chan)).chptr.members[2]? = some (member_of "n1" CHFL_VOICE) ∧
    demo_chan.members[2]? = some (member_of "n1" 0) ∧
    (dispatch demo_env (local_user "hop") 2 ["+v".toList, "n1".toList]
      (get_channel_access (local_user "hop") (some (member_of "hop" CHFL_HALFOP))) MODE_ADD 'v'
      (ModeState.init demo_chan)).mode_changes =
      [{ letter := 'v', arg := some "n1".toList, id := some "0AAn1".toList, dir := MODE_ADD,
         flags := 0 }] := by
  decide

/-! ## Error replies are sent once per error bit -/

theorem err_flag_le_one (e g : Nat) : err_flag e g ≤ 1 := by
  unfold err_flag; split_ifs <;> omega

theorem err_flag_mono (e b g : Nat) : err_flag e g ≤ err_flag (e ||| b) g := by
  unfold err_flag
  by_cases h : (e ||| b) &&& g = 0
  · have h0 : e &&& g = 0 := by
      apply Nat.eq_of_testBit_eq
      intro i
      have hi := congrArg (fun n => Nat.testBit n i) h
      simp only [Nat.testBit_and, Nat.testBit_or, Nat.zero_testBit] at hi ⊢
      cases he : e.testBit i <;> cases hg : g.testBit i <;> simp_all
    rw [if_pos h, if_pos h0]
  · rw [if_neg h]; split_ifs <;> omega

theorem err_flag_set (e b : Nat) (hb : b ≠ 0) : err_flag (e ||| b) b = 1 := by
  unfold err_flag
  have h : (e ||| b) &&& b = b := by
    apply Nat.eq_of_testBit_eq
    intro i
    simp only [Nat.testBit_and, Nat.testBit_or]
    cases e.testBit i <;> cases b.testBit i <;> rfl
  rw [h, if_neg hb]

theorem err_flag_clear (e b : Nat) (h : e &&& b = 0) : err_flag e b = 0 := by
  unfold err_flag; rw [if_pos h]

theorem count_reply_append (n : Numeric) (a b : List Out) :
    count_reply n (a ++ b) = count_reply n a + count_reply n b := by
  unfold count_reply; exact List.countP_append _ _ _

theorem count_reply_single (n m : Numeric) (args : List (List Char)) :
    count_reply n [Out.numeric m args] = if m = n then 1 else 0 := by
  unfold count_reply
  by_cases h : m = n <;> simp [List.countP_cons, Out.is_reply, h]

/-- Setting an error bit keeps the bound. -/
theorem reply_bound_or (e b : Nat) (out : List Out) (h : reply_bound e out) :
    reply_bound (e ||| b) out := by
  obtain ⟨h1, h2, h3, h4, h5⟩ := h
  have m1 := err_flag_mono e b SM_ERR_UNKNOWN
  have m2 := err_flag_mono e b SM_ERR_NOTOPER
  have m3 := err_flag_mono e b SM_ERR_NOOPS
  have m4 := err_flag_mono e b SM_ERR_ONLYSERVER
  exact ⟨by omega, by omega, by omega, by omega, by omega⟩

/-- Messages other than the five error replies keep the bound. -/
theorem reply_bound_append (e : Nat) (out extra : List Out) (h : reply_bound e out)
    (hx : no_error_reply extra) : reply_bound e (out ++ extra) := by
  obtain ⟨h1, h2, h3, h4, h5⟩ := h
  obtain ⟨x1, x2, x3, x4, x5⟩ := hx
  unfold reply_bound
  simp only [count_reply_append, x1, x2, x3, x4, x5]
  exact ⟨h1, h2, h3, h4, h5⟩

/-- An error reply sent while its bit is clear, together with setting the bit,
keeps the bound. -/
theorem reply_bound_error (e b : Nat) (out : List Out) (n : Numeric) (args : List (List Char))
    (h : reply_bound e out) (hclear : e &&& b = 0)
    (hpair : (n = Numeric.ERR_UNKNOWNMODE ∧ b = SM_ERR_UNKNOWN) ∨
      (n = Numeric.ERR_NOPRIVILEGES ∧ b = SM_ERR_NOTOPER) ∨
      (n = Numeric.ERR_CHANOPRIVSNEEDED ∧ b = SM_ERR_NOOPS) ∨
      (n = Numeric.ERR_NOTONCHANNEL ∧ b = SM_ERR_NOOPS) ∨
      (n = Numeric.ERR_ONLYSERVERSCANCHANGE ∧ b = SM_ERR_ONLYSERVER) ∨
      (n = Numeric.ERR_NOTONCHANNEL ∧ b = SM_ERR_ONLYSERVER)) :
    reply_bound (e ||| b) (out ++ [Out.numeric n args]) := by
  obtain ⟨h1, h2, h3, h4, h5⟩ := h
  have m1 := err_flag_mono e b SM_ERR_UNKNOWN
  have m2 := err_flag_mono e b SM_ERR_NOTOPER
  have m3 := err_flag_mono e b SM_ERR_NOOPS
  have m4 := err_flag_mono e b SM_ERR_ONLYSERVER
  have c0 := err_flag_clear e b hclear
  unfold reply_bound
  simp only [count_reply_append, count_reply_single]
  rcases hpair with ⟨rfl, hb⟩ | ⟨rfl, hb⟩ | ⟨rfl, hb⟩ | ⟨rfl, hb⟩ | ⟨rfl, hb⟩ | ⟨rfl, hb⟩
  all_goals
    have hb0 : b ≠ 0 := by rw [hb]; decide
    have s1 := err_flag_set e b hb0
    subst hb
    simp only [reduceCtorEq, if_true, if_false, eq_self_iff_true]
    refine ⟨?_, ?_, ?_, ?_, ?_⟩ <;> omega

theorem no_error_nil : no_error_reply [] := ⟨rfl, rfl, rfl, rfl, rfl⟩

theorem no_error_single (n : Numeric) (args : List (List Char)) (h : not_error n) :
    no_error_reply [Out.numeric n args] := by
  obtain ⟨h1, h2, h3, h4, h5⟩ := h
  unfold no_error_reply
  simp only [count_reply_single, if_neg h1, if_neg h2, if_neg h3, if_neg h4, if_neg h5, and_self]

theorem no_error_append (a b : List Out) (ha : no_error_reply a) (hb : no_error_reply b) :
    no_error_reply (a ++ b) := by
  obtain ⟨a1, a2, a3, a4, a5⟩ := ha
  obtain ⟨b1, b2, b3, b4, b5⟩ := hb
  unfold no_error_reply
  simp only [count_reply_append, a1, a2, a3, a4, a5, b1, b2, b3, b4, b5, and_self]

theorem no_error_entries (rpl : Numeric) (chptr : Channel) (alev : Int) (list : List Ban)
    (h : not_error rpl) : no_error_reply (list_entries rpl chptr alev list) := by
  unfold list_entries
  induction list with
  | nil => exact no_error_nil
  | cons ban rest ih =>
    rw [List.filterMap_cons]
    by_cases c : ¬ HasCMode chptr MODE_HIDEBMASKS = true ∨ alev ≥ CHACCESS_HALFOP
    · simp only [if_pos c]
      exact no_error_append [_] _ (no_error_single _ _ h) (by simpa only [if_pos c] using ih)
    · simp only [if_neg c]
      simpa only [if_neg c] using ih

theorem add_id_eq (env : Env) (client_p : Client) (chptr : Channel) (banid : List Char)
    (type : Nat) :
    add_id env client_p chptr banid type =
      if MyClient client_p = true ∧ ban_capacity env chptr ≤ num_mask chptr then
        some { ret := 0, chptr := chptr, banid := banid,
               out := [Out.numeric Numeric.ERR_BANLISTFULL [chptr.name, banid]] }
      else
        match select_list chptr type with
        | none => none
        | some (chptr1, list) =>
          if list.any (triple_matches env (add_triple env client_p banid)) then
            some { ret := 0, chptr := chptr1,
                   banid := canonical_mask env (add_triple env client_p banid), out := [] }
          else
            some { ret := 1,
                   chptr := store_list chptr1 type
                     (new_ban env client_p (add_triple env client_p banid) :: list),
                   banid := canonical_mask env (add_triple env client_p banid), out := [] } := by
  rfl

theorem del_id_eq (env : Env) (chptr : Channel) (banid : List Char) (type : Nat) :
    del_id env chptr banid type =
      match select_list chptr type with
      | none => none
      | some (chptr1, list) =>
        if list.any (triple_matches env (del_triple env banid)) then
          some { ret := 1,
                 chptr := store_list chptr1 type
                   (list.eraseP (triple_matches env (del_triple env banid))),
                 banid := canonical_mask env (del_triple env banid), out := [] }
        else
          some { ret := 0, chptr := chptr1, banid := canonical_mask env (del_triple env banid),
                 out := [] } := by
  rfl

theorem add_id_out (env : Env) (client_p : Client) (chptr : Channel) (banid : List Char)
    (type : Nat) (r : IdResult) (h : add_id env client_p chptr banid type = some r) :
    r.out = [] ∨ r.out = [Out.numeric Numeric.ERR_BANLISTFULL [chptr.name, banid]] := by
  rw [add_id_eq] at h
  by_cases c : MyClient client_p = true ∧ ban_capacity env chptr ≤ num_mask chptr
  · rw [if_pos c] at h
    simp only [Option.some.injEq] at h; subst h; exact Or.inr rfl
  · rw [if_neg c] at h
    cases hs : select_list chptr type with
    | none => rw [hs] at h; cases h
    | some pr =>
      obtain ⟨chptr1, list⟩ := pr
      rw [hs] at h
      dsimp only at h
      by_cases d : list.any (triple_matches env (add_triple env client_p banid)) = true
      · rw [if_pos d] at h
        simp only [Option.some.injEq] at h; subst h; exact Or.inl rfl
      · rw [if_neg d] at h
        simp only [Option.some.injEq] at h; subst h; exact Or.inl rfl

theorem del_id_out (env : Env) (chptr : Channel) (banid : List Char)
    (type : Nat) (r : IdResult) (h : del_id env chptr banid type = some r) : r.out = [] := by
  rw [del_id_eq] at h
  cases hs : select_list chptr type with
  | none => rw [hs] at h; cases h
  | some pr =>
    obtain ⟨chptr1, list⟩ := pr
    rw [hs] at h
    dsimp only at h
    by_cases d : list.any (triple_matches env (del_triple env banid)) = true
    · rw [if_pos d] at h
      simp only [Option.some.injEq] at h; subst h; rfl
    · rw [if_neg d] at h
      simp only [Option.some.injEq] at h; subst h; rfl

theorem bounded_reject (alev : Int) (st : ModeState) (h : bounded st) :
    bounded (reject_noops alev st) := by
  rw [reject_noops_eq]
  unfold bounded noops_reply
  dsimp only
  by_cases hc : st.errors &&& SM_ERR_NOOPS = 0
  · rw [if_pos hc]
    apply reply_bound_error _ _ _ _ _ h hc
    by_cases ha : alev = CHACCESS_NOTONCHAN
    · simp [ha]
    · simp [ha]
  · rw [if_neg hc, List.append_nil]
    exact reply_bound_or _ _ _ h

theorem bounded_nosuch (c : Char) (st : ModeState) (h : bounded st) :
    bounded (chm_nosuch c st) := by
  unfold chm_nosuch
  by_cases hc : st.errors &&& SM_ERR_UNKNOWN ≠ 0
  · rw [if_pos hc]; exact h
  · rw [if_neg hc]
    exact reply_bound_error _ _ _ _ _ h (not_not.mp hc) (Or.inl ⟨rfl, rfl⟩)

theorem bounded_simple (source_p : Client) (alev : Int) (dir : Nat) (mode : chan_mode)
    (st : ModeState) (h : bounded st) : bounded (chm_simple source_p alev dir mode st) := by
  unfold chm_simple
  by_cases g1 : mode.only_opers ≠ 0 ∧ MyClient source_p = true ∧ ¬ source_p.umode_oper = true
  · rw [if_pos g1]
    by_cases hc : st.errors &&& SM_ERR_NOTOPER = 0
    · simp only [if_pos hc]
      exact reply_bound_error _ _ _ _ _ h hc (Or.inr (Or.inl ⟨rfl, rfl⟩))
    · simp only [if_neg hc]
      exact reply_bound_or _ _ _ h
  rw [if_neg g1]
  by_cases g2 : mode.only_servers ≠ 0 ∧ ¬ source_p.is_server = true ∧
      ¬ source_p.flag_service = true
  · rw [if_pos g2]
    by_cases hc : st.errors &&& SM_ERR_ONLYSERVER = 0
    · simp only [if_pos hc]
      apply reply_bound_error _ _ _ _ _ h hc
      by_cases ha : alev = CHACCESS_NOTONCHAN
      · simp [ha]
      · simp [ha]
    · simp only [if_neg hc]
      exact reply_bound_or _ _ _ h
  rw [if_neg g2]
  by_cases g3 : alev < CHACCESS_HALFOP
  · rw [if_pos g3]; exact bounded_reject alev st h
  rw [if_neg g3]
  unfold bounded at h ⊢
  dsimp only
  split_ifs <;> exact h

theorem bounded_apply (type : Nat) (env : Env) (source_p : Client) (dir : Nat)
    (mode : chan_mode) (mask : List Char) (st : ModeState) (h : bounded st) :
    bounded (list_apply type env source_p dir mode mask st) := by
  have key : ∀ r : IdResult, no_error_reply r.out →
      bounded (if r.ret = 0 then { st with chptr := r.chptr, out := st.out ++ r.out }
        else ({ st with chptr := r.chptr, out := st.out ++ r.out }).record
          { letter := mode.letter, arg := some r.banid, id := none,
            flags := if HasCMode r.chptr MODE_HIDEBMASKS then CHFL_CHANOP ||| CHFL_HALFOP else 0,
            dir := dir }) := by
    intro r hr
    unfold bounded
    split_ifs <;> exact reply_bound_append _ _ _ h hr
  unfold list_apply
  by_cases hadd : dir = MODE_ADD
  · simp only [if_pos hadd]
    cases hres : add_id env source_p st.chptr mask type with
    | none => exact h
    | some r =>
      refine key r ?_
      rcases add_id_out _ _ _ _ _ _ hres with ho | ho <;> rw [ho]
      · exact no_error_nil
      · exact no_error_single _ _ (by unfold not_error; decide)
  · simp only [if_neg hadd]
    by_cases hdel : dir = MODE_DEL
    · simp only [if_pos hdel]
      cases hres : del_id env st.chptr mask type with
      | none => exact h
      | some r =>
        refine key r ?_
        rw [del_id_out _ _ _ _ _ hres]
        exact no_error_nil
    · simp only [if_neg hdel]
      exact key { ret := 1, chptr := st.chptr, banid := mask, out := [] } no_error_nil

theorem bounded_list (errbit : Nat) (list : Channel → List Ban) (rpl rpl_end : Numeric)
    (type : Nat) (env : Env) (source_p : Client) (parc : Nat)
    (parv : List (List Char)) (alev : Int) (dir : Nat) (mode : chan_mode) (st : ModeState)
    (hr : not_error rpl) (hre : not_error rpl_end) (h : bounded st) :
    bounded (chm_list errbit list rpl rpl_end type env source_p parc parv alev dir mode st) := by
  unfold chm_list
  by_cases hq : dir = MODE_QUERY ∨ parc ≤ st.parn
  · rw [if_pos hq]
    by_cases he : st.errors &&& errbit ≠ 0
    · rw [if_pos he]; exact h
    · rw [if_neg he]
      unfold bounded
      dsimp only
      rw [List.append_assoc]
      exact reply_bound_append _ _ _ (reply_bound_or _ _ _ h)
        (no_error_append _ _ (no_error_entries _ _ _ _ hr) (no_error_single _ _ hre))
  rw [if_neg hq]
  by_cases g3 : alev < CHACCESS_HALFOP
  · rw [if_pos g3]; exact bounded_reject alev st h
  rw [if_neg g3]
  dsimp only
  split_ifs
  all_goals first
    | exact h
    | exact bounded_apply _ _ _ _ _ _ _ h

theorem bounded_rank (need : Int) (flag : Nat) (env : Env)
    (source_p : Client) (parc : Nat) (parv : List (List Char)) (alev : Int) (dir : Nat)
    (mode : chan_mode) (st : ModeState) (h : bounded st) :
    bounded (chm_rank need flag env source_p parc parv alev dir mode st) := by
  unfold chm_rank
  by_cases g : alev < need
  · rw [if_pos g]; exact bounded_reject alev st h
  rw [if_neg g]
  by_cases hq : dir = MODE_QUERY ∨ parc ≤ st.parn
  · rw [if_pos hq]; exact h
  rw [if_neg hq]
  dsimp only
  cases env.find_chasing source_p (parv.getD st.parn []) with
  | none =>
    exact reply_bound_append _ _ _ h (no_error_single _ _ (by unfold not_error; decide))
  | some target_p =>
    dsimp only
    cases find_channel_link target_p st.chptr with
    | none =>
      dsimp only
      unfold bounded
      split_ifs
      · exact reply_bound_or _ _ _ (reply_bound_append _ _ _ h
          (no_error_single _ _ (by unfold not_error; decide)))
      · exact reply_bound_or _ _ _ h
    | some pr =>
      obtain ⟨i, member⟩ := pr
      dsimp only
      unfold bounded at h ⊢
      split_ifs <;> exact h

theorem bounded_limit (env : Env) (parc : Nat) (parv : List (List Char)) (alev : Int)
    (dir : Nat) (mode : chan_mode) (st : ModeState) (h : bounded st) :
    bounded (chm_limit env parc parv alev dir mode st) := by
  unfold chm_limit
  by_cases g : alev < CHACCESS_HALFOP
  · rw [if_pos g]; exact bounded_reject alev st h
  rw [if_neg g]
  unfold bounded at h ⊢
  dsimp only
  split_ifs <;> exact h

theorem bounded_key (env : Env) (parc : Nat) (parv : List (List Char)) (alev : Int)
    (dir : Nat) (mode : chan_mode) (st : ModeState) (h : bounded st) :
    bounded (chm_key env parc parv alev dir mode st) := by
  unfold chm_key
  by_cases g : alev < CHACCESS_HALFOP
  · rw [if_pos g]; exact bounded_reject alev st h
  rw [if_neg g]
  unfold bounded at h ⊢
  dsimp only
  split_ifs <;> exact h

theorem bounded_handler (env : Env) (source_p : Client) (parc : Nat)
    (parv : List (List Char)) (alev : Int) (dir : Nat) (mode : chan_mode) (st : ModeState)
    (h : bounded st) : bounded (call_handler env source_p parc parv alev dir mode st) := by
  unfold call_handler
  cases mode.func with
  | chm_simple => exact bounded_simple source_p alev dir mode st h
  | chm_ban =>
    exact bounded_list _ _ _ _ _ env source_p parc parv alev dir mode st
      (by unfold not_error; decide) (by unfold not_error; decide) h
  | chm_except =>
    exact bounded_list _ _ _ _ _ env source_p parc parv alev dir mode st
      (by unfold not_error; decide) (by unfold not_error; decide) h
  | chm_invex =>
    exact bounded_list _ _ _ _ _ env source_p parc parv alev dir mode st
      (by unfold not_error; decide) (by unfold not_error; decide) h
  | chm_voice => exact bounded_rank _ _ env source_p parc parv alev dir mode st h
  | chm_hop => exact bounded_rank _ _ env source_p parc parv alev dir mode st h
  | chm_op => exact bounded_rank _ _ env source_p parc parv alev dir mode st h
  | chm_limit => exact bounded_limit env parc parv alev dir mode st h
  | chm_key => exact bounded_key env parc parv alev dir mode st h

theorem foldl_invariant {α β : Type} (P : α → Prop) (f : α → β → α)
    (hstep : ∀ a b, P a → P (f a b)) : ∀ (l : List β) (a : α), P a → P (l.foldl f a) := by
  intro l
  induction l with
  | nil => intro a h; exact h
  | cons b rest ih => intro a h; exact ih _ (hstep a b h)

theorem count_reply_of_not_numeric (n : Numeric) (l : List Out)
    (h : ∀ o ∈ l, o.is_numeric = false) : count_reply n l = 0 := by
  unfold count_reply
  rw [List.countP_eq_zero]
  intro o ho
  have := h o ho
  cases o <;> simp_all [Out.is_numeric, Out.is_reply]

theorem line_append_sent (arg : Option (List Char)) (mc : ChModeChange) (s : LineState) :
    (line_append arg mc s).sent = s.sent := by
  unfold line_append
  cases arg <;> dsimp only <;> split_ifs <;> rfl

theorem line_step_sent (env : Env) (header : List Char) (emit : List Char → List Char → Out)
    (arg : Option (List Char)) (mc : ChModeChange) (s : LineState)
    (hemit : ∀ a b, (emit a b).is_numeric = false)
    (h : ∀ o ∈ s.sent, o.is_numeric = false) :
    ∀ o ∈ (line_step env header emit arg mc s).sent, o.is_numeric = false := by
  unfold line_step
  rw [line_append_sent]
  unfold line_flush
  dsimp only
  intro o ho
  split_ifs at ho
  · rw [List.mem_append, List.mem_singleton] at ho
    rcases ho with ho | ho
    · exact h o ho
    · rw [ho]; exact hemit _ _
  · exact h o ho
  · exact h o ho

theorem lines_not_numeric (env : Env) (header : List Char)
    (emit : List Char → List Char → Out) (hemit : ∀ a b, (emit a b).is_numeric = false)
    (step : LineState → ChModeChange → LineState)
    (hstep : ∀ s mc, step s mc = s ∨ ∃ arg, step s mc = line_step env header emit arg mc s)
    (changes : List ChModeChange) :
    ∀ o ∈ line_finish emit (changes.foldl step (LineState.init header)),
      o.is_numeric = false := by
  have hinv : ∀ o ∈ (changes.foldl step (LineState.init header)).sent,
      o.is_numeric = false := by
    apply foldl_invariant (fun s : LineState => ∀ o ∈ s.sent, o.is_numeric = false)
    · intro s mc h
      rcases hstep s mc with e | ⟨arg, e⟩ <;> rw [e]
      · exact h
      · exact line_step_sent env header emit arg mc s hemit h
    · intro o ho; simp [LineState.init] at ho
  unfold line_finish
  intro o ho
  split_ifs at ho
  · rw [List.mem_append, List.mem_singleton] at ho
    rcases ho with ho | ho
    · exact hinv o ho
    · rw [ho]; exact hemit _ _
  · exact hinv o ho

theorem propagation_not_numeric (env : Env) (source_p : Client) (chptr : Channel)
    (changes : List ChModeChange) :
    ∀ o ∈ send_mode_changes_client env source_p chptr changes ++
      send_mode_changes_server env source_p chptr changes, o.is_numeric = false := by
  intro o ho
  simp only [send_mode_changes_client, List.mem_append] at ho
  rcases ho with (ho | ho) | ho
  · refine lines_not_numeric env (client_header env source_p chptr) (Out.channel_local 0)
      (fun _ _ => rfl) _ ?_ changes o ho
    intro s mc
    by_cases c : mc.letter = Char.ofNat 0 ∨ mc.flags ≠ 0
    · left; rw [if_pos c]
    · right; exact ⟨mc.arg, by rw [if_neg c]⟩
  · refine lines_not_numeric env (client_header env source_p chptr)
      (Out.channel_local (CHFL_CHANOP ||| CHFL_HALFOP)) (fun _ _ => rfl) _ ?_ changes o ho
    intro s mc
    by_cases c : mc.letter = Char.ofNat 0 ∨ mc.flags ≠ CHFL_CHANOP ||| CHFL_HALFOP
    · left; rw [if_pos c]
    · right; exact ⟨mc.arg, by rw [if_neg c]⟩
  · refine lines_not_numeric env (server_header source_p chptr) Out.server
      (fun _ _ => rfl) _ ?_ changes o ho
    intro s mc
    by_cases c : mc.letter = Char.ofNat 0
    · left; rw [if_pos c]
    · right; exact ⟨server_arg mc, by rw [if_neg c]⟩

/-- The replies of `set_channel_mode` are those of the scan. -/
theorem count_reply_set_channel_mode (n : Numeric) (env : Env) (source_p : Client)
    (chptr : Channel) (member : Option Membership) (parc : Nat) (parv : List (List Char)) :
    count_reply n (set_channel_mode env source_p chptr member parc parv).out =
      count_reply n (scan_modes env source_p chptr member parc parv).out := by
  unfold set_channel_mode
  dsimp only
  split_ifs
  · rfl
  · show count_reply n (_ ++ _ ++ _) = _
    rw [List.append_assoc, count_reply_append,
      count_reply_of_not_numeric n _ (propagation_not_numeric env source_p _ _)]
    rfl

/-- C4 (as the code has it). In one `set_channel_mode` call the replies
unknown-mode, not-privileged, insufficient-rank and server-only are each sent
at most once, and not-on-channel at most twice (once by the rank gate, once
by the server-only gate), for every requester, channel and mode string. The
list-full reply is not deduplicated. -/
theorem error_replies_bounded (env : Env) (source_p : Client) (chptr : Channel)
    (member : Option Membership) (parc : Nat) (parv : List (List Char)) :
    count_reply Numeric.ERR_UNKNOWNMODE
      (set_channel_mode env source_p chptr member parc parv).out ≤ 1 ∧
    count_reply Numeric.ERR_NOPRIVILEGES
      (set_channel_mode env source_p chptr member parc parv).out ≤ 1 ∧
    count_reply Numeric.ERR_CHANOPRIVSNEEDED
      (set_channel_mode env source_p chptr member parc parv).out ≤ 1 ∧
    count_reply Numeric.ERR_ONLYSERVERSCANCHANGE
      (set_channel_mode env source_p chptr member parc parv).out ≤ 1 ∧
    count_reply Numeric.ERR_NOTONCHANNEL
      (set_channel_mode env source_p chptr member parc parv).out ≤ 2 := by
  have hscan : bounded (scan_modes env source_p chptr member parc parv) := by
    unfold scan_modes
    apply mode_loop_invariant bounded
    · exact fun c st h => bounded_nosuch c st h
    · exact fun mode _ dir st h => bounded_handler env source_p parc parv _ dir mode st h
    · exact ⟨Nat.zero_le _, Nat.zero_le _, Nat.zero_le _, Nat.zero_le _, Nat.zero_le _⟩
  obtain ⟨h1, h2, h3, h4, h5⟩ := hscan
  simp only [count_reply_set_channel_mode]
  have f1 := err_flag_le_one (scan_modes env source_p chptr member parc parv).errors
    SM_ERR_UNKNOWN
  have f2 := err_flag_le_one (scan_modes env source_p chptr member parc parv).errors
    SM_ERR_NOTOPER
  have f3 := err_flag_le_one (scan_modes env source_p chptr member parc parv).errors
    SM_ERR_NOOPS
  have f4 := err_flag_le_one (scan_modes env source_p chptr member parc parv).errors
    SM_ERR_ONLYSERVER
  refine ⟨?_, ?_, ?_, ?_, ?_⟩ <;> omega

/-- C4, counterexample. A local user who is not on the channel sends `+rn`:
the server-only gate of `r` and the rank gate of `n` each reply not-on-channel.
The operator of a channel whose lists hold two masks, the capacity, sends
`+bb c d`: both adds are answered with a list-full reply. -/
theorem error_reply_twice_counterexample :
    count_reply Numeric.ERR_NOTONCHANNEL
      (set_channel_mode demo_env (local_user "x") demo_chan none 1 ["+rn".toList]).out = 2 ∧
    count_reply Numeric.ERR_BANLISTFULL
      (set_channel_mode demo_env (local_user "op") demo_chan (some (member_of "op" CHFL_CHANOP)) 5
        ["+bbbb".toList, "a".toList, "b".toList, "c".toList, "d".toList]).out = 2 := by
  decide

/-! ## The parameter limit of a local requester -/

theorem counted_append (cs : List ChModeChange) (mc : ChModeChange) :
    counted_changes (cs ++ [mc]) =
      counted_changes cs + if counted_letter mc.letter then 1 else 0 := by
  unfold counted_changes
  rw [List.countP_append, List.countP_cons, List.countP_nil, Nat.zero_add]

theorem counted_void (letter : Char) (cs : List ChModeChange) :
    counted_changes (void_earlier letter cs) ≤ counted_changes cs := by
  unfold counted_changes void_earlier
  rw [List.countP_map]
  apply List.countP_mono_left
  intro mc _ h
  simp only [Function.comp] at h
  split_ifs at h
  · exact absurd h (by simp [show counted_letter (Char.ofNat 0) = false from by decide])
  · exact h

theorem within_limit_reject (alev : Int) (st : ModeState) (h : within_limit st) :
    within_limit (reject_noops alev st) := by
  rw [reject_noops_eq]; exact h

theorem within_limit_nosuch (c : Char) (st : ModeState) (h : within_limit st) :
    within_limit (chm_nosuch c st) := by
  unfold chm_nosuch
  split_ifs
  · exact h
  · exact h

theorem within_limit_record (st : ModeState) (mc : ChModeChange)
    (hl : counted_letter mc.letter = false) (h : within_limit st) :
    within_limit (st.record mc) := by
  unfold within_limit at h ⊢
  simp only [record_mode_changes, record_mode_limit, counted_append, hl, Bool.false_eq_true,
    if_false, Nat.add_zero]
  exact h

theorem within_limit_simple (source_p : Client) (alev : Int) (dir : Nat) (mode : chan_mode)
    (st : ModeState) (hl : counted_letter mode.letter = false) (h : within_limit st) :
    within_limit (chm_simple source_p alev dir mode st) := by
  have hrec : ∀ st1 : ModeState, within_limit st1 →
      within_limit (st1.record
        { letter := mode.letter, arg := none, id := none, flags := 0, dir := dir }) :=
    fun st1 h1 => within_limit_record st1 _ hl h1
  unfold chm_simple
  by_cases g1 : mode.only_opers ≠ 0 ∧ MyClient source_p = true ∧ ¬ source_p.umode_oper = true
  · rw [if_pos g1]; dsimp only; split_ifs <;> exact h
  rw [if_neg g1]
  by_cases g2 : mode.only_servers ≠ 0 ∧ ¬ source_p.is_server = true ∧
      ¬ source_p.flag_service = true
  · rw [if_pos g2]; dsimp only; split_ifs <;> exact h
  rw [if_neg g2]
  by_cases g3 : alev < CHACCESS_HALFOP
  · rw [if_pos g3]; exact within_limit_reject alev st h
  rw [if_neg g3]
  dsimp only
  split_ifs
  all_goals first
    | exact h
    | exact hrec _ h

/-- A handler step that has incremented `mode_limit` to at most
`MAXMODEPARAMS` keeps the bound. -/
theorem within_limit_bump (st st2 : ModeState) (h : within_limit st)
    (hl : st2.mode_limit = st.mode_limit + 1)
    (hc : st2.mode_changes = st.mode_changes) : within_limit st2 := by
  unfold within_limit at h ⊢
  rw [hc, hl]
  exact ⟨Nat.le_succ_of_le h.1, h.2⟩

/-- A handler step that has incremented `mode_limit` to at most
`MAXMODEPARAMS` may record one change. -/
theorem within_limit_bump_record (st st2 : ModeState) (mc : ChModeChange) (h : within_limit st)
    (hl : st2.mode_limit = st.mode_limit + 1) (hle : st.mode_limit + 1 ≤ MAXMODEPARAMS)
    (hc : st2.mode_changes = st.mode_changes) : within_limit (st2.record mc) := by
  unfold within_limit at h ⊢
  simp only [record_mode_changes, record_mode_limit, counted_append, hc, hl]
  obtain ⟨h1, h2⟩ := h
  refine ⟨?_, ?_⟩ <;> split_ifs <;> omega

theorem within_limit_apply (type : Nat) (env : Env) (source_p : Client) (dir : Nat)
    (mode : chan_mode) (mask : List Char) (st st2 : ModeState) (h : within_limit st)
    (hl : st2.mode_limit = st.mode_limit + 1) (hle : st.mode_limit + 1 ≤ MAXMODEPARAMS)
    (hc : st2.mode_changes = st.mode_changes) :
    within_limit (list_apply type env source_p dir mode mask st2) := by
  have key : ∀ (r : IdResult) (mc : ChModeChange),
      within_limit (if r.ret = 0 then { st2 with chptr := r.chptr, out := st2.out ++ r.out }
        else ({ st2 with chptr := r.chptr, out := st2.out ++ r.out }).record mc) := by
    intro r mc
    by_cases hr : r.ret = 0
    · rw [if_pos hr]; exact within_limit_bump st _ h hl hc
    · rw [if_neg hr]; exact within_limit_bump_record st _ mc h hl hle hc
  have h2 : within_limit st2 := within_limit_bump st st2 h hl hc
  unfold list_apply
  by_cases hadd : dir = MODE_ADD
  · simp only [if_pos hadd]
    cases add_id env source_p st2.chptr mask type with
    | none => exact h2
    | some r => exact key r _
  · simp only [if_neg hadd]
    by_cases hdel : dir = MODE_DEL
    · simp only [if_pos hdel]
      cases del_id env st2.chptr mask type with
      | none => exact h2
      | some r => exact key r _
    · simp only [if_neg hdel]
      exact key { ret := 1, chptr := st2.chptr, banid := mask, out := [] } _

theorem within_limit_list (errbit : Nat) (list : Channel → List Ban) (rpl rpl_end : Numeric)
    (type : Nat) (env : Env) (source_p : Client) (parc : Nat)
    (parv : List (List Char)) (alev : Int) (dir : Nat) (mode : chan_mode) (st : ModeState)
    (hloc : MyClient source_p = true) (h : within_limit st) :
    within_limit
      (chm_list errbit list rpl rpl_end type env source_p parc parv alev dir mode st) := by
  unfold chm_list
  by_cases hq : dir = MODE_QUERY ∨ parc ≤ st.parn
  · rw [if_pos hq]; split_ifs <;> exact h
  rw [if_neg hq]
  by_cases g3 : alev < CHACCESS_HALFOP
  · rw [if_pos g3]; exact within_limit_reject alev st h
  rw [if_neg g3]
  simp only [hloc, if_true, true_and]
  by_cases hlim : st.mode_limit + 1 > MAXMODEPARAMS
  · rw [if_pos hlim]
    exact within_limit_bump st _ h rfl rfl
  rw [if_neg hlim]
  have hle : st.mode_limit + 1 ≤ MAXMODEPARAMS := Nat.le_of_not_gt hlim
  split_ifs
  · exact within_limit_bump st _ h rfl rfl
  · exact within_limit_apply type env source_p dir mode _ st _ h rfl hle rfl

theorem within_limit_rank (need : Int) (flag : Nat) (env : Env)
    (source_p : Client) (parc : Nat) (parv : List (List Char)) (alev : Int) (dir : Nat)
    (mode : chan_mode) (st : ModeState) (hloc : MyClient source_p = true)
    (h : within_limit st) :
    within_limit (chm_rank need flag env source_p parc parv alev dir mode st) := by
  unfold chm_rank
  by_cases g : alev < need
  · rw [if_pos g]; exact within_limit_reject alev st h
  rw [if_neg g]
  by_cases hq : dir = MODE_QUERY ∨ parc ≤ st.parn
  · rw [if_pos hq]; exact h
  rw [if_neg hq]
  dsimp only
  cases env.find_chasing source_p (parv.getD st.parn []) with
  | none => exact h
  | some target_p =>
    dsimp only
    cases find_channel_link target_p st.chptr with
    | none => dsimp only; split_ifs <;> exact h
    | some pr =>
      obtain ⟨i, member⟩ := pr
      simp only [hloc, if_true, true_and]
      by_cases hlim : st.mode_limit + 1 > MAXMODEPARAMS
      · rw [if_pos hlim]
        exact within_limit_bump st _ h rfl rfl
      rw [if_neg hlim]
      have hle : st.mode_limit + 1 ≤ MAXMODEPARAMS := Nat.le_of_not_gt hlim
      split_ifs
      all_goals first
        | exact within_limit_bump st _ h rfl rfl
        | exact within_limit_bump_record st _ _ h rfl hle rfl

theorem within_limit_void (st st2 : ModeState) (letter : Char) (mc : ChModeChange)
    (h : within_limit st) (hm : st2.mode_limit = st.mode_limit)
    (hc : st2.mode_changes = void_earlier letter st.mode_changes ++ [mc])
    (hl : counted_letter mc.letter = false) : within_limit st2 := by
  unfold within_limit at h ⊢
  rw [hc, hm]
  simp only [counted_append, hl, Bool.false_eq_true, if_false, Nat.add_zero]
  have := counted_void letter st.mode_changes
  exact ⟨by omega, by omega⟩

theorem within_limit_limit (env : Env) (parc : Nat) (parv : List (List Char)) (alev : Int)
    (dir : Nat) (mode : chan_mode) (st : ModeState)
    (hl : counted_letter mode.letter = false) (h : within_limit st) :
    within_limit (chm_limit env parc parv alev dir mode st) := by
  unfold chm_limit
  by_cases g : alev < CHACCESS_HALFOP
  · rw [if_pos g]; exact within_limit_reject alev st h
  rw [if_neg g]
  dsimp only
  split_ifs
  all_goals first
    | exact h
    | exact within_limit_record _ _ hl h
    | exact within_limit_void st _ _ _ h rfl rfl hl

theorem within_limit_key (env : Env) (parc : Nat) (parv : List (List Char)) (alev : Int)
    (dir : Nat) (mode : chan_mode) (st : ModeState)
    (hl : counted_letter mode.letter = false) (h : within_limit st) :
    within_limit (chm_key env parc parv alev dir mode st) := by
  unfold chm_key
  by_cases g : alev < CHACCESS_HALFOP
  · rw [if_pos g]; exact within_limit_reject alev st h
  rw [if_neg g]
  dsimp only
  split_ifs
  all_goals first
    | exact h
    | exact within_limit_record _ _ hl h
    | exact within_limit_void st _ _ _ h rfl rfl hl

/-- The letters of the simple, limit and key entries of `cmode_tab` are not
letters of a list or rank handler. -/
theorem cmode_tab_letters : ∀ mode ∈ cmode_tab,
    (mode.func = ChmFunc.chm_simple ∨ mode.func = ChmFunc.chm_limit ∨
      mode.func = ChmFunc.chm_key) → counted_letter mode.letter = false := by
  decide

theorem within_limit_handler (env : Env) (source_p : Client) (parc : Nat)
    (parv : List (List Char)) (alev : Int) (dir : Nat) (mode : chan_mode) (st : ModeState)
    (hmode : mode ∈ cmode_tab) (hloc : MyClient source_p = true) (h : within_limit st) :
    within_limit (call_handler env source_p parc parv alev dir mode st) := by
  have hl := cmode_tab_letters mode hmode
  unfold call_handler
  cases hf : mode.func with
  | chm_simple =>
    exact within_limit_simple source_p alev dir mode st (hl (Or.inl hf)) h
  | chm_ban => exact within_limit_list _ _ _ _ _ env source_p parc parv alev dir mode st hloc h
  | chm_except =>
    exact within_limit_list _ _ _ _ _ env source_p parc parv alev dir mode st hloc h
  | chm_invex =>
    exact within_limit_list _ _ _ _ _ env source_p parc parv alev dir mode st hloc h
  | chm_voice => exact within_limit_rank _ _ env source_p parc parv alev dir mode st hloc h
  | chm_hop => exact within_limit_rank _ _ env source_p parc parv alev dir mode st hloc h
  | chm_op => exact within_limit_rank _ _ env source_p parc parv alev dir mode st hloc h
  | chm_limit =>
    exact within_limit_limit env parc parv alev dir mode st (hl (Or.inr (Or.inl hf))) h
  | chm_key =>
    exact within_limit_key env parc parv alev dir mode st (hl (Or.inr (Or.inr hf))) h

/-- C1 (as the code has it). For every local requester, channel and mode
string with arguments, one `set_channel_mode` call records at most 6
(`MAXMODEPARAMS`) changes through the list handlers (`b`, `e`, `I`) and the
rank handlers (`o`, `h`, `v`) together. The limit and key handlers do not take
part in this count. -/
theorem counted_changes_le_max (env : Env) (source_p : Client) (chptr : Channel)
    (member : Option Membership) (parc : Nat) (parv : List (List Char))
    (hloc : MyClient source_p = true) :
    counted_changes (set_channel_mode env source_p chptr member parc parv).mode_changes ≤
      MAXMODEPARAMS := by
  have hscan : within_limit (scan_modes env source_p chptr member parc parv) := by
    unfold scan_modes
    apply mode_loop_invariant within_limit
    · exact fun c st h => within_limit_nosuch c st h
    · exact fun mode hmode dir st h =>
        within_limit_handler env source_p parc parv _ dir mode st hmode hloc h
    · exact ⟨Nat.zero_le _, Nat.zero_le _⟩
  have : (set_channel_mode env source_p chptr member parc parv).mode_changes =
      (scan_modes env source_p chptr member parc parv).mode_changes := by
    unfold set_channel_mode
    dsimp only
    split_ifs <;> rfl
  rw [this]
  exact hscan.2

/-- C1, counterexample. The local operator `op` sends
`+vvvvvvk n1 n2 n3 n4 n5 n6 key`: the six voice changes and the key change are
all recorded and none is cleared, seven changes that each consumed a parameter. -/
theorem param_changes_counterexample :
    MyClient (local_user "op") = true ∧
    param_changes (set_channel_mode demo_env (local_user "op") demo_chan
      (some (member_of "op" CHFL_CHANOP)) 8
      ["+vvvvvvk".toList, "n1".toList, "n2".toList, "n3".toList, "n4".toList, "n5".toList,
        "n6".toList, "key".toList]).mode_changes = 7 ∧
    ¬ (param_changes (set_channel_mode demo_env (local_user "op") demo_chan
      (some (member_of "op" CHFL_CHANOP)) 8
      ["+vvvvvvk".toList, "n1".toList, "n2".toList, "n3".toList, "n4".toList, "n5".toList,
        "n6".toList, "key".toList]).mode_changes ≤ MAXMODEPARAMS) := by
  decide

/-! ## Splitting the changes into lines -/

theorem foldl_skip {α β : Type} (p : β → Prop) [DecidablePred p] (f : α → β → α) :
    ∀ (l : List β) (a : α),
      l.foldl (fun s b => if p b then s else f s b) a =
        (l.filter (fun b => decide (¬ p b))).foldl f a := by
  intro l
  induction l with
  | nil => intro a; rfl
  | cons b rest ih =>
    intro a
    by_cases h : p b
    · simp only [List.foldl_cons, if_pos h, List.filter_cons, h, not_true_eq_false,
        decide_False, Bool.false_eq_true, if_false]
      exact ih a
    · simp only [List.foldl_cons, if_neg h, List.filter_cons, h, not_false_eq_true,
        decide_True, if_true]
      exact ih _

/-- Appending the changes of a batch to a line writes their letters and their
arguments, and sends nothing. -/
theorem append_batch (argf : ChModeChange → Option (List Char)) :
    ∀ (batch : List ChModeChange) (s : LineState),
      (batch.foldl (fun s mc => line_append (argf mc) mc s) s).modebuf =
        s.modebuf ++ mode_letters s.dir batch ∧
      (batch.foldl (fun s mc => line_append (argf mc) mc s) s).parabuf =
        para_text s.parabuf (batch.filterMap argf) ∧
      (batch.foldl (fun s mc => line_append (argf mc) mc s) s).modecount =
        s.modecount + batch.length ∧
      (batch.foldl (fun s mc => line_append (argf mc) mc s) s).sent = s.sent := by
  intro batch
  induction batch with
  | nil => intro s; simp [mode_letters, para_text]
  | cons mc rest ih =>
    intro s
    obtain ⟨h1, h2, h3, h4⟩ := ih (line_append (argf mc) mc s)
    simp only [List.foldl_cons, h1, h2, h3, h4, line_append_sent]
    have hdir : (line_append (argf mc) mc s).dir = mc.dir := by
      unfold line_append
      cases argf mc <;> dsimp only <;> split_ifs with hd <;>
        first | rfl | exact not_not.mp hd
    have hmb : (line_append (argf mc) mc s).modebuf =
        s.modebuf ++ ((if s.dir ≠ mc.dir then [if mc.dir = MODE_ADD then '+' else '-'] else []) ++
          [mc.letter]) := by
      unfold line_append
      cases argf mc <;> dsimp only <;> by_cases hd : s.dir ≠ mc.dir <;>
        simp only [if_pos hd, if_neg hd, List.append_assoc, List.nil_append]
    have hmc : (line_append (argf mc) mc s).modecount = s.modecount + 1 := by
      unfold line_append
      cases argf mc <;> dsimp only <;> split_ifs <;> rfl
    have hpb : para_text (line_append (argf mc) mc s).parabuf (rest.filterMap argf) =
        para_text s.parabuf ((mc :: rest).filterMap argf) := by
      unfold line_append
      rw [List.filterMap_cons]
      cases argf mc <;> dsimp only <;> by_cases hd : s.dir ≠ mc.dir <;>
        simp only [if_pos hd, if_neg hd, para_text]
    refine ⟨?_, hpb, ?_, trivial⟩
    · rw [hmb, hdir]
      simp only [mode_letters, List.append_assoc, List.singleton_append]
    · rw [hmc, List.length_cons]; omega

/-- Appending the changes of a batch to a line counts their arguments. -/
theorem append_paracount (argf : ChModeChange → Option (List Char)) :
    ∀ (batch : List ChModeChange) (s : LineState),
      (batch.foldl (fun s mc => line_append (argf mc) mc s) s).paracount =
        s.paracount + (batch.filterMap argf).length := by
  intro batch
  induction batch with
  | nil => intro s; rfl
  | cons mc rest ih =>
    intro s
    rw [List.foldl_cons, ih, List.filterMap_cons]
    unfold line_append
    cases argf mc <;> dsimp only <;> split_ifs <;> simp only [List.length_cons] <;> omega

/-- The lines of a formatting loop are the lines of consecutive non-empty
batches of the changes it does not skip, none with more than `MAXMODEPARAMS`
arguments. -/
theorem lines_batches (env : Env) (header : List Char) (emit : List Char → List Char → Out)
    (argf : ChModeChange → Option (List Char)) :
    ∀ (l cur : List ChModeChange) (sent0 : List Out),
      (cur.filterMap argf).length ≤ MAXMODEPARAMS →
      ∃ batches : List (List ChModeChange),
        batches.flatten = cur ++ l ∧ (∀ b ∈ batches, b ≠ []) ∧
        line_finish emit
          (l.foldl (fun s mc => line_step env header emit (argf mc) mc s)
            (cur.foldl (fun s mc => line_append (argf mc) mc s)
              { modebuf := header, parabuf := [], modecount := 0, paracount := 0,
                dir := MODE_QUERY, sent := sent0 })) =
          sent0 ++ batches.map (batch_line emit header argf) ∧
        (∀ b ∈ batches, (b.filterMap argf).length ≤ MAXMODEPARAMS) := by
  have hone : ∀ mc : ChModeChange, ([mc].filterMap argf).length ≤ MAXMODEPARAMS := by
    intro mc
    have h1 := List.length_filterMap_le argf [mc]
    simp only [List.length_singleton] at h1
    exact h1.trans (by decide)
  intro l
  induction l with
  | nil =>
    intro cur sent0 hcount
    obtain ⟨h1, h2, h3, h4⟩ := append_batch argf cur
      { modebuf := header, parabuf := [], modecount := 0, paracount := 0,
        dir := MODE_QUERY, sent := sent0 }
    simp only [Nat.zero_add] at h1 h2 h3 h4
    by_cases hc : cur = []
    · subst hc
      exact ⟨[], rfl, (fun b hb => by cases hb), by simp [line_finish],
        (fun b hb => by cases hb)⟩
    · refine ⟨[cur], by simp, (fun b hb => by rw [List.mem_singleton.mp hb]; exact hc), ?_,
        (fun b hb => by rw [List.mem_singleton.mp hb]; exact hcount)⟩
      have hlen : cur.length ≠ 0 := fun h => hc (List.length_eq_zero.mp h)
      simp only [List.foldl_nil, line_finish, h3, h4, h1, h2, if_pos hlen, List.map_cons,
        List.map_nil, batch_line]
  | cons mc rest ih =>
    intro cur sent0 hcount
    obtain ⟨h1, h2, h3, h4⟩ := append_batch argf cur
      { modebuf := header, parabuf := [], modecount := 0, paracount := 0,
        dir := MODE_QUERY, sent := sent0 }
    have h5 := append_paracount argf cur
      { modebuf := header, parabuf := [], modecount := 0, paracount := 0,
        dir := MODE_QUERY, sent := sent0 }
    simp only [Nat.zero_add] at h1 h2 h3 h4 h5
    rw [List.foldl_cons]
    by_cases hflush :
        (cur.foldl (fun s mc => line_append (argf mc) mc s)
          { modebuf := header, parabuf := [], modecount := 0, paracount := 0,
            dir := MODE_QUERY, sent := sent0 }).paracount = MAXMODEPARAMS ∨
        arg_length (argf mc) +
          (cur.foldl (fun s mc => line_append (argf mc) mc s)
            { modebuf := header, parabuf := [], modecount := 0, paracount := 0,
              dir := MODE_QUERY, sent := sent0 }).modebuf.length +
          (cur.foldl (fun s mc => line_append (argf mc) mc s)
            { modebuf := header, parabuf := [], modecount := 0, paracount := 0,
              dir := MODE_QUERY, sent := sent0 }).parabuf.length + 2 > env.IRCD_BUFSIZE
    · by_cases hcur : cur = []
      · -- nothing is pending, the change opens the line
        obtain ⟨batches, hb1, hb2, hb3, hb4⟩ := ih [mc] sent0 (hone mc)
        have hstep : line_step env header emit (argf mc) mc
            (cur.foldl (fun s mc => line_append (argf mc) mc s)
              { modebuf := header, parabuf := [], modecount := 0, paracount := 0,
                dir := MODE_QUERY, sent := sent0 }) =
            line_append (argf mc) mc
              { modebuf := header, parabuf := [], modecount := 0, paracount := 0,
                dir := MODE_QUERY, sent := sent0 } := by
          have hz : ¬ cur.length ≠ 0 := by rw [hcur]; simp
          unfold line_step line_flush
          dsimp only
          rw [if_pos hflush]
          simp only [h3, h4, if_neg hz]
        rw [hstep]
        refine ⟨batches, ?_, hb2, ?_, hb4⟩
        · rw [hb1, hcur]; rfl
        · simpa only [List.foldl_cons, List.foldl_nil] using hb3
      · -- the pending line is sent, the change opens the next line
        obtain ⟨batches, hb1, hb2, hb3, hb4⟩ :=
          ih [mc] (sent0 ++ [batch_line emit header argf cur]) (hone mc)
        have hstep : line_step env header emit (argf mc) mc
            (cur.foldl (fun s mc => line_append (argf mc) mc s)
              { modebuf := header, parabuf := [], modecount := 0, paracount := 0,
                dir := MODE_QUERY, sent := sent0 }) =
            line_append (argf mc) mc
              { modebuf := header, parabuf := [], modecount := 0, paracount := 0,
                dir := MODE_QUERY, sent := sent0 ++ [batch_line emit header argf cur] } := by
          have hz : cur.length ≠ 0 := fun h => hcur (List.length_eq_zero.mp h)
          unfold line_step line_flush
          dsimp only
          rw [if_pos hflush]
          simp only [h1, h2, h3, h4, if_pos hz, batch_line]
        rw [hstep]
        refine ⟨cur :: batches, ?_, ?_, ?_, ?_⟩
        · rw [List.flatten_cons, hb1]; simp
        · intro b hb
          rcases List.mem_cons.mp hb with h | h
          · rw [h]; exact hcur
          · exact hb2 b h
        · simp only [List.foldl_cons, List.foldl_nil] at hb3
          rw [hb3]
          simp
        · intro b hb
          rcases List.mem_cons.mp hb with h | h
          · rw [h]; exact hcount
          · exact hb4 b h
    · -- the change joins the pending line
      have hroom : ((cur ++ [mc]).filterMap argf).length ≤ MAXMODEPARAMS := by
        have hne : (cur.filterMap argf).length ≠ MAXMODEPARAMS := by
          intro h
          exact hflush (Or.inl (by rw [h5]; exact h))
        have hlt : (cur.filterMap argf).length < MAXMODEPARAMS := lt_of_le_of_ne hcount hne
        rw [List.filterMap_append, List.length_append]
        have h1 := List.length_filterMap_le argf [mc]
        simp only [List.length_singleton] at h1
        omega
      obtain ⟨batches, hb1, hb2, hb3, hb4⟩ := ih (cur ++ [mc]) sent0 hroom
      have hstep : line_step env header emit (argf mc) mc
          (cur.foldl (fun s mc => line_append (argf mc) mc s)
            { modebuf := header, parabuf := [], modecount := 0, paracount := 0,
              dir := MODE_QUERY, sent := sent0 }) =
          line_append (argf mc) mc
            (cur.foldl (fun s mc => line_append (argf mc) mc s)
              { modebuf := header, parabuf := [], modecount := 0, paracount := 0,
                dir := MODE_QUERY, sent := sent0 }) := by
        unfold line_step line_flush
        dsimp only
        rw [if_neg hflush]
      rw [hstep]
      refine ⟨batches, ?_, hb2, ?_, hb4⟩
      · rw [hb1]; simp
      · rw [List.foldl_append] at hb3
        exact hb3

theorem filter_disjoint_perm {α : Type} (p q : α → Bool) (hpq : ∀ a, p a = true → q a = false) :
    ∀ l : List α, (l.filter p ++ l.filter q).Perm (l.filter (fun a => p a || q a)) := by
  intro l
  induction l with
  | nil => exact List.Perm.refl _
  | cons a rest ih =>
    cases hp : p a
    · cases hq : q a
      · simpa [List.filter_cons, hp, hq] using ih
      · simp only [List.filter_cons, hp, hq, Bool.false_eq_true, if_false, if_true,
          Bool.or_true]
        exact List.perm_middle.trans (List.Perm.cons a ih)
    · have hq := hpq a hp
      simp only [List.filter_cons, hp, hq, Bool.false_eq_true, if_false, if_true,
        Bool.true_or, List.cons_append]
      exact List.Perm.cons a ih

/-- The lines of one formatting loop that skips the changes satisfying `skip`,
with the bound on the arguments of a line. -/
theorem loop_batches_bounded (env : Env) (header : List Char)
    (emit : List Char → List Char → Out)
    (argf : ChModeChange → Option (List Char)) (skip : ChModeChange → Prop)
    [DecidablePred skip] (keep : ChModeChange → Bool)
    (hkeep : ∀ mc, keep mc = decide (¬ skip mc)) (changes : List ChModeChange) :
    ∃ batches : List (List ChModeChange),
      batches.flatten = changes.filter keep ∧ (∀ b ∈ batches, b ≠ []) ∧
      line_finish emit
        (changes.foldl (fun s mc =>
          if skip mc then s else line_step env header emit (argf mc) mc s)
          (LineState.init header)) = batches.map (batch_line emit header argf) ∧
      (∀ b ∈ batches, (b.filterMap argf).length ≤ MAXMODEPARAMS) := by
  obtain ⟨batches, h1, h2, h3, h4⟩ := lines_batches env header emit argf
    (changes.filter (fun mc => decide (¬ skip mc))) [] [] (Nat.zero_le _)
  refine ⟨batches, ?_, h2, ?_, h4⟩
  · rw [h1, List.nil_append]
    exact List.filter_congr (fun mc _ => (hkeep mc).symm)
  · rw [foldl_skip skip (fun s mc => line_step env header emit (argf mc) mc s)]
    simpa [LineState.init] using h3

/-- The lines of one formatting loop that skips the changes satisfying `skip`. -/
theorem loop_batches (env : Env) (header : List Char) (emit : List Char → List Char → Out)
    (argf : ChModeChange → Option (List Char)) (skip : ChModeChange → Prop)
    [DecidablePred skip] (keep : ChModeChange → Bool)
    (hkeep : ∀ mc, keep mc = decide (¬ skip mc)) (changes : List ChModeChange) :
    ∃ batches : List (List ChModeChange),
      batches.flatten = changes.filter keep ∧ (∀ b ∈ batches, b ≠ []) ∧
      line_finish emit
        (changes.foldl (fun s mc =>
          if skip mc then s else line_step env header emit (argf mc) mc s)
          (LineState.init header)) = batches.map (batch_line emit header argf) := by
  obtain ⟨batches, h1, h2, h3, -⟩ :=
    loop_batches_bounded env header emit argf skip keep hkeep changes
  exact ⟨batches, h1, h2, h3⟩

/-- C6. Splitting loses and duplicates nothing. The lines of
`send_mode_changes_server` are the lines of consecutive non-empty batches whose
concatenation is the list of the changes with a non-zero letter, in recorded
order, each line carrying exactly the letters and the arguments of its batch.
The lines of `send_mode_changes_client` are those of batches of the live
changes with visibility filter none, followed by those of batches of the live
changes with filter operators/half-operators; together the batches hold every
live change with one of the two filters exactly once. -/
theorem splitting_loses_nothing (env : Env) (source_p : Client) (chptr : Channel)
    (changes : List ChModeChange) :
    (∃ batches : List (List ChModeChange),
      batches.flatten = changes.filter ChModeChange.live ∧ (∀ b ∈ batches, b ≠ []) ∧
      send_mode_changes_server env source_p chptr changes =
        batches.map (batch_line Out.server (server_header source_p chptr) server_arg)) ∧
    (∃ b0 b1 : List (List ChModeChange),
      b0.flatten = changes.filter (fun mc => mc.live && mc.flags == 0) ∧
      b1.flatten = changes.filter (fun mc => mc.live && mc.flags == CHFL_CHANOP ||| CHFL_HALFOP) ∧
      (∀ b ∈ b0 ++ b1, b ≠ []) ∧
      send_mode_changes_client env source_p chptr changes =
        b0.map (batch_line (Out.channel_local 0) (client_header env source_p chptr)
          ChModeChange.arg) ++
        b1.map (batch_line (Out.channel_local (CHFL_CHANOP ||| CHFL_HALFOP))
          (client_header env source_p chptr) ChModeChange.arg) ∧
      (b0.flatten ++ b1.flatten).Perm (changes.filter (fun mc =>
        (mc.live && mc.flags == 0) || (mc.live && mc.flags == CHFL_CHANOP ||| CHFL_HALFOP)))) := by
  constructor
  · exact loop_batches env (server_header source_p chptr) Out.server server_arg
      (fun mc => mc.letter = Char.ofNat 0) ChModeChange.live
      (fun mc => by
        by_cases h1 : mc.letter = Char.ofNat 0 <;> simp [ChModeChange.live, h1]) changes
  · obtain ⟨b0, h01, h02, h03⟩ := loop_batches env (client_header env source_p chptr)
      (Out.channel_local 0) ChModeChange.arg
      (fun mc => mc.letter = Char.ofNat 0 ∨ mc.flags ≠ 0)
      (fun mc => mc.live && mc.flags == 0)
      (fun mc => by
        by_cases h1 : mc.letter = Char.ofNat 0 <;> by_cases h2 : mc.flags = 0 <;>
          simp [ChModeChange.live, h1, h2]) changes
    obtain ⟨b1, h11, h12, h13⟩ := loop_batches env (client_header env source_p chptr)
      (Out.channel_local (CHFL_CHANOP ||| CHFL_HALFOP)) ChModeChange.arg
      (fun mc => mc.letter = Char.ofNat 0 ∨ mc.flags ≠ CHFL_CHANOP ||| CHFL_HALFOP)
      (fun mc => mc.live && mc.flags == CHFL_CHANOP ||| CHFL_HALFOP)
      (fun mc => by
        by_cases h1 : mc.letter = Char.ofNat 0 <;>
          by_cases h2 : mc.flags = CHFL_CHANOP ||| CHFL_HALFOP <;>
          simp [ChModeChange.live, h1, h2]) changes
    refine ⟨b0, b1, h01, h11, ?_, ?_, ?_⟩
    · intro b hb
      rcases List.mem_append.mp hb with h | h
      · exact h02 b h
      · exact h12 b h
    · unfold send_mode_changes_client client_pass
      rw [h03, h13]
    · rw [h01, h11]
      apply filter_disjoint_perm
      intro mc h
      simp only [Bool.and_eq_true, beq_iff_eq] at h
      have : ¬ mc.flags = CHFL_CHANOP ||| CHFL_HALFOP := by
        rw [h.2]; decide
      simp [this]

/-! ## Repeated `+l`: the last one wins -/

theorem drop_eq_cons {α : Type} (l : List α) (n : Nat) (a d : α) (t : List α)
    (h : l.drop n = a :: t) : n < l.length ∧ l.getD n d = a ∧ l.drop (n + 1) = t := by
  induction l generalizing n with
  | nil => simp at h
  | cons x xs ih =>
    cases n with
    | zero =>
      simp only [List.drop_zero, List.cons.injEq] at h
      obtain ⟨rfl, rfl⟩ := h
      simp
    | succ m =>
      simp only [List.drop_succ_cons] at h
      obtain ⟨h1, h2, h3⟩ := ih m h
      exact ⟨by simp only [List.length_cons]; omega, by simpa using h2, by simpa using h3⟩

theorem flatten_singleton {α : Type} (batches : List (List α)) (x : α)
    (hne : ∀ b ∈ batches, b ≠ []) (h : batches.flatten = [x]) : batches = [[x]] := by
  cases batches with
  | nil => simp at h
  | cons b bs =>
    have hb : b ≠ [] := hne b (List.mem_cons_self _ _)
    cases b with
    | nil => exact absurd rfl hb
    | cons y ys =>
      simp only [List.flatten_cons, List.cons_append, List.cons.injEq, List.append_eq_nil] at h
      obtain ⟨rfl, rfl, h3⟩ := h
      cases bs with
      | nil => rfl
      | cons c cs =>
        have hc : c ≠ [] := hne c (List.mem_cons_of_mem _ (List.mem_cons_self _ _))
        simp only [List.flatten_cons, List.append_eq_nil] at h3
        exact absurd h3.1 hc

theorem flatten_empty {α : Type} (batches : List (List α))
    (hne : ∀ b ∈ batches, b ≠ []) (h : batches.flatten = []) : batches = [] := by
  cases batches with
  | nil => rfl
  | cons b bs =>
    have hb : b ≠ [] := hne b (List.mem_cons_self _ _)
    simp only [List.flatten_cons, List.append_eq_nil] at h
    exact absurd h.1 hb

theorem void_earlier_length (letter : Char) (cs : List ChModeChange) :
    (void_earlier letter cs).length = cs.length := by
  unfold void_earlier; exact List.length_map _ _

/-- A formatting loop that keeps a single change sends the one line of that
change. -/
theorem single_change_line (env : Env) (header : List Char)
    (emit : List Char → List Char → Out) (argf : ChModeChange → Option (List Char))
    (skip : ChModeChange → Prop) [DecidablePred skip] (keep : ChModeChange → Bool)
    (hkeep : ∀ mc, keep mc = decide (¬ skip mc)) (changes : List ChModeChange)
    (mc : ChModeChange) (h : changes.filter keep = [mc]) :
    line_finish emit
      (changes.foldl (fun s mc =>
        if skip mc then s else line_step env header emit (argf mc) mc s)
        (LineState.init header)) = [batch_line emit header argf [mc]] := by
  obtain ⟨batches, h1, h2, h3⟩ := loop_batches env header emit argf skip keep hkeep changes
  rw [h] at h1
  rw [h3, flatten_singleton batches mc h2 h1]
  rfl

/-- A formatting loop that keeps no change sends nothing. -/
theorem no_change_line (env : Env) (header : List Char)
    (emit : List Char → List Char → Out) (argf : ChModeChange → Option (List Char))
    (skip : ChModeChange → Prop) [DecidablePred skip] (keep : ChModeChange → Bool)
    (hkeep : ∀ mc, keep mc = decide (¬ skip mc)) (changes : List ChModeChange)
    (h : changes.filter keep = []) :
    line_finish emit
      (changes.foldl (fun s mc =>
        if skip mc then s else line_step env header emit (argf mc) mc s)
        (LineState.init header)) = [] := by
  obtain ⟨batches, h1, h2, h3⟩ := loop_batches env header emit argf skip keep hkeep changes
  rw [h] at h1
  rw [h3, flatten_empty batches h2 h1]
  rfl

/-- C14. `get_channel_access` returns remote (3) for every requester that is
not a local client, whatever the membership, so such a requester is below no
rank-gate threshold; for a local client it returns not-on-channel (-1) without
a membership, operator (2) when the membership has the operator bit (whatever
the half-operator bit), half-operator (1) when it has the half-operator bit
only, and peon (0) otherwise. -/
theorem access_levels (source_p : Client) (member : Option Membership) :
    (MyClient source_p = false →
      get_channel_access source_p member = CHACCESS_REMOTE ∧
      ¬ get_channel_access source_p member < CHACCESS_HALFOP ∧
      ¬ get_channel_access source_p member < CHACCESS_CHANOP) ∧
    (MyClient source_p = true →
      (member = none → get_channel_access source_p member = CHACCESS_NOTONCHAN) ∧
      (∀ m, member = some m →
        (has_member_flags m CHFL_CHANOP = true →
          get_channel_access source_p member = CHACCESS_CHANOP) ∧
        (has_member_flags m CHFL_CHANOP = false → has_member_flags m CHFL_HALFOP = true →
          get_channel_access source_p member = CHACCESS_HALFOP) ∧
        (has_member_flags m CHFL_CHANOP = false → has_member_flags m CHFL_HALFOP = false →
          get_channel_access source_p member = CHACCESS_PEON))) ∧
    CHACCESS_REMOTE = 3 ∧ CHACCESS_CHANOP = 2 ∧ CHACCESS_HALFOP = 1 ∧ CHACCESS_PEON = 0 ∧
    CHACCESS_NOTONCHAN = -1 := by
  refine ⟨fun hrem => ?_, fun hloc => ⟨fun hm => ?_, fun m hm => ⟨fun h1 => ?_, fun h1 h2 => ?_,
    fun h1 h2 => ?_⟩⟩, rfl, rfl, rfl, rfl, rfl⟩
  · have h : get_channel_access source_p member = CHACCESS_REMOTE := by
      simp [get_channel_access, hrem]
    rw [h]
    exact ⟨rfl, by decide, by decide⟩
  · subst hm; simp [get_channel_access, hloc]
  · subst hm; simp [get_channel_access, hloc, h1]
  · subst hm; simp [get_channel_access, hloc, h1, h2]
  · subst hm; simp [get_channel_access, hloc, h1, h2]

/-! ## Redundant simple modes -/

theorem cmode_map_not_sign (c : Char) (mode : chan_mode) (h : cmode_map c = some mode) :
    c ≠ '+' ∧ c ≠ '-' ∧ c ≠ '=' := by
  have h1 : cmode_map '+' = none := by decide
  have h2 : cmode_map '-' = none := by decide
  have h3 : cmode_map '=' = none := by decide
  refine ⟨?_, ?_, ?_⟩ <;> intro hc <;> subst hc
  · rw [h1] at h; cases h
  · rw [h2] at h; cases h
  · rw [h3] at h; cases h

/-- A local requester's redundant simple mode leaves an untouched state
untouched. -/
theorem untouched_simple_redundant (chptr : Channel) (source_p : Client) (alev : Int)
    (dir : Nat) (mode : chan_mode) (st : ModeState) (hloc : MyClient source_p = true)
    (hred : (dir = MODE_ADD ∧ HasCMode st.chptr mode.mode = true) ∨
      (dir = MODE_DEL ∧ HasCMode st.chptr mode.mode = false))
    (h : untouched chptr st) : untouched chptr (chm_simple source_p alev dir mode st) := by
  by_cases g3 : alev < CHACCESS_HALFOP
  · exact untouched_simple chptr source_p alev dir mode st g3 h
  unfold chm_simple
  by_cases g1 : mode.only_opers ≠ 0 ∧ MyClient source_p = true ∧ ¬ source_p.umode_oper = true
  · rw [if_pos g1]
    obtain ⟨h1, h2, h3⟩ := h
    refine ⟨?_, ?_, ?_⟩ <;> dsimp only <;> split_ifs <;>
      simp [List.all_append, h1, h2, h3, Out.is_numeric]
  rw [if_neg g1]
  by_cases g2 : mode.only_servers ≠ 0 ∧ ¬ source_p.is_server = true ∧
      ¬ source_p.flag_service = true
  · rw [if_pos g2]
    obtain ⟨h1, h2, h3⟩ := h
    refine ⟨?_, ?_, ?_⟩ <;> dsimp only <;> split_ifs <;>
      simp [List.all_append, h1, h2, h3, Out.is_numeric]
  rw [if_neg g2, if_neg g3]
  by_cases g4 : st.simple_modes_mask &&& mode.mode ≠ 0
  · rw [if_pos g4]; exact h
  rw [if_neg g4]
  dsimp only
  rcases hred with ⟨hd, hc⟩ | ⟨hd, hc⟩
  · have hcond : MyClient source_p = true ∧ HasCMode st.chptr mode.mode = true := ⟨hloc, hc⟩
    rw [if_pos hd, if_pos hcond]
    exact h
  · have hne : ¬ dir = MODE_ADD := by rw [hd]; decide
    have hcond : MyClient source_p = true ∧ ¬ HasCMode st.chptr mode.mode = true :=
      ⟨hloc, by rw [hc]; decide⟩
    rw [if_neg hne, if_pos hd, if_pos hcond]
    exact h

/-- A local requester's redundant simple mode records nothing and leaves the
channel as it is. -/
theorem chm_simple_redundant (source_p : Client) (alev : Int)
    (dir : Nat) (mode : chan_mode) (st : ModeState) (hloc : MyClient source_p = true)
    (hred : (dir = MODE_ADD ∧ HasCMode st.chptr mode.mode = true) ∨
      (dir = MODE_DEL ∧ HasCMode st.chptr mode.mode = false)) :
    (chm_simple source_p alev dir mode st).mode_changes = st.mode_changes ∧
    (chm_simple source_p alev dir mode st).chptr = st.chptr := by
  unfold chm_simple
  by_cases g1 : mode.only_opers ≠ 0 ∧ MyClient source_p = true ∧ ¬ source_p.umode_oper = true
  · rw [if_pos g1]; dsimp only; split_ifs <;> exact ⟨rfl, rfl⟩
  rw [if_neg g1]
  by_cases g2 : mode.only_servers ≠ 0 ∧ ¬ source_p.is_server = true ∧
      ¬ source_p.flag_service = true
  · rw [if_pos g2]; dsimp only; split_ifs <;> exact ⟨rfl, rfl⟩
  rw [if_neg g2]
  by_cases g3 : alev < CHACCESS_HALFOP
  · rw [if_pos g3, reject_noops_eq]; exact ⟨rfl, rfl⟩
  rw [if_neg g3]
  by_cases g4 : st.simple_modes_mask &&& mode.mode ≠ 0
  · rw [if_pos g4]; exact ⟨rfl, rfl⟩
  rw [if_neg g4]
  dsimp only
  rcases hred with ⟨hd, hc⟩ | ⟨hd, hc⟩
  · have hcond : MyClient source_p = true ∧ HasCMode st.chptr mode.mode = true := ⟨hloc, hc⟩
    rw [if_pos hd, if_pos hcond]
    exact ⟨rfl, rfl⟩
  · have hne : ¬ dir = MODE_ADD := by rw [hd]; decide
    have hcond : MyClient source_p = true ∧ ¬ HasCMode st.chptr mode.mode = true :=
      ⟨hloc, by rw [hc]; decide⟩
    rw [if_neg hne, if_pos hd, if_pos hcond]
    exact ⟨rfl, rfl⟩

/-! ## The visibility filter of list changes -/

theorem select_list_mode (chptr chptr1 : Channel) (type : Nat) (list : List Ban)
    (h : select_list chptr type = some (chptr1, list)) : chptr1.mode = chptr.mode := by
  unfold select_list at h
  split_ifs at h <;> simp only [Option.some.injEq, Prod.mk.injEq] at h <;>
    obtain ⟨h1, -⟩ := h <;> subst h1 <;> rfl

theorem store_list_mode (chptr : Channel) (type : Nat) (list : List Ban) :
    (store_list chptr type list).mode = chptr.mode := by
  unfold store_list
  split_ifs <;> rfl

theorem add_id_mode (env : Env) (client_p : Client) (chptr : Channel) (banid : List Char)
    (type : Nat) (r : IdResult) (h : add_id env client_p chptr banid type = some r) :
    r.chptr.mode = chptr.mode := by
  rw [add_id_eq] at h
  by_cases c : MyClient client_p = true ∧ ban_capacity env chptr ≤ num_mask chptr
  · rw [if_pos c] at h
    simp only [Option.some.injEq] at h; subst h; rfl
  · rw [if_neg c] at h
    cases hs : select_list chptr type with
    | none => rw [hs] at h; cases h
    | some pr =>
      obtain ⟨chptr1, list⟩ := pr
      rw [hs] at h
      dsimp only at h
      have hm := select_list_mode chptr chptr1 type list hs
      by_cases d : list.any (triple_matches env (add_triple env client_p banid)) = true
      · rw [if_pos d] at h
        simp only [Option.some.injEq] at h; subst h; exact hm
      · rw [if_neg d] at h
        simp only [Option.some.injEq] at h; subst h
        exact (store_list_mode _ _ _).trans hm

theorem del_id_mode (env : Env) (chptr : Channel) (banid : List Char)
    (type : Nat) (r : IdResult) (h : del_id env chptr banid type = some r) :
    r.chptr.mode = chptr.mode := by
  rw [del_id_eq] at h
  cases hs : select_list chptr type with
  | none => rw [hs] at h; cases h
  | some pr =>
    obtain ⟨chptr1, list⟩ := pr
    rw [hs] at h
    dsimp only at h
    have hm := select_list_mode chptr chptr1 type list hs
    by_cases d : list.any (triple_matches env (del_triple env banid)) = true
    · rw [if_pos d] at h
      simp only [Option.some.injEq] at h; subst h
      exact (store_list_mode _ _ _).trans hm
    · rw [if_neg d] at h
      simp only [Option.some.injEq] at h; subst h; exact hm

theorem list_filter_of_mode (a b : Channel) (h : a.mode = b.mode) :
    list_filter a = list_filter b := by
  simp [list_filter, HasCMode, h]

/-- What the tail of a list handler records: nothing, or one change of the
handler's letter whose filter is that of the channel. -/
theorem list_apply_records (type : Nat) (env : Env) (source_p : Client) (dir : Nat)
    (mode : chan_mode) (mask : List Char) (st st2 : ModeState)
    (hch : st2.chptr = st.chptr) (hmc : st2.mode_changes = st.mode_changes) :
    list_recorded mode dir st (list_apply type env source_p dir mode mask st2) := by
  have key : ∀ r : IdResult, r.chptr.mode = st.chptr.mode →
      list_recorded mode dir st
        (if r.ret = 0 then { st2 with chptr := r.chptr, out := st2.out ++ r.out }
         else ({ st2 with chptr := r.chptr, out := st2.out ++ r.out }).record
          { letter := mode.letter, arg := some r.banid, id := none,
            flags := if HasCMode r.chptr MODE_HIDEBMASKS then CHFL_CHANOP ||| CHFL_HALFOP else 0,
            dir := dir }) := by
    intro r hr
    by_cases h0 : r.ret = 0
    · rw [if_pos h0]
      exact ⟨hr, Or.inl hmc⟩
    · rw [if_neg h0]
      refine ⟨hr, Or.inr ⟨r.banid, ?_⟩⟩
      rw [← list_filter_of_mode r.chptr st.chptr hr, ← hmc]
      rfl
  have h2 : list_recorded mode dir st st2 := ⟨by rw [hch], Or.inl hmc⟩
  unfold list_apply
  by_cases hadd : dir = MODE_ADD
  · simp only [if_pos hadd]
    cases hres : add_id env source_p st2.chptr mask type with
    | none => exact h2
    | some r => exact key r (by rw [add_id_mode _ _ _ _ _ _ hres, hch])
  · simp only [if_neg hadd]
    by_cases hdel : dir = MODE_DEL
    · simp only [if_pos hdel]
      cases hres : del_id env st2.chptr mask type with
      | none => exact h2
      | some r => exact key r (by rw [del_id_mode _ _ _ _ _ hres, hch])
    · simp only [if_neg hdel]
      exact key { ret := 1, chptr := st2.chptr, banid := mask, out := [] } (by rw [hch])

/-- What a list handler records: nothing, or one change of the handler's
letter whose filter is that of the channel. -/
theorem chm_list_records (errbit : Nat) (list : Channel → List Ban) (rpl rpl_end : Numeric)
    (type : Nat) (env : Env) (source_p : Client) (parc : Nat) (parv : List (List Char))
    (alev : Int) (dir : Nat) (mode : chan_mode) (st : ModeState) :
    list_recorded mode dir st
      (chm_list errbit list rpl rpl_end type env source_p parc parv alev dir mode st) := by
  have h0 : ∀ st2 : ModeState, st2.chptr = st.chptr → st2.mode_changes = st.mode_changes →
      list_recorded mode dir st st2 := fun st2 h1 h2 => ⟨by rw [h1], Or.inl h2⟩
  unfold chm_list
  by_cases hq : dir = MODE_QUERY ∨ parc ≤ st.parn
  · rw [if_pos hq]
    by_cases he : st.errors &&& errbit ≠ 0
    · rw [if_pos he]; exact h0 _ rfl rfl
    · rw [if_neg he]; exact h0 _ rfl rfl
  rw [if_neg hq]
  by_cases g3 : alev < CHACCESS_HALFOP
  · rw [if_pos g3, reject_noops_eq]; exact h0 _ rfl rfl
  rw [if_neg g3]
  dsimp only
  by_cases hloc : MyClient source_p = true
  · simp only [hloc, if_true, true_and]
    by_cases hlim : st.mode_limit + 1 > MAXMODEPARAMS
    · rw [if_pos hlim]; exact h0 _ rfl rfl
    · rw [if_neg hlim]
      split_ifs
      · exact h0 _ rfl rfl
      · refine list_apply_records type env source_p dir mode _ st _ ?_ ?_ <;> rfl
  · have hrem : MyClient source_p = false := by simpa using hloc
    simp only [hrem, Bool.false_eq_true, if_false, false_and]
    split_ifs
    · exact h0 _ rfl rfl
    · refine list_apply_records type env source_p dir mode _ st _ ?_ ?_ <;> rfl

/-- C13 (as the code has it). A change recorded by the ban handler, by the
exception handler or by the invite-exception handler has the visibility filter
operators and half-operators exactly when the hide-lists flag of the channel
is set at that moment, and the filter none otherwise; the three handlers leave
the mode bits of the channel as they are. -/
theorem list_change_visibility (env : Env) (source_p : Client) (parc : Nat)
    (parv : List (List Char)) (alev : Int) (dir : Nat) (mode : chan_mode) (st : ModeState) :
    (∀ mc ∈ (chm_ban env source_p parc parv alev dir mode st).mode_changes,
      mc ∈ st.mode_changes ∨
      (mc.flags = CHFL_CHANOP ||| CHFL_HALFOP ↔ HasCMode st.chptr MODE_HIDEBMASKS = true) ∧
      (mc.flags = 0 ↔ HasCMode st.chptr MODE_HIDEBMASKS = false)) ∧
    (∀ mc ∈ (chm_except env source_p parc parv alev dir mode st).mode_changes,
      mc ∈ st.mode_changes ∨
      (mc.flags = CHFL_CHANOP ||| CHFL_HALFOP ↔ HasCMode st.chptr MODE_HIDEBMASKS = true) ∧
      (mc.flags = 0 ↔ HasCMode st.chptr MODE_HIDEBMASKS = false)) ∧
    (∀ mc ∈ (chm_invex env source_p parc parv alev dir mode st).mode_changes,
      mc ∈ st.mode_changes ∨
      (mc.flags = CHFL_CHANOP ||| CHFL_HALFOP ↔ HasCMode st.chptr MODE_HIDEBMASKS = true) ∧
      (mc.flags = 0 ↔ HasCMode st.chptr MODE_HIDEBMASKS = false)) ∧
    (chm_ban env source_p parc parv alev dir mode st).chptr.mode = st.chptr.mode ∧
    (chm_except env source_p parc parv alev dir mode st).chptr.mode = st.chptr.mode ∧
    (chm_invex env source_p parc parv alev dir mode st).chptr.mode = st.chptr.mode := by
  have key : ∀ (errbit : Nat) (list : Channel → List Ban) (rpl rpl_end : Numeric) (type : Nat),
      ∀ mc ∈ (chm_list errbit list rpl rpl_end type env source_p parc parv alev dir mode
        st).mode_changes,
      mc ∈ st.mode_changes ∨
      (mc.flags = CHFL_CHANOP ||| CHFL_HALFOP ↔ HasCMode st.chptr MODE_HIDEBMASKS = true) ∧
      (mc.flags = 0 ↔ HasCMode st.chptr MODE_HIDEBMASKS = false) := by
    intro errbit list rpl rpl_end type mc hmc
    rcases (chm_list_records errbit list rpl rpl_end type env source_p parc parv alev dir mode
      st).2 with h | ⟨arg, h⟩
    · rw [h] at hmc; exact Or.inl hmc
    · rw [h, List.mem_append, List.mem_singleton] at hmc
      rcases hmc with hmc | hmc
      · exact Or.inl hmc
      · right
        subst hmc
        show (list_filter st.chptr = _ ↔ _) ∧ (list_filter st.chptr = 0 ↔ _)
        unfold list_filter
        cases HasCMode st.chptr MODE_HIDEBMASKS <;> simp <;> decide
  exact ⟨key _ _ _ _ _, key _ _ _ _ _, key _ _ _ _ _,
    (chm_list_records _ _ _ _ _ env source_p parc parv alev dir mode st).1,
    (chm_list_records _ _ _ _ _ env source_p parc parv alev dir mode st).1,
    (chm_list_records _ _ _ _ _ env source_p parc parv alev dir mode st).1⟩

/-! ## The query direction -/

/-- C12 (where the code departs from it). For every handler but `chm_simple` a
letter processed under the query direction leaves the channel and the recorded
changes as they are. `chm_simple` has no branch for the query direction: when
the letter passes the gates and has not been seen in the call, it records a
change whose direction is `MODE_QUERY` (and leaves the channel as it is). -/
theorem query_direction (env : Env) (source_p : Client) (parc : Nat)
    (parv : List (List Char)) (alev : Int) (mode : chan_mode) (st : ModeState) :
    (mode.func ≠ ChmFunc.chm_simple →
      (call_handler env source_p parc parv alev MODE_QUERY mode st).chptr = st.chptr ∧
      (call_handler env source_p parc parv alev MODE_QUERY mode st).mode_changes =
        st.mode_changes) ∧
    (mode.func = ChmFunc.chm_simple → mode.only_opers = 0 → mode.only_servers = 0 →
      ¬ alev < CHACCESS_HALFOP → st.simple_modes_mask &&& mode.mode = 0 →
      (call_handler env source_p parc parv alev MODE_QUERY mode st).chptr = st.chptr ∧
      (call_handler env source_p parc parv alev MODE_QUERY mode st).mode_changes =
        st.mode_changes ++
          [{ letter := mode.letter, arg := none, id := none, flags := 0,
             dir := MODE_QUERY }]) := by
  have hlist : ∀ (errbit : Nat) (list : Channel → List Ban) (rpl rpl_end : Numeric) (type : Nat),
      (chm_list errbit list rpl rpl_end type env source_p parc parv alev MODE_QUERY mode
        st).chptr = st.chptr ∧
      (chm_list errbit list rpl rpl_end type env source_p parc parv alev MODE_QUERY mode
        st).mode_changes = st.mode_changes := by
    intro errbit list rpl rpl_end type
    unfold chm_list
    rw [if_pos (Or.inl rfl)]
    by_cases he : st.errors &&& errbit ≠ 0
    · rw [if_pos he]; exact ⟨rfl, rfl⟩
    · rw [if_neg he]; exact ⟨rfl, rfl⟩
  have hrank : ∀ (need : Int) (flag : Nat),
      (chm_rank need flag env source_p parc parv alev MODE_QUERY mode st).chptr = st.chptr ∧
      (chm_rank need flag env source_p parc parv alev MODE_QUERY mode st).mode_changes =
        st.mode_changes := by
    intro need flag
    unfold chm_rank
    by_cases g : alev < need
    · rw [if_pos g, reject_noops_eq]; exact ⟨rfl, rfl⟩
    · rw [if_neg g, if_pos (Or.inl rfl)]; exact ⟨rfl, rfl⟩
  constructor
  · intro hne
    unfold call_handler
    cases hf : mode.func with
    | chm_simple => exact absurd hf hne
    | chm_ban => exact hlist _ _ _ _ _
    | chm_except => exact hlist _ _ _ _ _
    | chm_invex => exact hlist _ _ _ _ _
    | chm_voice => exact hrank _ _
    | chm_hop => exact hrank _ _
    | chm_op => exact hrank _ _
    | chm_limit =>
      dsimp only
      unfold chm_limit
      by_cases g : alev < CHACCESS_HALFOP
      · rw [if_pos g, reject_noops_eq]; exact ⟨rfl, rfl⟩
      · rw [if_neg g, if_pos rfl]; exact ⟨rfl, rfl⟩
    | chm_key =>
      dsimp only
      unfold chm_key
      by_cases g : alev < CHACCESS_HALFOP
      · rw [if_pos g, reject_noops_eq]; exact ⟨rfl, rfl⟩
      · rw [if_neg g, if_pos rfl]; exact ⟨rfl, rfl⟩
  · intro hf hopers hserv halev hmask
    unfold call_handler
    rw [hf]
    dsimp only
    unfold chm_simple
    have h1 : ¬ (mode.only_opers ≠ 0 ∧ MyClient source_p = true ∧ ¬ source_p.umode_oper = true) :=
      fun h => h.1 hopers
    have h2 : ¬ (mode.only_servers ≠ 0 ∧ ¬ source_p.is_server = true ∧
        ¬ source_p.flag_service = true) := fun h => h.1 hserv
    have h3 : ¬ (st.simple_modes_mask &&& mode.mode ≠ 0) := fun h => h hmask
    have h4 : ¬ (MODE_QUERY = MODE_ADD) := by decide
    have h5 : ¬ (MODE_QUERY = MODE_DEL) := by decide
    rw [if_neg h1, if_neg h2, if_neg halev, if_neg h3]
    dsimp only
    rw [if_neg h4, if_neg h5]
    exact ⟨rfl, rfl⟩

/-- C17 (where the code departs from it). A line whose first change has the
query direction has no sigil before its first letter, whatever the emitter, the
header and the changes that follow; and a change of query direction that
follows one of another direction is written under `'-'`. Such changes reach
the formatters through `chm_simple`: the operator `op` sends `=m`, then
`+m=i`. -/
theorem query_change_line (emit : List Char → List Char → Out) (header : List Char)
    (argf : ChModeChange → Option (List Char)) (letter : Char) (arg id : Option (List Char))
    (flags : Nat) (rest : List ChModeChange) :
    batch_line emit header argf
      ({ letter := letter, arg := arg, id := id, flags := flags, dir := MODE_QUERY } :: rest) =
      emit (header ++ letter :: mode_letters MODE_QUERY rest)
        (para_text []
          (({ letter := letter, arg := arg, id := id, flags := flags,
              dir := MODE_QUERY } :: rest).filterMap argf)) ∧
    (set_channel_mode demo_env (local_user "op") demo_chan (some (member_of "op" CHFL_CHANOP)) 1
      ["=m".toList]).out =
      [Out.channel_local 0 ":op!u@h MODE #c m".toList [],
       Out.server ":0AAop TMODE 900 #c m".toList []] ∧
    (set_channel_mode demo_env (local_user "op") demo_chan (some (member_of "op" CHFL_CHANOP)) 1
      ["+m=i".toList]).mode_changes =
      [{ letter := 'm', arg := none, id := none, flags := 0, dir := MODE_ADD },
       { letter := 'i', arg := none, id := none, flags := 0, dir := MODE_QUERY }] ∧
    (set_channel_mode demo_env (local_user "op") demo_chan (some (member_of "op" CHFL_CHANOP)) 1
      ["+m=i".toList]).out =
      [Out.channel_local 0 ":op!u@h MODE #c +m-i".toList [],
       Out.server ":0AAop TMODE 900 #c +m-i".toList []] := by
  refine ⟨?_, by decide, by decide, by decide⟩
  unfold batch_line
  rfl

/-! ## Keys -/

theorem char_above_space (c : Char) : c > ' ' ↔ 0x20 < c.toNat := by
  show (' ' < c) ↔ _
  rw [Char.lt_iff_val_lt_val]
  rfl

theorem key_char_iff (c : Char) : key_char c = true ↔ (c ≠ ':' ∧ c > ' ' ∧ c ≠ ',') := by
  unfold key_char
  rw [char_above_space]
  simp only [Bool.and_eq_true, bne_iff_ne, ne_eq, decide_eq_true_eq]
  tauto

theorem seven_bit (c : Char) (h : c.toNat < 128) : Char.ofNat (c.toNat &&& 0x7f) = c := by
  have h1 : c.toNat &&& 0x7f = c.toNat % 128 := Nat.and_pow_two_sub_one_eq_mod c.toNat 7
  rw [h1, Nat.mod_eq_of_lt h, Char.ofNat_toNat]

theorem fix_key_length (env : Env) (arg : List Char) : (fix_key env arg).length ≤ env.KEYLEN := by
  unfold fix_key
  exact (List.length_filterMap_le _ _).trans (List.length_take_le _ _)

theorem fix_key_chars (env : Env) (arg : List Char) : ∀ c ∈ fix_key env arg, key_char c = true := by
  intro c hc
  unfold fix_key at hc
  rw [List.mem_filterMap] at hc
  obtain ⟨ch, -, h⟩ := hc
  dsimp only at h
  split_ifs at h with hk
  simp only [Option.some.injEq] at h
  subst h
  exact (key_char_iff _).mpr hk

theorem fix_key_ok (env : Env) (arg : List Char) : key_ok env (fix_key env arg) :=
  ⟨fix_key_length env arg, fix_key_chars env arg⟩

theorem fix_key_take (env : Env) (arg : List Char) :
    (fix_key env arg).take env.KEYLEN = fix_key env arg :=
  List.take_of_length_le (fix_key_length env arg)

/-- C16 (as the code has it). For every 7-bit argument, `fix_key` returns the
first `KEYLEN` characters of the argument with every `':'`, `','` and byte up
to `0x20` dropped: the cut comes before the dropping. `chm_key` on add, past the
rank gate and with an argument left, consumes the argument; it stores exactly
that string as the key and records the change when the string is not empty, and
changes nothing else when it is empty. -/
theorem fix_key_sanitizes (env : Env) (parc : Nat) (parv : List (List Char)) (alev : Int)
    (mode : chan_mode) (st : ModeState) :
    (∀ arg : List Char, (∀ c ∈ arg, c.toNat < 128) →
      fix_key env arg = (arg.take env.KEYLEN).filter key_char) ∧
    (¬ alev < CHACCESS_HALFOP → parc > st.parn →
      (fix_key env (parv.getD st.parn []) ≠ [] →
        chm_key env parc parv alev MODE_ADD mode st =
          { st with
            parn := st.parn + 1,
            chptr := { st.chptr with
              mode := { st.chptr.mode with key := fix_key env (parv.getD st.parn []) } },
            mode_changes := void_earlier mode.letter st.mode_changes ++
              [{ letter := mode.letter, arg := some (fix_key env (parv.getD st.parn [])),
                 id := none, flags := 0, dir := MODE_ADD }] }) ∧
      (fix_key env (parv.getD st.parn []) = [] →
        chm_key env parc parv alev MODE_ADD mode st = { st with parn := st.parn + 1 })) := by
  constructor
  · intro arg h7
    unfold fix_key
    have h7t : ∀ c ∈ arg.take env.KEYLEN, c.toNat < 128 :=
      fun c hc => h7 c (List.mem_of_mem_take hc)
    generalize arg.take env.KEYLEN = l at h7t
    induction l with
    | nil => rfl
    | cons c rest ih =>
      have hc : Char.ofNat (c.toNat &&& 0x7f) = c := seven_bit c (h7t c (List.mem_cons_self _ _))
      have hrest := ih (fun d hd => h7t d (List.mem_cons_of_mem _ hd))
      rw [List.filterMap_cons, List.filter_cons]
      dsimp only
      rw [hc, hrest]
      by_cases hk : key_char c = true
      · rw [if_pos ((key_char_iff c).mp hk), if_pos hk]
      · rw [if_neg (fun h => hk ((key_char_iff c).mpr h)), if_neg hk]
  · intro halev hparc
    have h1 : ¬ (MODE_ADD = MODE_QUERY) := by decide
    have h2 : MODE_ADD = MODE_ADD ∧ parc > st.parn := ⟨rfl, hparc⟩
    constructor
    · intro hne
      unfold chm_key
      rw [if_neg halev, if_neg h1, if_pos h2]
      dsimp only
      rw [if_neg hne, fix_key_take]
    · intro he
      unfold chm_key
      rw [if_neg halev, if_neg h1, if_pos h2]
      dsimp only
      rw [if_pos he]

/-! ## The invariant of the channel modes -/

theorem mode_ok_simple (env : Env) (source_p : Client) (alev : Int) (dir : Nat)
    (mode : chan_mode) (st : ModeState) (h : mode_ok env st.chptr.mode) :
    mode_ok env (chm_simple source_p alev dir mode st).chptr.mode := by
  have hadd : mode_ok env (AddCMode st.chptr mode.mode).mode := h
  have hdel : mode_ok env (DelCMode st.chptr mode.mode).mode := h
  unfold chm_simple
  dsimp only
  split_ifs
  all_goals first
    | exact h
    | exact hadd
    | exact hdel
    | (rw [reject_noops_eq]; exact h)

theorem mode_ok_rank (need : Int) (flag : Nat) (env : Env) (source_p : Client) (parc : Nat)
    (parv : List (List Char)) (alev : Int) (dir : Nat) (mode : chan_mode) (st : ModeState)
    (h : mode_ok env st.chptr.mode) :
    mode_ok env (chm_rank need flag env source_p parc parv alev dir mode st).chptr.mode := by
  unfold chm_rank
  by_cases g : alev < need
  · rw [if_pos g, reject_noops_eq]; exact h
  rw [if_neg g]
  by_cases hq : dir = MODE_QUERY ∨ parc ≤ st.parn
  · rw [if_pos hq]; exact h
  rw [if_neg hq]
  dsimp only
  cases env.find_chasing source_p (parv.getD st.parn []) with
  | none => exact h
  | some target_p =>
    dsimp only
    cases find_channel_link target_p st.chptr with
    | none => dsimp only; split_ifs <;> exact h
    | some pr =>
      obtain ⟨i, member⟩ := pr
      dsimp only
      split_ifs <;> exact h

theorem mode_ok_limit (env : Env) (parc : Nat) (parv : List (List Char)) (alev : Int)
    (dir : Nat) (mode : chan_mode) (st : ModeState) (h : mode_ok env st.chptr.mode) :
    mode_ok env (chm_limit env parc parv alev dir mode st).chptr.mode := by
  unfold chm_limit
  by_cases g : alev < CHACCESS_HALFOP
  · rw [if_pos g, reject_noops_eq]; exact h
  rw [if_neg g]
  dsimp only
  split_ifs
  all_goals first
    | exact h
    | exact ⟨Nat.eq_zero_or_pos _, h.2⟩

theorem mode_ok_key (env : Env) (parc : Nat) (parv : List (List Char)) (alev : Int)
    (dir : Nat) (mode : chan_mode) (st : ModeState) (h : mode_ok env st.chptr.mode) :
    mode_ok env (chm_key env parc parv alev dir mode st).chptr.mode := by
  have hempty : key_ok env [] := ⟨Nat.zero_le _, fun c hc => by cases hc⟩
  unfold chm_key
  by_cases g : alev < CHACCESS_HALFOP
  · rw [if_pos g, reject_noops_eq]; exact h
  rw [if_neg g]
  dsimp only
  split_ifs
  all_goals first
    | exact h
    | exact ⟨h.1, hempty⟩
    | (refine ⟨h.1, ?_⟩
       show key_ok env ((fix_key env _).take env.KEYLEN)
       rw [fix_key_take]
       exact fix_key_ok env _)

/-- C15 (as the code has it). The invariant of the channel modes that one
`set_channel_mode` call keeps, for every requester, mode string and
arguments: the limit is absent (0) or positive, and the key is absent (empty)
or a string of at most `KEYLEN` characters none of which is `':'`, `','` or a
byte up to `0x20`. The character `0x7F` is not excluded. -/
theorem mode_invariant (env : Env) (source_p : Client) (chptr : Channel)
    (member : Option Membership) (parc : Nat) (parv : List (List Char))
    (h : mode_ok env chptr.mode) :
    mode_ok env (set_channel_mode env source_p chptr member parc parv).chptr.mode := by
  have hscan : mode_ok env (scan_modes env source_p chptr member parc parv).chptr.mode := by
    unfold scan_modes
    refine mode_loop_invariant (fun st => mode_ok env st.chptr.mode) env source_p parc parv
      (get_channel_access source_p member) ?_ ?_ (parv.headD []) MODE_ADD
      (ModeState.init chptr) h
    · intro c st hst
      unfold chm_nosuch
      split_ifs <;> exact hst
    · intro mode _ dir st hst
      unfold call_handler
      cases mode.func with
      | chm_simple => exact mode_ok_simple env source_p _ dir mode st hst
      | chm_ban =>
        show mode_ok env (chm_list _ _ _ _ _ env source_p parc parv _ dir mode st).chptr.mode
        rw [(chm_list_records _ _ _ _ _ env source_p parc parv _ dir mode st).1]; exact hst
      | chm_except =>
        show mode_ok env (chm_list _ _ _ _ _ env source_p parc parv _ dir mode st).chptr.mode
        rw [(chm_list_records _ _ _ _ _ env source_p parc parv _ dir mode st).1]; exact hst
      | chm_invex =>
        show mode_ok env (chm_list _ _ _ _ _ env source_p parc parv _ dir mode st).chptr.mode
        rw [(chm_list_records _ _ _ _ _ env source_p parc parv _ dir mode st).1]; exact hst
      | chm_voice => exact mode_ok_rank _ _ env source_p parc parv _ dir mode st hst
      | chm_hop => exact mode_ok_rank _ _ env source_p parc parv _ dir mode st hst
      | chm_op => exact mode_ok_rank _ _ env source_p parc parv _ dir mode st hst
      | chm_limit => exact mode_ok_limit env parc parv _ dir mode st hst
      | chm_key => exact mode_ok_key env parc parv _ dir mode st hst
  unfold set_channel_mode
  dsimp only
  split_ifs <;> exact hscan

/-! ## List queries -/

/-- A set error bit stays set when further bits are set. -/
theorem err_bit_or (e b g : Nat) (h : e &&& g ≠ 0) : (e ||| b) &&& g ≠ 0 := by
  have h1 : err_flag e g = 1 := by unfold err_flag; rw [if_neg h]
  have h2 := err_flag_mono e b g
  rw [h1] at h2
  intro h3
  unfold err_flag at h2
  rw [if_pos h3] at h2
  exact absurd h2 (by decide)

theorem err_bit_reject (alev : Int) (st : ModeState) (g : Nat) (h : st.errors &&& g ≠ 0) :
    (reject_noops alev st).errors &&& g ≠ 0 := by
  rw [reject_noops_eq]
  exact err_bit_or _ _ _ h

theorem err_bit_simple (source_p : Client) (alev : Int) (dir : Nat) (mode : chan_mode)
    (st : ModeState) (g : Nat) (h : st.errors &&& g ≠ 0) :
    (chm_simple source_p alev dir mode st).errors &&& g ≠ 0 := by
  unfold chm_simple
  dsimp only
  split_ifs
  all_goals first
    | exact h
    | exact err_bit_or _ _ _ h
    | exact err_bit_reject alev st g h

theorem err_bit_apply (type : Nat) (env : Env) (source_p : Client) (dir : Nat)
    (mode : chan_mode) (mask : List Char) (st2 : ModeState) (g : Nat)
    (h : st2.errors &&& g ≠ 0) :
    (list_apply type env source_p dir mode mask st2).errors &&& g ≠ 0 := by
  have key : ∀ (r : IdResult) (mc : ChModeChange),
      (if r.ret = 0 then { st2 with chptr := r.chptr, out := st2.out ++ r.out }
        else ({ st2 with chptr := r.chptr, out := st2.out ++ r.out }).record mc).errors &&& g
        ≠ 0 := by
    intro r mc
    by_cases hr : r.ret = 0
    · rw [if_pos hr]; exact h
    · rw [if_neg hr]; exact h
  unfold list_apply
  by_cases hadd : dir = MODE_ADD
  · simp only [if_pos hadd]
    cases add_id env source_p st2.chptr mask type with
    | none => exact h
    | some r => exact key r _
  · simp only [if_neg hadd]
    by_cases hdel : dir = MODE_DEL
    · simp only [if_pos hdel]
      cases del_id env st2.chptr mask type with
      | none => exact h
      | some r => exact key r _
    · simp only [if_neg hdel]
      exact key { ret := 1, chptr := st2.chptr, banid := mask, out := [] } _

theorem err_bit_list (errbit : Nat) (list : Channel → List Ban) (rpl rpl_end : Numeric)
    (type : Nat) (env : Env) (source_p : Client) (parc : Nat) (parv : List (List Char))
    (alev : Int) (dir : Nat) (mode : chan_mode) (st : ModeState) (g : Nat)
    (h : st.errors &&& g ≠ 0) :
    (chm_list errbit list rpl rpl_end type env source_p parc parv alev dir mode st).errors &&& g
      ≠ 0 := by
  unfold chm_list
  by_cases hq : dir = MODE_QUERY ∨ parc ≤ st.parn
  · rw [if_pos hq]
    by_cases he : st.errors &&& errbit ≠ 0
    · rw [if_pos he]; exact h
    · rw [if_neg he]; exact err_bit_or _ _ _ h
  rw [if_neg hq]
  by_cases g3 : alev < CHACCESS_HALFOP
  · rw [if_pos g3]; exact err_bit_reject alev st g h
  rw [if_neg g3]
  dsimp only
  split_ifs
  all_goals first
    | exact h
    | exact err_bit_apply type env source_p dir mode _ _ g h

theorem err_bit_rank (need : Int) (flag : Nat) (env : Env) (source_p : Client) (parc : Nat)
    (parv : List (List Char)) (alev : Int) (dir : Nat) (mode : chan_mode) (st : ModeState)
    (g : Nat) (h : st.errors &&& g ≠ 0) :
    (chm_rank need flag env source_p parc parv alev dir mode st).errors &&& g ≠ 0 := by
  unfold chm_rank
  by_cases g1 : alev < need
  · rw [if_pos g1]; exact err_bit_reject alev st g h
  rw [if_neg g1]
  by_cases hq : dir = MODE_QUERY ∨ parc ≤ st.parn
  · rw [if_pos hq]; exact h
  rw [if_neg hq]
  dsimp only
  cases env.find_chasing source_p (parv.getD st.parn []) with
  | none => exact h
  | some target_p =>
    dsimp only
    cases find_channel_link target_p st.chptr with
    | none =>
      dsimp only
      split_ifs <;> exact err_bit_or _ _ _ h
    | some pr =>
      obtain ⟨i, member⟩ := pr
      dsimp only
      split_ifs <;> exact h

theorem err_bit_limit (env : Env) (parc : Nat) (parv : List (List Char)) (alev : Int)
    (dir : Nat) (mode : chan_mode) (st : ModeState) (g : Nat) (h : st.errors &&& g ≠ 0) :
    (chm_limit env parc parv alev dir mode st).errors &&& g ≠ 0 := by
  unfold chm_limit
  by_cases g1 : alev < CHACCESS_HALFOP
  · rw [if_pos g1]; exact err_bit_reject alev st g h
  rw [if_neg g1]
  dsimp only
  split_ifs <;> exact h

theorem err_bit_key (env : Env) (parc : Nat) (parv : List (List Char)) (alev : Int)
    (dir : Nat) (mode : chan_mode) (st : ModeState) (g : Nat) (h : st.errors &&& g ≠ 0) :
    (chm_key env parc parv alev dir mode st).errors &&& g ≠ 0 := by
  unfold chm_key
  by_cases g1 : alev < CHACCESS_HALFOP
  · rw [if_pos g1]; exact err_bit_reject alev st g h
  rw [if_neg g1]
  dsimp only
  split_ifs <;> exact h

/-- An error bit that is set stays set to the end of the scan. -/
theorem err_bit_persists (env : Env) (source_p : Client) (parc : Nat)
    (parv : List (List Char)) (alev : Int) (g : Nat) :
    ∀ (ms : List Char) (dir : Nat) (st : ModeState), st.errors &&& g ≠ 0 →
      (mode_loop env source_p parc parv alev ms dir st).errors &&& g ≠ 0 := by
  refine mode_loop_invariant (fun st => st.errors &&& g ≠ 0) env source_p parc parv alev ?_ ?_
  · intro c st hst
    unfold chm_nosuch
    split_ifs
    · exact hst
    · exact err_bit_or _ _ _ hst
  · intro mode _ dir st hst
    unfold call_handler
    cases mode.func with
    | chm_simple => exact err_bit_simple source_p alev dir mode st g hst
    | chm_ban => exact err_bit_list _ _ _ _ _ env source_p parc parv alev dir mode st g hst
    | chm_except => exact err_bit_list _ _ _ _ _ env source_p parc parv alev dir mode st g hst
    | chm_invex => exact err_bit_list _ _ _ _ _ env source_p parc parv alev dir mode st g hst
    | chm_voice => exact err_bit_rank _ _ env source_p parc parv alev dir mode st g hst
    | chm_hop => exact err_bit_rank _ _ env source_p parc parv alev dir mode st g hst
    | chm_op => exact err_bit_rank _ _ env source_p parc parv alev dir mode st g hst
    | chm_limit => exact err_bit_limit env parc parv alev dir mode st g hst
    | chm_key => exact err_bit_key env parc parv alev dir mode st g hst

theorem list_entries_eq (rpl : Numeric) (chptr : Channel) (alev : Int) (list : List Ban) :
    list_entries rpl chptr alev list =
      if HasCMode chptr MODE_HIDEBMASKS = true ∧ alev < CHACCESS_HALFOP then []
      else list.map (entry_reply rpl chptr) := by
  unfold list_entries
  by_cases h : HasCMode chptr MODE_HIDEBMASKS = true ∧ alev < CHACCESS_HALFOP
  · rw [if_pos h]
    have hn : ¬ (¬ HasCMode chptr MODE_HIDEBMASKS = true ∨ alev ≥ CHACCESS_HALFOP) := by
      intro h1
      rcases h1 with h1 | h1
      · exact h1 h.1
      · exact absurd h.2 (not_lt.mpr h1)
    simp only [if_neg hn]
    induction list with
    | nil => rfl
    | cons b rest ih => rw [List.filterMap_cons]; exact ih
  · rw [if_neg h]
    have hp : ¬ HasCMode chptr MODE_HIDEBMASKS = true ∨ alev ≥ CHACCESS_HALFOP := by
      by_cases h1 : HasCMode chptr MODE_HIDEBMASKS = true
      · exact Or.inr (not_lt.mp (fun h2 => h ⟨h1, h2⟩))
      · exact Or.inl h1
    simp only [if_pos hp]
    induction list with
    | nil => rfl
    | cons b rest ih => rw [List.filterMap_cons, List.map_cons, ih]; rfl

/-- C20. A list query, that is a call of the ban, exception or
invite-exception handler under the query direction or with no argument left,
by a requester of any access level: the channel, the recorded changes, the
argument cursor and the other scratch values stay as they are. While the error
bit of the list kind is clear, the query sends one entry reply per entry of the
list, in list order (none when the hide-lists flag is set and the access level
is below half-operator), then one end-of-list reply, and sets the bit. When the
bit is set the query does nothing. A set bit stays set to the end of the scan,
and the scan starts with every bit clear. -/
theorem list_query (errbit : Nat) (list : Channel → List Ban) (rpl rpl_end : Numeric)
    (type : Nat) (env : Env) (source_p : Client) (parc : Nat) (parv : List (List Char))
    (alev : Int) (dir : Nat) (mode : chan_mode) (st : ModeState)
    (hq : dir = MODE_QUERY ∨ parc ≤ st.parn) (hbit : errbit ≠ 0) :
    (chm_ban = chm_list SM_ERR_RPL_B Channel.banlist Numeric.RPL_BANLIST
      Numeric.RPL_ENDOFBANLIST CHFL_BAN ∧
     chm_except = chm_list SM_ERR_RPL_E Channel.exceptlist Numeric.RPL_EXCEPTLIST
      Numeric.RPL_ENDOFEXCEPTLIST CHFL_EXCEPTION ∧
     chm_invex = chm_list SM_ERR_RPL_I Channel.invexlist Numeric.RPL_INVEXLIST
      Numeric.RPL_ENDOFINVEXLIST CHFL_INVEX ∧
     SM_ERR_RPL_B ≠ 0 ∧ SM_ERR_RPL_E ≠ 0 ∧ SM_ERR_RPL_I ≠ 0) ∧
    (st.errors &&& errbit = 0 →
      chm_list errbit list rpl rpl_end type env source_p parc parv alev dir mode st =
        { st with
          errors := st.errors ||| errbit,
          out := st.out ++
            (if HasCMode st.chptr MODE_HIDEBMASKS = true ∧ alev < CHACCESS_HALFOP then []
             else (list st.chptr).map (entry_reply rpl st.chptr)) ++
            [Out.numeric rpl_end [st.chptr.name]] } ∧
      (st.errors ||| errbit) &&& errbit ≠ 0) ∧
    (st.errors &&& errbit ≠ 0 →
      chm_list errbit list rpl rpl_end type env source_p parc parv alev dir mode st = st) ∧
    (∀ (ms : List Char) (dir1 : Nat) (st1 : ModeState), st1.errors &&& errbit ≠ 0 →
      (mode_loop env source_p parc parv alev ms dir1 st1).errors &&& errbit ≠ 0) ∧
    (ModeState.init st.chptr).errors &&& errbit = 0 := by
  refine ⟨⟨rfl, rfl, rfl, by decide, by decide, by decide⟩, ?_, ?_,
    err_bit_persists env source_p parc parv alev errbit, ?_⟩
  · intro he
    constructor
    · unfold chm_list
      rw [if_pos hq, if_neg (fun h => h he), list_entries_eq]
    · have h1 := err_flag_set st.errors errbit hbit
      unfold err_flag at h1
      intro h2
      rw [if_pos h2] at h1
      exact absurd h1 (by decide)
  · intro he
    unfold chm_list
    rw [if_pos hq, if_pos he]
  · show 0 &&& errbit = 0
    exact Nat.zero_and errbit

/-! ## The arguments of a line -/

theorem letters_sublist : ∀ (batch : List ChModeChange) (dir : Nat),
    (batch.map ChModeChange.letter).Sublist (mode_letters dir batch) := by
  intro batch
  induction batch with
  | nil => intro dir; exact List.Sublist.refl _
  | cons mc rest ih =>
    intro dir
    unfold mode_letters
    rw [List.map_cons]
    exact List.Sublist.trans (List.Sublist.cons₂ _ (ih mc.dir)) (List.sublist_append_right _ _)

/-- C18. The server lines are the lines of consecutive batches of the
non-voided changes, and the argument section of a line holds, for each change
of its batch in order, the stable identifier when the change has one and the
display argument otherwise; in the client lines it holds the display argument
whether or not there is an identifier. A change with neither adds nothing to
the argument section, and its letter is in the letter section. -/
theorem line_arguments (env : Env) (source_p : Client) (chptr : Channel)
    (changes : List ChModeChange) :
    (∀ mc : ChModeChange,
      server_arg mc = match mc.id with
        | some i => some i
        | none => mc.arg) ∧
    (∃ batches : List (List ChModeChange),
      batches.flatten = changes.filter ChModeChange.live ∧
      send_mode_changes_server env source_p chptr changes =
        batches.map (fun b =>
          Out.server (server_header source_p chptr ++ mode_letters MODE_QUERY b)
            (para_text [] (b.filterMap server_arg)))) ∧
    (∃ b0 b1 : List (List ChModeChange),
      b0.flatten = changes.filter (fun mc => mc.live && mc.flags == 0) ∧
      b1.flatten = changes.filter (fun mc => mc.live && mc.flags == CHFL_CHANOP ||| CHFL_HALFOP) ∧
      send_mode_changes_client env source_p chptr changes =
        b0.map (fun b =>
          Out.channel_local 0 (client_header env source_p chptr ++ mode_letters MODE_QUERY b)
            (para_text [] (b.filterMap ChModeChange.arg))) ++
        b1.map (fun b =>
          Out.channel_local (CHFL_CHANOP ||| CHFL_HALFOP)
            (client_header env source_p chptr ++ mode_letters MODE_QUERY b)
            (para_text [] (b.filterMap ChModeChange.arg)))) ∧
    (∀ (b1 b2 : List ChModeChange) (letter : Char) (dir flags : Nat),
      (b1 ++ { letter := letter, arg := none, id := none, dir := dir, flags := flags } ::
        b2).filterMap server_arg = (b1 ++ b2).filterMap server_arg ∧
      (b1 ++ { letter := letter, arg := none, id := none, dir := dir, flags := flags } ::
        b2).filterMap ChModeChange.arg = (b1 ++ b2).filterMap ChModeChange.arg ∧
      letter ∈ mode_letters MODE_QUERY
        (b1 ++ { letter := letter, arg := none, id := none, dir := dir, flags := flags } ::
          b2)) := by
  refine ⟨?_, ?_, ?_, ?_⟩
  · intro mc
    unfold server_arg
    cases h : mc.id <;> simp
  · obtain ⟨batches, h1, -, h3⟩ := loop_batches env (server_header source_p chptr) Out.server
      server_arg (fun mc => mc.letter = Char.ofNat 0) ChModeChange.live
      (fun mc => by
        by_cases h1 : mc.letter = Char.ofNat 0 <;> simp [ChModeChange.live, h1]) changes
    exact ⟨batches, h1, h3⟩
  · obtain ⟨b0, h01, -, h03⟩ := loop_batches env (client_header env source_p chptr)
      (Out.channel_local 0) ChModeChange.arg
      (fun mc => mc.letter = Char.ofNat 0 ∨ mc.flags ≠ 0)
      (fun mc => mc.live && mc.flags == 0)
      (fun mc => by
        by_cases h1 : mc.letter = Char.ofNat 0 <;> by_cases h2 : mc.flags = 0 <;>
          simp [ChModeChange.live, h1, h2]) changes
    obtain ⟨b1, h11, -, h13⟩ := loop_batches env (client_header env source_p chptr)
      (Out.channel_local (CHFL_CHANOP ||| CHFL_HALFOP)) ChModeChange.arg
      (fun mc => mc.letter = Char.ofNat 0 ∨ mc.flags ≠ CHFL_CHANOP ||| CHFL_HALFOP)
      (fun mc => mc.live && mc.flags == CHFL_CHANOP ||| CHFL_HALFOP)
      (fun mc => by
        by_cases h1 : mc.letter = Char.ofNat 0 <;>
          by_cases h2 : mc.flags = CHFL_CHANOP ||| CHFL_HALFOP <;>
          simp [ChModeChange.live, h1, h2]) changes
    refine ⟨b0, b1, h01, h11, ?_⟩
    unfold send_mode_changes_client client_pass
    rw [h03, h13]
    rfl
  · intro b1 b2 letter dir flags
    refine ⟨?_, ?_, ?_⟩
    · rw [List.filterMap_append, List.filterMap_append, List.filterMap_cons]
      rfl
    · rw [List.filterMap_append, List.filterMap_append, List.filterMap_cons]
    · apply (letters_sublist _ MODE_QUERY).subset
      simp

/-- C19. Every line of `send_mode_changes_server` and of
`send_mode_changes_client` is the line of a batch of changes that is not empty,
so it carries at least one letter (the letters of the batch are in its letter
section), and whose arguments are at most `MAXMODEPARAMS`, which is 6. -/
theorem lines_bounded (env : Env) (source_p : Client) (chptr : Channel)
    (changes : List ChModeChange) :
    (∀ line ∈ send_mode_changes_server env source_p chptr changes,
      ∃ b : List ChModeChange, b ≠ [] ∧
        (b.filterMap server_arg).length ≤ MAXMODEPARAMS ∧
        (b.map ChModeChange.letter).Sublist (mode_letters MODE_QUERY b) ∧
        line = Out.server (server_header source_p chptr ++ mode_letters MODE_QUERY b)
          (para_text [] (b.filterMap server_arg))) ∧
    (∀ line ∈ send_mode_changes_client env source_p chptr changes,
      ∃ (flags : Nat) (b : List ChModeChange), b ≠ [] ∧
        (b.filterMap ChModeChange.arg).length ≤ MAXMODEPARAMS ∧
        (b.map ChModeChange.letter).Sublist (mode_letters MODE_QUERY b) ∧
        line = Out.channel_local flags
          (client_header env source_p chptr ++ mode_letters MODE_QUERY b)
          (para_text [] (b.filterMap ChModeChange.arg))) ∧
    MAXMODEPARAMS = 6 := by
  refine ⟨?_, ?_, rfl⟩
  · intro line hline
    obtain ⟨batches, -, h2, h3, h4⟩ := loop_batches_bounded env (server_header source_p chptr)
      Out.server server_arg (fun mc => mc.letter = Char.ofNat 0) ChModeChange.live
      (fun mc => by
        by_cases h1 : mc.letter = Char.ofNat 0 <;> simp [ChModeChange.live, h1]) changes
    have hs : send_mode_changes_server env source_p chptr changes =
        batches.map (batch_line Out.server (server_header source_p chptr) server_arg) := h3
    rw [hs, List.mem_map] at hline
    obtain ⟨b, hb, hl⟩ := hline
    exact ⟨b, h2 b hb, h4 b hb, letters_sublist b MODE_QUERY, hl.symm⟩
  · intro line hline
    have hpass : ∀ flags : Nat, ∀ line ∈ client_pass env source_p chptr changes flags,
        ∃ b : List ChModeChange, b ≠ [] ∧
          (b.filterMap ChModeChange.arg).length ≤ MAXMODEPARAMS ∧
          (b.map ChModeChange.letter).Sublist (mode_letters MODE_QUERY b) ∧
          line = Out.channel_local flags
            (client_header env source_p chptr ++ mode_letters MODE_QUERY b)
            (para_text [] (b.filterMap ChModeChange.arg)) := by
      intro flags line hline
      obtain ⟨batches, -, h2, h3, h4⟩ := loop_batches_bounded env
        (client_header env source_p chptr) (Out.channel_local flags) ChModeChange.arg
        (fun mc => mc.letter = Char.ofNat 0 ∨ mc.flags ≠ flags)
        (fun mc => mc.live && mc.flags == flags)
        (fun mc => by
          by_cases h1 : mc.letter = Char.ofNat 0 <;> by_cases h2 : mc.flags = flags <;>
            simp [ChModeChange.live, h1, h2]) changes
      have hs : client_pass env source_p chptr changes flags =
          batches.map (batch_line (Out.channel_local flags) (client_header env source_p chptr)
            ChModeChange.arg) := h3
      rw [hs, List.mem_map] at hline
      obtain ⟨b, hb, hl⟩ := hline
      exact ⟨b, h2 b hb, h4 b hb, letters_sublist b MODE_QUERY, hl.symm⟩
    unfold send_mode_changes_client at hline
    rcases List.mem_append.mp hline with h | h
    · exact ⟨_, hpass _ line h⟩
    · exact ⟨_, hpass _ line h⟩

/-! ## Rank changes -/

theorem find_channel_link_some (target_p : Client) (chptr : Channel) (i : Nat)
    (member : Membership) (h : find_channel_link target_p chptr = some (i, member)) :
    chptr.members[i]? = some member ∧ member.client_p = target_p := by
  unfold find_channel_link at h
  dsimp only at h
  cases hm : chptr.members[chptr.members.findIdx (fun member => member.client_p == target_p)]? with
  | none => rw [hm] at h; cases h
  | some m =>
    rw [hm] at h
    simp only [Option.some.injEq, Prod.mk.injEq] at h
    obtain ⟨h1, h2⟩ := h
    subst h1; subst h2
    refine ⟨hm, ?_⟩
    obtain ⟨hlt, hget⟩ := List.getElem?_eq_some_iff.mp hm
    have := List.findIdx_getElem (w := hlt)
    rw [hget] at this
    simpa using this

theorem add_flag_bit_only (member : Membership) (flag : Nat) :
    rank_bit_only flag member (AddMemberFlag member flag) := by
  refine ⟨rfl, rfl, ?_⟩
  intro i _ hf
  show (member.flags ||| flag).testBit i = _
  rw [Nat.testBit_or, hf, Bool.or_false]

theorem del_flag_bit_only (member : Membership) (flag : Nat) :
    rank_bit_only flag member (DelMemberFlag member flag) := by
  refine ⟨rfl, rfl, ?_⟩
  intro i hi hf
  show (member.flags &&& bnot32 flag).testBit i = _
  have key : (bnot32 flag).testBit i = true := by
    unfold bnot32
    rw [Nat.testBit_xor, hf]
    have : (0xFFFFFFFF : Nat).testBit i = true := by
      interval_cases i <;> decide
    rw [this]; rfl
  rw [Nat.testBit_and, key, Bool.and_true]

theorem all_ones_bit (i : Nat) (hi : i < 32) : (0xFFFFFFFF : Nat).testBit i = true := by
  interval_cases i <;> decide

theorem del_flag_clears (member : Membership) (flag : Nat) (hf : flag < 2 ^ 32) :
    has_member_flags (DelMemberFlag member flag) flag = false := by
  have h : member.flags &&& bnot32 flag &&& flag = 0 := by
    apply Nat.eq_of_testBit_eq
    intro i
    rw [Nat.testBit_and, Nat.testBit_and, Nat.zero_testBit]
    unfold bnot32
    rw [Nat.testBit_xor]
    cases hb : flag.testBit i
    · simp
    · have hi : i < 32 := by
        by_contra hge
        have hle : 2 ^ 32 ≤ 2 ^ i := Nat.pow_le_pow_right (by decide) (not_lt.mp hge)
        have := Nat.testBit_lt_two_pow (lt_of_lt_of_le hf hle)
        rw [hb] at this
        cases this
      rw [all_ones_bit i hi]
      simp
  simp [has_member_flags, DelMemberFlag, h]

theorem add_flag_sets (member : Membership) (flag : Nat) (hf : flag ≠ 0) :
    has_member_flags (AddMemberFlag member flag) flag = true := by
  have h : (member.flags ||| flag) &&& flag ≠ 0 := by
    intro h0
    apply hf
    apply Nat.eq_of_testBit_eq
    intro i
    have := congrArg (fun n => n.testBit i) h0
    simp only [Nat.testBit_and, Nat.testBit_or, Nat.zero_testBit] at this
    rw [Nat.zero_testBit]
    cases hb : flag.testBit i
    · rfl
    · rw [hb] at this; simp at this
  simp [has_member_flags, AddMemberFlag, h]

/-- A rank letter past the gate, with an argument that resolves to a member,
within the parameter limit. -/
theorem chm_rank_resolved (need : Int) (flag : Nat) (env : Env) (source_p : Client)
    (parc : Nat) (parv : List (List Char)) (alev : Int) (d : Nat) (mode : chan_mode)
    (st : ModeState) (target_p : Client) (i : Nat) (member : Membership)
    (hgate : ¬ alev < need) (hparc : st.parn < parc)
    (hfind : env.find_chasing source_p (parv.getD st.parn []) = some target_p)
    (hlink : find_channel_link target_p st.chptr = some (i, member))
    (hlim : MyClient source_p = true → st.mode_limit + 1 ≤ MAXMODEPARAMS)
    (hd : d = MODE_ADD ∨ d = MODE_DEL) :
    chm_rank need flag env source_p parc parv alev d mode st =
      if d = MODE_ADD then
        if has_member_flags member flag = true then
          { st with parn := st.parn + 1,
                    mode_limit := if MyClient source_p = true then st.mode_limit + 1
                                  else st.mode_limit }
        else
          { st with parn := st.parn + 1,
                    mode_limit := if MyClient source_p = true then st.mode_limit + 1
                                  else st.mode_limit,
                    chptr := set_member st.chptr i (AddMemberFlag member flag),
                    mode_changes := st.mode_changes ++ [rank_change mode d target_p] }
      else
        if ¬ has_member_flags member flag = true then
          { st with parn := st.parn + 1,
                    mode_limit := if MyClient source_p = true then st.mode_limit + 1
                                  else st.mode_limit }
        else
          { st with parn := st.parn + 1,
                    mode_limit := if MyClient source_p = true then st.mode_limit + 1
                                  else st.mode_limit,
                    chptr := set_member st.chptr i (DelMemberFlag member flag),
                    mode_changes := st.mode_changes ++ [rank_change mode d target_p] } := by
  have hq : ¬ (d = MODE_QUERY ∨ parc ≤ st.parn) := by
    rintro (h | h)
    · rcases hd with hd | hd <;> rw [hd] at h <;> exact absurd h (by decide)
    · exact absurd hparc (not_lt.mpr h)
  unfold chm_rank
  rw [if_neg hgate, if_neg hq]
  dsimp only
  rw [hfind]
  dsimp only
  rw [hlink]
  dsimp only
  by_cases hloc : MyClient source_p = true
  · have hl : ¬ (st.mode_limit + 1 > MAXMODEPARAMS) := not_lt.mpr (hlim hloc)
    simp only [hloc, if_true, true_and, if_neg hl]
    rcases hd with hd | hd
    · subst hd
      by_cases hh : has_member_flags member flag = true
      · simp only [if_pos hh, if_true]
      · simp only [if_neg hh, if_true]; rfl
    · subst hd
      have hne : ¬ (MODE_DEL = MODE_ADD) := by decide
      by_cases hh : has_member_flags member flag = true
      · simp only [if_neg hne, if_true, hh, not_true_eq_false, if_false]; rfl
      · simp only [if_neg hne, if_true, hh, Bool.false_eq_true, not_false_eq_true]
  · have hrem : MyClient source_p = false := by simpa using hloc
    simp only [hrem, Bool.false_eq_true, if_false, false_and, not_false_eq_true]
    rcases hd with hd | hd
    · subst hd
      by_cases hh : has_member_flags member flag = true
      · simp only [if_pos hh, if_true]
      · simp only [if_neg hh, if_true]; rfl
    · subst hd
      have hne : ¬ (MODE_DEL = MODE_ADD) := by decide
      by_cases hh : has_member_flags member flag = true
      · simp only [if_neg hne, if_true, hh, not_true_eq_false, if_false]; rfl
      · simp only [if_neg hne, if_true, hh, Bool.false_eq_true, not_false_eq_true]

/-- C21. A `+o`/`-o`, `+h`/`-h` or `+v`/`-v` that passes the rank gate, has an
argument that `find_chasing` resolves to a client with a membership on the
channel, and (for a local requester) is within the parameter limit. When the
membership lacks the bit on add, or has it on remove, the handler replaces that
membership by one in which the bit is set, respectively clear, and every other
bit of the flag word, the member and the link are the same; every other
membership and every other part of the channel is unchanged; and exactly one
change is recorded, with the name of the target as argument and its id as
stable identifier. When the membership already has the bit on add, or lacks it
on remove, the channel and the recorded changes stay as they are. -/
theorem rank_change_frame (need : Int) (flag : Nat) (env : Env) (source_p : Client)
    (parc : Nat) (parv : List (List Char)) (alev : Int) (dir : Nat) (mode : chan_mode)
    (st : ModeState) (target_p : Client) (i : Nat) (member : Membership)
    (hgate : ¬ alev < need) (hparc : st.parn < parc)
    (hfind : env.find_chasing source_p (parv.getD st.parn []) = some target_p)
    (hlink : find_channel_link target_p st.chptr = some (i, member))
    (hlim : MyClient source_p = true → st.mode_limit + 1 ≤ MAXMODEPARAMS) :
    (chm_op = chm_rank CHACCESS_CHANOP CHFL_CHANOP ∧
     chm_hop = chm_rank CHACCESS_CHANOP CHFL_HALFOP ∧
     chm_voice = chm_rank CHACCESS_HALFOP CHFL_VOICE ∧
     CHFL_CHANOP ≠ 0 ∧ CHFL_HALFOP ≠ 0 ∧ CHFL_VOICE ≠ 0 ∧
     CHFL_CHANOP < 2 ^ 32 ∧ CHFL_HALFOP < 2 ^ 32 ∧ CHFL_VOICE < 2 ^ 32) ∧
    (st.chptr.members[i]? = some member ∧ member.client_p = target_p) ∧
    (dir = MODE_ADD → has_member_flags member flag = false →
      (chm_rank need flag env source_p parc parv alev dir mode st).chptr =
        with_member st.chptr i (AddMemberFlag member flag) ∧
      rank_bit_only flag member (AddMemberFlag member flag) ∧
      (flag ≠ 0 → has_member_flags (AddMemberFlag member flag) flag = true) ∧
      (chm_rank need flag env source_p parc parv alev dir mode st).mode_changes =
        st.mode_changes ++ [rank_change mode MODE_ADD target_p]) ∧
    (dir = MODE_DEL → has_member_flags member flag = true →
      (chm_rank need flag env source_p parc parv alev dir mode st).chptr =
        with_member st.chptr i (DelMemberFlag member flag) ∧
      rank_bit_only flag member (DelMemberFlag member flag) ∧
      (flag < 2 ^ 32 → has_member_flags (DelMemberFlag member flag) flag = false) ∧
      (chm_rank need flag env source_p parc parv alev dir mode st).mode_changes =
        st.mode_changes ++ [rank_change mode MODE_DEL target_p]) ∧
    (((dir = MODE_ADD ∧ has_member_flags member flag = true) ∨
        (dir = MODE_DEL ∧ has_member_flags member flag = false)) →
      (chm_rank need flag env source_p parc parv alev dir mode st).chptr = st.chptr ∧
      (chm_rank need flag env source_p parc parv alev dir mode st).mode_changes =
        st.mode_changes) ∧
    (∀ (m1 : Membership) (j : Nat), j ≠ i →
      (with_member st.chptr i m1).members[j]? = st.chptr.members[j]?) ∧
    (∀ m1 : Membership, (with_member st.chptr i m1).members[i]? = some m1) := by
  have hmem := find_channel_link_some target_p st.chptr i member hlink
  have hrun : ∀ d : Nat, d = MODE_ADD ∨ d = MODE_DEL →
      chm_rank need flag env source_p parc parv alev d mode st =
        if d = MODE_ADD then
          if has_member_flags member flag = true then
            { st with parn := st.parn + 1,
                      mode_limit := if MyClient source_p = true then st.mode_limit + 1
                                    else st.mode_limit }
          else
            { st with parn := st.parn + 1,
                      mode_limit := if MyClient source_p = true then st.mode_limit + 1
                                    else st.mode_limit,
                      chptr := set_member st.chptr i (AddMemberFlag member flag),
                      mode_changes := st.mode_changes ++ [rank_change mode d target_p] }
        else
          if ¬ has_member_flags member flag = true then
            { st with parn := st.parn + 1,
                      mode_limit := if MyClient source_p = true then st.mode_limit + 1
                                    else st.mode_limit }
          else
            { st with parn := st.parn + 1,
                      mode_limit := if MyClient source_p = true then st.mode_limit + 1
                                    else st.mode_limit,
                      chptr := set_member st.chptr i (DelMemberFlag member flag),
                      mode_changes := st.mode_changes ++ [rank_change mode d target_p] } :=
    fun d hd => chm_rank_resolved need flag env source_p parc parv alev d mode st target_p i
      member hgate hparc hfind hlink hlim hd
  have hyes : ∀ h : has_member_flags member flag = false,
      ¬ has_member_flags member flag = true := by
    intro h; rw [h]; decide
  have hdel : ¬ (MODE_DEL = MODE_ADD) := by decide
  refine ⟨⟨rfl, rfl, rfl, by decide, by decide, by decide, by decide, by decide, by decide⟩,
    hmem, ?_, ?_, ?_, ?_, ?_⟩
  · intro hd hhas
    subst hd
    rw [hrun MODE_ADD (Or.inl rfl), if_pos rfl, if_neg (hyes hhas)]
    exact ⟨rfl, add_flag_bit_only member flag, add_flag_sets member flag, rfl⟩
  · intro hd hhas
    subst hd
    rw [hrun MODE_DEL (Or.inr rfl), if_neg hdel, if_neg (not_not.mpr hhas)]
    exact ⟨rfl, del_flag_bit_only member flag, del_flag_clears member flag, rfl⟩
  · rintro (⟨hd, hhas⟩ | ⟨hd, hhas⟩)
    · subst hd
      rw [hrun MODE_ADD (Or.inl rfl), if_pos rfl, if_pos hhas]
      exact ⟨rfl, rfl⟩
    · subst hd
      rw [hrun MODE_DEL (Or.inr rfl), if_neg hdel, if_pos (hyes hhas)]
      exact ⟨rfl, rfl⟩
  · intro m1 j hj
    show (st.chptr.members.set i m1)[j]? = _
    exact List.getElem?_set_ne (Ne.symm hj)
  · intro m1
    show (st.chptr.members.set i m1)[i]? = _
    have hlt : i < st.chptr.members.length := (List.getElem?_eq_some_iff.mp hmem.1).1
    rw [List.getElem?_set_self hlt]

/-! ## The argument cursor once the parameter limit is reached -/

/-- C28. A local requester whose parameter counter has reached
`MAXMODEPARAMS`, a direction that is not query, an argument left, the rank gate
passed. A ban, exception or invite-exception letter only increments the
counter: the argument cursor stays, so the argument is left for the next
letter. A `o`, `h` or `v` letter whose argument `find_chasing` resolves to a
member of the channel increments the counter and moves the cursor by one. In
both cases the channel, the recorded changes, the error bits and the output are
as before. -/
theorem limit_hit_cursor (errbit : Nat) (list : Channel → List Ban) (rpl rpl_end : Numeric)
    (type : Nat) (need : Int) (flag : Nat) (env : Env) (source_p : Client) (parc : Nat)
    (parv : List (List Char)) (alev : Int) (dir : Nat) (mode : chan_mode) (st : ModeState)
    (hloc : MyClient source_p = true) (hfull : MAXMODEPARAMS ≤ st.mode_limit)
    (hparc : st.parn < parc) (hdir : dir ≠ MODE_QUERY) :
    (chm_ban = chm_list SM_ERR_RPL_B Channel.banlist Numeric.RPL_BANLIST
      Numeric.RPL_ENDOFBANLIST CHFL_BAN ∧
     chm_except = chm_list SM_ERR_RPL_E Channel.exceptlist Numeric.RPL_EXCEPTLIST
      Numeric.RPL_ENDOFEXCEPTLIST CHFL_EXCEPTION ∧
     chm_invex = chm_list SM_ERR_RPL_I Channel.invexlist Numeric.RPL_INVEXLIST
      Numeric.RPL_ENDOFINVEXLIST CHFL_INVEX ∧
     chm_op = chm_rank CHACCESS_CHANOP CHFL_CHANOP ∧
     chm_hop = chm_rank CHACCESS_CHANOP CHFL_HALFOP ∧
     chm_voice = chm_rank CHACCESS_HALFOP CHFL_VOICE) ∧
    (¬ alev < CHACCESS_HALFOP →
      chm_list errbit list rpl rpl_end type env source_p parc parv alev dir mode st =
        { st with mode_limit := st.mode_limit + 1 }) ∧
    (¬ alev < need →
      ∀ (target_p : Client) (i : Nat) (member : Membership),
        env.find_chasing source_p (parv.getD st.parn []) = some target_p →
        find_channel_link target_p st.chptr = some (i, member) →
        chm_rank need flag env source_p parc parv alev dir mode st =
          { st with parn := st.parn + 1, mode_limit := st.mode_limit + 1 }) := by
  have hq : ¬ (dir = MODE_QUERY ∨ parc ≤ st.parn) := by
    rintro (h | h)
    · exact hdir h
    · exact absurd hparc (not_lt.mpr h)
  have hover : st.mode_limit + 1 > MAXMODEPARAMS := Nat.lt_succ_of_le hfull
  refine ⟨⟨rfl, rfl, rfl, rfl, rfl, rfl⟩, ?_, ?_⟩
  · intro hgate
    unfold chm_list
    rw [if_neg hq, if_neg hgate]
    simp only [hloc, if_true, true_and, if_pos hover]
  · intro hgate target_p i member hfind hlink
    unfold chm_rank
    rw [if_neg hgate, if_neg hq]
    dsimp only
    rw [hfind]
    dsimp only
    rw [hlink]
    simp only [hloc, if_true, true_and, if_pos hover]

/-! ## The dedup of simple modes -/

theorem or_and_self_ne_zero (a b : Nat) (hb : b ≠ 0) : (a ||| b) &&& b ≠ 0 := by
  have h1 := err_flag_set a b hb
  unfold err_flag at h1
  intro h2
  rw [if_pos h2] at h1
  exact absurd h1 (by decide)

/-- C26 (as the code has it). A simple-mode letter that passes the privilege
and rank gates marks its mode bit in the dedup mask of the call whatever its
direction and whether or not it toggles the flag; a letter whose bit is marked
is skipped, the state is returned as it is. So of two occurrences of one simple
letter that pass the gates, the second does nothing, also when the first was a
redundant add or remove that changed and recorded nothing. -/
theorem simple_dedup (source_p : Client) (alev : Int) (dir dir2 : Nat) (mode : chan_mode)
    (st : ModeState)
    (hopers : ¬ (mode.only_opers ≠ 0 ∧ MyClient source_p = true ∧
      ¬ source_p.umode_oper = true))
    (hserv : ¬ (mode.only_servers ≠ 0 ∧ ¬ source_p.is_server = true ∧
      ¬ source_p.flag_service = true))
    (hgate : ¬ alev < CHACCESS_HALFOP) :
    (st.simple_modes_mask &&& mode.mode = 0 →
      (chm_simple source_p alev dir mode st).simple_modes_mask =
        st.simple_modes_mask ||| mode.mode) ∧
    (st.simple_modes_mask &&& mode.mode ≠ 0 → chm_simple source_p alev dir mode st = st) ∧
    (st.simple_modes_mask &&& mode.mode = 0 → mode.mode ≠ 0 →
      chm_simple source_p alev dir2 mode (chm_simple source_p alev dir mode st) =
        chm_simple source_p alev dir mode st) := by
  have hfirst : st.simple_modes_mask &&& mode.mode = 0 →
      (chm_simple source_p alev dir mode st).simple_modes_mask =
        st.simple_modes_mask ||| mode.mode := by
    intro hclear
    unfold chm_simple
    rw [if_neg hopers, if_neg hserv, if_neg hgate, if_neg (fun h => h hclear)]
    dsimp only
    split_ifs <;> rfl
  have hskip : ∀ (d : Nat) (s : ModeState), s.simple_modes_mask &&& mode.mode ≠ 0 →
      chm_simple source_p alev d mode s = s := by
    intro d s hset
    unfold chm_simple
    rw [if_neg hopers, if_neg hserv, if_neg hgate, if_pos hset]
  refine ⟨hfirst, hskip dir st, ?_⟩
  intro hclear hne
  apply hskip
  rw [hfirst hclear]
  exact or_and_self_ne_zero _ _ hne

/-! ## One letter records at most one change -/

theorem records_simple (source_p : Client) (alev : Int) (dir : Nat) (mode : chan_mode)
    (st : ModeState) :
    records_step mode.letter st.mode_changes
      (chm_simple source_p alev dir mode st).mode_changes := by
  have hrec : records_step mode.letter st.mode_changes
      (st.mode_changes ++
        [{ letter := mode.letter, arg := none, id := none, flags := 0, dir := dir }]) :=
    Or.inr ⟨_, rfl, Or.inl rfl⟩
  unfold chm_simple
  dsimp only
  split_ifs
  all_goals first
    | exact Or.inl rfl
    | exact hrec
    | (rw [reject_noops_eq]; exact Or.inl rfl)

theorem records_list (errbit : Nat) (list : Channel → List Ban) (rpl rpl_end : Numeric)
    (type : Nat) (env : Env) (source_p : Client) (parc : Nat) (parv : List (List Char))
    (alev : Int) (dir : Nat) (mode : chan_mode) (st : ModeState) :
    records_step mode.letter st.mode_changes
      (chm_list errbit list rpl rpl_end type env source_p parc parv alev dir mode
        st).mode_changes := by
  rcases (chm_list_records errbit list rpl rpl_end type env source_p parc parv alev dir mode
    st).2 with h | ⟨arg, h⟩
  · exact Or.inl h
  · exact Or.inr ⟨_, rfl, Or.inl h⟩

theorem records_rank (need : Int) (flag : Nat) (env : Env) (source_p : Client) (parc : Nat)
    (parv : List (List Char)) (alev : Int) (dir : Nat) (mode : chan_mode) (st : ModeState) :
    records_step mode.letter st.mode_changes
      (chm_rank need flag env source_p parc parv alev dir mode st).mode_changes := by
  unfold chm_rank
  by_cases g : alev < need
  · rw [if_pos g, reject_noops_eq]; exact Or.inl rfl
  rw [if_neg g]
  by_cases hq : dir = MODE_QUERY ∨ parc ≤ st.parn
  · rw [if_pos hq]; exact Or.inl rfl
  rw [if_neg hq]
  dsimp only
  cases hfind : env.find_chasing source_p (parv.getD st.parn []) with
  | none => exact Or.inl rfl
  | some target_p =>
    dsimp only
    cases find_channel_link target_p st.chptr with
    | none => dsimp only; split_ifs <;> exact Or.inl rfl
    | some pr =>
      obtain ⟨i, member⟩ := pr
      have hrec : ∀ l : Nat, records_step mode.letter st.mode_changes
          (st.mode_changes ++
            [{ letter := mode.letter, arg := some target_p.name, id := some target_p.id,
               flags := 0, dir := dir }]) := fun _ => Or.inr ⟨_, rfl, Or.inl rfl⟩
      dsimp only
      split_ifs
      all_goals first
        | exact Or.inl rfl
        | exact hrec 0

theorem records_limit (env : Env) (parc : Nat) (parv : List (List Char)) (alev : Int)
    (dir : Nat) (mode : chan_mode) (st : ModeState) :
    records_step mode.letter st.mode_changes
      (chm_limit env parc parv alev dir mode st).mode_changes := by
  unfold chm_limit
  by_cases g : alev < CHACCESS_HALFOP
  · rw [if_pos g, reject_noops_eq]; exact Or.inl rfl
  rw [if_neg g]
  dsimp only
  split_ifs
  all_goals first
    | exact Or.inl rfl
    | exact Or.inr ⟨_, rfl, Or.inl rfl⟩
    | exact Or.inr ⟨_, rfl, Or.inr rfl⟩

theorem records_key (env : Env) (parc : Nat) (parv : List (List Char)) (alev : Int)
    (dir : Nat) (mode : chan_mode) (st : ModeState) :
    records_step mode.letter st.mode_changes
      (chm_key env parc parv alev dir mode st).mode_changes := by
  unfold chm_key
  by_cases g : alev < CHACCESS_HALFOP
  · rw [if_pos g, reject_noops_eq]; exact Or.inl rfl
  rw [if_neg g]
  dsimp only
  split_ifs
  all_goals first
    | exact Or.inl rfl
    | exact Or.inr ⟨_, rfl, Or.inl rfl⟩
    | exact Or.inr ⟨_, rfl, Or.inr rfl⟩

/-- Every handler call records at most one change, with the letter of its
table entry. -/
theorem records_handler (env : Env) (source_p : Client) (parc : Nat)
    (parv : List (List Char)) (alev : Int) (dir : Nat) (mode : chan_mode) (st : ModeState) :
    records_step mode.letter st.mode_changes
      (call_handler env source_p parc parv alev dir mode st).mode_changes := by
  unfold call_handler
  cases mode.func with
  | chm_simple => exact records_simple source_p alev dir mode st
  | chm_ban => exact records_list _ _ _ _ _ env source_p parc parv alev dir mode st
  | chm_except => exact records_list _ _ _ _ _ env source_p parc parv alev dir mode st
  | chm_invex => exact records_list _ _ _ _ _ env source_p parc parv alev dir mode st
  | chm_voice => exact records_rank _ _ env source_p parc parv alev dir mode st
  | chm_hop => exact records_rank _ _ env source_p parc parv alev dir mode st
  | chm_op => exact records_rank _ _ env source_p parc parv alev dir mode st
  | chm_limit => exact records_limit env parc parv alev dir mode st
  | chm_key => exact records_key env parc parv alev dir mode st

theorem records_step_length (letter : Char) (before after : List ChModeChange)
    (h : records_step letter before after) :
    before.length ≤ after.length ∧ after.length ≤ before.length + 1 := by
  rcases h with h | ⟨mc, -, h | h⟩
  · rw [h]; exact ⟨Nat.le_refl _, Nat.le_succ _⟩
  · rw [h, List.length_append, List.length_singleton]; exact ⟨Nat.le_succ _, Nat.le_refl _⟩
  · rw [h, List.length_append, List.length_singleton, void_earlier_length]
    exact ⟨Nat.le_succ _, Nat.le_refl _⟩

/-- One letter of the mode string changes the number of recorded changes by
zero or one. -/
theorem dispatch_length (env : Env) (source_p : Client) (parc : Nat)
    (parv : List (List Char)) (alev : Int) (dir : Nat) (c : Char) (st : ModeState) :
    st.mode_changes.length ≤
      (dispatch env source_p parc parv alev dir c st).mode_changes.length ∧
    (dispatch env source_p parc parv alev dir c st).mode_changes.length ≤
      st.mode_changes.length + 1 := by
  unfold dispatch
  cases cmode_map c with
  | none =>
    dsimp only
    unfold chm_nosuch
    split_ifs <;> exact ⟨Nat.le_refl _, Nat.le_succ _⟩
  | some mode =>
    exact records_step_length _ _ _ (records_handler env source_p parc parv alev dir mode st)

theorem letter_count_cons (c : Char) (rest : List Char) :
    letter_count (c :: rest) =
      (if c = '+' ∨ c = '-' ∨ c = '=' then 0 else 1) + letter_count rest := by
  unfold letter_count
  rw [List.filter_cons]
  by_cases h : c = '+' ∨ c = '-' ∨ c = '='
  · rw [if_pos h]
    have : (c != '+' && c != '-' && c != '=') = false := by
      rcases h with h | h | h <;> subst h <;> rfl
    rw [this]
    simp
  · rw [if_neg h]
    have : (c != '+' && c != '-' && c != '=') = true := by
      simp only [not_or] at h
      simp [h.1, h.2.1, h.2.2]
    rw [this]
    simp only [if_true, List.length_cons]
    omega

/-- The scan of a mode string never lowers the number of recorded changes and
raises it by at most the number of its letters. -/
theorem mode_loop_length (env : Env) (source_p : Client) (parc : Nat)
    (parv : List (List Char)) (alev : Int) :
    ∀ (ms : List Char) (dir : Nat) (st : ModeState),
      st.mode_changes.length ≤
        (mode_loop env source_p parc parv alev ms dir st).mode_changes.length ∧
      (mode_loop env source_p parc parv alev ms dir st).mode_changes.length ≤
        st.mode_changes.length + letter_count ms := by
  intro ms
  induction ms with
  | nil => intro dir st; exact ⟨Nat.le_refl _, Nat.le_add_right _ _⟩
  | cons c rest ih =>
    intro dir st
    rw [letter_count_cons, mode_loop]
    by_cases h1 : c = '+'
    · rw [if_pos h1, if_pos (Or.inl h1), Nat.zero_add]; exact ih _ _
    rw [if_neg h1]
    by_cases h2 : c = '-'
    · rw [if_pos h2, if_pos (Or.inr (Or.inl h2)), Nat.zero_add]; exact ih _ _
    rw [if_neg h2]
    by_cases h3 : c = '='
    · rw [if_pos h3, if_pos (Or.inr (Or.inr h3)), Nat.zero_add]; exact ih _ _
    rw [if_neg h3, if_neg (by rintro (h | h | h) <;> contradiction)]
    obtain ⟨i1, i2⟩ := ih dir (dispatch env source_p parc parv alev dir c st)
    obtain ⟨d1, d2⟩ := dispatch_length env source_p parc parv alev dir c st
    constructor <;> omega

/-! ## The handlers read `parv` below `parc` only -/

theorem agree_list (errbit : Nat) (list : Channel → List Ban) (rpl rpl_end : Numeric)
    (type : Nat) (env : Env) (source_p : Client) (parc : Nat) (parv parv2 : List (List Char))
    (alev : Int) (dir : Nat) (mode : chan_mode) (st : ModeState)
    (h : parv_agree parc parv parv2) :
    chm_list errbit list rpl rpl_end type env source_p parc parv2 alev dir mode st =
      chm_list errbit list rpl rpl_end type env source_p parc parv alev dir mode st := by
  unfold chm_list
  by_cases hq : dir = MODE_QUERY ∨ parc ≤ st.parn
  · rw [if_pos hq, if_pos hq]
  rw [if_neg hq, if_neg hq]
  have hlt : st.parn < parc := not_le.mp (fun hle => hq (Or.inr hle))
  have hget := h st.parn hlt
  by_cases hloc : MyClient source_p = true
  · simp only [hloc, if_true, true_and, hget]
  · have hrem : MyClient source_p = false := by simpa using hloc
    simp only [hrem, Bool.false_eq_true, if_false, false_and, hget]

theorem agree_rank (need : Int) (flag : Nat) (env : Env) (source_p : Client) (parc : Nat)
    (parv parv2 : List (List Char)) (alev : Int) (dir : Nat) (mode : chan_mode)
    (st : ModeState) (h : parv_agree parc parv parv2) :
    chm_rank need flag env source_p parc parv2 alev dir mode st =
      chm_rank need flag env source_p parc parv alev dir mode st := by
  unfold chm_rank
  by_cases hq : dir = MODE_QUERY ∨ parc ≤ st.parn
  · rw [if_pos hq, if_pos hq]
  rw [if_neg hq, if_neg hq]
  have hlt : st.parn < parc := not_le.mp (fun hle => hq (Or.inr hle))
  rw [h st.parn hlt]

theorem agree_limit (env : Env) (parc : Nat) (parv parv2 : List (List Char)) (alev : Int)
    (dir : Nat) (mode : chan_mode) (st : ModeState) (h : parv_agree parc parv parv2) :
    chm_limit env parc parv2 alev dir mode st = chm_limit env parc parv alev dir mode st := by
  unfold chm_limit
  by_cases hq : dir = MODE_ADD ∧ parc > st.parn
  · rw [if_pos hq, if_pos hq, h st.parn hq.2]
  · rw [if_neg hq, if_neg hq]

theorem agree_key (env : Env) (parc : Nat) (parv parv2 : List (List Char)) (alev : Int)
    (dir : Nat) (mode : chan_mode) (st : ModeState) (h : parv_agree parc parv parv2) :
    chm_key env parc parv2 alev dir mode st = chm_key env parc parv alev dir mode st := by
  unfold chm_key
  by_cases hq : dir = MODE_ADD ∧ parc > st.parn
  · rw [if_pos hq, if_pos hq, h st.parn hq.2]
  · rw [if_neg hq, if_neg hq]

theorem agree_loop (env : Env) (source_p : Client) (parc : Nat)
    (parv parv2 : List (List Char)) (alev : Int) (h : parv_agree parc parv parv2) :
    ∀ (ms : List Char) (dir : Nat) (st : ModeState),
      mode_loop env source_p parc parv2 alev ms dir st =
        mode_loop env source_p parc parv alev ms dir st := by
  have hd : ∀ (dir : Nat) (c : Char) (st : ModeState),
      dispatch env source_p parc parv2 alev dir c st =
        dispatch env source_p parc parv alev dir c st := by
    intro dir c st
    unfold dispatch
    cases cmode_map c with
    | none => rfl
    | some mode =>
      dsimp only
      unfold call_handler
      cases mode.func with
      | chm_simple => rfl
      | chm_ban => exact agree_list _ _ _ _ _ env source_p parc parv parv2 alev dir mode st h
      | chm_except => exact agree_list _ _ _ _ _ env source_p parc parv parv2 alev dir mode st h
      | chm_invex => exact agree_list _ _ _ _ _ env source_p parc parv parv2 alev dir mode st h
      | chm_voice => exact agree_rank _ _ env source_p parc parv parv2 alev dir mode st h
      | chm_hop => exact agree_rank _ _ env source_p parc parv parv2 alev dir mode st h
      | chm_op => exact agree_rank _ _ env source_p parc parv parv2 alev dir mode st h
      | chm_limit => exact agree_limit env parc parv parv2 alev dir mode st h
      | chm_key => exact agree_key env parc parv parv2 alev dir mode st h
  intro ms
  induction ms with
  | nil => intro dir st; rfl
  | cons c rest ih =>
    intro dir st
    rw [mode_loop, mode_loop, hd]
    split_ifs <;> exact ih _ _

/-- C30. Every letter of the mode string changes the number of recorded
changes by zero or one, and the scan never lowers it; so after
`set_channel_mode` the number of recorded changes is at most the number of
characters of the mode string other than `'+'`, `'-'` and `'='`, hence at most
its length, and for a mode string shorter than `IRCD_BUFSIZE` every slot of
`mode_changes` written has an index below `IRCD_BUFSIZE`. The handlers read
`parv` below `parc` only: the call gives the same result for every argument
vector that holds the same strings below `parc`. -/
theorem changes_within_bounds (env : Env) (source_p : Client) (chptr : Channel)
    (member : Option Membership) (parc : Nat) (parv : List (List Char)) :
    (set_channel_mode env source_p chptr member parc parv).mode_changes.length ≤
      letter_count (parv.headD []) ∧
    letter_count (parv.headD []) ≤ (parv.headD []).length ∧
    ((parv.headD []).length < env.IRCD_BUFSIZE →
      (set_channel_mode env source_p chptr member parc parv).mode_changes.length <
        env.IRCD_BUFSIZE) ∧
    (∀ (alev : Int) (dir : Nat) (c : Char) (st : ModeState),
      st.mode_changes.length ≤
        (dispatch env source_p parc parv alev dir c st).mode_changes.length ∧
      (dispatch env source_p parc parv alev dir c st).mode_changes.length ≤
        st.mode_changes.length + 1) ∧
    (∀ (alev : Int) (ms : List Char) (dir : Nat) (st : ModeState),
      st.mode_changes.length ≤
        (mode_loop env source_p parc parv alev ms dir st).mode_changes.length ∧
      (mode_loop env source_p parc parv alev ms dir st).mode_changes.length ≤
        st.mode_changes.length + letter_count ms) ∧
    (∀ parv2 : List (List Char), 0 < parc → parv_agree parc parv parv2 →
      set_channel_mode env source_p chptr member parc parv2 =
        set_channel_mode env source_p chptr member parc parv) := by
  have hcount : (set_channel_mode env source_p chptr member parc parv).mode_changes.length ≤
      letter_count (parv.headD []) := by
    have h := (mode_loop_length env source_p parc parv (get_channel_access source_p member)
      (parv.headD []) MODE_ADD (ModeState.init chptr)).2
    have h0 : (ModeState.init chptr).mode_changes.length = 0 := rfl
    rw [h0, Nat.zero_add] at h
    have hs : (set_channel_mode env source_p chptr member parc parv).mode_changes =
        (scan_modes env source_p chptr member parc parv).mode_changes := by
      unfold set_channel_mode
      dsimp only
      split_ifs <;> rfl
    rw [hs]
    exact h
  have hle : letter_count (parv.headD []) ≤ (parv.headD []).length := by
    unfold letter_count
    exact List.length_filter_le _ _
  refine ⟨hcount, hle, fun h => lt_of_le_of_lt (hcount.trans hle) h,
    fun alev dir c st => dispatch_length env source_p parc parv alev dir c st,
    fun alev => mode_loop_length env source_p parc parv alev, ?_⟩
  intro parv2 hparc hagree
  have hhead : parv2.headD [] = parv.headD [] := by
    have := hagree 0 hparc
    cases parv <;> cases parv2 <;> simp_all
  have hscan : scan_modes env source_p chptr member parc parv2 =
      scan_modes env source_p chptr member parc parv := by
    unfold scan_modes
    rw [hhead]
    exact agree_loop env source_p parc parv parv2 _ hagree _ _ _
  unfold set_channel_mode
  rw [hscan]

/-! ## Propagation happens exactly when a change was recorded -/

theorem numeric_reject (alev : Int) (st : ModeState)
    (h : st.out.all Out.is_numeric = true) :
    (reject_noops alev st).out.all Out.is_numeric = true := by
  rw [reject_noops_eq]
  show (st.out ++ noops_reply alev st).all Out.is_numeric = true
  rw [List.all_append, h, noops_reply_numeric]
  rfl

theorem numeric_simple (source_p : Client) (alev : Int) (dir : Nat) (mode : chan_mode)
    (st : ModeState) (h : st.out.all Out.is_numeric = true) :
    (chm_simple source_p alev dir mode st).out.all Out.is_numeric = true := by
  unfold chm_simple
  dsimp only
  split_ifs
  all_goals first
    | exact h
    | exact numeric_reject alev st h
    | simp [ModeState.send, ModeState.record, List.all_append, h, Out.is_numeric]

theorem numeric_apply (type : Nat) (env : Env) (source_p : Client) (dir : Nat)
    (mode : chan_mode) (mask : List Char) (st2 : ModeState)
    (h : st2.out.all Out.is_numeric = true) :
    (list_apply type env source_p dir mode mask st2).out.all Out.is_numeric = true := by
  have key : ∀ (r : IdResult) (mc : ChModeChange), r.out.all Out.is_numeric = true →
      (if r.ret = 0 then { st2 with chptr := r.chptr, out := st2.out ++ r.out }
        else ({ st2 with chptr := r.chptr, out := st2.out ++ r.out }).record mc).out.all
        Out.is_numeric = true := by
    intro r mc hr
    by_cases h0 : r.ret = 0
    · rw [if_pos h0]
      show (st2.out ++ r.out).all Out.is_numeric = true
      rw [List.all_append, h, hr]; rfl
    · rw [if_neg h0]
      show (st2.out ++ r.out).all Out.is_numeric = true
      rw [List.all_append, h, hr]; rfl
  unfold list_apply
  by_cases hadd : dir = MODE_ADD
  · simp only [if_pos hadd]
    cases hres : add_id env source_p st2.chptr mask type with
    | none => exact h
    | some r =>
      apply key
      rcases add_id_out env source_p st2.chptr mask type r hres with ho | ho <;> rw [ho] <;> rfl
  · simp only [if_neg hadd]
    by_cases hdel : dir = MODE_DEL
    · simp only [if_pos hdel]
      cases hres : del_id env st2.chptr mask type with
      | none => exact h
      | some r =>
        apply key
        rw [del_id_out env st2.chptr mask type r hres]; rfl
    · simp only [if_neg hdel]
      exact key { ret := 1, chptr := st2.chptr, banid := mask, out := [] } _ rfl

theorem numeric_list (errbit : Nat) (list : Channel → List Ban) (rpl rpl_end : Numeric)
    (type : Nat) (env : Env) (source_p : Client) (parc : Nat) (parv : List (List Char))
    (alev : Int) (dir : Nat) (mode : chan_mode) (st : ModeState)
    (h : st.out.all Out.is_numeric = true) :
    (chm_list errbit list rpl rpl_end type env source_p parc parv alev dir mode st).out.all
      Out.is_numeric = true := by
  unfold chm_list
  by_cases hq : dir = MODE_QUERY ∨ parc ≤ st.parn
  · rw [if_pos hq]
    by_cases he : st.errors &&& errbit ≠ 0
    · rw [if_pos he]; exact h
    · rw [if_neg he]
      show (st.out ++ list_entries rpl st.chptr alev (list st.chptr) ++
        [Out.numeric rpl_end [st.chptr.name]]).all Out.is_numeric = true
      rw [List.all_append, List.all_append, h, list_entries_numeric]; rfl
  rw [if_neg hq]
  by_cases g3 : alev < CHACCESS_HALFOP
  · rw [if_pos g3]; exact numeric_reject alev st h
  rw [if_neg g3]
  dsimp only
  split_ifs
  all_goals first
    | exact h
    | exact numeric_apply type env source_p dir mode _ _ h

theorem numeric_rank (need : Int) (flag : Nat) (env : Env) (source_p : Client) (parc : Nat)
    (parv : List (List Char)) (alev : Int) (dir : Nat) (mode : chan_mode) (st : ModeState)
    (h : st.out.all Out.is_numeric = true) :
    (chm_rank need flag env source_p parc parv alev dir mode st).out.all
      Out.is_numeric = true := by
  unfold chm_rank
  by_cases g : alev < need
  · rw [if_pos g]; exact numeric_reject alev st h
  rw [if_neg g]
  by_cases hq : dir = MODE_QUERY ∨ parc ≤ st.parn
  · rw [if_pos hq]; exact h
  rw [if_neg hq]
  dsimp only
  cases env.find_chasing source_p (parv.getD st.parn []) with
  | none =>
    show (st.out ++ [_]).all Out.is_numeric = true
    rw [List.all_append, h]; rfl
  | some target_p =>
    dsimp only
    cases find_channel_link target_p st.chptr with
    | none =>
      dsimp only
      split_ifs
      · show (st.out ++ [_]).all Out.is_numeric = true
        rw [List.all_append, h]; rfl
      · exact h
    | some pr =>
      obtain ⟨i, member⟩ := pr
      dsimp only
      split_ifs <;> exact h

theorem numeric_limit (env : Env) (parc : Nat) (parv : List (List Char)) (alev : Int)
    (dir : Nat) (mode : chan_mode) (st : ModeState) (h : st.out.all Out.is_numeric = true) :
    (chm_limit env parc parv alev dir mode st).out.all Out.is_numeric = true := by
  unfold chm_limit
  by_cases g : alev < CHACCESS_HALFOP
  · rw [if_pos g]; exact numeric_reject alev st h
  rw [if_neg g]
  dsimp only
  split_ifs <;> exact h

theorem numeric_key (env : Env) (parc : Nat) (parv : List (List Char)) (alev : Int)
    (dir : Nat) (mode : chan_mode) (st : ModeState) (h : st.out.all Out.is_numeric = true) :
    (chm_key env parc parv alev dir mode st).out.all Out.is_numeric = true := by
  unfold chm_key
  by_cases g : alev < CHACCESS_HALFOP
  · rw [if_pos g]; exact numeric_reject alev st h
  rw [if_neg g]
  dsimp only
  split_ifs <;> exact h

/-- The scan sends numeric replies only. -/
theorem scan_out_numeric (env : Env) (source_p : Client) (chptr : Channel)
    (member : Option Membership) (parc : Nat) (parv : List (List Char)) :
    (scan_modes env source_p chptr member parc parv).out.all Out.is_numeric = true := by
  unfold scan_modes
  refine mode_loop_invariant (fun st => st.out.all Out.is_numeric = true) env source_p parc parv
    (get_channel_access source_p member) ?_ ?_ (parv.headD []) MODE_ADD
    (ModeState.init chptr) rfl
  · intro c st hst
    unfold chm_nosuch
    split_ifs
    · exact hst
    · show (st.out ++ [_]).all Out.is_numeric = true
      rw [List.all_append, hst]; rfl
  · intro mode _ dir st hst
    unfold call_handler
    cases mode.func with
    | chm_simple => exact numeric_simple source_p _ dir mode st hst
    | chm_ban => exact numeric_list _ _ _ _ _ env source_p parc parv _ dir mode st hst
    | chm_except => exact numeric_list _ _ _ _ _ env source_p parc parv _ dir mode st hst
    | chm_invex => exact numeric_list _ _ _ _ _ env source_p parc parv _ dir mode st hst
    | chm_voice => exact numeric_rank _ _ env source_p parc parv _ dir mode st hst
    | chm_hop => exact numeric_rank _ _ env source_p parc parv _ dir mode st hst
    | chm_op => exact numeric_rank _ _ env source_p parc parv _ dir mode st hst
    | chm_limit => exact numeric_limit env parc parv _ dir mode st hst
    | chm_key => exact numeric_key env parc parv _ dir mode st hst

theorem cmode_tab_letter_live : ∀ mode ∈ cmode_tab, mode.letter ≠ Char.ofNat 0 := by
  decide

theorem last_live_step (letter : Char) (before after : List ChModeChange)
    (hl : letter ≠ Char.ofNat 0) (h : records_step letter before after)
    (hb : last_live before) : last_live after := by
  have hlast : ∀ (l : List ChModeChange) (mc : ChModeChange), mc.letter = letter →
      last_live (l ++ [mc]) := by
    intro l mc hmc x hx
    rw [List.getLast?_concat] at hx
    simp only [Option.some.injEq] at hx
    subst hx
    simp [ChModeChange.live, hmc, hl]
  rcases h with h | ⟨mc, hmc, h | h⟩
  · rw [h]; exact hb
  · rw [h]; exact hlast _ mc hmc
  · rw [h]; exact hlast _ mc hmc

/-- The last change the scan has recorded, if there is one, is not cleared. -/
theorem scan_last_live (env : Env) (source_p : Client) (chptr : Channel)
    (member : Option Membership) (parc : Nat) (parv : List (List Char)) :
    last_live (scan_modes env source_p chptr member parc parv).mode_changes := by
  unfold scan_modes
  refine mode_loop_invariant (fun st => last_live st.mode_changes) env source_p parc parv
    (get_channel_access source_p member) ?_ ?_ (parv.headD []) MODE_ADD
    (ModeState.init chptr) (fun mc hmc => by cases hmc)
  · intro c st hst
    unfold chm_nosuch
    split_ifs <;> exact hst
  · intro mode hmode dir st hst
    exact last_live_step mode.letter _ _ (cmode_tab_letter_live mode hmode)
      (records_handler env source_p parc parv _ dir mode st) hst

/-- C22. When the scan has recorded no change, `set_channel_mode` returns the
state of the scan: everything it has sent is a numeric reply to the requester,
no client line and no server line. When at least one change was recorded, the
last recorded change has a letter that is not cleared, so the changes with a
non-zero letter are not none, `send_mode_changes_server` emits at least one
line, and the output is the replies of the scan followed by the client lines
and the server lines. -/
theorem propagation_iff_recorded (env : Env) (source_p : Client) (chptr : Channel)
    (member : Option Membership) (parc : Nat) (parv : List (List Char)) :
    ((set_channel_mode env source_p chptr member parc parv).mode_changes = [] →
      set_channel_mode env source_p chptr member parc parv =
        scan_modes env source_p chptr member parc parv ∧
      ∀ o ∈ (set_channel_mode env source_p chptr member parc parv).out,
        o.is_numeric = true) ∧
    ((set_channel_mode env source_p chptr member parc parv).mode_changes ≠ [] →
      (∃ mc ∈ (set_channel_mode env source_p chptr member parc parv).mode_changes,
        mc.letter ≠ Char.ofNat 0) ∧
      send_mode_changes_server env source_p
        (set_channel_mode env source_p chptr member parc parv).chptr
        (set_channel_mode env source_p chptr member parc parv).mode_changes ≠ [] ∧
      (set_channel_mode env source_p chptr member parc parv).out =
        (scan_modes env source_p chptr member parc parv).out ++
        send_mode_changes_client env source_p
          (set_channel_mode env source_p chptr member parc parv).chptr
          (set_channel_mode env source_p chptr member parc parv).mode_changes ++
        send_mode_changes_server env source_p
          (set_channel_mode env source_p chptr member parc parv).chptr
          (set_channel_mode env source_p chptr member parc parv).mode_changes) := by
  have hmc : (set_channel_mode env source_p chptr member parc parv).mode_changes =
      (scan_modes env source_p chptr member parc parv).mode_changes := by
    unfold set_channel_mode
    dsimp only
    split_ifs <;> rfl
  have hch : (set_channel_mode env source_p chptr member parc parv).chptr =
      (scan_modes env source_p chptr member parc parv).chptr := by
    unfold set_channel_mode
    dsimp only
    split_ifs <;> rfl
  constructor
  · intro hnil
    rw [hmc] at hnil
    have hcount : (scan_modes env source_p chptr member parc parv).mode_count = 0 := by
      unfold ModeState.mode_count
      rw [hnil]; rfl
    have heq : set_channel_mode env source_p chptr member parc parv =
        scan_modes env source_p chptr member parc parv := by
      unfold set_channel_mode
      dsimp only
      rw [if_pos hcount]
    refine ⟨heq, ?_⟩
    rw [heq]
    exact List.all_eq_true.mp (scan_out_numeric env source_p chptr member parc parv)
  · intro hne
    rw [hmc, hch]
    rw [hmc] at hne
    have hcount : ¬ (scan_modes env source_p chptr member parc parv).mode_count = 0 := by
      unfold ModeState.mode_count
      intro h
      exact hne (List.length_eq_zero.mp h)
    obtain ⟨mc, hlast⟩ : ∃ mc,
        (scan_modes env source_p chptr member parc parv).mode_changes.getLast? = some mc := by
      cases hl : (scan_modes env source_p chptr member parc parv).mode_changes.getLast? with
      | none => exact absurd (List.getLast?_eq_none_iff.mp hl) hne
      | some mc => exact ⟨mc, rfl⟩
    have hlive := scan_last_live env source_p chptr member parc parv mc hlast
    have hmem : mc ∈ (scan_modes env source_p chptr member parc parv).mode_changes :=
      List.mem_of_getLast?_eq_some hlast
    have hletter : mc.letter ≠ Char.ofNat 0 := by
      simpa [ChModeChange.live] using hlive
    refine ⟨⟨mc, hmem, hletter⟩, ?_, ?_⟩
    · obtain ⟨batches, h1, -, h3⟩ := loop_batches env
        (server_header source_p (scan_modes env source_p chptr member parc parv).chptr)
        Out.server server_arg (fun mc => mc.letter = Char.ofNat 0) ChModeChange.live
        (fun mc => by
          by_cases h1 : mc.letter = Char.ofNat 0 <;> simp [ChModeChange.live, h1])
        (scan_modes env source_p chptr member parc parv).mode_changes
      have hs : send_mode_changes_server env source_p
          (scan_modes env source_p chptr member parc parv).chptr
          (scan_modes env source_p chptr member parc parv).mode_changes =
          batches.map (batch_line Out.server
            (server_header source_p (scan_modes env source_p chptr member parc parv).chptr)
            server_arg) := h3
      rw [hs]
      intro hnil
      have hb : batches = [] := List.map_eq_nil_iff.mp hnil
      rw [hb] at h1
      have : mc ∈ (scan_modes env source_p chptr member parc parv).mode_changes.filter
          ChModeChange.live := List.mem_filter.mpr ⟨hmem, hlive⟩
      rw [← h1] at this
      simp at this
    · unfold set_channel_mode
      dsimp only
      rw [if_neg hcount]

/-! ## The mode summary -/

theorem simple_fold (chptr : Channel) : ∀ (tab : List chan_mode) (mbuf : List Char),
    tab.foldl (fun mbuf tab =>
      if tab.mode ≠ 0 ∧ HasCMode chptr tab.mode then mbuf ++ [tab.letter] else mbuf) mbuf =
    mbuf ++ (tab.filter (fun tab => tab.mode != 0 && HasCMode chptr tab.mode)).map
      chan_mode.letter := by
  intro tab
  induction tab with
  | nil => intro mbuf; simp
  | cons t rest ih =>
    intro mbuf
    rw [List.foldl_cons, ih, List.filter_cons]
    by_cases h : t.mode ≠ 0 ∧ HasCMode chptr t.mode = true
    · have hb : (t.mode != 0 && HasCMode chptr t.mode) = true := by
        simp [h.1, h.2]
      rw [if_pos h, hb]
      simp
    · have hb : (t.mode != 0 && HasCMode chptr t.mode) = false := by
        by_cases h1 : t.mode = 0
        · simp [h1]
        · have h2 : HasCMode chptr t.mode = false := by
            cases hc : HasCMode chptr t.mode
            · rfl
            · exact absurd ⟨h1, hc⟩ h
          simp [h2]
      rw [if_neg h, hb]
      simp

theorem cmode_tab_letter_inj : ∀ a ∈ cmode_tab, ∀ b ∈ cmode_tab,
    a.letter = b.letter → a = b := by
  decide

theorem cmode_tab_simple_iff : ∀ tab ∈ cmode_tab,
    (tab.mode ≠ 0 ↔ tab.func = ChmFunc.chm_simple) := by
  decide

theorem cmode_tab_letters_nodup : (cmode_tab.map chan_mode.letter).Nodup := by
  decide

/-- C29. `channel_modes` leaves in the mode buffer `'+'`, then the letter of
every simple mode the channel has set, each once and in the order of
`cmode_tab`, then `'l'` if the limit is not 0, then `'k'` if the key is not
empty. It leaves in the parameter buffer the limit and the key, each followed
by a space, only for a client that is a server or a member of the channel; for
a client that is neither the parameter buffer is empty, and both buffers are
the same for two states of the channel that differ only in the value of a limit
that is set in both and in the value of a key that is set in both. -/
theorem channel_modes_summary (env : Env) (chptr : Channel) (client_p : Client) :
    (channel_modes env chptr client_p).1 =
      ['+'] ++ simple_letters chptr ++ (if chptr.mode.limit ≠ 0 then ['l'] else []) ++
        (if chptr.mode.key ≠ [] then ['k'] else []) ∧
    (simple_letters chptr).Nodup ∧
    (simple_letters chptr).Sublist (cmode_tab.map chan_mode.letter) ∧
    (∀ tab ∈ cmode_tab, tab.letter ∈ simple_letters chptr ↔
      (tab.func = ChmFunc.chm_simple ∧ HasCMode chptr tab.mode = true)) ∧
    (channel_modes env chptr client_p).2 =
      (if client_p.is_server = true ∨ env.IsMember client_p chptr = true then
        (if chptr.mode.limit ≠ 0 then decimal chptr.mode.limit ++ [' '] else []) ++
        (if chptr.mode.key ≠ [] then chptr.mode.key ++ [' '] else [])
       else []) ∧
    (client_p.is_server = false → env.IsMember client_p chptr = false →
      (channel_modes env chptr client_p).2 = [] ∧
      ∀ (limit : Nat) (key : List Char),
        (limit = 0 ↔ chptr.mode.limit = 0) → (key = [] ↔ chptr.mode.key = []) →
        env.IsMember client_p (with_limit_key chptr limit key) = false →
        channel_modes env (with_limit_key chptr limit key) client_p =
          channel_modes env chptr client_p) := by
  have hsub : (simple_letters chptr).Sublist (cmode_tab.map chan_mode.letter) :=
    List.Sublist.map _ (List.filter_sublist _)
  have hm : ∀ c : Channel, (channel_modes env c client_p).1 =
      ['+'] ++ simple_letters c ++ (if c.mode.limit ≠ 0 then ['l'] else []) ++
        (if c.mode.key ≠ [] then ['k'] else []) := by
    intro c
    unfold channel_modes simple_letters
    dsimp only
    rw [simple_fold]
    split_ifs <;> simp
  have hp : ∀ c : Channel, (channel_modes env c client_p).2 =
      (if client_p.is_server = true ∨ env.IsMember client_p c = true then
        (if c.mode.limit ≠ 0 then decimal c.mode.limit ++ [' '] else []) ++
        (if c.mode.key ≠ [] then c.mode.key ++ [' '] else [])
       else []) := by
    intro c
    unfold channel_modes
    dsimp only
    split_ifs <;> simp
  refine ⟨hm chptr, hsub.nodup cmode_tab_letters_nodup, hsub, ?_, hp chptr, ?_⟩
  · intro tab htab
    unfold simple_letters
    rw [List.mem_map]
    constructor
    · rintro ⟨t, ht, hlet⟩
      rw [List.mem_filter] at ht
      have heq : t = tab := cmode_tab_letter_inj t ht.1 tab htab hlet
      subst heq
      have h2 := ht.2
      simp only [Bool.and_eq_true, bne_iff_ne, ne_eq] at h2
      exact ⟨(cmode_tab_simple_iff t htab).mp h2.1, h2.2⟩
    · rintro ⟨hf, hc⟩
      refine ⟨tab, List.mem_filter.mpr ⟨htab, ?_⟩, rfl⟩
      have hne := (cmode_tab_simple_iff tab htab).mpr hf
      simp [hne, hc]
  · intro hs hmem
    have hnot : ¬ (client_p.is_server = true ∨ env.IsMember client_p chptr = true) := by
      rw [hs, hmem]; simp
    refine ⟨by rw [hp chptr, if_neg hnot], ?_⟩
    intro limit key hlimit hkey hmem2
    have hnot2 : ¬ (client_p.is_server = true ∨
        env.IsMember client_p (with_limit_key chptr limit key) = true) := by
      rw [hs, hmem2]; simp
    have hsl : simple_letters (with_limit_key chptr limit key) = simple_letters chptr := rfl
    apply Prod.ext
    · rw [hm, hm chptr, hsl]
      show _ ++ (if limit ≠ 0 then ['l'] else []) ++ (if key ≠ [] then ['k'] else []) = _
      have e1 : (limit ≠ 0) ↔ (chptr.mode.limit ≠ 0) := not_congr hlimit
      have e2 : (key ≠ []) ↔ (chptr.mode.key ≠ []) := not_congr hkey
      simp only [e1, e2]
    · rw [hp, hp chptr, if_neg hnot, if_neg hnot2]

/-! ## Later letters see the changes of earlier letters -/

theorem has_add_cmode (chptr : Channel) (y : Nat) (hy : y ≠ 0) :
    HasCMode (AddCMode chptr y) y = true := by
  have h : (chptr.mode.mode ||| y) &&& y ≠ 0 := or_and_self_ne_zero _ _ hy
  simp [HasCMode, AddCMode, h]

/-- A simple letter without privilege restriction whose flag is clear, sent as
an add by a requester past the rank gate, for the first time in the call: the
flag is set and one change with the letter is recorded. -/
theorem simple_add_step (source_p : Client) (alev : Int) (mode : chan_mode) (st : ModeState)
    (hopers : mode.only_opers = 0 ∨ source_p.umode_oper = true)
    (hserv : mode.only_servers = 0)
    (hgate : ¬ alev < CHACCESS_HALFOP) (hmask : st.simple_modes_mask &&& mode.mode = 0)
    (hclear : HasCMode st.chptr mode.mode = false) :
    chm_simple source_p alev MODE_ADD mode st =
      { st with simple_modes_mask := st.simple_modes_mask ||| mode.mode,
                chptr := AddCMode st.chptr mode.mode,
                mode_changes := st.mode_changes ++
                  [{ letter := mode.letter, arg := none, id := none, flags := 0,
                     dir := MODE_ADD }] } := by
  have h1 : ¬ (mode.only_opers ≠ 0 ∧ MyClient source_p = true ∧
      ¬ source_p.umode_oper = true) := by
    rintro ⟨a, -, c⟩
    rcases hopers with h | h
    · exact a h
    · exact c h
  have h2 : ¬ (mode.only_servers ≠ 0 ∧ ¬ source_p.is_server = true ∧
      ¬ source_p.flag_service = true) := fun h => h.1 hserv
  have h3 : ¬ (MyClient source_p = true ∧ HasCMode st.chptr mode.mode = true) := by
    rintro ⟨-, h⟩
    rw [hclear] at h
    cases h
  unfold chm_simple
  rw [if_neg h1, if_neg h2, if_neg hgate, if_neg (fun h => h hmask)]
  dsimp only
  rw [if_pos rfl, if_neg h3]
  rfl

theorem dispatch_simple (env : Env) (source_p : Client) (parc : Nat)
    (parv : List (List Char)) (alev : Int) (dir : Nat) (c : Char) (mode : chan_mode)
    (st : ModeState) (hmap : cmode_map c = some mode) (hf : mode.func = ChmFunc.chm_simple) :
    dispatch env source_p parc parv alev dir c st = chm_simple source_p alev dir mode st := by
  simp only [dispatch, hmap, call_handler, hf]

/-- A ban letter leaves the earlier changes and records at most one change,
with the filter of the channel as it is when the letter is handled. -/
theorem dispatch_ban_flags (env : Env) (source_p : Client) (parc : Nat)
    (parv : List (List Char)) (alev : Int) (dir : Nat) (st : ModeState) :
    ∀ mc ∈ (dispatch env source_p parc parv alev dir 'b' st).mode_changes,
      mc ∈ st.mode_changes ∨ mc.flags = list_filter st.chptr := by
  intro mc hmc
  have hb : cmode_map 'b' = some
      { letter := 'b', mode := 0, only_opers := 0, only_servers := 0,
        func := ChmFunc.chm_ban } := by decide
  have hd : dispatch env source_p parc parv alev dir 'b' st =
      chm_list SM_ERR_RPL_B Channel.banlist Numeric.RPL_BANLIST Numeric.RPL_ENDOFBANLIST
        CHFL_BAN env source_p parc parv alev dir
        { letter := 'b', mode := 0, only_opers := 0, only_servers := 0,
          func := ChmFunc.chm_ban } st := by
    simp only [dispatch, hb, call_handler, chm_ban]
  rw [hd] at hmc
  rcases (chm_list_records SM_ERR_RPL_B Channel.banlist Numeric.RPL_BANLIST
    Numeric.RPL_ENDOFBANLIST CHFL_BAN env source_p parc parv alev dir
    { letter := 'b', mode := 0, only_opers := 0, only_servers := 0,
      func := ChmFunc.chm_ban } st).2 with h | ⟨arg, h⟩
  · rw [h] at hmc; exact Or.inl hmc
  · rw [h, List.mem_append, List.mem_singleton] at hmc
    rcases hmc with hmc | hmc
    · exact Or.inl hmc
    · right; rw [hmc]

/-- A change with another letter than the one handled comes from the changes
recorded before, with the same filter. -/
theorem records_step_other (letter : Char) (before after : List ChModeChange)
    (h : records_step letter before after) :
    ∀ mc ∈ after, mc.letter ≠ letter → mc.letter ≠ Char.ofNat 0 →
      ∃ x ∈ before, x.letter = mc.letter ∧ x.flags = mc.flags := by
  intro mc hmc hne hlive
  rcases h with h | ⟨x, hx, h | h⟩
  · rw [h] at hmc; exact ⟨mc, hmc, rfl, rfl⟩
  · rw [h, List.mem_append, List.mem_singleton] at hmc
    rcases hmc with hm | hm
    · exact ⟨mc, hm, rfl, rfl⟩
    · rw [hm, hx] at hne; exact absurd rfl hne
  · rw [h, List.mem_append, List.mem_singleton] at hmc
    rcases hmc with hm | hm
    · unfold void_earlier at hm
      rw [List.mem_map] at hm
      obtain ⟨y, hy, hym⟩ := hm
      by_cases hc : y.letter = letter ∧ y.dir = MODE_ADD
      · rw [if_pos hc] at hym
        rw [← hym] at hlive
        exact absurd rfl hlive
      · rw [if_neg hc] at hym
        rw [← hym]
        exact ⟨y, hy, rfl, rfl⟩
    · rw [hm, hx] at hne; exact absurd rfl hne

/-- C27. A requester past the rank gate, a channel without the hide-lists
flag. In `+ub` the letter `u` sets the flag before `b` is handled, so a ban
change recorded by the call has the filter operators and half-operators; in
`+bu` the ban is handled first and its change has the filter none. Likewise,
for a requester that may set `L` on a channel without the extended-limit flag:
after the letter `L` the capacity `add_id` compares with is `max_bans_large`,
and an `add_id` of a local client on the channel as `L` has left it is refused
exactly when the three lists hold that many masks. -/
theorem earlier_letters_visible (env : Env) (source_p : Client) (chptr : Channel)
    (member : Option Membership) (parc : Nat) (args : List (List Char))
    (hauth : CHACCESS_HALFOP ≤ get_channel_access source_p member) :
    (HasCMode chptr MODE_HIDEBMASKS = false →
      (∀ mc ∈ (set_channel_mode env source_p chptr member parc
          ("+ub".toList :: args)).mode_changes,
        mc.letter = 'b' → mc.flags = CHFL_CHANOP ||| CHFL_HALFOP) ∧
      (∀ mc ∈ (set_channel_mode env source_p chptr member parc
          ("+bu".toList :: args)).mode_changes,
        mc.letter = 'b' → mc.flags = 0)) ∧
    (HasCMode chptr MODE_EXTLIMIT = false →
      (MyClient source_p = true → source_p.umode_oper = true) →
      ∀ (parv : List (List Char)) (st : ModeState), st.chptr = chptr →
        st.simple_modes_mask &&& MODE_EXTLIMIT = 0 →
        ban_capacity env st.chptr = env.max_bans ∧
        ban_capacity env
          (dispatch env source_p parc parv (get_channel_access source_p member) MODE_ADD 'L'
            st).chptr = env.max_bans_large ∧
        ∀ (client_p : Client) (banid : List Char) (type : Nat), MyClient client_p = true →
          (add_id env client_p
            (dispatch env source_p parc parv (get_channel_access source_p member) MODE_ADD 'L'
              st).chptr banid type =
            some { ret := 0,
                   chptr := (dispatch env source_p parc parv
                     (get_channel_access source_p member) MODE_ADD 'L' st).chptr,
                   banid := banid,
                   out := [Out.numeric Numeric.ERR_BANLISTFULL [chptr.name, banid]] } ↔
            env.max_bans_large ≤ num_mask chptr)) := by
  have hgate : ¬ get_channel_access source_p member < CHACCESS_HALFOP := not_lt.mpr hauth
  have hmc : ∀ pv : List (List Char),
      (set_channel_mode env source_p chptr member parc pv).mode_changes =
      (scan_modes env source_p chptr member parc pv).mode_changes := by
    intro pv
    unfold set_channel_mode
    dsimp only
    split_ifs <;> rfl
  have hu : cmode_map 'u' = some
      { letter := 'u', mode := MODE_HIDEBMASKS, only_opers := 0, only_servers := 0,
        func := ChmFunc.chm_simple } := by decide
  have hL : cmode_map 'L' = some
      { letter := 'L', mode := MODE_EXTLIMIT, only_opers := 1, only_servers := 0,
        func := ChmFunc.chm_simple } := by decide
  have hloop : ∀ (pv : List (List Char)) (c1 c2 : Char), c1 ≠ '+' → c1 ≠ '-' → c1 ≠ '=' →
      c2 ≠ '+' → c2 ≠ '-' → c2 ≠ '=' →
      mode_loop env source_p parc pv (get_channel_access source_p member) ['+', c1, c2]
        MODE_ADD (ModeState.init chptr) =
      dispatch env source_p parc pv (get_channel_access source_p member) MODE_ADD c2
        (dispatch env source_p parc pv (get_channel_access source_p member) MODE_ADD c1
          (ModeState.init chptr)) := by
    intro pv c1 c2 a1 a2 a3 b1 b2 b3
    rw [mode_loop, if_pos rfl, mode_loop, if_neg a1, if_neg a2, if_neg a3, mode_loop,
      if_neg b1, if_neg b2, if_neg b3, mode_loop]
  constructor
  · intro hoff
    constructor
    · intro mc hmem hletter
      rw [hmc] at hmem
      have hscan : scan_modes env source_p chptr member parc ("+ub".toList :: args) =
          mode_loop env source_p parc ("+ub".toList :: args)
            (get_channel_access source_p member) ['+', 'u', 'b'] MODE_ADD
            (ModeState.init chptr) := rfl
      rw [hscan, hloop _ 'u' 'b' (by decide) (by decide) (by decide) (by decide) (by decide)
        (by decide)] at hmem
      have hstep := simple_add_step source_p (get_channel_access source_p member)
        { letter := 'u', mode := MODE_HIDEBMASKS, only_opers := 0, only_servers := 0,
          func := ChmFunc.chm_simple } (ModeState.init chptr) (Or.inl rfl) rfl hgate
        (Nat.zero_and _) hoff
      rw [← dispatch_simple env source_p parc ("+ub".toList :: args) _ MODE_ADD 'u' _ _ hu
        rfl] at hstep
      rcases dispatch_ban_flags env source_p parc ("+ub".toList :: args) _ MODE_ADD _ mc hmem
        with h | h
      · rw [hstep] at h
        have h2 : mc = { letter := 'u', arg := none, id := none, flags := 0,
                         dir := MODE_ADD } := by
          simpa [ModeState.init] using h
        rw [h2] at hletter
        exact absurd hletter (by decide)
      · rw [h, hstep]
        show list_filter (AddCMode chptr MODE_HIDEBMASKS) = _
        unfold list_filter
        rw [has_add_cmode chptr MODE_HIDEBMASKS (by decide), if_pos rfl]
    · intro mc hmem hletter
      rw [hmc] at hmem
      have hscan : scan_modes env source_p chptr member parc ("+bu".toList :: args) =
          mode_loop env source_p parc ("+bu".toList :: args)
            (get_channel_access source_p member) ['+', 'b', 'u'] MODE_ADD
            (ModeState.init chptr) := rfl
      rw [hscan, hloop _ 'b' 'u' (by decide) (by decide) (by decide) (by decide) (by decide)
        (by decide)] at hmem
      rw [dispatch_simple env source_p parc ("+bu".toList :: args) _ MODE_ADD 'u' _ _ hu
        rfl] at hmem
      obtain ⟨x, hx, -, hxf⟩ := records_step_other 'u' _ _
        (records_simple source_p (get_channel_access source_p member) MODE_ADD
          { letter := 'u', mode := MODE_HIDEBMASKS, only_opers := 0, only_servers := 0,
            func := ChmFunc.chm_simple } _) mc hmem (by rw [hletter]; decide)
        (by rw [hletter]; decide)
      rw [← hxf]
      rcases dispatch_ban_flags env source_p parc ("+bu".toList :: args) _ MODE_ADD _ x hx
        with h | h
      · cases h
      · rw [h]
        show list_filter chptr = 0
        unfold list_filter
        rw [hoff]
        rfl
  · intro hoff hoper parv st hst hmask
    have hcap0 : ban_capacity env st.chptr = env.max_bans := by
      unfold ban_capacity
      rw [hst, hoff]
      rfl
    have hstep : (dispatch env source_p parc parv (get_channel_access source_p member) MODE_ADD
        'L' st).chptr = AddCMode st.chptr MODE_EXTLIMIT := by
      rw [dispatch_simple env source_p parc parv _ MODE_ADD 'L' _ _ hL rfl]
      have h1 : ¬ ((1 : Nat) ≠ 0 ∧ MyClient source_p = true ∧
          ¬ source_p.umode_oper = true) := by
        rintro ⟨-, h1, h2⟩
        exact h2 (hoper h1)
      have h2 : ¬ ((0 : Nat) ≠ 0 ∧ ¬ source_p.is_server = true ∧
          ¬ source_p.flag_service = true) := fun h => h.1 rfl
      have h3 : ¬ (MyClient source_p = true ∧ HasCMode st.chptr MODE_EXTLIMIT = true) := by
        rintro ⟨-, h⟩
        rw [hst, hoff] at h
        cases h
      unfold chm_simple
      dsimp only
      rw [if_neg h1, if_neg h2, if_neg hgate, if_neg (fun h => h hmask), if_pos rfl, if_neg h3]
      rfl
    rw [hstep]
    have hcap1 : ban_capacity env (AddCMode st.chptr MODE_EXTLIMIT) = env.max_bans_large := by
      unfold ban_capacity
      rw [has_add_cmode st.chptr MODE_EXTLIMIT (by decide), if_pos rfl]
    refine ⟨hcap0, hcap1, ?_⟩
    intro client_p banid type hloc
    have hnum : num_mask (AddCMode st.chptr MODE_EXTLIMIT) = num_mask chptr := by
      rw [hst]; rfl
    have hname : (AddCMode st.chptr MODE_EXTLIMIT).name = chptr.name := by
      rw [hst]; rfl
    rw [add_id_eq, hcap1, hnum, hname]
    constructor
    · intro h
      by_contra hlt
      have hn : ¬ (MyClient client_p = true ∧ env.max_bans_large ≤ num_mask chptr) :=
        fun hc => hlt hc.2
      rw [if_neg hn] at h
      cases hs : select_list (AddCMode st.chptr MODE_EXTLIMIT) type with
      | none => rw [hs] at h; cases h
      | some pr =>
        obtain ⟨c1, l1⟩ := pr
        rw [hs] at h
        dsimp only at h
        split_ifs at h <;> simp at h
    · intro h
      rw [if_pos ⟨hloc, h⟩]

/-! ## Repeated `+k`: the last one wins -/

theorem void_earlier_live_key (st : ModeState) (h : only_key_adds st) :
    (void_earlier 'k' st.mode_changes).filter ChModeChange.live = [] := by
  rw [List.filter_eq_nil_iff]
  intro mc hmc
  unfold void_earlier at hmc
  rw [List.mem_map] at hmc
  obtain ⟨mc0, hmem, heq⟩ := hmc
  by_cases hc : mc0.letter = 'k' ∧ mc0.dir = MODE_ADD
  · rw [if_pos hc] at heq
    rw [← heq]
    simp [ChModeChange.live]
  · rw [if_neg hc] at heq
    rw [← heq]
    intro hlive
    exact hc (h mc0 hmem hlive)

/-- One `+k` whose argument gives a key that is not empty, for an authorized
requester. -/
theorem key_step (env : Env) (source_p : Client) (parc : Nat) (parv : List (List Char))
    (alev : Int) (st : ModeState) (a : List Char)
    (hauth : CHACCESS_HALFOP ≤ alev) (hparc : st.parn < parc)
    (ha : parv.getD st.parn [] = a) (hne : fix_key env a ≠ []) :
    dispatch env source_p parc parv alev MODE_ADD 'k' st =
      { st with parn := st.parn + 1,
                mode_changes := void_earlier 'k' st.mode_changes ++ [key_change env a],
                chptr := with_key st.chptr (fix_key env a) } := by
  have hm : cmode_map 'k' = some
      { letter := 'k', mode := 0, only_opers := 0, only_servers := 0,
        func := ChmFunc.chm_key } := by decide
  have h1 : ¬ alev < CHACCESS_HALFOP := not_lt.mpr hauth
  have h2 : ¬ MODE_ADD = MODE_QUERY := by decide
  simp only [dispatch, hm, call_handler, chm_key, if_neg h1, if_neg h2, ha,
    if_neg hne, key_change, with_key, true_and, gt_iff_lt, if_pos hparc, fix_key_take]

/-- A scan of `+` and `k` characters whose arguments give keys that are not
empty records one change per `k`, sends nothing, and leaves the last key-add as
the only live change. -/
theorem key_loop (env : Env) (source_p : Client) (parv : List (List Char)) (alev : Int)
    (hauth : CHACCESS_HALFOP ≤ alev) :
    ∀ (ms : List Char) (args : List (List Char)) (st : ModeState),
      (∀ c ∈ ms, c = '+' ∨ c = 'k') → ms.count 'k' = args.length →
      parv.drop st.parn = args → (∀ a ∈ args, fix_key env a ≠ []) →
      only_key_adds st →
      (mode_loop env source_p parv.length parv alev ms MODE_ADD st).out = st.out ∧
      (mode_loop env source_p parv.length parv alev ms MODE_ADD st).mode_changes.length =
        st.mode_changes.length + args.length ∧
      (args = [] → mode_loop env source_p parv.length parv alev ms MODE_ADD st = st) ∧
      (∀ init last, args = init ++ [last] →
        (mode_loop env source_p parv.length parv alev ms MODE_ADD st).chptr =
          with_key st.chptr (fix_key env last) ∧
        (mode_loop env source_p parv.length parv alev ms MODE_ADD st).mode_changes.filter
          ChModeChange.live = [key_change env last]) := by
  intro ms
  induction ms with
  | nil =>
    intro args st _ hcount _ _ _
    have hargs : args = [] := by
      apply List.length_eq_zero.mp
      simpa using hcount.symm
    subst hargs
    refine ⟨rfl, rfl, fun _ => rfl, ?_⟩
    intro init last h
    simp at h
  | cons c rest ih =>
    intro args st hms hcount hdrop hvalid hinv
    have hrest : ∀ c ∈ rest, c = '+' ∨ c = 'k' := fun x hx => hms x (List.mem_cons_of_mem _ hx)
    rcases hms c (List.mem_cons_self _ _) with hc | hc
    · subst hc
      have hloop : mode_loop env source_p parv.length parv alev ('+' :: rest) MODE_ADD st =
          mode_loop env source_p parv.length parv alev rest MODE_ADD st := by
        rw [mode_loop, if_pos rfl]
      rw [hloop]
      have hcount2 : rest.count 'k' = args.length := by
        rw [← hcount, List.count_cons]
        simp
      exact ih args st hrest hcount2 hdrop hvalid hinv
    · subst hc
      have hcount2 : rest.count 'k' + 1 = args.length := by
        rw [← hcount, List.count_cons]
        simp
      cases args with
      | nil => simp at hcount2
      | cons a args1 =>
        obtain ⟨hlt, hget, hdrop1⟩ := drop_eq_cons parv st.parn a [] args1 hdrop
        have hane := hvalid a (List.mem_cons_self _ _)
        have hstep := key_step env source_p parv.length parv alev st a hauth hlt hget hane
        have hloop : mode_loop env source_p parv.length parv alev ('k' :: rest) MODE_ADD st =
            mode_loop env source_p parv.length parv alev rest MODE_ADD
              (dispatch env source_p parv.length parv alev MODE_ADD 'k' st) := by
          rw [mode_loop, if_neg (by decide), if_neg (by decide), if_neg (by decide)]
        rw [hloop, hstep]
        have hlive1 : (void_earlier 'k' st.mode_changes ++ [key_change env a]).filter
            ChModeChange.live = [key_change env a] := by
          rw [List.filter_append, void_earlier_live_key st hinv]
          rfl
        have hinv1 : only_key_adds
            { st with parn := st.parn + 1,
                      mode_changes := void_earlier 'k' st.mode_changes ++ [key_change env a],
                      chptr := with_key st.chptr (fix_key env a) } := by
          intro mc hmc hl
          have : mc ∈ (void_earlier 'k' st.mode_changes ++ [key_change env a]).filter
              ChModeChange.live := List.mem_filter.mpr ⟨hmc, hl⟩
          rw [hlive1, List.mem_singleton] at this
          rw [this]
          exact ⟨rfl, rfl⟩
        obtain ⟨i1, i2, i3, i4⟩ := ih args1
          { st with parn := st.parn + 1,
                    mode_changes := void_earlier 'k' st.mode_changes ++ [key_change env a],
                    chptr := with_key st.chptr (fix_key env a) }
          hrest (by simp only [List.length_cons] at hcount2; omega) hdrop1
          (fun x hx => hvalid x (List.mem_cons_of_mem _ hx)) hinv1
        refine ⟨i1, ?_, fun h => by simp at h, ?_⟩
        · rw [i2]
          simp only [List.length_append, void_earlier_length, List.length_cons, List.length_nil]
          omega
        · intro init last hsplit
          cases init with
          | nil =>
            simp only [List.nil_append, List.cons.injEq] at hsplit
            obtain ⟨rfl, rfl⟩ := hsplit
            rw [i3 rfl]
            exact ⟨rfl, hlive1⟩
          | cons b init1 =>
            simp only [List.cons_append, List.cons.injEq] at hsplit
            obtain ⟨-, hsplit1⟩ := hsplit
            obtain ⟨j1, j2⟩ := i4 init1 last hsplit1
            exact ⟨j1, j2⟩

/-- The propagation of a change list whose only live change is `mc`, with the
visibility filter none. -/
theorem single_live_propagation (env : Env) (source_p : Client) (chptr : Channel)
    (changes : List ChModeChange) (mc : ChModeChange) (hflags : mc.flags = 0)
    (h : changes.filter ChModeChange.live = [mc]) :
    send_mode_changes_client env source_p chptr changes =
      [batch_line (Out.channel_local 0) (client_header env source_p chptr) ChModeChange.arg
        [mc]] ∧
    send_mode_changes_server env source_p chptr changes =
      [batch_line Out.server (server_header source_p chptr) server_arg [mc]] := by
  have h0 : changes.filter (fun mc => mc.live && mc.flags == 0) = [mc] := by
    have : changes.filter (fun mc => mc.live && mc.flags == 0) =
        (changes.filter ChModeChange.live).filter (fun mc => mc.flags == 0) := by
      rw [List.filter_filter]
      exact List.filter_congr (fun mc _ => Bool.and_comm _ _)
    rw [this, h]
    simp [hflags]
  have h3 : changes.filter (fun mc => mc.live && mc.flags == CHFL_CHANOP ||| CHFL_HALFOP) =
      [] := by
    have : changes.filter (fun mc => mc.live && mc.flags == CHFL_CHANOP ||| CHFL_HALFOP) =
        (changes.filter ChModeChange.live).filter
          (fun mc => mc.flags == CHFL_CHANOP ||| CHFL_HALFOP) := by
      rw [List.filter_filter]
      exact List.filter_congr (fun mc _ => Bool.and_comm _ _)
    rw [this, h]
    have hne : ¬ (0 = CHFL_CHANOP ||| CHFL_HALFOP) := by decide
    simp [hflags, hne]
  constructor
  · unfold send_mode_changes_client client_pass
    rw [single_change_line env (client_header env source_p chptr) (Out.channel_local 0)
        ChModeChange.arg (fun mc => mc.letter = Char.ofNat 0 ∨ mc.flags ≠ 0)
        (fun mc => mc.live && mc.flags == 0)
        (fun mc => by
          by_cases h1 : mc.letter = Char.ofNat 0 <;> by_cases h2 : mc.flags = 0 <;>
            simp [ChModeChange.live, h1, h2]) changes _ h0,
      no_change_line env (client_header env source_p chptr)
        (Out.channel_local (CHFL_CHANOP ||| CHFL_HALFOP)) ChModeChange.arg
        (fun mc => mc.letter = Char.ofNat 0 ∨ mc.flags ≠ CHFL_CHANOP ||| CHFL_HALFOP)
        (fun mc => mc.live && mc.flags == CHFL_CHANOP ||| CHFL_HALFOP)
        (fun mc => by
          by_cases h1 : mc.letter = Char.ofNat 0 <;>
            by_cases h2 : mc.flags = CHFL_CHANOP ||| CHFL_HALFOP <;>
            simp [ChModeChange.live, h1, h2]) changes h3]
    rfl
  · unfold send_mode_changes_server
    rw [single_change_line env (server_header source_p chptr) Out.server server_arg
        (fun mc => mc.letter = Char.ofNat 0) ChModeChange.live
        (fun mc => by
          by_cases h1 : mc.letter = Char.ofNat 0 <;> simp [ChModeChange.live, h1]) changes _ h]

/-! ## End to end: `+o-b nick mask` -/

/-- A `-b` of a local client past the gate, within the parameter limit, with a
mask that does not start with a colon. -/
theorem chm_ban_del (env : Env) (source_p : Client) (parc : Nat) (parv : List (List Char))
    (alev : Int) (mode : chan_mode) (st : ModeState) (mask : List Char)
    (hloc : MyClient source_p = true) (hgate : ¬ alev < CHACCESS_HALFOP)
    (hparc : st.parn < parc) (hlim : st.mode_limit + 1 ≤ MAXMODEPARAMS)
    (hmask : (parv.getD st.parn []).take (env.IRCD_BUFSIZE - 1) = mask)
    (hcolon : mask.head? ≠ some ':') :
    chm_ban env source_p parc parv alev MODE_DEL mode st =
      if st.chptr.banlist.any (triple_matches env (del_triple env mask)) = true then
        { st with parn := st.parn + 1, mode_limit := st.mode_limit + 1,
                  chptr := { st.chptr with
                    members := clear_ban_cache_list st.chptr.members,
                    banlist := st.chptr.banlist.eraseP
                      (triple_matches env (del_triple env mask)) },
                  mode_changes := st.mode_changes ++
                    [{ letter := mode.letter,
                       arg := some (canonical_mask env (del_triple env mask)), id := none,
                       flags := list_filter st.chptr, dir := MODE_DEL }] }
      else
        { st with parn := st.parn + 1, mode_limit := st.mode_limit + 1,
                  chptr := { st.chptr with
                    members := clear_ban_cache_list st.chptr.members } } := by
  have hq : ¬ (MODE_DEL = MODE_QUERY ∨ parc ≤ st.parn) := by
    rintro (h | h)
    · exact absurd h (by decide)
    · exact absurd hparc (not_lt.mpr h)
  have hconn : source_p.connected = true := by
    unfold MyClient at hloc
    simp only [Bool.and_eq_true] at hloc
    exact hloc.1
  have hl : ¬ (st.mode_limit + 1 > MAXMODEPARAMS) := not_lt.mpr hlim
  have hne : ¬ (MODE_DEL = MODE_ADD) := by decide
  unfold chm_ban chm_list
  rw [if_neg hq, if_neg hgate]
  simp only [hloc, if_true, true_and, if_neg hl, hmask]
  have hc : ¬ (mask.head? = some ':' ∨ ¬ source_p.connected = true ∧ ' ' ∈ mask) := by
    rintro (h | h)
    · exact hcolon h
    · exact h.1 hconn
  rw [if_neg hc]
  unfold list_apply
  simp only [if_neg hne, if_true]
  rw [del_id_eq]
  have hsel : select_list st.chptr CHFL_BAN =
      some ({ st.chptr with members := clear_ban_cache_list st.chptr.members },
        st.chptr.banlist) := rfl
  rw [hsel]
  dsimp only
  by_cases hany : st.chptr.banlist.any (triple_matches env (del_triple env mask)) = true
  · rw [if_pos hany, if_pos hany]
    dsimp only
    rw [if_neg (by decide)]
    simp only [List.append_nil]
    rfl
  · rw [if_neg hany, if_neg hany]
    dsimp only
    rw [if_pos rfl]
    simp only [List.append_nil]

/-- Two changes that are not skipped and fit on one line are sent on one
line. -/
theorem pair_change_line (env : Env) (header : List Char)
    (emit : List Char → List Char → Out) (argf : ChModeChange → Option (List Char))
    (skip : ChModeChange → Prop) [DecidablePred skip] (c1 c2 : ChModeChange)
    (h1 : ¬ skip c1) (h2 : ¬ skip c2)
    (hfit1 : arg_length (argf c1) + header.length + 2 ≤ env.IRCD_BUFSIZE)
    (hfit2 : arg_length (argf c2) + (header ++ mode_letters MODE_QUERY [c1]).length +
      (para_text [] ([c1].filterMap argf)).length + 2 ≤ env.IRCD_BUFSIZE) :
    line_finish emit
      ([c1, c2].foldl (fun s mc =>
        if skip mc then s else line_step env header emit (argf mc) mc s)
        (LineState.init header)) = [batch_line emit header argf [c1, c2]] := by
  obtain ⟨a1, a2, a3, a4⟩ := append_batch argf [c1] (LineState.init header)
  have a5 := append_paracount argf [c1] (LineState.init header)
  obtain ⟨b1, b2, b3, b4⟩ := append_batch argf [c1, c2] (LineState.init header)
  simp only [List.foldl_cons, List.foldl_nil] at a1 a2 a3 a4 a5 b1 b2 b3 b4
  have hstep1 : line_step env header emit (argf c1) c1 (LineState.init header) =
      line_append (argf c1) c1 (LineState.init header) := by
    have hno : ¬ ((LineState.init header).paracount = MAXMODEPARAMS ∨
        arg_length (argf c1) + (LineState.init header).modebuf.length +
          (LineState.init header).parabuf.length + 2 > env.IRCD_BUFSIZE) := by
      rintro (h | h)
      · have h0 : (LineState.init header).paracount = 0 := rfl
        rw [h0] at h
        exact absurd h (by decide)
      · have : (LineState.init header).modebuf.length = header.length := rfl
        have : (LineState.init header).parabuf.length = 0 := rfl
        omega
    unfold line_step line_flush
    dsimp only
    rw [if_neg hno]
  have hstep2 : line_step env header emit (argf c2) c2
      (line_append (argf c1) c1 (LineState.init header)) =
      line_append (argf c2) c2 (line_append (argf c1) c1 (LineState.init header)) := by
    have hcount : (line_append (argf c1) c1 (LineState.init header)).paracount ≤ 1 := by
      rw [a5]
      have := List.length_filterMap_le argf [c1]
      simp only [List.length_singleton] at this
      have h0 : (LineState.init header).paracount = 0 := rfl
      omega
    have hno : ¬ ((line_append (argf c1) c1 (LineState.init header)).paracount =
          MAXMODEPARAMS ∨
        arg_length (argf c2) +
          (line_append (argf c1) c1 (LineState.init header)).modebuf.length +
          (line_append (argf c1) c1 (LineState.init header)).parabuf.length + 2 >
          env.IRCD_BUFSIZE) := by
      rintro (h | h)
      · rw [h] at hcount
        exact absurd hcount (by decide)
      · rw [a1, a2] at h
        have e1 : (LineState.init header).modebuf = header := rfl
        have e2 : (LineState.init header).parabuf = [] := rfl
        have e3 : (LineState.init header).dir = MODE_QUERY := rfl
        rw [e1, e2, e3] at h
        omega
    unfold line_step line_flush
    dsimp only
    rw [if_neg hno]
  simp only [List.foldl_cons, List.foldl_nil, if_neg h1, if_neg h2]
  rw [hstep1, hstep2]
  unfold line_finish
  rw [b1, b2, b3, b4]
  have hcnt : (LineState.init header).modecount + [c1, c2].length ≠ 0 := by
    simp
  rw [if_pos hcnt]
  rfl

/-- Two changes that are both skipped give no line. -/
theorem pair_skipped (env : Env) (header : List Char)
    (emit : List Char → List Char → Out) (argf : ChModeChange → Option (List Char))
    (skip : ChModeChange → Prop) [DecidablePred skip] (c1 c2 : ChModeChange)
    (h1 : skip c1) (h2 : skip c2) :
    line_finish emit
      ([c1, c2].foldl (fun s mc =>
        if skip mc then s else line_step env header emit (argf mc) mc s)
        (LineState.init header)) = [] := by
  simp only [List.foldl_cons, List.foldl_nil, if_pos h1, if_pos h2]
  rfl
/-- The scan of `+o-b nick mask` by a local channel operator, when `nick`
resolves to a member without operator rank. -/
theorem op_unban_scan (env : Env) (source_p : Client) (chptr : Channel)
    (member : Option Membership) (nick1 mask1 : List Char) (target_p : Client) (i : Nat)
    (m : Membership) (mask : List Char)
    (hloc : MyClient source_p = true)
    (hop : get_channel_access source_p member = CHACCESS_CHANOP)
    (hfind : env.find_chasing source_p nick1 = some target_p)
    (hlink : find_channel_link target_p chptr = some (i, m))
    (hnoop : has_member_flags m CHFL_CHANOP = false)
    (hmask : mask = mask1.take (env.IRCD_BUFSIZE - 1))
    (hcolon : mask.head? ≠ some ':') :
    scan_modes env source_p chptr member 3 ["+o-b".toList, nick1, mask1] =
      if chptr.banlist.any (triple_matches env (del_triple env mask)) = true then
        { chptr := { with_member chptr i (AddMemberFlag m CHFL_CHANOP) with
            members := clear_ban_cache_list
              (with_member chptr i (AddMemberFlag m CHFL_CHANOP)).members,
            banlist := chptr.banlist.eraseP (triple_matches env (del_triple env mask)) },
          parn := 3, errors := 0,
          mode_changes := [rank_change mode_o MODE_ADD target_p,
            { letter := 'b', arg := some (canonical_mask env (del_triple env mask)),
              id := none, flags := list_filter chptr, dir := MODE_DEL }],
          mode_limit := 2, simple_modes_mask := 0, out := [] }
      else
        { chptr := { with_member chptr i (AddMemberFlag m CHFL_CHANOP) with
            members := clear_ban_cache_list
              (with_member chptr i (AddMemberFlag m CHFL_CHANOP)).members },
          parn := 3, errors := 0,
          mode_changes := [rank_change mode_o MODE_ADD target_p],
          mode_limit := 2, simple_modes_mask := 0, out := [] } := by
  have hgate1 : ¬ get_channel_access source_p member < CHACCESS_CHANOP := by
    rw [hop]; decide
  have hgate2 : ¬ get_channel_access source_p member < CHACCESS_HALFOP := by
    rw [hop]; decide
  have ho : cmode_map 'o' = some mode_o := by decide
  have hb : cmode_map 'b' = some mode_b := by decide
  have hscan : scan_modes env source_p chptr member 3 ["+o-b".toList, nick1, mask1] =
      dispatch env source_p 3 ["+o-b".toList, nick1, mask1]
        (get_channel_access source_p member) MODE_DEL 'b'
        (dispatch env source_p 3 ["+o-b".toList, nick1, mask1]
          (get_channel_access source_p member) MODE_ADD 'o' (ModeState.init chptr)) := by
    unfold scan_modes
    show mode_loop _ _ _ _ _ ['+', 'o', '-', 'b'] _ _ = _
    rw [mode_loop, if_pos rfl, mode_loop, if_neg (by decide), if_neg (by decide),
      if_neg (by decide), mode_loop, if_neg (by decide), if_pos rfl, mode_loop,
      if_neg (by decide), if_neg (by decide), if_neg (by decide), mode_loop]
  have hdo : dispatch env source_p 3 ["+o-b".toList, nick1, mask1]
      (get_channel_access source_p member) MODE_ADD 'o' (ModeState.init chptr) =
      { chptr := with_member chptr i (AddMemberFlag m CHFL_CHANOP), parn := 2, errors := 0,
        mode_changes := [rank_change mode_o MODE_ADD target_p], mode_limit := 1,
        simple_modes_mask := 0, out := [] } := by
    have hd : dispatch env source_p 3 ["+o-b".toList, nick1, mask1]
        (get_channel_access source_p member) MODE_ADD 'o' (ModeState.init chptr) =
        chm_rank CHACCESS_CHANOP CHFL_CHANOP env source_p 3 ["+o-b".toList, nick1, mask1]
          (get_channel_access source_p member) MODE_ADD mode_o (ModeState.init chptr) := by
      simp only [dispatch, ho, call_handler, mode_o, chm_op]
    have hp1 : (ModeState.init chptr).parn < 3 := by
      show 1 < 3
      decide
    have hl1 : MyClient source_p = true →
        (ModeState.init chptr).mode_limit + 1 ≤ MAXMODEPARAMS := by
      intro _
      show 0 + 1 ≤ MAXMODEPARAMS
      decide
    rw [hd, chm_rank_resolved CHACCESS_CHANOP CHFL_CHANOP env source_p 3
      ["+o-b".toList, nick1, mask1] _ MODE_ADD mode_o
      (ModeState.init chptr) target_p i m hgate1 hp1 hfind hlink hl1
      (Or.inl rfl), if_pos rfl, if_neg (by rw [hnoop]; decide)]
    simp only [hloc, if_true]
    rfl
  have hdb : ∀ st : ModeState, st.parn = 2 → st.mode_limit = 1 →
      dispatch env source_p 3 ["+o-b".toList, nick1, mask1]
        (get_channel_access source_p member) MODE_DEL 'b' st =
      if st.chptr.banlist.any (triple_matches env (del_triple env mask)) = true then
        { st with parn := st.parn + 1, mode_limit := st.mode_limit + 1,
                  chptr := { st.chptr with
                    members := clear_ban_cache_list st.chptr.members,
                    banlist := st.chptr.banlist.eraseP
                      (triple_matches env (del_triple env mask)) },
                  mode_changes := st.mode_changes ++
                    [{ letter := mode_b.letter,
                       arg := some (canonical_mask env (del_triple env mask)), id := none,
                       flags := list_filter st.chptr, dir := MODE_DEL }] }
      else
        { st with parn := st.parn + 1, mode_limit := st.mode_limit + 1,
                  chptr := { st.chptr with
                    members := clear_ban_cache_list st.chptr.members } } := by
    intro st hp hl
    have hd : dispatch env source_p 3 ["+o-b".toList, nick1, mask1]
        (get_channel_access source_p member) MODE_DEL 'b' st =
        chm_ban env source_p 3 ["+o-b".toList, nick1, mask1]
          (get_channel_access source_p member) MODE_DEL mode_b st := by
      simp only [dispatch, hb, call_handler, mode_b]
    rw [hd]
    apply chm_ban_del env source_p 3 _ _ mode_b st mask hloc hgate2
    · rw [hp]; decide
    · rw [hl]; decide
    · rw [hp, hmask]; rfl
    · exact hcolon
  rw [hscan, hdo, hdb _ rfl rfl]
  rfl

/-- C23 (as the code has it). A local channel operator issues `+o-b nick1
mask1` on a channel with hide-lists off, `nick1` resolving to a member without
operator rank and `mask1` not starting with a colon. The membership of `nick1`
gains operator rank and the ban cache of every local member is cleared. The
letter `b` stands under `-`, so no mask is added: when the ban list holds an
entry that matches the canonical form of `mask1` (`name!user@host`), the first
such entry is removed and two changes are recorded, and if the two fit on one
line the client pass and the server pass each emit exactly one line with the
mode section `+o-b` and the arguments `nick1` (its id on the server line) and
the canonical mask; when no entry matches, the ban list stays as it is, one
change is recorded and each pass emits exactly one line `+o` with `nick1`. -/
theorem op_and_unban (env : Env) (source_p : Client) (chptr : Channel)
    (member : Option Membership) (nick1 mask1 : List Char) (target_p : Client) (i : Nat)
    (m : Membership) (chptr1 : Channel) (mask banid : List Char)
    (hloc : MyClient source_p = true)
    (hop : get_channel_access source_p member = CHACCESS_CHANOP)
    (hoff : HasCMode chptr MODE_HIDEBMASKS = false)
    (hfind : env.find_chasing source_p nick1 = some target_p)
    (hlink : find_channel_link target_p chptr = some (i, m))
    (hnoop : has_member_flags m CHFL_CHANOP = false)
    (hch1 : chptr1 = with_member chptr i (AddMemberFlag m CHFL_CHANOP))
    (hmask : mask = mask1.take (env.IRCD_BUFSIZE - 1))
    (hcolon : mask.head? ≠ some ':')
    (hbanid : banid = canonical_mask env (del_triple env mask)) :
    (chptr1.members[i]? = some (AddMemberFlag m CHFL_CHANOP) ∧
      has_member_flags (AddMemberFlag m CHFL_CHANOP) CHFL_CHANOP = true ∧
      rank_bit_only CHFL_CHANOP m (AddMemberFlag m CHFL_CHANOP) ∧
      ∀ j, j ≠ i → chptr1.members[j]? = chptr.members[j]?) ∧
    cache_invalidated chptr1.members (clear_ban_cache_list chptr1.members) ∧
    (chptr.banlist.any (triple_matches env (del_triple env mask)) = true →
      (set_channel_mode env source_p chptr member 3 ["+o-b".toList, nick1, mask1]).chptr =
        { chptr1 with
          members := clear_ban_cache_list chptr1.members,
          banlist := chptr.banlist.eraseP (triple_matches env (del_triple env mask)) } ∧
      (set_channel_mode env source_p chptr member 3
        ["+o-b".toList, nick1, mask1]).mode_changes =
        [rank_change mode_o MODE_ADD target_p, unban_change banid] ∧
      (banid.length + (client_header env source_p chptr).length + target_p.name.length + 4 ≤
          env.IRCD_BUFSIZE →
        banid.length + (server_header source_p chptr).length + target_p.id.length + 4 ≤
          env.IRCD_BUFSIZE →
        (set_channel_mode env source_p chptr member 3 ["+o-b".toList, nick1, mask1]).out =
          [Out.channel_local 0 (client_header env source_p chptr ++ ['+', 'o', '-', 'b'])
            (para_text [] [target_p.name, banid]),
           Out.server (server_header source_p chptr ++ ['+', 'o', '-', 'b'])
            (para_text [] [target_p.id, banid])])) ∧
    (chptr.banlist.any (triple_matches env (del_triple env mask)) = false →
      (set_channel_mode env source_p chptr member 3 ["+o-b".toList, nick1, mask1]).chptr =
        { chptr1 with members := clear_ban_cache_list chptr1.members } ∧
      (set_channel_mode env source_p chptr member 3
        ["+o-b".toList, nick1, mask1]).mode_changes =
        [rank_change mode_o MODE_ADD target_p] ∧
      (set_channel_mode env source_p chptr member 3 ["+o-b".toList, nick1, mask1]).out =
        [Out.channel_local 0 (client_header env source_p chptr ++ ['+', 'o'])
          target_p.name,
         Out.server (server_header source_p chptr ++ ['+', 'o']) target_p.id]) := by
  have hscan := op_unban_scan env source_p chptr member nick1 mask1 target_p i m mask hloc hop
    hfind hlink hnoop hmask hcolon
  have hmem := find_channel_link_some target_p chptr i m hlink
  have hfilter : list_filter chptr = 0 := by
    unfold list_filter
    rw [hoff]
    rfl
  subst hch1
  subst hbanid
  refine ⟨⟨?_, add_flag_sets m CHFL_CHANOP (by decide), add_flag_bit_only m CHFL_CHANOP, ?_⟩,
    clear_ban_cache_list_invalidates _, ?_, ?_⟩
  · show (chptr.members.set i _)[i]? = _
    have hlt : i < chptr.members.length := (List.getElem?_eq_some_iff.mp hmem.1).1
    rw [List.getElem?_set_self hlt]
  · intro j hj
    show (chptr.members.set i _)[j]? = _
    exact List.getElem?_set_ne (Ne.symm hj)
  · intro hany
    rw [if_pos hany, hfilter] at hscan
    have hcnt : ¬ (scan_modes env source_p chptr member 3
        ["+o-b".toList, nick1, mask1]).mode_count = 0 := by
      rw [hscan]
      show ¬ (2 = 0)
      decide
    unfold set_channel_mode
    simp only [if_neg hcnt]
    rw [hscan]
    refine ⟨rfl, rfl, ?_⟩
    intro hfitc hfits
    dsimp only
    have hc : send_mode_changes_client env source_p
        { with_member chptr i (AddMemberFlag m CHFL_CHANOP) with
          members := clear_ban_cache_list
            (with_member chptr i (AddMemberFlag m CHFL_CHANOP)).members,
          banlist := chptr.banlist.eraseP (triple_matches env (del_triple env mask)) }
        [rank_change mode_o MODE_ADD target_p,
          { letter := 'b', arg := some (canonical_mask env (del_triple env mask)),
            id := none, flags := 0, dir := MODE_DEL }] =
        [Out.channel_local 0 (client_header env source_p chptr ++ ['+', 'o', '-', 'b'])
          (para_text [] [target_p.name, canonical_mask env (del_triple env mask)])] := by
      unfold send_mode_changes_client client_pass
      dsimp only
      rw [pair_change_line env _ (Out.channel_local 0) ChModeChange.arg
          (fun mc => mc.letter = Char.ofNat 0 ∨ mc.flags ≠ 0) _ _
          (by
            rintro (h | h)
            · exact (show ¬ ('o' = Char.ofNat 0) by decide) h
            · exact h rfl)
          (by
            rintro (h | h)
            · exact (show ¬ ('b' = Char.ofNat 0) by decide) h
            · exact h rfl)
          (by
            show target_p.name.length + (client_header env source_p chptr).length + 2 ≤ _
            omega)
          (by
            show (canonical_mask env (del_triple env mask)).length +
              ((client_header env source_p chptr) ++ ['+', 'o']).length +
              target_p.name.length + 2 ≤ _
            rw [List.length_append]
            simp only [List.length_cons, List.length_nil]
            omega),
        pair_skipped env _ (Out.channel_local (CHFL_CHANOP ||| CHFL_HALFOP)) ChModeChange.arg
          (fun mc => mc.letter = Char.ofNat 0 ∨ mc.flags ≠ CHFL_CHANOP ||| CHFL_HALFOP) _ _
          (Or.inr (show (0 : Nat) ≠ CHFL_CHANOP ||| CHFL_HALFOP by decide))
          (Or.inr (show (0 : Nat) ≠ CHFL_CHANOP ||| CHFL_HALFOP by decide))]
      rfl
    have hs : send_mode_changes_server env source_p
        { with_member chptr i (AddMemberFlag m CHFL_CHANOP) with
          members := clear_ban_cache_list
            (with_member chptr i (AddMemberFlag m CHFL_CHANOP)).members,
          banlist := chptr.banlist.eraseP (triple_matches env (del_triple env mask)) }
        [rank_change mode_o MODE_ADD target_p,
          { letter := 'b', arg := some (canonical_mask env (del_triple env mask)),
            id := none, flags := 0, dir := MODE_DEL }] =
        [Out.server (server_header source_p chptr ++ ['+', 'o', '-', 'b'])
          (para_text [] [target_p.id, canonical_mask env (del_triple env mask)])] := by
      unfold send_mode_changes_server
      dsimp only
      rw [pair_change_line env _ Out.server server_arg
          (fun mc => mc.letter = Char.ofNat 0) _ _
          (fun h => (show ¬ ('o' = Char.ofNat 0) by decide) h)
          (fun h => (show ¬ ('b' = Char.ofNat 0) by decide) h)
          (by
            show target_p.id.length + (server_header source_p chptr).length + 2 ≤ _
            omega)
          (by
            show (canonical_mask env (del_triple env mask)).length +
              ((server_header source_p chptr) ++ ['+', 'o']).length +
              target_p.id.length + 2 ≤ _
            rw [List.length_append]
            simp only [List.length_cons, List.length_nil]
            omega)]
      rfl
    rw [hc, hs]
    rfl
  · intro hany
    rw [if_neg (by rw [hany]; decide)] at hscan
    have hcnt : ¬ (scan_modes env source_p chptr member 3
        ["+o-b".toList, nick1, mask1]).mode_count = 0 := by
      rw [hscan]
      show ¬ (1 = 0)
      decide
    unfold set_channel_mode
    simp only [if_neg hcnt]
    rw [hscan]
    refine ⟨rfl, rfl, ?_⟩
    dsimp only
    obtain ⟨p1, p2⟩ := single_live_propagation env source_p
      { with_member chptr i (AddMemberFlag m CHFL_CHANOP) with
        members := clear_ban_cache_list
          (with_member chptr i (AddMemberFlag m CHFL_CHANOP)).members }
      [rank_change mode_o MODE_ADD target_p] (rank_change mode_o MODE_ADD target_p) rfl rfl
    rw [p1, p2]
    rfl

/-! ## `fix_key` is idempotent -/

theorem toNat_ofNat_small (n : Nat) (h : n < 128) : (Char.ofNat n).toNat = n := by
  have hv : n.isValidChar := Or.inl (by omega)
  rw [Char.ofNat, dif_pos hv]
  simp only [Char.ofNatAux, Char.toNat]
  show (BitVec.ofNatLt n _).toNat = n
  simp

theorem masked_lt (n : Nat) : n &&& 0x7f < 128 :=
  Nat.lt_succ_of_le Nat.and_le_right

theorem filterMap_fixed {α : Type} (f : α → Option α) :
    ∀ l : List α, (∀ a ∈ l, f a = some a) → l.filterMap f = l := by
  intro l
  induction l with
  | nil => intro _; rfl
  | cons a rest ih =>
    intro h
    rw [List.filterMap_cons, h a (List.mem_cons_self _ _)]
    dsimp only
    rw [ih (fun b hb => h b (List.mem_cons_of_mem _ hb))]

/-- The bytes `fix_key` keeps are seven-bit. -/
theorem fix_key_seven_bit (env : Env) (arg : List Char) :
    ∀ c ∈ fix_key env arg, c.toNat ≤ 0x7f := by
  intro c hc
  unfold fix_key at hc
  rw [List.mem_filterMap] at hc
  obtain ⟨ch, -, h⟩ := hc
  dsimp only at h
  split_ifs at h with hk
  simp only [Option.some.injEq] at h
  rw [← h, toNat_ofNat_small _ (masked_lt _)]
  exact Nat.and_le_right

/-- C31. For every input string and every `KEYLEN`, the result of `fix_key`
has at most `min KEYLEN (length of the input)` bytes, each of its bytes is in
`0x21`..`0x7F` and is neither `':'` nor `','`, and `fix_key` applied to the
result gives the result again. -/
theorem fix_key_idempotent (env : Env) (s : List Char) :
    (fix_key env s).length ≤ min env.KEYLEN s.length ∧
    (∀ c ∈ fix_key env s, 0x21 ≤ c.toNat ∧ c.toNat ≤ 0x7f ∧ c ≠ ':' ∧ c ≠ ',') ∧
    fix_key env (fix_key env s) = fix_key env s := by
  have hchars : ∀ c ∈ fix_key env s, c ≠ ':' ∧ c > ' ' ∧ c ≠ ',' :=
    fun c hc => (key_char_iff c).mp (fix_key_chars env s c hc)
  refine ⟨?_, ?_, ?_⟩
  · unfold fix_key
    exact (List.length_filterMap_le _ _).trans (le_of_eq (List.length_take _ _))
  · intro c hc
    obtain ⟨h1, h2, h3⟩ := hchars c hc
    have h4 : 0x20 < c.toNat := (char_above_space c).mp h2
    exact ⟨h4, fix_key_seven_bit env s c hc, h1, h3⟩
  · have hout : fix_key env (fix_key env s) =
        ((fix_key env s).take env.KEYLEN).filterMap (fun ch =>
          if Char.ofNat (ch.toNat &&& 0x7f) ≠ ':' ∧ Char.ofNat (ch.toNat &&& 0x7f) > ' ' ∧
              Char.ofNat (ch.toNat &&& 0x7f) ≠ ',' then
            some (Char.ofNat (ch.toNat &&& 0x7f))
          else none) := rfl
    rw [hout, fix_key_take]
    apply filterMap_fixed
    intro c hc
    have h7 : c.toNat < 128 := Nat.lt_succ_of_le (fix_key_seven_bit env s c hc)
    rw [seven_bit c h7, if_pos (hchars c hc)]

/-! ## Repeated `+l` and `+k` among other letters -/

/-- The scan of a mode string in two parts. -/
theorem mode_loop_append (env : Env) (source_p : Client) (parc : Nat)
    (parv : List (List Char)) (alev : Int) :
    ∀ (pre post : List Char) (dir : Nat) (st : ModeState),
      mode_loop env source_p parc parv alev (pre ++ post) dir st =
        mode_loop env source_p parc parv alev post (scan_dir pre dir)
          (mode_loop env source_p parc parv alev pre dir st) := by
  intro pre
  induction pre with
  | nil => intro post dir st; rfl
  | cons ml rest ih =>
    intro post dir st
    rw [List.cons_append]
    simp only [mode_loop, scan_dir]
    split_ifs <;> exact ih _ _ _

/-- After the loop of `chm_limit` or `chm_key`, no earlier change is an add of
the letter. -/
theorem void_earlier_adds (letter : Char) (hl : letter ≠ Char.ofNat 0)
    (cs : List ChModeChange) :
    (void_earlier letter cs).filter (ChModeChange.is_add letter) = [] := by
  rw [List.filter_eq_nil_iff]
  intro mc hmc
  unfold void_earlier at hmc
  rw [List.mem_map] at hmc
  obtain ⟨mc0, -, heq⟩ := hmc
  by_cases hc : mc0.letter = letter ∧ mc0.dir = MODE_ADD
  · rw [if_pos hc] at heq
    rw [← heq]
    have : ¬ (Char.ofNat 0 = letter) := fun h => hl h.symm
    simp [ChModeChange.is_add, this]
  · rw [if_neg hc] at heq
    rw [← heq]
    simpa [ChModeChange.is_add] using hc

/-- The loop for one letter leaves the adds of every other letter alone. -/
theorem void_earlier_other (letter other : Char) (hl : letter ≠ Char.ofNat 0)
    (hne : other ≠ letter) (cs : List ChModeChange) :
    (void_earlier other cs).filter (ChModeChange.is_add letter) =
      cs.filter (ChModeChange.is_add letter) := by
  induction cs with
  | nil => rfl
  | cons mc rest ih =>
    have ih1 : List.filter (ChModeChange.is_add letter) (List.map (fun mc =>
        if mc.letter = other ∧ mc.dir = MODE_ADD then { mc with letter := Char.ofNat 0 } else mc)
        rest) = List.filter (ChModeChange.is_add letter) rest := ih
    unfold void_earlier
    rw [List.map_cons, List.filter_cons, List.filter_cons, ih1]
    by_cases hc : mc.letter = other ∧ mc.dir = MODE_ADD
    · rw [if_pos hc]
      have h1 : ¬ (Char.ofNat 0 = letter) := fun h => hl h.symm
      have h2 : ¬ (mc.letter = letter) := fun h => hne (hc.1.symm.trans h)
      simp [ChModeChange.is_add, h1, h2]
    · rw [if_neg hc]

/-- The loop changes no position but those of the earlier adds of the letter,
whose letter it clears. -/
theorem void_earlier_get (letter : Char) (cs : List ChModeChange) (i : Nat)
    (mc : ChModeChange) (h : cs[i]? = some mc) :
    (void_earlier letter cs)[i]? =
      some (if mc.letter = letter ∧ mc.dir = MODE_ADD then { mc with letter := Char.ofNat 0 }
            else mc) := by
  unfold void_earlier
  rw [List.getElem?_map, h]
  rfl

/-- A handler call for one letter leaves the adds of every other letter as
they are. -/
theorem records_step_adds (letter c : Char) (before after : List ChModeChange)
    (hl : letter ≠ Char.ofNat 0) (hne : c ≠ letter) (h : records_step c before after) :
    after.filter (ChModeChange.is_add letter) = before.filter (ChModeChange.is_add letter) := by
  have hmc : ∀ mc : ChModeChange, mc.letter = c →
      [mc].filter (ChModeChange.is_add letter) = [] := by
    intro mc hm
    have : ¬ (mc.letter = letter) := fun h1 => hne (hm.symm.trans h1)
    simp [ChModeChange.is_add, this]
  rcases h with h | ⟨mc, hm, h | h⟩
  · rw [h]
  · rw [h, List.filter_append, hmc mc hm, List.append_nil]
  · rw [h, List.filter_append, hmc mc hm, List.append_nil, void_earlier_other letter c hl hne]

theorem chm_nosuch_changes (c : Char) (st : ModeState) :
    (chm_nosuch c st).mode_changes = st.mode_changes ∧ (chm_nosuch c st).chptr = st.chptr := by
  unfold chm_nosuch
  split_ifs <;> exact ⟨rfl, rfl⟩

/-- What one letter of the mode string records. -/
theorem dispatch_records (env : Env) (source_p : Client) (parc : Nat)
    (parv : List (List Char)) (alev : Int) (dir : Nat) (c : Char) (st : ModeState) :
    records_step c st.mode_changes
      (dispatch env source_p parc parv alev dir c st).mode_changes := by
  unfold dispatch
  cases hm : cmode_map c with
  | none => exact Or.inl (chm_nosuch_changes c st).1
  | some mode =>
    have h := records_handler env source_p parc parv alev dir mode st
    rw [(cmode_map_mem c mode hm).2] at h
    exact h

/-- The letters of a mode string other than `letter` leave the adds of
`letter` as they are. -/
theorem mode_loop_adds (env : Env) (source_p : Client) (parc : Nat)
    (parv : List (List Char)) (alev : Int) (letter : Char) (hl : letter ≠ Char.ofNat 0) :
    ∀ (ms : List Char) (dir : Nat) (st : ModeState), letter ∉ ms →
      (mode_loop env source_p parc parv alev ms dir st).mode_changes.filter
        (ChModeChange.is_add letter) = st.mode_changes.filter (ChModeChange.is_add letter) := by
  intro ms
  induction ms with
  | nil => intro dir st _; rfl
  | cons ml rest ih =>
    intro dir st hnot
    have hrest : letter ∉ rest := fun h => hnot (List.mem_cons_of_mem _ h)
    have hml : ml ≠ letter := fun h => hnot (h ▸ List.mem_cons_self _ _)
    simp only [mode_loop]
    split_ifs
    · exact ih _ _ hrest
    · exact ih _ _ hrest
    · exact ih _ _ hrest
    · rw [ih _ _ hrest]
      exact records_step_adds letter ml _ _ hl hml
        (dispatch_records env source_p parc parv alev dir ml st)

/-! ### The limit and the key are touched by their own letter only -/

theorem keeps_simple (source_p : Client) (alev : Int) (dir : Nat) (mode : chan_mode)
    (st : ModeState) :
    (chm_simple source_p alev dir mode st).chptr.mode.limit = st.chptr.mode.limit ∧
    (chm_simple source_p alev dir mode st).chptr.mode.key = st.chptr.mode.key := by
  unfold chm_simple
  dsimp only
  split_ifs
  all_goals first
    | exact ⟨rfl, rfl⟩
    | (rw [reject_noops_eq]; exact ⟨rfl, rfl⟩)

theorem keeps_list (errbit : Nat) (list : Channel → List Ban) (rpl rpl_end : Numeric)
    (type : Nat) (env : Env) (source_p : Client) (parc : Nat) (parv : List (List Char))
    (alev : Int) (dir : Nat) (mode : chan_mode) (st : ModeState) :
    (chm_list errbit list rpl rpl_end type env source_p parc parv alev dir mode
      st).chptr.mode.limit = st.chptr.mode.limit ∧
    (chm_list errbit list rpl rpl_end type env source_p parc parv alev dir mode
      st).chptr.mode.key = st.chptr.mode.key := by
  have h := (chm_list_records errbit list rpl rpl_end type env source_p parc parv alev dir mode
    st).1
  rw [h]
  exact ⟨rfl, rfl⟩

theorem keeps_rank (need : Int) (flag : Nat) (env : Env) (source_p : Client) (parc : Nat)
    (parv : List (List Char)) (alev : Int) (dir : Nat) (mode : chan_mode) (st : ModeState) :
    (chm_rank need flag env source_p parc parv alev dir mode st).chptr.mode = st.chptr.mode := by
  unfold chm_rank
  by_cases g : alev < need
  · rw [if_pos g, reject_noops_eq]
  rw [if_neg g]
  by_cases hq : dir = MODE_QUERY ∨ parc ≤ st.parn
  · rw [if_pos hq]
  rw [if_neg hq]
  dsimp only
  cases env.find_chasing source_p (parv.getD st.parn []) with
  | none => rfl
  | some target_p =>
    dsimp only
    cases find_channel_link target_p st.chptr with
    | none => dsimp only; split_ifs <;> rfl
    | some pr =>
      obtain ⟨i, member⟩ := pr
      dsimp only
      split_ifs <;> rfl

theorem keeps_limit (env : Env) (parc : Nat) (parv : List (List Char)) (alev : Int)
    (dir : Nat) (mode : chan_mode) (st : ModeState) :
    (chm_limit env parc parv alev dir mode st).chptr.mode.key = st.chptr.mode.key := by
  unfold chm_limit
  by_cases g : alev < CHACCESS_HALFOP
  · rw [if_pos g, reject_noops_eq]
  rw [if_neg g]
  dsimp only
  split_ifs <;> rfl

theorem cmode_tab_limit_key : ∀ mode ∈ cmode_tab,
    (mode.func = ChmFunc.chm_limit → mode.letter = 'l') ∧
    (mode.func = ChmFunc.chm_key → mode.letter = 'k') := by
  decide

/-- A letter other than `k` leaves the key of the channel as it is. -/
theorem dispatch_keeps_key (env : Env) (source_p : Client) (parc : Nat)
    (parv : List (List Char)) (alev : Int) (dir : Nat) (c : Char) (st : ModeState)
    (hc : c ≠ 'k') :
    (dispatch env source_p parc parv alev dir c st).chptr.mode.key = st.chptr.mode.key := by
  unfold dispatch
  cases hm : cmode_map c with
  | none => dsimp only; rw [(chm_nosuch_changes c st).2]
  | some mode =>
    obtain ⟨hmem, hlet⟩ := cmode_map_mem c mode hm
    have htab := (cmode_tab_limit_key mode hmem).2
    dsimp only
    unfold call_handler
    cases hf : mode.func with
    | chm_simple => exact (keeps_simple source_p alev dir mode st).2
    | chm_ban => exact (keeps_list _ _ _ _ _ env source_p parc parv alev dir mode st).2
    | chm_except => exact (keeps_list _ _ _ _ _ env source_p parc parv alev dir mode st).2
    | chm_invex => exact (keeps_list _ _ _ _ _ env source_p parc parv alev dir mode st).2
    | chm_voice =>
      dsimp only
      rw [show (chm_voice env source_p parc parv alev dir mode st).chptr.mode = st.chptr.mode
        from keeps_rank _ _ env source_p parc parv alev dir mode st]
    | chm_hop =>
      dsimp only
      rw [show (chm_hop env source_p parc parv alev dir mode st).chptr.mode = st.chptr.mode
        from keeps_rank _ _ env source_p parc parv alev dir mode st]
    | chm_op =>
      dsimp only
      rw [show (chm_op env source_p parc parv alev dir mode st).chptr.mode = st.chptr.mode
        from keeps_rank _ _ env source_p parc parv alev dir mode st]
    | chm_limit => exact keeps_limit env parc parv alev dir mode st
    | chm_key => exact absurd (hlet.symm.trans (htab hf)) hc

theorem mode_loop_keeps_key (env : Env) (source_p : Client) (parc : Nat)
    (parv : List (List Char)) (alev : Int) :
    ∀ (ms : List Char) (dir : Nat) (st : ModeState), 'k' ∉ ms →
      (mode_loop env source_p parc parv alev ms dir st).chptr.mode.key =
        st.chptr.mode.key := by
  intro ms
  induction ms with
  | nil => intro dir st _; rfl
  | cons ml rest ih =>
    intro dir st hnot
    have hrest : 'k' ∉ rest := fun h => hnot (List.mem_cons_of_mem _ h)
    have hml : ml ≠ 'k' := fun h => hnot (h ▸ List.mem_cons_self _ _)
    simp only [mode_loop]
    split_ifs
    · exact ih _ _ hrest
    · exact ih _ _ hrest
    · exact ih _ _ hrest
    · rw [ih _ _ hrest]
      exact dispatch_keeps_key env source_p parc parv alev dir ml st hml

/-! ### At most one add of `l` and of `k` keeps its letter -/

/-- The adds of `l` after a call of `chm_limit`: as before, or the new one
alone. -/
theorem limit_adds (env : Env) (parc : Nat) (parv : List (List Char)) (alev : Int)
    (dir : Nat) (st : ModeState) :
    (chm_limit env parc parv alev dir mode_l st).mode_changes.filter
        (ChModeChange.is_add 'l') = st.mode_changes.filter (ChModeChange.is_add 'l') ∨
    ∃ mc, (chm_limit env parc parv alev dir mode_l st).mode_changes.filter
        (ChModeChange.is_add 'l') = [mc] := by
  unfold chm_limit
  by_cases g : alev < CHACCESS_HALFOP
  · rw [if_pos g, reject_noops_eq]; exact Or.inl rfl
  rw [if_neg g]
  by_cases hq : dir = MODE_QUERY
  · rw [if_pos hq]; exact Or.inl rfl
  rw [if_neg hq]
  by_cases ha : dir = MODE_ADD ∧ parc > st.parn
  · rw [if_pos ha]
    dsimp only
    split_ifs
    · exact Or.inl rfl
    · right
      refine ⟨{ letter := 'l', arg := some (decimal (env.atoi (parv.getD st.parn [])).toNat),
                id := none, flags := 0, dir := dir }, ?_⟩
      rw [List.filter_append]
      show List.filter (ChModeChange.is_add 'l') (void_earlier 'l' st.mode_changes) ++ _ = _
      rw [void_earlier_adds 'l' (by decide), List.nil_append]
      simp [ChModeChange.is_add, mode_l, ha.1]
  rw [if_neg ha]
  by_cases hd : dir = MODE_DEL
  · rw [if_pos hd]
    split_ifs
    · exact Or.inl rfl
    · left
      rw [record_mode_changes, List.filter_append]
      have : ¬ (MODE_DEL = MODE_ADD) := by decide
      simp [ChModeChange.is_add, hd, this]
  · rw [if_neg hd]; exact Or.inl rfl

/-- The adds of `k` after a call of `chm_key`: as before, or the new one
alone. -/
theorem key_adds (env : Env) (parc : Nat) (parv : List (List Char)) (alev : Int)
    (dir : Nat) (st : ModeState) :
    (chm_key env parc parv alev dir mode_k st).mode_changes.filter
        (ChModeChange.is_add 'k') = st.mode_changes.filter (ChModeChange.is_add 'k') ∨
    ∃ mc, (chm_key env parc parv alev dir mode_k st).mode_changes.filter
        (ChModeChange.is_add 'k') = [mc] := by
  unfold chm_key
  by_cases g : alev < CHACCESS_HALFOP
  · rw [if_pos g, reject_noops_eq]; exact Or.inl rfl
  rw [if_neg g]
  by_cases hq : dir = MODE_QUERY
  · rw [if_pos hq]; exact Or.inl rfl
  rw [if_neg hq]
  by_cases ha : dir = MODE_ADD ∧ parc > st.parn
  · rw [if_pos ha]
    dsimp only
    split_ifs
    · exact Or.inl rfl
    · right
      refine ⟨{ letter := 'k', arg := some (fix_key env (parv.getD st.parn [])), id := none,
                flags := 0, dir := dir }, ?_⟩
      rw [List.filter_append]
      show List.filter (ChModeChange.is_add 'k') (void_earlier 'k' st.mode_changes) ++ _ = _
      rw [void_earlier_adds 'k' (by decide), List.nil_append]
      simp [ChModeChange.is_add, mode_k, ha.1]
  rw [if_neg ha]
  by_cases hd : dir = MODE_DEL
  · rw [if_pos hd]
    dsimp only
    have : ¬ (MODE_DEL = MODE_ADD) := by decide
    split_ifs <;> first
      | exact Or.inl rfl
      | (left
         rw [record_mode_changes, List.filter_append]
         simp [ChModeChange.is_add, hd, this])
  · rw [if_neg hd]; exact Or.inl rfl

/-- Whatever the mode string, the arguments and the requester, the scan leaves
at most one add of `l` and at most one add of `k` with its letter. -/
theorem adds_at_most_one (env : Env) (source_p : Client) (parc : Nat)
    (parv : List (List Char)) (alev : Int) (ms : List Char) (dir : Nat) (st : ModeState)
    (h : (st.mode_changes.filter (ChModeChange.is_add 'l')).length ≤ 1 ∧
      (st.mode_changes.filter (ChModeChange.is_add 'k')).length ≤ 1) :
    ((mode_loop env source_p parc parv alev ms dir st).mode_changes.filter
      (ChModeChange.is_add 'l')).length ≤ 1 ∧
    ((mode_loop env source_p parc parv alev ms dir st).mode_changes.filter
      (ChModeChange.is_add 'k')).length ≤ 1 := by
  refine mode_loop_invariant
    (fun st => (st.mode_changes.filter (ChModeChange.is_add 'l')).length ≤ 1 ∧
      (st.mode_changes.filter (ChModeChange.is_add 'k')).length ≤ 1)
    env source_p parc parv alev ?_ ?_ ms dir st h
  · intro c st h
    show (List.filter _ (chm_nosuch c st).mode_changes).length ≤ 1 ∧
      (List.filter _ (chm_nosuch c st).mode_changes).length ≤ 1
    rw [(chm_nosuch_changes c st).1]
    exact h
  · intro mode hmem dir st h
    have hrec := records_handler env source_p parc parv alev dir mode st
    have hl : mode_l ∈ cmode_tab := by decide
    have hk : mode_k ∈ cmode_tab := by decide
    constructor
    · by_cases hc : mode.letter = 'l'
      · have hmode : mode = mode_l := cmode_tab_letter_inj mode hmem mode_l hl hc
        subst hmode
        rcases limit_adds env parc parv alev dir st with h1 | ⟨mc, h1⟩
        · show (List.filter _ (chm_limit env parc parv alev dir mode_l st).mode_changes).length
            ≤ 1
          rw [h1]; exact h.1
        · show (List.filter _ (chm_limit env parc parv alev dir mode_l st).mode_changes).length
            ≤ 1
          rw [h1]; exact Nat.le_refl _
      · show (List.filter _ (call_handler env source_p parc parv alev dir mode
          st).mode_changes).length ≤ 1
        rw [records_step_adds 'l' mode.letter _ _ (by decide) hc hrec]
        exact h.1
    · by_cases hc : mode.letter = 'k'
      · have hmode : mode = mode_k := cmode_tab_letter_inj mode hmem mode_k hk hc
        subst hmode
        rcases key_adds env parc parv alev dir st with h1 | ⟨mc, h1⟩
        · show (List.filter _ (chm_key env parc parv alev dir mode_k st).mode_changes).length
            ≤ 1
          rw [h1]; exact h.2
        · show (List.filter _ (chm_key env parc parv alev dir mode_k st).mode_changes).length
            ≤ 1
          rw [h1]; exact Nat.le_refl _
      · show (List.filter _ (call_handler env source_p parc parv alev dir mode
          st).mode_changes).length ≤ 1
        rw [records_step_adds 'k' mode.letter _ _ (by decide) hc hrec]
        exact h.2

/-! ### The propagation reads the changes that kept their letter -/

theorem foldl_skip_filter {σ α : Type} (f : σ → α → σ) (skip : α → Prop) [DecidablePred skip]
    (keep : α → Bool) (hk : ∀ a, keep a = false → skip a) :
    ∀ (l : List α) (s : σ),
      l.foldl (fun s a => if skip a then s else f s a) s =
        (l.filter keep).foldl (fun s a => if skip a then s else f s a) s := by
  intro l
  induction l with
  | nil => intro s; rfl
  | cons a rest ih =>
    intro s
    rw [List.foldl_cons, List.filter_cons]
    cases hka : keep a
    · rw [if_pos (hk a hka)]
      simp only [Bool.false_eq_true, if_false]
      exact ih s
    · simp only [if_true, List.foldl_cons]
      exact ih _

/-- The lines sent for a list of changes are the lines sent for the changes
whose letter has not been cleared. -/
theorem propagation_live (env : Env) (source_p : Client) (chptr : Channel)
    (changes : List ChModeChange) :
    send_mode_changes_client env source_p chptr changes =
      send_mode_changes_client env source_p chptr (changes.filter ChModeChange.live) ∧
    send_mode_changes_server env source_p chptr changes =
      send_mode_changes_server env source_p chptr (changes.filter ChModeChange.live) := by
  have hlive : ∀ mc : ChModeChange, mc.live = false → mc.letter = Char.ofNat 0 := by
    intro mc h
    simpa [ChModeChange.live] using h
  constructor
  · unfold send_mode_changes_client client_pass
    dsimp only
    rw [foldl_skip_filter _ (fun mc : ChModeChange => mc.letter = Char.ofNat 0 ∨ mc.flags ≠ 0)
        ChModeChange.live (fun mc h => Or.inl (hlive mc h)) changes,
      foldl_skip_filter _
        (fun mc : ChModeChange => mc.letter = Char.ofNat 0 ∨ mc.flags ≠ CHFL_CHANOP ||| CHFL_HALFOP)
        ChModeChange.live (fun mc h => Or.inl (hlive mc h)) changes]
  · unfold send_mode_changes_server
    dsimp only
    rw [foldl_skip_filter _ (fun mc : ChModeChange => mc.letter = Char.ofNat 0)
        ChModeChange.live (fun mc h => hlive mc h) changes]

/-! ### The last `+l` of a call -/

/-- What `set_channel_mode` adds to the scan: the lines of the propagation,
which are the lines for the changes that kept their letter. -/
theorem set_channel_mode_scan (env : Env) (source_p : Client) (chptr : Channel)
    (member : Option Membership) (parc : Nat) (parv : List (List Char)) :
    (set_channel_mode env source_p chptr member parc parv).chptr =
      (scan_modes env source_p chptr member parc parv).chptr ∧
    (set_channel_mode env source_p chptr member parc parv).mode_changes =
      (scan_modes env source_p chptr member parc parv).mode_changes ∧
    ((scan_modes env source_p chptr member parc parv).mode_changes ≠ [] →
      (set_channel_mode env source_p chptr member parc parv).out =
        (scan_modes env source_p chptr member parc parv).out ++
          send_mode_changes_client env source_p
            (scan_modes env source_p chptr member parc parv).chptr
            ((scan_modes env source_p chptr member parc parv).mode_changes.filter
              ChModeChange.live) ++
          send_mode_changes_server env source_p
            (scan_modes env source_p chptr member parc parv).chptr
            ((scan_modes env source_p chptr member parc parv).mode_changes.filter
              ChModeChange.live)) := by
  unfold set_channel_mode
  dsimp only
  by_cases h : (scan_modes env source_p chptr member parc parv).mode_count = 0
  · rw [if_pos h]
    refine ⟨rfl, rfl, fun hne => ?_⟩
    exact absurd (List.length_eq_zero.mp h) hne
  · rw [if_neg h]
    refine ⟨rfl, rfl, fun _ => ?_⟩
    obtain ⟨p1, p2⟩ := propagation_live env source_p
      (scan_modes env source_p chptr member parc parv).chptr
      (scan_modes env source_p chptr member parc parv).mode_changes
    show _ ++ _ ++ _ = _
    rw [← p1, ← p2]

/-- A mode string of `+` and `k` only, every `k` with an argument that gives a
key that is not empty: what `set_channel_mode` leaves and sends. -/
theorem key_string_result (env : Env) (source_p : Client) (chptr : Channel)
    (member : Option Membership) (ms : List Char) (args : List (List Char)) (last : List Char)
    (hauth : CHACCESS_HALFOP ≤ get_channel_access source_p member)
    (hms : ∀ c ∈ ms, c = '+' ∨ c = 'k') (hcount : ms.count 'k' = args.length + 1)
    (hvalid : ∀ a ∈ args ++ [last], fix_key env a ≠ []) :
    (set_channel_mode env source_p chptr member (args.length + 2)
      (ms :: (args ++ [last]))).chptr = with_key chptr (fix_key env last) ∧
    (set_channel_mode env source_p chptr member (args.length + 2)
      (ms :: (args ++ [last]))).mode_changes.length = args.length + 1 ∧
    (set_channel_mode env source_p chptr member (args.length + 2)
      (ms :: (args ++ [last]))).mode_changes.filter ChModeChange.live =
        [key_change env last] ∧
    (set_channel_mode env source_p chptr member (args.length + 2)
      (ms :: (args ++ [last]))).out =
        [Out.channel_local 0 (client_header env source_p chptr ++ ['+', 'k'])
          (fix_key env last),
         Out.server (server_header source_p chptr ++ ['+', 'k']) (fix_key env last)] := by
  have hlen : args.length + 2 = (ms :: (args ++ [last])).length := by simp
  obtain ⟨l1, l2, -, l4⟩ := key_loop env source_p (ms :: (args ++ [last]))
    (get_channel_access source_p member) hauth ms (args ++ [last]) (ModeState.init chptr)
    hms (by simpa using hcount) rfl hvalid (fun mc hmc => by simp [ModeState.init] at hmc)
  obtain ⟨l5, l6⟩ := l4 args last rfl
  rw [← hlen] at l1 l2 l5 l6
  have hscan : scan_modes env source_p chptr member (args.length + 2)
      (ms :: (args ++ [last])) =
      mode_loop env source_p (args.length + 2) (ms :: (args ++ [last]))
        (get_channel_access source_p member) ms MODE_ADD (ModeState.init chptr) := rfl
  rw [← hscan] at l1 l2 l5 l6
  have hcnt : ¬ (scan_modes env source_p chptr member (args.length + 2)
      (ms :: (args ++ [last]))).mode_count = 0 := by
    unfold ModeState.mode_count
    rw [l2]
    simp [ModeState.init]
  obtain ⟨p1, p2⟩ := single_live_propagation env source_p
    (scan_modes env source_p chptr member (args.length + 2) (ms :: (args ++ [last]))).chptr
    _ (key_change env last) rfl l6
  refine ⟨?_, ?_, ?_, ?_⟩
  · unfold set_channel_mode
    simp only [if_neg hcnt]
    exact l5
  · unfold set_channel_mode
    simp only [if_neg hcnt]
    rw [l2]; simp [ModeState.init]
  · unfold set_channel_mode
    simp only [if_neg hcnt]
    exact l6
  · unfold set_channel_mode
    simp only [if_neg hcnt]
    rw [l1, p1, p2, l5]
    rfl

/-- A `-k` of an authorized requester: on a channel with a key the key is
cleared and one remove change with the argument `*` is recorded; on a channel
without a key nothing changes in the channel and in the recorded changes. -/
theorem key_del_step (env : Env) (parc : Nat) (parv : List (List Char)) (alev : Int)
    (mode : chan_mode) (st : ModeState) (hauth : CHACCESS_HALFOP ≤ alev) :
    (st.chptr.mode.key ≠ [] →
      (chm_key env parc parv alev MODE_DEL mode st).chptr = with_key st.chptr [] ∧
      (chm_key env parc parv alev MODE_DEL mode st).mode_changes =
        st.mode_changes ++
          [{ letter := mode.letter, arg := some ['*'], id := none, flags := 0,
             dir := MODE_DEL }]) ∧
    (st.chptr.mode.key = [] →
      (chm_key env parc parv alev MODE_DEL mode st).chptr = st.chptr ∧
      (chm_key env parc parv alev MODE_DEL mode st).mode_changes = st.mode_changes) := by
  have hgate : ¬ alev < CHACCESS_HALFOP := not_lt.mpr hauth
  have hd1 : ¬ (MODE_DEL = MODE_QUERY) := by decide
  have hd2 : ¬ (MODE_DEL = MODE_ADD ∧ parc > st.parn) := fun h => absurd h.1 (by decide)
  constructor
  · intro hkey
    unfold chm_key
    rw [if_neg hgate, if_neg hd1, if_neg hd2, if_pos rfl]
    dsimp only
    by_cases hp : parc > st.parn
    · simp only [if_pos hp, if_neg hkey]
      exact ⟨rfl, rfl⟩
    · simp only [if_neg hp, if_neg hkey]
      exact ⟨rfl, rfl⟩
  · intro hkey
    unfold chm_key
    rw [if_neg hgate, if_neg hd1, if_neg hd2, if_pos rfl]
    dsimp only
    by_cases hp : parc > st.parn
    · simp only [if_pos hp, if_pos hkey]
      exact ⟨trivial, trivial⟩
    · simp only [if_neg hp, if_pos hkey]
      exact ⟨trivial, trivial⟩

/-- The scan of a mode string whose last `k` is an add with an argument that
gives a key: `pre` is the part of the string before that `k`, `post` the part
behind it. -/
theorem key_last_scan (env : Env) (source_p : Client) (parc : Nat)
    (parv : List (List Char)) (alev : Int) (pre post a : List Char) (st0 : ModeState)
    (hauth : CHACCESS_HALFOP ≤ alev)
    (hdir : scan_dir pre MODE_ADD = MODE_ADD) (hpost : 'k' ∉ post)
    (hparn : (mode_loop env source_p parc parv alev pre MODE_ADD st0).parn < parc)
    (ha : parv.getD (mode_loop env source_p parc parv alev pre MODE_ADD st0).parn [] = a)
    (hne : fix_key env a ≠ []) :
    (mode_loop env source_p parc parv alev (pre ++ 'k' :: post) MODE_ADD
      st0).chptr.mode.key = fix_key env a ∧
    (mode_loop env source_p parc parv alev (pre ++ 'k' :: post) MODE_ADD
      st0).mode_changes.filter (ChModeChange.is_add 'k') = [key_change env a] := by
  have hloop : mode_loop env source_p parc parv alev (pre ++ 'k' :: post) MODE_ADD st0 =
      mode_loop env source_p parc parv alev post MODE_ADD
        (dispatch env source_p parc parv alev MODE_ADD 'k'
          (mode_loop env source_p parc parv alev pre MODE_ADD st0)) := by
    rw [mode_loop_append, hdir]
    simp only [mode_loop]
    rw [if_neg (by decide), if_neg (by decide), if_neg (by decide)]
  have hstep := key_step env source_p parc parv alev
    (mode_loop env source_p parc parv alev pre MODE_ADD st0) a hauth hparn ha hne
  rw [hloop, mode_loop_keeps_key env source_p parc parv alev post MODE_ADD _ hpost,
    mode_loop_adds env source_p parc parv alev 'k' (by decide) post MODE_ADD _ hpost, hstep]
  refine ⟨rfl, ?_⟩
  show List.filter _ (void_earlier 'k' _ ++ [key_change env a]) = _
  rw [List.filter_append, void_earlier_adds 'k' (by decide)]
  rfl

/-- C24. For an authorized requester (half-operator, operator or remote):
(1) a `+k` with an argument that `fix_key` turns into a key that is not empty,
handled in any state of the scan, whatever was recorded before, sets the key to
the sanitized argument, records one more change, the key-add carrying that key,
and clears the letter of every earlier change that is an add of `k`, and of no
other, so the new change is the only add of `k` that keeps its letter;
(2) whatever the mode string and the arguments, `set_channel_mode` leaves at
most one add of `k` with its letter;
(3) for a mode string with any letters and signs, whose last `k` is an add with
such an argument `a`: after `set_channel_mode` the channel key is the sanitized
`a`, the only add of `k` that keeps its letter carries that key, and the lines
sent are those of the changes that kept their letter;
(4) for a mode string of `+` and `k` only, each `k` with such an argument, the
channel is changed in its key only, one change per `k` is recorded, and exactly
one client line and one server line are sent, each `+k` with the last key;
(5) a `-k` on a channel with a key clears the key and records one remove change
with the argument `*`; on a channel without a key it leaves the channel and the
recorded changes as they are. -/
theorem last_key_wins (env : Env) (source_p : Client) (chptr : Channel)
    (member : Option Membership)
    (hauth : CHACCESS_HALFOP ≤ get_channel_access source_p member) :
    (∀ (parc : Nat) (parv : List (List Char)) (st : ModeState) (a : List Char),
      st.parn < parc → parv.getD st.parn [] = a → fix_key env a ≠ [] →
      (dispatch env source_p parc parv (get_channel_access source_p member) MODE_ADD 'k'
        st).chptr = with_key st.chptr (fix_key env a) ∧
      (dispatch env source_p parc parv (get_channel_access source_p member) MODE_ADD 'k'
        st).mode_changes.length = st.mode_changes.length + 1 ∧
      (dispatch env source_p parc parv (get_channel_access source_p member) MODE_ADD 'k'
        st).mode_changes[st.mode_changes.length]? = some (key_change env a) ∧
      (∀ (i : Nat) (mc : ChModeChange), st.mode_changes[i]? = some mc →
        (dispatch env source_p parc parv (get_channel_access source_p member) MODE_ADD 'k'
          st).mode_changes[i]? =
          some (if mc.letter = 'k' ∧ mc.dir = MODE_ADD then { mc with letter := Char.ofNat 0 }
                else mc)) ∧
      (dispatch env source_p parc parv (get_channel_access source_p member) MODE_ADD 'k'
        st).mode_changes.filter (ChModeChange.is_add 'k') = [key_change env a]) ∧
    (∀ (parc : Nat) (parv : List (List Char)),
      ((set_channel_mode env source_p chptr member parc parv).mode_changes.filter
        (ChModeChange.is_add 'k')).length ≤ 1) ∧
    (∀ (parc : Nat) (parv : List (List Char)) (pre post a : List Char),
      parv.headD [] = pre ++ 'k' :: post → scan_dir pre MODE_ADD = MODE_ADD → 'k' ∉ post →
      (mode_loop env source_p parc parv (get_channel_access source_p member) pre MODE_ADD
        (ModeState.init chptr)).parn < parc →
      parv.getD (mode_loop env source_p parc parv (get_channel_access source_p member) pre
        MODE_ADD (ModeState.init chptr)).parn [] = a →
      fix_key env a ≠ [] →
      (set_channel_mode env source_p chptr member parc parv).chptr.mode.key = fix_key env a ∧
      (set_channel_mode env source_p chptr member parc parv).mode_changes.filter
        (ChModeChange.is_add 'k') = [key_change env a] ∧
      ((set_channel_mode env source_p chptr member parc parv).mode_changes.filter
        ChModeChange.live).filter (ChModeChange.is_add 'k') = [key_change env a] ∧
      (set_channel_mode env source_p chptr member parc parv).out =
        (scan_modes env source_p chptr member parc parv).out ++
          send_mode_changes_client env source_p
            (set_channel_mode env source_p chptr member parc parv).chptr
            ((set_channel_mode env source_p chptr member parc parv).mode_changes.filter
              ChModeChange.live) ++
          send_mode_changes_server env source_p
            (set_channel_mode env source_p chptr member parc parv).chptr
            ((set_channel_mode env source_p chptr member parc parv).mode_changes.filter
              ChModeChange.live)) ∧
    (∀ (ms : List Char) (args : List (List Char)) (last : List Char),
      (∀ c ∈ ms, c = '+' ∨ c = 'k') → ms.count 'k' = args.length + 1 →
      (∀ a ∈ args ++ [last], fix_key env a ≠ []) →
      (set_channel_mode env source_p chptr member (args.length + 2)
        (ms :: (args ++ [last]))).chptr = with_key chptr (fix_key env last) ∧
      (set_channel_mode env source_p chptr member (args.length + 2)
        (ms :: (args ++ [last]))).mode_changes.length = args.length + 1 ∧
      (set_channel_mode env source_p chptr member (args.length + 2)
        (ms :: (args ++ [last]))).mode_changes.filter ChModeChange.live =
          [key_change env last] ∧
      (set_channel_mode env source_p chptr member (args.length + 2)
        (ms :: (args ++ [last]))).out =
          [Out.channel_local 0 (client_header env source_p chptr ++ ['+', 'k'])
            (fix_key env last),
           Out.server (server_header source_p chptr ++ ['+', 'k']) (fix_key env last)]) ∧
    (∀ (parc : Nat) (parv : List (List Char)) (mode : chan_mode) (st : ModeState),
      (st.chptr.mode.key ≠ [] →
        (chm_key env parc parv (get_channel_access source_p member) MODE_DEL mode st).chptr =
          with_key st.chptr [] ∧
        (chm_key env parc parv (get_channel_access source_p member) MODE_DEL mode
          st).mode_changes =
          st.mode_changes ++
            [{ letter := mode.letter, arg := some ['*'], id := none, flags := 0,
               dir := MODE_DEL }]) ∧
      (st.chptr.mode.key = [] →
        (chm_key env parc parv (get_channel_access source_p member) MODE_DEL mode st).chptr =
          st.chptr ∧
        (chm_key env parc parv (get_channel_access source_p member) MODE_DEL mode
          st).mode_changes = st.mode_changes)) := by
  refine ⟨?_, ?_, ?_, ?_, ?_⟩
  · intro parc parv st a hparn ha hne
    have hstep := key_step env source_p parc parv (get_channel_access source_p member) st a
      hauth hparn ha hne
    rw [hstep]
    refine ⟨rfl, ?_, ?_, ?_, ?_⟩
    · show (void_earlier 'k' st.mode_changes ++ [key_change env a]).length = _
      rw [List.length_append, void_earlier_length]
      rfl
    · show (void_earlier 'k' st.mode_changes ++ [key_change env a])[st.mode_changes.length]?
        = _
      rw [List.getElem?_append_right (by rw [void_earlier_length]), void_earlier_length,
        Nat.sub_self]
      rfl
    · intro i mc hi
      show (void_earlier 'k' st.mode_changes ++ [key_change env a])[i]? = _
      have hlt : i < (void_earlier 'k' st.mode_changes).length := by
        rw [void_earlier_length]
        exact (List.getElem?_eq_some.mp hi).1
      rw [List.getElem?_append_left hlt]
      exact void_earlier_get 'k' st.mode_changes i mc hi
    · show List.filter _ (void_earlier 'k' st.mode_changes ++ [key_change env a]) = _
      rw [List.filter_append, void_earlier_adds 'k' (by decide)]
      rfl
  · intro parc parv
    rw [(set_channel_mode_scan env source_p chptr member parc parv).2.1]
    exact (adds_at_most_one env source_p parc parv (get_channel_access source_p member)
      (parv.headD []) MODE_ADD (ModeState.init chptr)
      ⟨Nat.zero_le _, Nat.zero_le _⟩).2
  · intro parc parv pre post a hms hdir hpost hparn ha hne
    obtain ⟨s1, s2, s3⟩ := set_channel_mode_scan env source_p chptr member parc parv
    obtain ⟨q1, q2⟩ := key_last_scan env source_p parc parv
      (get_channel_access source_p member) pre post a (ModeState.init chptr) hauth hdir hpost
      hparn ha hne
    rw [← hms] at q1 q2
    have q1s : (scan_modes env source_p chptr member parc parv).chptr.mode.key =
        fix_key env a := q1
    have q2s : (scan_modes env source_p chptr member parc parv).mode_changes.filter
        (ChModeChange.is_add 'k') = [key_change env a] := q2
    have hne2 : (scan_modes env source_p chptr member parc parv).mode_changes ≠ [] := by
      intro h
      rw [h] at q2s
      cases q2s
    have hsub : ∀ mc : ChModeChange, mc.is_add 'k' = true → mc.live = true := by
      intro mc h
      simp only [ChModeChange.is_add, Bool.and_eq_true, beq_iff_eq] at h
      simp [ChModeChange.live, h.1]
    refine ⟨by rw [s1]; exact q1s, by rw [s2]; exact q2s, ?_, ?_⟩
    · rw [s2, List.filter_filter, ← q2s]
      apply List.filter_congr
      intro mc _
      cases h : mc.is_add 'k'
      · rfl
      · rw [hsub mc h]; rfl
    · rw [s3 hne2, s1, s2]
  · intro ms args last hms hcount hvalid
    exact key_string_result env source_p chptr member ms args last hauth hms hcount hvalid
  · intro parc parv mode st
    exact key_del_step env parc parv (get_channel_access source_p member) mode st hauth

/-! ## Redundant simple modes, from local and from other requesters -/

/-- A local requester's redundant simple mode: nothing is recorded and the
channel is as before, in whatever state of the scan the letter is met; sent
alone it makes `set_channel_mode` record nothing and send numerics only. -/
theorem redundant_simple_local (env : Env) (source_p : Client) (chptr : Channel)
    (member : Option Membership) (parc : Nat) (parv rest : List (List Char)) (alev : Int)
    (dir : Nat) (c : Char) (mode : chan_mode) (st : ModeState)
    (hloc : MyClient source_p = true) (hmap : cmode_map c = some mode)
    (hsimple : mode.func = ChmFunc.chm_simple) :
    (((dir = MODE_ADD ∧ HasCMode st.chptr mode.mode = true) ∨
        (dir = MODE_DEL ∧ HasCMode st.chptr mode.mode = false)) →
      (dispatch env source_p parc parv alev dir c st).mode_changes = st.mode_changes ∧
      (dispatch env source_p parc parv alev dir c st).chptr = st.chptr) ∧
    (HasCMode chptr mode.mode = true →
      (set_channel_mode env source_p chptr member parc (['+', c] :: rest)).mode_changes = [] ∧
      (set_channel_mode env source_p chptr member parc (['+', c] :: rest)).chptr = chptr ∧
      ∀ o ∈ (set_channel_mode env source_p chptr member parc (['+', c] :: rest)).out,
        o.is_numeric = true) ∧
    (HasCMode chptr mode.mode = false →
      (set_channel_mode env source_p chptr member parc (['-', c] :: rest)).mode_changes = [] ∧
      (set_channel_mode env source_p chptr member parc (['-', c] :: rest)).chptr = chptr ∧
      ∀ o ∈ (set_channel_mode env source_p chptr member parc (['-', c] :: rest)).out,
        o.is_numeric = true) := by
  obtain ⟨n1, n2, n3⟩ := cmode_map_not_sign c mode hmap
  have hdisp : ∀ (a : Int) (d : Nat) (s : ModeState),
      dispatch env source_p parc parv a d c s = chm_simple source_p a d mode s := by
    intro a d s
    simp only [dispatch, hmap, call_handler, hsimple]
  have hdisp2 : ∀ (pv : List (List Char)) (a : Int) (d : Nat) (s : ModeState),
      dispatch env source_p parc pv a d c s = chm_simple source_p a d mode s := by
    intro pv a d s
    simp only [dispatch, hmap, call_handler, hsimple]
  have hend : ∀ (sig : Char) (d : Nat), (sig = '+' ∧ d = MODE_ADD) ∨ (sig = '-' ∧ d = MODE_DEL) →
      ((d = MODE_ADD ∧ HasCMode chptr mode.mode = true) ∨
        (d = MODE_DEL ∧ HasCMode chptr mode.mode = false)) →
      (set_channel_mode env source_p chptr member parc ([sig, c] :: rest)).mode_changes = [] ∧
      (set_channel_mode env source_p chptr member parc ([sig, c] :: rest)).chptr = chptr ∧
      ∀ o ∈ (set_channel_mode env source_p chptr member parc ([sig, c] :: rest)).out,
        o.is_numeric = true := by
    intro sig d hsig hred
    have hscan : scan_modes env source_p chptr member parc ([sig, c] :: rest) =
        chm_simple source_p (get_channel_access source_p member) d mode
          (ModeState.init chptr) := by
      unfold scan_modes
      simp only [List.headD_cons]
      rcases hsig with ⟨rfl, rfl⟩ | ⟨rfl, rfl⟩
      · rw [mode_loop, if_pos rfl, mode_loop, if_neg n1, if_neg n2, if_neg n3, mode_loop,
          hdisp2]
      · rw [mode_loop, if_neg (by decide), if_pos rfl, mode_loop, if_neg n1, if_neg n2,
          if_neg n3, mode_loop, hdisp2]
    have hun : untouched chptr (scan_modes env source_p chptr member parc ([sig, c] :: rest)) := by
      rw [hscan]
      exact untouched_simple_redundant chptr source_p _ d mode (ModeState.init chptr) hloc hred
        ⟨rfl, rfl, rfl⟩
    have hcount : (scan_modes env source_p chptr member parc ([sig, c] :: rest)).mode_count
        = 0 := by
      simp [ModeState.mode_count, hun.2.1]
    unfold set_channel_mode
    simp only [hcount, if_true]
    exact ⟨hun.2.1, hun.1, fun o ho => List.all_eq_true.mp hun.2.2 o ho⟩
  refine ⟨fun hred => ?_, fun hc => ?_, fun hc => ?_⟩
  · rw [hdisp]
    exact chm_simple_redundant source_p alev dir mode st hloc hred
  · exact hend '+' MODE_ADD (Or.inl ⟨rfl, rfl⟩) (Or.inl ⟨rfl, hc⟩)
  · exact hend '-' MODE_DEL (Or.inr ⟨rfl, rfl⟩) (Or.inr ⟨rfl, hc⟩)

/-- A letter with a table entry is not the NUL character. -/
theorem simple_change_live (c : Char) (mode : chan_mode) (h : cmode_map c = some mode) :
    c ≠ Char.ofNat 0 := by
  obtain ⟨hmem, hlet⟩ := cmode_map_mem c mode h
  rw [← hlet]
  exact cmode_tab_letter_live mode hmem

/-- A simple mode from a requester that is not a local client, past the
server-only gate and the rank gate, for a letter not yet handled in the call:
the redundancy test is skipped, the change is applied and recorded. -/
theorem simple_remote_step (source_p : Client) (alev : Int) (dir : Nat) (mode : chan_mode)
    (st : ModeState) (hrem : MyClient source_p = false)
    (hserv : mode.only_servers = 0 ∨ source_p.is_server = true ∨ source_p.flag_service = true)
    (hgate : CHACCESS_HALFOP ≤ alev) (hmask : st.simple_modes_mask &&& mode.mode = 0)
    (hdir : dir = MODE_ADD ∨ dir = MODE_DEL) :
    chm_simple source_p alev dir mode st =
      { st with simple_modes_mask := st.simple_modes_mask ||| mode.mode,
                chptr := if dir = MODE_ADD then AddCMode st.chptr mode.mode
                         else DelCMode st.chptr mode.mode,
                mode_changes := st.mode_changes ++
                  [{ letter := mode.letter, arg := none, id := none, flags := 0,
                     dir := dir }] } := by
  have h1 : ¬ (mode.only_opers ≠ 0 ∧ MyClient source_p = true ∧
      ¬ source_p.umode_oper = true) := by
    rintro ⟨-, b, -⟩
    rw [hrem] at b
    cases b
  have h2 : ¬ (mode.only_servers ≠ 0 ∧ ¬ source_p.is_server = true ∧
      ¬ source_p.flag_service = true) := by
    rintro ⟨a, b, c⟩
    rcases hserv with h | h | h
    · exact a h
    · exact b h
    · exact c h
  have h3 : ∀ p : Prop, ¬ (MyClient source_p = true ∧ p) := by
    rintro p ⟨a, -⟩
    rw [hrem] at a
    cases a
  unfold chm_simple
  rw [if_neg h1, if_neg h2, if_neg (not_lt.mpr hgate), if_neg (fun h => h hmask)]
  dsimp only
  rcases hdir with hd | hd
  · subst hd
    rw [if_pos rfl, if_neg (h3 _), if_pos rfl]
    rfl
  · subst hd
    rw [if_neg (by decide), if_pos rfl, if_neg (h3 _), if_neg (by decide)]
    rfl

/-- A simple mode whose letter was handled earlier in the call is skipped. -/
theorem simple_repeat_step (source_p : Client) (alev : Int) (dir : Nat) (mode : chan_mode)
    (st : ModeState) (hrem : MyClient source_p = false)
    (hserv : mode.only_servers = 0 ∨ source_p.is_server = true ∨ source_p.flag_service = true)
    (hgate : CHACCESS_HALFOP ≤ alev) (hmask : st.simple_modes_mask &&& mode.mode ≠ 0) :
    chm_simple source_p alev dir mode st = st := by
  have h1 : ¬ (mode.only_opers ≠ 0 ∧ MyClient source_p = true ∧
      ¬ source_p.umode_oper = true) := by
    rintro ⟨-, b, -⟩
    rw [hrem] at b
    cases b
  have h2 : ¬ (mode.only_servers ≠ 0 ∧ ¬ source_p.is_server = true ∧
      ¬ source_p.flag_service = true) := by
    rintro ⟨a, b, c⟩
    rcases hserv with h | h | h
    · exact a h
    · exact b h
    · exact c h
  unfold chm_simple
  rw [if_neg h1, if_neg h2, if_neg (not_lt.mpr hgate), if_pos hmask]

/-- A single simple mode `+c` or `-c` from a requester that is not a local
client and passes the server-only gate: the change is applied, recorded and
sent in one client line and one server line, whatever the channel has set. -/
theorem simple_remote_alone (env : Env) (source_p : Client) (chptr : Channel)
    (member : Option Membership) (parc : Nat) (rest : List (List Char)) (c : Char)
    (mode : chan_mode) (sig : Char) (dir : Nat)
    (hsig : (sig = '+' ∧ dir = MODE_ADD) ∨ (sig = '-' ∧ dir = MODE_DEL))
    (hrem : MyClient source_p = false) (hmap : cmode_map c = some mode)
    (hsimple : mode.func = ChmFunc.chm_simple)
    (hserv : mode.only_servers = 0 ∨ source_p.is_server = true ∨
      source_p.flag_service = true) :
    (set_channel_mode env source_p chptr member parc ([sig, c] :: rest)).mode_changes =
      [{ letter := c, arg := none, id := none, flags := 0, dir := dir }] ∧
    (set_channel_mode env source_p chptr member parc ([sig, c] :: rest)).chptr =
      (if dir = MODE_ADD then AddCMode chptr mode.mode else DelCMode chptr mode.mode) ∧
    (set_channel_mode env source_p chptr member parc ([sig, c] :: rest)).out =
      [Out.channel_local 0 (client_header env source_p chptr ++ [sig, c]) [],
       Out.server (server_header source_p chptr ++ [sig, c]) []] := by
  obtain ⟨n1, n2, n3⟩ := cmode_map_not_sign c mode hmap
  have hlet : mode.letter = c := (cmode_map_mem c mode hmap).2
  have hlive : c ≠ Char.ofNat 0 := simple_change_live c mode hmap
  have halev : get_channel_access source_p member = CHACCESS_REMOTE := by
    simp [get_channel_access, hrem]
  have hdir : dir = MODE_ADD ∨ dir = MODE_DEL := by
    rcases hsig with ⟨-, h⟩ | ⟨-, h⟩
    · exact Or.inl h
    · exact Or.inr h
  have hscan : scan_modes env source_p chptr member parc ([sig, c] :: rest) =
      chm_simple source_p CHACCESS_REMOTE dir mode (ModeState.init chptr) := by
    unfold scan_modes
    rw [halev]
    simp only [List.headD_cons]
    rcases hsig with ⟨rfl, rfl⟩ | ⟨rfl, rfl⟩
    · rw [mode_loop, if_pos rfl, mode_loop, if_neg n1, if_neg n2, if_neg n3, mode_loop,
        dispatch_simple env source_p parc _ _ _ c mode _ hmap hsimple]
    · rw [mode_loop, if_neg (by decide), if_pos rfl, mode_loop, if_neg n1, if_neg n2,
        if_neg n3, mode_loop, dispatch_simple env source_p parc _ _ _ c mode _ hmap hsimple]
  rw [simple_remote_step source_p CHACCESS_REMOTE dir mode (ModeState.init chptr) hrem hserv
    (by decide) (Nat.zero_and _) hdir, hlet] at hscan
  have hfilter : [({ letter := c, arg := none, id := none, flags := 0, dir := dir } :
      ChModeChange)].filter ChModeChange.live =
      [{ letter := c, arg := none, id := none, flags := 0, dir := dir }] := by
    simp [ChModeChange.live, hlive]
  obtain ⟨p1, p2⟩ := single_live_propagation env source_p
    (if dir = MODE_ADD then AddCMode chptr mode.mode else DelCMode chptr mode.mode)
    [{ letter := c, arg := none, id := none, flags := 0, dir := dir }]
    { letter := c, arg := none, id := none, flags := 0, dir := dir } rfl hfilter
  have hname : (if dir = MODE_ADD then AddCMode chptr mode.mode
      else DelCMode chptr mode.mode).name = chptr.name := by
    split_ifs <;> rfl
  have hcre : (if dir = MODE_ADD then AddCMode chptr mode.mode
      else DelCMode chptr mode.mode).creationtime = chptr.creationtime := by
    split_ifs <;> rfl
  have hch : client_header env source_p
      (if dir = MODE_ADD then AddCMode chptr mode.mode else DelCMode chptr mode.mode) =
      client_header env source_p chptr := by
    unfold client_header
    rw [hname]
  have hsh : server_header source_p
      (if dir = MODE_ADD then AddCMode chptr mode.mode else DelCMode chptr mode.mode) =
      server_header source_p chptr := by
    unfold server_header
    rw [hname, hcre]
  unfold set_channel_mode
  rw [hscan]
  have hcnt : ¬ ModeState.mode_count
      { ModeState.init chptr with
        simple_modes_mask := (ModeState.init chptr).simple_modes_mask ||| mode.mode,
        chptr := if dir = MODE_ADD then AddCMode (ModeState.init chptr).chptr mode.mode
                 else DelCMode (ModeState.init chptr).chptr mode.mode,
        mode_changes := (ModeState.init chptr).mode_changes ++
          [{ letter := c, arg := none, id := none, flags := 0, dir := dir }] } = 0 := by
    simp [ModeState.mode_count, ModeState.init]
  simp only [if_neg hcnt]
  refine ⟨rfl, rfl, ?_⟩
  show [] ++ send_mode_changes_client env source_p _ _ ++
    send_mode_changes_server env source_p _ _ = _
  have hl : (ModeState.init chptr).mode_changes ++
      [({ letter := c, arg := none, id := none, flags := 0, dir := dir } : ChModeChange)] =
      [{ letter := c, arg := none, id := none, flags := 0, dir := dir }] := rfl
  have hc0 : (ModeState.init chptr).chptr = chptr := rfl
  rw [hl, hc0, p1, p2, hch, hsh]
  rcases hsig with ⟨rfl, rfl⟩ | ⟨rfl, rfl⟩ <;> rfl

/-- C11 (as the code has it). For a local requester, adding a simple flag that
is already set on the channel, or removing one that is not set, records no
ModeChange and leaves the channel as it is, in whatever state of the scan the
letter is met; sent alone (`+c` or `-c`) it makes `set_channel_mode` emit no
propagation line. For a requester that is not a local client (a remote user, a
server, a service) the redundancy test is skipped: if the letter passes the
server-only gate and the rank gate and was not handled earlier in the call,
the change is applied and recorded, whatever the channel has set; a letter
handled earlier in the call is skipped; sent alone, `+c` or `-c` is recorded
and sent in one client line and one server line, also when the flag is already
set, or not set. -/
theorem redundant_simple_flag (env : Env) (source_p : Client) (chptr : Channel)
    (member : Option Membership) (parc : Nat) (parv rest : List (List Char)) (alev : Int)
    (dir : Nat) (c : Char) (mode : chan_mode) (st : ModeState)
    (hmap : cmode_map c = some mode) (hsimple : mode.func = ChmFunc.chm_simple) :
    (MyClient source_p = true →
      (((dir = MODE_ADD ∧ HasCMode st.chptr mode.mode = true) ∨
          (dir = MODE_DEL ∧ HasCMode st.chptr mode.mode = false)) →
        (dispatch env source_p parc parv alev dir c st).mode_changes = st.mode_changes ∧
        (dispatch env source_p parc parv alev dir c st).chptr = st.chptr) ∧
      (HasCMode chptr mode.mode = true →
        (set_channel_mode env source_p chptr member parc (['+', c] :: rest)).mode_changes =
          [] ∧
        (set_channel_mode env source_p chptr member parc (['+', c] :: rest)).chptr = chptr ∧
        ∀ o ∈ (set_channel_mode env source_p chptr member parc (['+', c] :: rest)).out,
          o.is_numeric = true) ∧
      (HasCMode chptr mode.mode = false →
        (set_channel_mode env source_p chptr member parc (['-', c] :: rest)).mode_changes =
          [] ∧
        (set_channel_mode env source_p chptr member parc (['-', c] :: rest)).chptr = chptr ∧
        ∀ o ∈ (set_channel_mode env source_p chptr member parc (['-', c] :: rest)).out,
          o.is_numeric = true)) ∧
    (MyClient source_p = false →
      (mode.only_servers = 0 ∨ source_p.is_server = true ∨ source_p.flag_service = true) →
      (CHACCESS_HALFOP ≤ alev → st.simple_modes_mask &&& mode.mode = 0 →
        (dir = MODE_ADD ∨ dir = MODE_DEL) →
        (dispatch env source_p parc parv alev dir c st).mode_changes =
          st.mode_changes ++
            [{ letter := c, arg := none, id := none, flags := 0, dir := dir }] ∧
        (dispatch env source_p parc parv alev dir c st).chptr =
          (if dir = MODE_ADD then AddCMode st.chptr mode.mode
           else DelCMode st.chptr mode.mode)) ∧
      (CHACCESS_HALFOP ≤ alev → st.simple_modes_mask &&& mode.mode ≠ 0 →
        dispatch env source_p parc parv alev dir c st = st) ∧
      ((set_channel_mode env source_p chptr member parc (['+', c] :: rest)).mode_changes =
          [{ letter := c, arg := none, id := none, flags := 0, dir := MODE_ADD }] ∧
        (set_channel_mode env source_p chptr member parc (['+', c] :: rest)).chptr =
          AddCMode chptr mode.mode ∧
        (set_channel_mode env source_p chptr member parc (['+', c] :: rest)).out =
          [Out.channel_local 0 (client_header env source_p chptr ++ ['+', c]) [],
           Out.server (server_header source_p chptr ++ ['+', c]) []]) ∧
      ((set_channel_mode env source_p chptr member parc (['-', c] :: rest)).mode_changes =
          [{ letter := c, arg := none, id := none, flags := 0, dir := MODE_DEL }] ∧
        (set_channel_mode env source_p chptr member parc (['-', c] :: rest)).chptr =
          DelCMode chptr mode.mode ∧
        (set_channel_mode env source_p chptr member parc (['-', c] :: rest)).out =
          [Out.channel_local 0 (client_header env source_p chptr ++ ['-', c]) [],
           Out.server (server_header source_p chptr ++ ['-', c]) []])) := by
  have hlet : mode.letter = c := (cmode_map_mem c mode hmap).2
  refine ⟨fun hloc => ?_, fun hrem hserv => ⟨?_, ?_, ?_, ?_⟩⟩
  · exact redundant_simple_local env source_p chptr member parc parv rest alev dir c mode st
      hloc hmap hsimple
  · intro hgate hmask hdir
    rw [dispatch_simple env source_p parc parv alev dir c mode st hmap hsimple,
      simple_remote_step source_p alev dir mode st hrem hserv hgate hmask hdir, hlet]
    exact ⟨rfl, rfl⟩
  · intro hgate hmask
    rw [dispatch_simple env source_p parc parv alev dir c mode st hmap hsimple]
    exact simple_repeat_step source_p alev dir mode st hrem hserv hgate hmask
  · exact simple_remote_alone env source_p chptr member parc rest c mode '+' MODE_ADD
      (Or.inl ⟨rfl, rfl⟩) hrem hmap hsimple hserv
  · have h := simple_remote_alone env source_p chptr member parc rest c mode '-' MODE_DEL
      (Or.inr ⟨rfl, rfl⟩) hrem hmap hsimple hserv
    exact h

/-- C11, counterexample. A remote user, whose changes pass every gate, sends
`+n` to a channel that has `n` set: the change is recorded and one client line
and one server line are sent. -/
theorem redundant_simple_remote_counterexample :
    HasCMode demo_chan MODE_NOPRIVMSGS = true ∧
    MyClient (remote_user "rop") = false ∧
    (set_channel_mode demo_env (remote_user "rop") demo_chan none 1 ["+n".toList]).mode_changes =
      [{ letter := 'n', arg := none, id := none, dir := MODE_ADD, flags := 0 }] ∧
    (set_channel_mode demo_env (remote_user "rop") demo_chan none 1 ["+n".toList]).out =
      [Out.channel_local 0 ":rop!u@h MODE #c +n".toList [],
       Out.server ":0AArop TMODE 900 #c +n".toList []] := by
  decide

/-! ## The list store holds one entry per triple -/

/-- Uniqueness of the (name, user, host) triple is kept by `add_id` and
`del_id`; an add of a triple on the list returns 0 and leaves the list; after a
successful add the list holds one entry of the triple, a second add returns 0
and the list handler records nothing; a successful removal erases the first
entry that matches. -/
theorem list_store_unique (env : Env) (client_p : Client) (chptr : Channel)
    (banid : List Char) (type : Nat)
    (htype : type = CHFL_BAN ∨ type = CHFL_EXCEPTION ∨ type = CHFL_INVEX)
    (huniq : ban_unique env (list_of chptr type)) :
    ∃ ra rd, add_id env client_p chptr banid type = some ra ∧
      del_id env chptr banid type = some rd ∧
      ban_unique env (list_of ra.chptr type) ∧
      ban_unique env (list_of rd.chptr type) ∧
      ((list_of chptr type).any (triple_matches env (add_triple env client_p banid)) = true →
        ra.ret = 0 ∧ list_of ra.chptr type = list_of chptr type) ∧
      (ra.ret = 1 →
        (list_of ra.chptr type).countP (triple_matches env (add_triple env client_p banid)) = 1 ∧
        (∃ r2, add_id env client_p ra.chptr banid type = some r2 ∧ r2.ret = 0 ∧
          list_of r2.chptr type = list_of ra.chptr type) ∧
        ∀ errbit list rpl rpl_end parc parv alev mode (st : ModeState),
          st.chptr = ra.chptr →
          (parv.getD st.parn []).take (env.IRCD_BUFSIZE - 1) = banid →
          (chm_list errbit list rpl rpl_end type env client_p parc parv alev MODE_ADD mode
            st).mode_changes = st.mode_changes) ∧
      (rd.ret = 1 →
        list_of rd.chptr type =
          (list_of chptr type).eraseP (triple_matches env (del_triple env banid)) ∧
        (list_of rd.chptr type).length + 1 = (list_of chptr type).length) := by
  obtain ⟨chptr1, hsel, -, -, hb, he, hi, -, -⟩ := select_list_valid chptr type htype
  have hl1 : list_of chptr1 type = list_of chptr type := by simp [list_of, hb, he, hi]
  have hadd := add_id_cases env client_p chptr banid type chptr1 hsel
  have hdel := del_id_cases env chptr banid type chptr1 hsel
  have hstore := fun l => store_list_spec chptr1 type l htype
  -- the facts about `del_id`
  have hD : ∃ rd, del_id env chptr banid type = some rd ∧
      ban_unique env (list_of rd.chptr type) ∧
      (rd.ret = 1 →
        list_of rd.chptr type =
          (list_of chptr type).eraseP (triple_matches env (del_triple env banid)) ∧
        (list_of rd.chptr type).length + 1 = (list_of chptr type).length) := by
    by_cases hany : (list_of chptr type).any (triple_matches env (del_triple env banid)) = true
    · rw [if_pos hany] at hdel
      refine ⟨_, hdel, ?_, fun _ => ⟨(hstore _).1, ?_⟩⟩
      · show ban_unique env (list_of (store_list chptr1 type _) type)
        rw [(hstore _).1]
        exact List.Pairwise.sublist (List.eraseP_sublist _) huniq
      · show (list_of (store_list chptr1 type _) type).length + 1 = _
        rw [(hstore _).1, List.length_eraseP, if_pos hany]
        obtain ⟨x, hx, -⟩ := List.any_eq_true.mp hany
        have := List.length_pos_of_mem hx
        omega
    · rw [if_neg hany] at hdel
      refine ⟨_, hdel, ?_, fun h => ?_⟩
      · show ban_unique env (list_of chptr1 type)
        rw [hl1]; exact huniq
      · simp at h
  obtain ⟨rd, hrd, hrd1, hrd2⟩ := hD
  by_cases hfull : MyClient client_p = true ∧ ban_capacity env chptr ≤ num_mask chptr
  · rw [if_pos hfull] at hadd
    refine ⟨_, rd, hadd, hrd, huniq, hrd1, fun _ => ⟨rfl, rfl⟩, fun h => ?_, hrd2⟩
    simp at h
  rw [if_neg hfull] at hadd
  by_cases hany : (list_of chptr type).any (triple_matches env (add_triple env client_p banid))
      = true
  · rw [if_pos hany] at hadd
    refine ⟨_, rd, hadd, hrd, ?_, hrd1, fun _ => ⟨rfl, hl1⟩, fun h => ?_, hrd2⟩
    · show ban_unique env (list_of chptr1 type)
      rw [hl1]; exact huniq
    · simp at h
  rw [if_neg hany] at hadd
  have hnone : ∀ b ∈ list_of chptr type,
      ¬ triple_matches env (add_triple env client_p banid) b = true := by
    simpa using hany
  have hnew : list_of (store_list chptr1 type
      (new_ban env client_p (add_triple env client_p banid) :: list_of chptr type)) type =
      new_ban env client_p (add_triple env client_p banid) :: list_of chptr type := (hstore _).1
  have hdup : (list_of (store_list chptr1 type
      (new_ban env client_p (add_triple env client_p banid) :: list_of chptr type)) type).any
      (triple_matches env (add_triple env client_p banid)) = true := by
    rw [hnew, List.any_cons, triple_matches_new_ban]; rfl
  refine ⟨_, rd, hadd, hrd, ?_, hrd1, fun h => absurd h hany, fun _ => ⟨?_, ?_, ?_⟩, hrd2⟩
  · show ban_unique env (list_of (store_list chptr1 type _) type)
    rw [hnew]
    refine List.Pairwise.cons (fun b hb hsame => ?_) huniq
    exact hnone b hb (same_triple_of_matches env client_p _ b hsame)
  · show (list_of (store_list chptr1 type _) type).countP _ = 1
    rw [hnew, List.countP_cons, triple_matches_new_ban, if_pos rfl,
      List.countP_eq_zero.mpr hnone]
  · show ∃ r2, add_id env client_p (store_list chptr1 type _) banid type = some r2 ∧ _
    obtain ⟨chptr2, hsel2, -, -, hb2, he2, hi2, -, -⟩ := select_list_valid
      (store_list chptr1 type
        (new_ban env client_p (add_triple env client_p banid) :: list_of chptr type)) type htype
    have hadd2 := add_id_cases env client_p _ banid type chptr2 hsel2
    rw [hdup] at hadd2
    by_cases h1 : MyClient client_p = true ∧
        ban_capacity env (store_list chptr1 type
          (new_ban env client_p (add_triple env client_p banid) :: list_of chptr type)) ≤
        num_mask (store_list chptr1 type
          (new_ban env client_p (add_triple env client_p banid) :: list_of chptr type))
    · rw [if_pos h1] at hadd2
      exact ⟨_, hadd2, rfl, rfl⟩
    · rw [if_neg h1, if_pos rfl] at hadd2
      refine ⟨_, hadd2, rfl, ?_⟩
      simp [list_of, hb2, he2, hi2]
  · intro errbit list rpl rpl_end parc parv alev mode st hst hmask
    apply chm_list_duplicate _ _ _ _ _ _ _ _ _ _ _ _ htype
    rw [hmask, hst]
    exact hdup

/-- Two entries that match the same triple carry the same triple. -/
theorem same_triple_of_both (env : Env) (t : List Char × List Char × List Char) (a b : Ban)
    (ha : triple_matches env t a = true) (hb : triple_matches env t b = true) :
    same_triple env a b := by
  simp only [triple_matches, ban_matches, Bool.and_eq_true, beq_iff_eq] at ha hb
  obtain ⟨⟨a1, a2⟩, a3⟩ := ha
  obtain ⟨⟨b1, b2⟩, b3⟩ := hb
  rw [irccmp_symm] at b1 b2 b3
  exact ⟨irccmp_trans env _ _ _ a1 b1, irccmp_trans env _ _ _ a2 b2,
    irccmp_trans env _ _ _ a3 b3⟩

/-- On a list with one entry per triple, erasing the first entry that matches
a triple leaves no entry that matches it. -/
theorem eraseP_no_match (env : Env) (t : List Char × List Char × List Char) (list : List Ban)
    (huniq : ban_unique env list) :
    (list.eraseP (triple_matches env t)).any (triple_matches env t) = false := by
  by_cases hany : list.any (triple_matches env t) = true
  · obtain ⟨x, hx, hpx⟩ := List.any_eq_true.mp hany
    obtain ⟨a, l1, l2, hl1, hpa, hlist, herase⟩ := List.exists_of_eraseP hx hpx
    rw [herase]
    rw [hlist] at huniq
    have hpw := List.pairwise_append.mp huniq
    have ha2 := (List.pairwise_cons.mp hpw.2.1).1
    rw [Bool.eq_false_iff]
    intro h
    obtain ⟨b, hb, hpb⟩ := List.any_eq_true.mp h
    rcases List.mem_append.mp hb with h1 | h2
    · exact hl1 b h1 hpb
    · exact ha2 b h2 (same_triple_of_both env t a b hpa hpb)
  · have hnone : ∀ b ∈ list, ¬ triple_matches env t b = true := by simpa using hany
    rw [List.eraseP_of_forall_not hnone]
    simpa using hany

/-- C8. On a list that holds at most one entry per (name, user, host) triple
under `irccmp`, for each of the three list types:
`add_id` and `del_id` return, and the list holds at most one entry per triple
afterwards;
`add_id` of a triple already on the list returns 0 and leaves the list as it
is; `add_id` of a triple not on the list, from a requester that is not a local
client at capacity, returns 1 and puts the new entry in front of the list;
`add_id` returns 0 or 1, and when it returns 0 the list is as before;
after a successful add the list holds exactly one entry of the triple, a second
add of the same mask returns 0 and leaves the list, and the list handler
records no ModeChange for it;
`del_id` returns 1 when an entry matches the triple and 0 otherwise, leaving
the list as it is; a successful `del_id` erases the first entry that matches,
so the list is shorter by exactly one entry, and no entry that matches the
triple is left. -/
theorem list_uniqueness_invariant (env : Env) (client_p : Client) (chptr : Channel)
    (banid : List Char) (type : Nat)
    (htype : type = CHFL_BAN ∨ type = CHFL_EXCEPTION ∨ type = CHFL_INVEX)
    (huniq : ban_unique env (list_of chptr type)) :
    ∃ ra rd, add_id env client_p chptr banid type = some ra ∧
      del_id env chptr banid type = some rd ∧
      ban_unique env (list_of ra.chptr type) ∧
      ban_unique env (list_of rd.chptr type) ∧
      ((list_of chptr type).any (triple_matches env (add_triple env client_p banid)) = true →
        ra.ret = 0 ∧ list_of ra.chptr type = list_of chptr type) ∧
      (¬ (MyClient client_p = true ∧ ban_capacity env chptr ≤ num_mask chptr) →
        (list_of chptr type).any (triple_matches env (add_triple env client_p banid)) = false →
        ra.ret = 1 ∧
        list_of ra.chptr type =
          new_ban env client_p (add_triple env client_p banid) :: list_of chptr type) ∧
      (ra.ret = 0 ∨ ra.ret = 1) ∧
      (ra.ret = 0 → list_of ra.chptr type = list_of chptr type) ∧
      (ra.ret = 1 →
        (list_of ra.chptr type).countP (triple_matches env (add_triple env client_p banid)) = 1 ∧
        (∃ r2, add_id env client_p ra.chptr banid type = some r2 ∧ r2.ret = 0 ∧
          list_of r2.chptr type = list_of ra.chptr type) ∧
        ∀ errbit list rpl rpl_end parc parv alev mode (st : ModeState),
          st.chptr = ra.chptr →
          (parv.getD st.parn []).take (env.IRCD_BUFSIZE - 1) = banid →
          (chm_list errbit list rpl rpl_end type env client_p parc parv alev MODE_ADD mode
            st).mode_changes = st.mode_changes) ∧
      ((list_of chptr type).any (triple_matches env (del_triple env banid)) = true →
        rd.ret = 1) ∧
      ((list_of chptr type).any (triple_matches env (del_triple env banid)) = false →
        rd.ret = 0 ∧ list_of rd.chptr type = list_of chptr type) ∧
      (rd.ret = 1 →
        list_of rd.chptr type =
          (list_of chptr type).eraseP (triple_matches env (del_triple env banid)) ∧
        (list_of rd.chptr type).length + 1 = (list_of chptr type).length ∧
        (list_of rd.chptr type).any (triple_matches env (del_triple env banid)) = false) := by
  obtain ⟨ra, rd, h1, h2, h3, h4, h5, h6, h7⟩ :=
    list_store_unique env client_p chptr banid type htype huniq
  obtain ⟨chptr1, hsel, -, -, hb, he, hi, -, -⟩ := select_list_valid chptr type htype
  have hl1 : list_of chptr1 type = list_of chptr type := by simp [list_of, hb, he, hi]
  have hadd := add_id_cases env client_p chptr banid type chptr1 hsel
  have hdel := del_id_cases env chptr banid type chptr1 hsel
  have hstore := fun l => store_list_spec chptr1 type l htype
  rw [h1] at hadd
  rw [h2] at hdel
  -- the facts about the add
  have hA : (¬ (MyClient client_p = true ∧ ban_capacity env chptr ≤ num_mask chptr) →
        (list_of chptr type).any (triple_matches env (add_triple env client_p banid)) = false →
        ra.ret = 1 ∧
        list_of ra.chptr type =
          new_ban env client_p (add_triple env client_p banid) :: list_of chptr type) ∧
      (ra.ret = 0 ∨ ra.ret = 1) ∧
      (ra.ret = 0 → list_of ra.chptr type = list_of chptr type) := by
    by_cases hfull : MyClient client_p = true ∧ ban_capacity env chptr ≤ num_mask chptr
    · rw [if_pos hfull] at hadd
      have hra := Option.some.inj hadd
      subst hra
      exact ⟨fun h => absurd hfull h, Or.inl rfl, fun _ => rfl⟩
    · rw [if_neg hfull] at hadd
      by_cases hany : (list_of chptr type).any
          (triple_matches env (add_triple env client_p banid)) = true
      · rw [if_pos hany] at hadd
        have hra := Option.some.inj hadd
        subst hra
        refine ⟨fun _ h => ?_, Or.inl rfl, fun _ => hl1⟩
        rw [hany] at h
        cases h
      · rw [if_neg hany] at hadd
        have hra := Option.some.inj hadd
        subst hra
        refine ⟨fun _ _ => ⟨rfl, (hstore _).1⟩, Or.inr rfl, fun h => ?_⟩
        cases h
  -- the facts about the removal
  have hD : ((list_of chptr type).any (triple_matches env (del_triple env banid)) = true →
        rd.ret = 1) ∧
      ((list_of chptr type).any (triple_matches env (del_triple env banid)) = false →
        rd.ret = 0 ∧ list_of rd.chptr type = list_of chptr type) := by
    by_cases hany : (list_of chptr type).any (triple_matches env (del_triple env banid)) = true
    · rw [if_pos hany] at hdel
      have hrd := Option.some.inj hdel
      subst hrd
      refine ⟨fun _ => rfl, fun h => ?_⟩
      rw [hany] at h
      cases h
    · rw [if_neg hany] at hdel
      have hrd := Option.some.inj hdel
      subst hrd
      exact ⟨fun h => absurd h hany, fun _ => ⟨rfl, hl1⟩⟩
  refine ⟨ra, rd, h1, h2, h3, h4, h5, hA.1, hA.2.1, hA.2.2, h6, hD.1, hD.2, fun hret => ?_⟩
  obtain ⟨e1, e2⟩ := h7 hret
  refine ⟨e1, e2, ?_⟩
  rw [e1]
  exact eraseP_no_match env _ _ huniq

/-! ## The file-scope storage carries nothing from call to call -/

theorem take_set_succ {α : Type} (l : List α) (n : Nat) (a : α) (h : n < l.length) :
    (l.set n a).take (n + 1) = l.take n ++ [a] := by
  induction l generalizing n with
  | nil => simp at h
  | cons x xs ih =>
    cases n with
    | zero => simp
    | succ m =>
      simp only [List.length_cons, Nat.succ_lt_succ_iff] at h
      simp [ih m h]

@[simp] theorem view_chptr (ss : StaticState) : ss.view.chptr = ss.chptr := rfl
@[simp] theorem view_parn (ss : StaticState) : ss.view.parn = ss.parn := rfl
@[simp] theorem view_errors (ss : StaticState) : ss.view.errors = ss.errors := rfl
@[simp] theorem view_out (ss : StaticState) : ss.view.out = ss.out := rfl
@[simp] theorem view_mode_limit (ss : StaticState) :
    ss.view.mode_limit = ss.scratch.mode_limit := rfl
@[simp] theorem view_simple_modes_mask (ss : StaticState) :
    ss.view.simple_modes_mask = ss.scratch.simple_modes_mask := rfl
@[simp] theorem view_mode_changes (ss : StaticState) :
    ss.view.mode_changes = ss.scratch.in_use := rfl

/-- A reader sees a slot the same way in two storages with the same rows. -/
theorem change_congr (s s1 : Scratch) (h : s1.nuh_mask = s.nuh_mask) (slot : Slot) :
    s1.change slot = s.change slot := by
  unfold Scratch.change Scratch.deref
  cases slot.arg <;> simp [h]

/-- A reader sees a slot the same way after a write to a row the slot does not
point to. -/
theorem change_set_row (s : Scratch) (row : Nat) (v : List Char) (slot : Slot)
    (h : ∀ r, slot.arg = ArgPtr.mask r → r ≠ row) :
    Scratch.change { s with nuh_mask := s.nuh_mask.set row v } slot = s.change slot := by
  unfold Scratch.change Scratch.deref
  cases ha : slot.arg with
  | null => rfl
  | text t => rfl
  | mask r =>
    have hr : r ≠ row := h r ha
    simp [List.getD_eq_getElem?_getD, List.getElem?_set_ne (Ne.symm hr)]

/-- The slots in use after a change is recorded in the slot `mode_count`. -/
theorem in_use_record (s : Scratch) (slot : Slot) (h : s.mode_count < s.mode_changes.length) :
    (s.record slot).in_use = s.in_use ++ [s.change slot] := by
  have hc : (s.record slot).change = s.change := funext (change_congr s _ rfl)
  unfold Scratch.in_use
  rw [hc]
  show ((s.mode_changes.set s.mode_count slot).take (s.mode_count + 1)).map s.change = _
  rw [take_set_succ _ _ _ h, List.map_append]
  rfl

/-- The slots in use after a write to a row no slot in use points to. -/
theorem in_use_set_row (s : Scratch) (row : Nat) (v : List Char)
    (h : ∀ slot ∈ s.mode_changes.take s.mode_count, ∀ r, slot.arg = ArgPtr.mask r → r ≠ row) :
    Scratch.in_use { s with nuh_mask := s.nuh_mask.set row v } = s.in_use := by
  unfold Scratch.in_use
  apply List.map_congr_left
  intro slot hslot
  exact change_set_row s row v slot (h slot hslot)

/-- The loop of `chm_limit` and `chm_key` over the slots below `n`, in closed
form. -/
theorem void_loop_eq (letter : Char) (changes : List Slot) :
    ∀ n, n ≤ changes.length →
      (List.range n).foldl (fun changes i =>
        match changes[i]? with
        | some slot =>
          if slot.letter = letter ∧ slot.dir = MODE_ADD then
            changes.set i { slot with letter := Char.ofNat 0 }
          else changes
        | none => changes) changes =
      (changes.take n).map (fun slot =>
        if slot.letter = letter ∧ slot.dir = MODE_ADD then { slot with letter := Char.ofNat 0 }
        else slot) ++ changes.drop n := by
  intro n
  induction n with
  | zero => intro _; simp
  | succ m ih =>
    intro hm
    have hlt : m < changes.length := hm
    rw [List.range_succ, List.foldl_append, ih (Nat.le_of_lt hlt)]
    simp only [List.foldl_cons, List.foldl_nil]
    have hlen : ((changes.take m).map (fun slot : Slot =>
        if slot.letter = letter ∧ slot.dir = MODE_ADD then { slot with letter := Char.ofNat 0 }
        else slot)).length = m := by
      rw [List.length_map, List.length_take, Nat.min_eq_left (Nat.le_of_lt hlt)]
    have hdrop : changes.drop m = changes[m] :: changes.drop (m + 1) :=
      List.drop_eq_getElem_cons hlt
    have htake : changes.take (m + 1) = changes.take m ++ [changes[m]] := by
      rw [List.take_succ, List.getElem?_eq_getElem hlt]
      rfl
    have hget : ((changes.take m).map (fun slot : Slot =>
        if slot.letter = letter ∧ slot.dir = MODE_ADD then { slot with letter := Char.ofNat 0 }
        else slot) ++ changes.drop m)[m]? = some changes[m] := by
      rw [List.getElem?_append_right (by rw [hlen]), hlen, Nat.sub_self, hdrop,
        List.getElem?_cons_zero]
    rw [hget]
    dsimp only
    rw [htake, List.map_append, List.append_assoc]
    by_cases hc : changes[m].letter = letter ∧ changes[m].dir = MODE_ADD
    · rw [if_pos hc, List.set_append_right _ _ (by rw [hlen]), hlen, Nat.sub_self, hdrop,
        List.set_cons_zero, List.map_cons, List.map_nil, if_pos hc]
      rfl
    · rw [if_neg hc, hdrop, List.map_cons, List.map_nil, if_neg hc]
      rfl

/-- The slots in use after the loop of `chm_limit` and `chm_key`. -/
theorem in_use_void (letter : Char) (s : Scratch) (h : s.mode_count ≤ s.mode_changes.length) :
    (Static.void_earlier letter s).in_use = void_earlier letter s.in_use ∧
    (Static.void_earlier letter s).mode_changes.length = s.mode_changes.length ∧
    (∀ slot ∈ (Static.void_earlier letter s).mode_changes.take s.mode_count,
      ∃ slot0 ∈ s.mode_changes.take s.mode_count, slot.arg = slot0.arg) := by
  have hloop := void_loop_eq letter s.mode_changes s.mode_count h
  have hlen : ((s.mode_changes.take s.mode_count).map (fun slot : Slot =>
      if slot.letter = letter ∧ slot.dir = MODE_ADD then { slot with letter := Char.ofNat 0 }
      else slot)).length = s.mode_count := by
    rw [List.length_map, List.length_take, Nat.min_eq_left h]
  have hc : (Static.void_earlier letter s).change = s.change := funext (change_congr s _ rfl)
  have hmc : (Static.void_earlier letter s).mode_changes =
      (s.mode_changes.take s.mode_count).map (fun slot : Slot =>
        if slot.letter = letter ∧ slot.dir = MODE_ADD then { slot with letter := Char.ofNat 0 }
        else slot) ++ s.mode_changes.drop s.mode_count := hloop
  have htake : (Static.void_earlier letter s).mode_changes.take s.mode_count =
      (s.mode_changes.take s.mode_count).map (fun slot : Slot =>
        if slot.letter = letter ∧ slot.dir = MODE_ADD then { slot with letter := Char.ofNat 0 }
        else slot) := by
    rw [hmc, List.take_append_of_le_length (by rw [hlen]), List.take_of_length_le (by rw [hlen])]
  refine ⟨?_, ?_, ?_⟩
  · unfold Scratch.in_use
    rw [hc]
    show ((Static.void_earlier letter s).mode_changes.take s.mode_count).map s.change = _
    rw [htake, List.map_map]
    unfold void_earlier
    rw [List.map_map]
    apply List.map_congr_left
    intro slot _
    simp only [Function.comp]
    by_cases hcond : slot.letter = letter ∧ slot.dir = MODE_ADD
    · rw [if_pos hcond, if_pos (show (s.change slot).letter = letter ∧
        (s.change slot).dir = MODE_ADD from hcond)]
      rfl
    · rw [if_neg hcond, if_neg (show ¬ ((s.change slot).letter = letter ∧
        (s.change slot).dir = MODE_ADD) from hcond)]
  · rw [hmc, List.length_append, hlen, List.length_drop]
    omega
  · intro slot hslot
    rw [htake, List.mem_map] at hslot
    obtain ⟨slot0, h0, heq⟩ := hslot
    refine ⟨slot0, h0, ?_⟩
    rw [← heq]
    split_ifs <;> rfl

/-- A step that leaves the two arrays and `mode_count` as they are. -/
theorem sim_keep (ss ss1 : StaticState) (st1 : ModeState) (hv : ss1.view = st1)
    (h1 : ss1.scratch.nuh_mask = ss.scratch.nuh_mask)
    (h2 : ss1.scratch.mode_changes = ss.scratch.mode_changes)
    (h3 : ss1.scratch.mode_count = ss.scratch.mode_count) (h4 : ss.parn ≤ ss1.parn)
    (hb : ss.rows_below) : ss.simulates ss1 st1 := by
  refine ⟨hv, by rw [h3]; exact Nat.le_succ _, by rw [h2], by rw [h1], ?_⟩
  intro slot hslot row harg
  rw [h2, h3] at hslot
  exact Nat.lt_of_lt_of_le (hb slot hslot row harg) h4

/-- A step that records one change whose argument is outside `nuh_mask`. -/
theorem sim_record (ss ss1 : StaticState) (slot : Slot)
    (h1 : ss1.scratch.nuh_mask = ss.scratch.nuh_mask)
    (h2 : ss1.scratch.mode_changes = ss.scratch.mode_changes)
    (h3 : ss1.scratch.mode_count = ss.scratch.mode_count) (h4 : ss.parn ≤ ss1.parn)
    (harg : ∀ row, slot.arg = ArgPtr.mask row → row < ss1.parn)
    (hroom : ss.scratch.mode_count < ss.scratch.mode_changes.length)
    (hb : ss.rows_below) :
    ss.simulates (ss1.record slot) (ss1.view.record (ss1.scratch.change slot)) := by
  have hroom1 : ss1.scratch.mode_count < ss1.scratch.mode_changes.length := by
    rw [h2, h3]; exact hroom
  refine ⟨?_, ?_, ?_, ?_, ?_⟩
  · show ({ chptr := ss1.chptr, parn := ss1.parn, errors := ss1.errors,
            mode_changes := (ss1.scratch.record slot).in_use,
            mode_limit := ss1.scratch.mode_limit,
            simple_modes_mask := ss1.scratch.simple_modes_mask, out := ss1.out } : ModeState) = _
    rw [in_use_record _ _ hroom1]
    rfl
  · show ss1.scratch.mode_count + 1 ≤ _
    rw [h3]
  · show (ss1.scratch.mode_changes.set _ _).length = _
    rw [List.length_set, h2]
  · show ss1.scratch.nuh_mask.length = _
    rw [h1]
  · intro s hs row hrow
    have hs1 : s ∈ (ss1.scratch.mode_changes.set ss1.scratch.mode_count slot).take
        (ss1.scratch.mode_count + 1) := hs
    rw [take_set_succ _ _ _ hroom1, List.mem_append, List.mem_singleton] at hs1
    rcases hs1 with h | h
    · rw [h2, h3] at h
      exact Nat.lt_of_lt_of_le (hb s h row hrow) h4
    · rw [h] at hrow
      exact harg row hrow

theorem sim_reject_noops (alev : Int) (ss : StaticState) (hb : ss.rows_below) :
    ss.simulates (Static.reject_noops alev ss) (reject_noops alev ss.view) := by
  unfold Static.reject_noops reject_noops
  simp only [view_errors, view_chptr]
  split_ifs <;> exact sim_keep _ _ _ rfl rfl rfl rfl (Nat.le_refl _) hb

theorem sim_nosuch (c : Char) (ss : StaticState) (hb : ss.rows_below) :
    ss.simulates (Static.chm_nosuch c ss) (chm_nosuch c ss.view) := by
  unfold Static.chm_nosuch chm_nosuch
  simp only [view_errors]
  split_ifs <;> exact sim_keep _ _ _ rfl rfl rfl rfl (Nat.le_refl _) hb

theorem sim_simple (source_p : Client) (alev : Int) (dir : Nat) (mode : chan_mode)
    (ss : StaticState) (hroom : ss.scratch.mode_count < ss.scratch.mode_changes.length)
    (hb : ss.rows_below) :
    ss.simulates (Static.chm_simple source_p alev dir mode ss)
      (chm_simple source_p alev dir mode ss.view) := by
  have hnull : ∀ (n : Nat) (letter : Char) (d : Nat) (row : Nat),
      ({ letter := letter, arg := ArgPtr.null, id := none, flags := 0, dir := d } : Slot).arg =
        ArgPtr.mask row → row < n := by
    intro n letter d row h
    cases h
  unfold Static.chm_simple chm_simple
  dsimp only
  simp only [view_errors, view_chptr, view_simple_modes_mask]
  split_ifs
  all_goals first
    | exact sim_keep _ _ _ rfl rfl rfl rfl (Nat.le_refl _) hb
    | exact sim_reject_noops alev ss hb
    | exact sim_record ss _ _ rfl rfl rfl (Nat.le_refl _) (hnull _ _ _) hroom hb

/-- A step that changes the channel only, on both sides. -/
theorem sim_chptr (ss ss1 : StaticState) (st1 : ModeState) (chptr : Channel)
    (h : ss.simulates ss1 st1) :
    ss.simulates { ss1 with chptr := chptr } { st1 with chptr := chptr } := by
  obtain ⟨h1, h2, h3, h4, h5⟩ := h
  refine ⟨?_, h2, h3, h4, h5⟩
  rw [← h1]
  rfl

/-- The loop of `chm_limit` and `chm_key`, then the new change. -/
theorem sim_void_record (ss ss1 : StaticState) (letter : Char) (slot : Slot)
    (h1 : ss1.scratch.nuh_mask = ss.scratch.nuh_mask)
    (h2 : ss1.scratch.mode_changes = ss.scratch.mode_changes)
    (h3 : ss1.scratch.mode_count = ss.scratch.mode_count) (h4 : ss.parn ≤ ss1.parn)
    (harg : ∀ row, slot.arg = ArgPtr.mask row → row < ss1.parn)
    (hroom : ss.scratch.mode_count < ss.scratch.mode_changes.length)
    (hb : ss.rows_below) :
    ss.simulates
      (StaticState.record { ss1 with scratch := Static.void_earlier letter ss1.scratch } slot)
      { ss1.view with
        mode_changes := void_earlier letter ss1.view.mode_changes ++
          [ss1.scratch.change slot] } := by
  have hroom1 : ss1.scratch.mode_count < ss1.scratch.mode_changes.length := by
    rw [h2, h3]; exact hroom
  obtain ⟨v1, v2, v3⟩ := in_use_void letter ss1.scratch (Nat.le_of_lt hroom1)
  have hroom2 : (Static.void_earlier letter ss1.scratch).mode_count <
      (Static.void_earlier letter ss1.scratch).mode_changes.length := by
    rw [v2]; exact hroom1
  have hc : (Static.void_earlier letter ss1.scratch).change slot = ss1.scratch.change slot :=
    change_congr ss1.scratch _ rfl slot
  refine ⟨?_, ?_, ?_, ?_, ?_⟩
  · show ({ chptr := ss1.chptr, parn := ss1.parn, errors := ss1.errors,
            mode_changes := ((Static.void_earlier letter ss1.scratch).record slot).in_use,
            mode_limit := ss1.scratch.mode_limit,
            simple_modes_mask := ss1.scratch.simple_modes_mask, out := ss1.out } : ModeState) = _
    rw [in_use_record _ _ hroom2, v1, hc]
    rfl
  · show ss1.scratch.mode_count + 1 ≤ _
    rw [h3]
  · show ((Static.void_earlier letter ss1.scratch).mode_changes.set _ _).length = _
    rw [List.length_set, v2, h2]
  · show ss1.scratch.nuh_mask.length = _
    rw [h1]
  · intro s hs row hrow
    have hs1 : s ∈ ((Static.void_earlier letter ss1.scratch).mode_changes.set
        ss1.scratch.mode_count slot).take (ss1.scratch.mode_count + 1) := hs
    rw [take_set_succ (Static.void_earlier letter ss1.scratch).mode_changes
      ss1.scratch.mode_count slot hroom2, List.mem_append, List.mem_singleton] at hs1
    rcases hs1 with h | h
    · obtain ⟨s0, hs0, harg0⟩ := v3 s h
      rw [h2, h3] at hs0
      rw [harg0] at hrow
      exact Nat.lt_of_lt_of_le (hb s0 hs0 row hrow) h4
    · rw [h] at hrow
      exact harg row hrow

theorem sim_rank (need : Int) (flag : Nat) (env : Env) (source_p : Client) (parc : Nat)
    (parv : List (List Char)) (alev : Int) (dir : Nat) (mode : chan_mode) (ss : StaticState)
    (hroom : ss.scratch.mode_count < ss.scratch.mode_changes.length) (hb : ss.rows_below) :
    ss.simulates (Static.chm_rank need flag env source_p parc parv alev dir mode ss)
      (chm_rank need flag env source_p parc parv alev dir mode ss.view) := by
  have htext : ∀ (n : Nat) (letter : Char) (t : List Char) (i : Option (List Char)) (d : Nat)
      (row : Nat),
      ({ letter := letter, arg := ArgPtr.text t, id := i, flags := 0, dir := d } : Slot).arg =
        ArgPtr.mask row → row < n := by
    intro n letter t i d row h
    cases h
  unfold Static.chm_rank chm_rank
  by_cases g : alev < need
  · rw [if_pos g, if_pos g]; exact sim_reject_noops alev ss hb
  rw [if_neg g, if_neg g]
  simp only [view_parn]
  by_cases hq : dir = MODE_QUERY ∨ parc ≤ ss.parn
  · rw [if_pos hq, if_pos hq]
    exact sim_keep _ _ _ rfl rfl rfl rfl (Nat.le_refl _) hb
  rw [if_neg hq, if_neg hq]
  try dsimp only
  cases env.find_chasing source_p (parv.getD ss.parn []) with
  | none => exact sim_keep _ _ _ rfl rfl rfl rfl (Nat.le_succ _) hb
  | some target_p =>
    try dsimp only
    simp only [view_chptr]
    cases find_channel_link target_p ss.chptr with
    | none =>
      try dsimp only
      simp only [view_errors]
      split_ifs <;> exact sim_keep _ _ _ rfl rfl rfl rfl (Nat.le_succ _) hb
    | some pr =>
      obtain ⟨i, member⟩ := pr
      try dsimp only
      simp only [view_mode_limit]
      split_ifs
      all_goals first
        | exact sim_keep _ _ _ rfl rfl rfl rfl (Nat.le_succ _) hb
        | exact sim_record ss _ _ rfl rfl rfl (Nat.le_succ _) (htext _ _ _ _ _) hroom hb

theorem sim_limit (env : Env) (parc : Nat) (parv : List (List Char)) (alev : Int)
    (dir : Nat) (mode : chan_mode) (ss : StaticState)
    (hroom : ss.scratch.mode_count < ss.scratch.mode_changes.length) (hb : ss.rows_below) :
    ss.simulates (Static.chm_limit env parc parv alev dir mode ss)
      (chm_limit env parc parv alev dir mode ss.view) := by
  have htext : ∀ (n : Nat) (letter : Char) (t : List Char) (d : Nat) (row : Nat),
      ({ letter := letter, arg := ArgPtr.text t, id := none, flags := 0, dir := d } : Slot).arg =
        ArgPtr.mask row → row < n := by
    intro n letter t d row h
    cases h
  have hnull : ∀ (n : Nat) (letter : Char) (d : Nat) (row : Nat),
      ({ letter := letter, arg := ArgPtr.null, id := none, flags := 0, dir := d } : Slot).arg =
        ArgPtr.mask row → row < n := by
    intro n letter d row h
    cases h
  unfold Static.chm_limit chm_limit
  by_cases g : alev < CHACCESS_HALFOP
  · rw [if_pos g, if_pos g]; exact sim_reject_noops alev ss hb
  rw [if_neg g, if_neg g]
  by_cases hq : dir = MODE_QUERY
  · rw [if_pos hq, if_pos hq]
    exact sim_keep _ _ _ rfl rfl rfl rfl (Nat.le_refl _) hb
  rw [if_neg hq, if_neg hq]
  simp only [view_parn, view_chptr]
  by_cases ha : dir = MODE_ADD ∧ parc > ss.parn
  · rw [if_pos ha, if_pos ha]
    try dsimp only
    by_cases hbad : parv.getD ss.parn [] = [] ∨ env.atoi (parv.getD ss.parn []) ≤ 0
    · rw [if_pos hbad, if_pos hbad]
      exact sim_keep _ _ _ rfl rfl rfl rfl (Nat.le_succ _) hb
    · rw [if_neg hbad, if_neg hbad]
      exact sim_chptr ss _ _ _
        (sim_void_record ss { ss with parn := ss.parn + 1 } mode.letter
          { letter := mode.letter,
            arg := ArgPtr.text (decimal (env.atoi (parv.getD ss.parn [])).toNat), id := none,
            flags := 0, dir := dir } rfl rfl rfl (Nat.le_succ _) (htext _ _ _ _) hroom hb)
  rw [if_neg ha, if_neg ha]
  by_cases hd : dir = MODE_DEL
  · rw [if_pos hd, if_pos hd]
    split_ifs
    · exact sim_keep _ _ _ rfl rfl rfl rfl (Nat.le_refl _) hb
    · exact sim_record ss _ _ rfl rfl rfl (Nat.le_refl _) (hnull _ _ _) hroom hb
  · rw [if_neg hd, if_neg hd]
    exact sim_keep _ _ _ rfl rfl rfl rfl (Nat.le_refl _) hb

theorem sim_key (env : Env) (parc : Nat) (parv : List (List Char)) (alev : Int)
    (dir : Nat) (mode : chan_mode) (ss : StaticState)
    (hroom : ss.scratch.mode_count < ss.scratch.mode_changes.length) (hb : ss.rows_below) :
    ss.simulates (Static.chm_key env parc parv alev dir mode ss)
      (chm_key env parc parv alev dir mode ss.view) := by
  have htext : ∀ (n : Nat) (letter : Char) (t : List Char) (d : Nat) (row : Nat),
      ({ letter := letter, arg := ArgPtr.text t, id := none, flags := 0, dir := d } : Slot).arg =
        ArgPtr.mask row → row < n := by
    intro n letter t d row h
    cases h
  unfold Static.chm_key chm_key
  by_cases g : alev < CHACCESS_HALFOP
  · rw [if_pos g, if_pos g]; exact sim_reject_noops alev ss hb
  rw [if_neg g, if_neg g]
  by_cases hq : dir = MODE_QUERY
  · rw [if_pos hq, if_pos hq]
    exact sim_keep _ _ _ rfl rfl rfl rfl (Nat.le_refl _) hb
  rw [if_neg hq, if_neg hq]
  simp only [view_parn, view_chptr]
  by_cases ha : dir = MODE_ADD ∧ parc > ss.parn
  · rw [if_pos ha, if_pos ha]
    try dsimp only
    by_cases hbad : fix_key env (parv.getD ss.parn []) = []
    · rw [if_pos hbad, if_pos hbad]
      exact sim_keep _ _ _ rfl rfl rfl rfl (Nat.le_succ _) hb
    · rw [if_neg hbad, if_neg hbad]
      exact sim_void_record ss
        { ss with parn := ss.parn + 1,
                  chptr := { ss.chptr with mode := { ss.chptr.mode with
                    key := (fix_key env (parv.getD ss.parn [])).take env.KEYLEN } } }
        mode.letter
        { letter := mode.letter, arg := ArgPtr.text (fix_key env (parv.getD ss.parn [])),
          id := none, flags := 0, dir := dir } rfl rfl rfl (Nat.le_succ _) (htext _ _ _ _)
        hroom hb
  rw [if_neg ha, if_neg ha]
  by_cases hd : dir = MODE_DEL
  · rw [if_pos hd, if_pos hd]
    try dsimp only
    by_cases hp : parc > ss.parn
    · simp only [if_pos hp]
      try simp only [view_chptr]
      split_ifs
      · exact sim_keep _ _ _ rfl rfl rfl rfl (Nat.le_succ _) hb
      · exact sim_record ss _ _ rfl rfl rfl (Nat.le_succ _) (htext _ _ _ _) hroom hb
    · simp only [if_neg hp]
      try simp only [view_chptr]
      split_ifs
      · exact sim_keep _ _ _ rfl rfl rfl rfl (Nat.le_refl _) hb
      · exact sim_record ss _ _ rfl rfl rfl (Nat.le_refl _) (htext _ _ _ _) hroom hb
  · rw [if_neg hd, if_neg hd]
    exact sim_keep _ _ _ rfl rfl rfl rfl (Nat.le_refl _) hb

/-- The tail of a list handler on the storage: the mask is read from its row,
the row is rewritten by `add_id` or `del_id`, and the recorded change points to
it. -/
theorem sim_list_apply (type : Nat) (env : Env) (source_p : Client) (dir : Nat)
    (mode : chan_mode) (ss ss2 : StaticState) (row : Nat)
    (hrow : row < ss2.scratch.nuh_mask.length)
    (h1 : ss2.scratch.nuh_mask.length = ss.scratch.nuh_mask.length)
    (h2 : ss2.scratch.mode_changes = ss.scratch.mode_changes)
    (h3 : ss2.scratch.mode_count = ss.scratch.mode_count)
    (hparn : row < ss2.parn)
    (hrefs : ∀ slot ∈ ss2.scratch.mode_changes.take ss2.scratch.mode_count,
      ∀ r, slot.arg = ArgPtr.mask r → r < row)
    (hroom : ss.scratch.mode_count < ss.scratch.mode_changes.length) :
    ss.simulates (Static.list_apply type env source_p dir mode row ss2)
      (list_apply type env source_p dir mode (ss2.scratch.nuh_mask.getD row []) ss2.view) := by
  have hroom2 : ss2.scratch.mode_count < ss2.scratch.mode_changes.length := by
    rw [h2, h3]; exact hroom
  have hbelow2 : ss2.rows_below := fun slot hslot r hr =>
    Nat.lt_trans (hrefs slot hslot r hr) hparn
  have hne : ∀ slot ∈ ss2.scratch.mode_changes.take ss2.scratch.mode_count,
      ∀ r, slot.arg = ArgPtr.mask r → r ≠ row := fun slot hslot r hr =>
    Nat.ne_of_lt (hrefs slot hslot r hr)
  unfold Static.list_apply list_apply
  dsimp only
  simp only [view_chptr]
  generalize (if dir = MODE_ADD then
      add_id env source_p ss2.chptr (ss2.scratch.nuh_mask.getD row []) type
    else if dir = MODE_DEL then del_id env ss2.chptr (ss2.scratch.nuh_mask.getD row []) type
    else some { ret := 1, chptr := ss2.chptr, banid := ss2.scratch.nuh_mask.getD row [],
                out := [] }) = res
  cases res with
  | none =>
    exact ⟨rfl, by rw [h3]; exact Nat.le_succ _, by rw [h2], h1, hbelow2⟩
  | some r =>
    dsimp only
    have hin : Scratch.in_use
        { ss2.scratch with nuh_mask := ss2.scratch.nuh_mask.set row r.banid } =
        ss2.scratch.in_use := in_use_set_row ss2.scratch row r.banid hne
    by_cases hret : r.ret = 0
    · rw [if_pos hret, if_pos hret]
      refine ⟨?_, ?_, ?_, ?_, ?_⟩
      rotate_left
      · show ss2.scratch.mode_count ≤ _
        rw [h3]
        exact Nat.le_succ _
      rotate_right
      · show ({ chptr := r.chptr, parn := ss2.parn, errors := ss2.errors,
                mode_changes := Scratch.in_use
                  { ss2.scratch with nuh_mask := ss2.scratch.nuh_mask.set row r.banid },
                mode_limit := ss2.scratch.mode_limit,
                simple_modes_mask := ss2.scratch.simple_modes_mask,
                out := ss2.out ++ r.out } : ModeState) = _
        rw [hin]
        rfl
      · show ss2.scratch.mode_changes.length = _
        rw [h2]
      · show (ss2.scratch.nuh_mask.set row r.banid).length = _
        rw [List.length_set, h1]
      · exact hbelow2
    · rw [if_neg hret, if_neg hret]
      have hget : (ss2.scratch.nuh_mask.set row r.banid).getD row [] = r.banid := by
        rw [List.getD_eq_getElem?_getD, List.getElem?_set_self (by exact hrow)]
        rfl
      refine ⟨?_, ?_, ?_, ?_, ?_⟩
      · show ({ chptr := r.chptr, parn := ss2.parn, errors := ss2.errors,
                mode_changes := Scratch.in_use (Scratch.record
                  { ss2.scratch with nuh_mask := ss2.scratch.nuh_mask.set row r.banid } _),
                mode_limit := ss2.scratch.mode_limit,
                simple_modes_mask := ss2.scratch.simple_modes_mask,
                out := ss2.out ++ r.out } : ModeState) = _
        rw [in_use_record
          { ss2.scratch with nuh_mask := ss2.scratch.nuh_mask.set row r.banid } _ hroom2, hin]
        unfold Scratch.change Scratch.deref
        dsimp only
        rw [hget]
        rfl
      · show ss2.scratch.mode_count + 1 ≤ _
        rw [h3]
      · show (ss2.scratch.mode_changes.set _ _).length = _
        rw [List.length_set, h2]
      · show (ss2.scratch.nuh_mask.set row r.banid).length = _
        rw [List.length_set, h1]
      · intro s hs q hq
        have hs1 : s ∈ (ss2.scratch.mode_changes.set ss2.scratch.mode_count
            { letter := mode.letter, arg := ArgPtr.mask row, id := none,
              flags := if HasCMode r.chptr MODE_HIDEBMASKS then CHFL_CHANOP ||| CHFL_HALFOP
                       else 0,
              dir := dir }).take (ss2.scratch.mode_count + 1) := hs
        rw [take_set_succ _ _ _ hroom2, List.mem_append, List.mem_singleton] at hs1
        rcases hs1 with h | h
        · exact hbelow2 s h q hq
        · rw [h] at hq
          cases hq
          exact hparn

/-- The list handlers on the storage. -/
theorem sim_list (errbit : Nat) (list : Channel → List Ban) (rpl rpl_end : Numeric)
    (type : Nat) (env : Env) (source_p : Client) (parc : Nat) (parv : List (List Char))
    (alev : Int) (dir : Nat) (mode : chan_mode) (ss : StaticState)
    (hroom : ss.scratch.mode_count < ss.scratch.mode_changes.length)
    (hrows : parc ≤ ss.scratch.nuh_mask.length) (hb : ss.rows_below) :
    ss.simulates
      (Static.chm_list errbit list rpl rpl_end type env source_p parc parv alev dir mode ss)
      (chm_list errbit list rpl rpl_end type env source_p parc parv alev dir mode
        ss.view) := by
  unfold Static.chm_list chm_list
  simp only [view_parn, view_errors, view_chptr, view_out]
  by_cases hq : dir = MODE_QUERY ∨ parc ≤ ss.parn
  · rw [if_pos hq, if_pos hq]
    split_ifs <;> exact sim_keep _ _ _ rfl rfl rfl rfl (Nat.le_refl _) hb
  rw [if_neg hq, if_neg hq]
  by_cases g : alev < CHACCESS_HALFOP
  · rw [if_pos g, if_pos g]; exact sim_reject_noops alev ss hb
  rw [if_neg g, if_neg g]
  have hparn : ss.parn < ss.scratch.nuh_mask.length := by
    have : ¬ parc ≤ ss.parn := fun h => hq (Or.inr h)
    omega
  -- the body after the test of `mode_limit`, for the storage with the counter `lim`
  have hbody : ∀ lim : Nat,
      ss.simulates
        (if ((ss.scratch.nuh_mask.set ss.parn
              ((parv.getD ss.parn []).take (env.IRCD_BUFSIZE - 1))).getD ss.parn []).head? =
              some ':' ∨
            (¬ source_p.connected = true ∧
              ' ' ∈ (ss.scratch.nuh_mask.set ss.parn
                ((parv.getD ss.parn []).take (env.IRCD_BUFSIZE - 1))).getD ss.parn []) then
          { ss with
            scratch := { ss.scratch with
              mode_limit := lim,
              nuh_mask := ss.scratch.nuh_mask.set ss.parn
                ((parv.getD ss.parn []).take (env.IRCD_BUFSIZE - 1)) },
            parn := ss.parn + 1 }
        else
          Static.list_apply type env source_p dir mode ss.parn
            { ss with
              scratch := { ss.scratch with
                mode_limit := lim,
                nuh_mask := ss.scratch.nuh_mask.set ss.parn
                  ((parv.getD ss.parn []).take (env.IRCD_BUFSIZE - 1)) },
              parn := ss.parn + 1 })
        (if ((parv.getD ss.parn []).take (env.IRCD_BUFSIZE - 1)).head? = some ':' ∨
            (¬ source_p.connected = true ∧
              ' ' ∈ (parv.getD ss.parn []).take (env.IRCD_BUFSIZE - 1)) then
          { ss.view with mode_limit := lim, parn := ss.parn + 1 }
        else
          list_apply type env source_p dir mode
            ((parv.getD ss.parn []).take (env.IRCD_BUFSIZE - 1))
            { ss.view with mode_limit := lim, parn := ss.parn + 1 }) := by
    intro lim
    have hget : (ss.scratch.nuh_mask.set ss.parn
        ((parv.getD ss.parn []).take (env.IRCD_BUFSIZE - 1))).getD ss.parn [] =
        (parv.getD ss.parn []).take (env.IRCD_BUFSIZE - 1) := by
      rw [List.getD_eq_getElem?_getD, List.getElem?_set_self (by exact hparn)]
      rfl
    have hne : ∀ slot ∈ ss.scratch.mode_changes.take ss.scratch.mode_count,
        ∀ r, slot.arg = ArgPtr.mask r → r ≠ ss.parn := fun slot hslot r hr =>
      Nat.ne_of_lt (hb slot hslot r hr)
    have hin : Scratch.in_use
        { ss.scratch with
          mode_limit := lim,
          nuh_mask := ss.scratch.nuh_mask.set ss.parn
            ((parv.getD ss.parn []).take (env.IRCD_BUFSIZE - 1)) } = ss.scratch.in_use :=
      in_use_set_row { ss.scratch with mode_limit := lim } ss.parn _ hne
    have hview : StaticState.view
        { ss with
          scratch := { ss.scratch with
            mode_limit := lim,
            nuh_mask := ss.scratch.nuh_mask.set ss.parn
              ((parv.getD ss.parn []).take (env.IRCD_BUFSIZE - 1)) },
          parn := ss.parn + 1 } =
        { ss.view with mode_limit := lim, parn := ss.parn + 1 } := by
      show ({ chptr := ss.chptr, parn := ss.parn + 1, errors := ss.errors,
              mode_changes := Scratch.in_use
                { ss.scratch with
                  mode_limit := lim,
                  nuh_mask := ss.scratch.nuh_mask.set ss.parn
                    ((parv.getD ss.parn []).take (env.IRCD_BUFSIZE - 1)) },
              mode_limit := lim, simple_modes_mask := ss.scratch.simple_modes_mask,
              out := ss.out } : ModeState) = _
      rw [hin]
      rfl
    rw [hget]
    by_cases hbad : ((parv.getD ss.parn []).take (env.IRCD_BUFSIZE - 1)).head? = some ':' ∨
        (¬ source_p.connected = true ∧
          ' ' ∈ (parv.getD ss.parn []).take (env.IRCD_BUFSIZE - 1))
    · rw [if_pos hbad, if_pos hbad]
      refine ⟨hview, Nat.le_succ _, ?_, ?_, ?_⟩
      · rfl
      · show (ss.scratch.nuh_mask.set _ _).length = _
        rw [List.length_set]
      · intro slot hslot r hr
        exact Nat.lt_succ_of_lt (hb slot hslot r hr)
    · rw [if_neg hbad, if_neg hbad]
      have h := sim_list_apply type env source_p dir mode ss
        { ss with
          scratch := { ss.scratch with
            mode_limit := lim,
            nuh_mask := ss.scratch.nuh_mask.set ss.parn
              ((parv.getD ss.parn []).take (env.IRCD_BUFSIZE - 1)) },
          parn := ss.parn + 1 } ss.parn
        (by show ss.parn < (ss.scratch.nuh_mask.set _ _).length
            rw [List.length_set]; exact hparn)
        (by show (ss.scratch.nuh_mask.set _ _).length = _
            rw [List.length_set])
        rfl rfl (Nat.lt_succ_self _) (fun slot hslot r hr => hb slot hslot r hr) hroom
      rw [hview] at h
      have hget2 : (StaticState.scratch
          { ss with
            scratch := { ss.scratch with
              mode_limit := lim,
              nuh_mask := ss.scratch.nuh_mask.set ss.parn
                ((parv.getD ss.parn []).take (env.IRCD_BUFSIZE - 1)) },
            parn := ss.parn + 1 }).nuh_mask.getD ss.parn [] =
          (parv.getD ss.parn []).take (env.IRCD_BUFSIZE - 1) := hget
      rw [hget2] at h
      exact h
  try dsimp only
  simp only [view_mode_limit, view_parn]
  by_cases hloc : MyClient source_p = true
  · simp only [hloc, if_true, true_and]
    by_cases hlim : ss.scratch.mode_limit + 1 > MAXMODEPARAMS
    · rw [if_pos hlim, if_pos hlim]
      exact sim_keep _ _ _ rfl rfl rfl rfl (Nat.le_refl _) hb
    · rw [if_neg hlim, if_neg hlim]
      exact hbody (ss.scratch.mode_limit + 1)
  · simp only [hloc, Bool.false_eq_true, if_false, false_and]
    exact hbody ss.scratch.mode_limit

theorem sim_handler (env : Env) (source_p : Client) (parc : Nat) (parv : List (List Char))
    (alev : Int) (dir : Nat) (mode : chan_mode) (ss : StaticState)
    (hroom : ss.scratch.mode_count < ss.scratch.mode_changes.length)
    (hrows : parc ≤ ss.scratch.nuh_mask.length) (hb : ss.rows_below) :
    ss.simulates (Static.call_handler env source_p parc parv alev dir mode ss)
      (call_handler env source_p parc parv alev dir mode ss.view) := by
  unfold Static.call_handler call_handler
  cases mode.func with
  | chm_simple => exact sim_simple source_p alev dir mode ss hroom hb
  | chm_ban => exact sim_list _ _ _ _ _ env source_p parc parv alev dir mode ss hroom hrows hb
  | chm_except => exact sim_list _ _ _ _ _ env source_p parc parv alev dir mode ss hroom hrows hb
  | chm_invex => exact sim_list _ _ _ _ _ env source_p parc parv alev dir mode ss hroom hrows hb
  | chm_voice => exact sim_rank _ _ env source_p parc parv alev dir mode ss hroom hb
  | chm_hop => exact sim_rank _ _ env source_p parc parv alev dir mode ss hroom hb
  | chm_op => exact sim_rank _ _ env source_p parc parv alev dir mode ss hroom hb
  | chm_limit => exact sim_limit env parc parv alev dir mode ss hroom hb
  | chm_key => exact sim_key env parc parv alev dir mode ss hroom hb

theorem sim_dispatch (env : Env) (source_p : Client) (parc : Nat) (parv : List (List Char))
    (alev : Int) (dir : Nat) (c : Char) (ss : StaticState)
    (hroom : ss.scratch.mode_count < ss.scratch.mode_changes.length)
    (hrows : parc ≤ ss.scratch.nuh_mask.length) (hb : ss.rows_below) :
    ss.simulates (Static.dispatch env source_p parc parv alev dir c ss)
      (dispatch env source_p parc parv alev dir c ss.view) := by
  unfold Static.dispatch dispatch
  cases cmode_map c with
  | none => exact sim_nosuch c ss hb
  | some mode => exact sim_handler env source_p parc parv alev dir mode ss hroom hrows hb

theorem letter_count_sign (c : Char) (rest : List Char) (h : c = '+' ∨ c = '-' ∨ c = '=') :
    letter_count (c :: rest) = letter_count rest := by
  unfold letter_count
  rcases h with h | h | h <;> subst h <;> rfl

theorem letter_count_letter (c : Char) (rest : List Char) (h1 : ¬ c = '+') (h2 : ¬ c = '-')
    (h3 : ¬ c = '=') : letter_count (c :: rest) = letter_count rest + 1 := by
  unfold letter_count
  simp [h1, h2, h3]

/-- The scan on the storage, with a slot for every letter of the mode string
and a row for every argument, is the scan on the recorded changes. -/
theorem sim_loop (env : Env) (source_p : Client) (parc : Nat) (parv : List (List Char))
    (alev : Int) :
    ∀ (ms : List Char) (dir : Nat) (ss : StaticState),
      ss.scratch.mode_count + letter_count ms ≤ ss.scratch.mode_changes.length →
      parc ≤ ss.scratch.nuh_mask.length → ss.rows_below →
      (Static.mode_loop env source_p parc parv alev ms dir ss).view =
        mode_loop env source_p parc parv alev ms dir ss.view ∧
      (Static.mode_loop env source_p parc parv alev ms dir ss).scratch.mode_changes.length =
        ss.scratch.mode_changes.length ∧
      (Static.mode_loop env source_p parc parv alev ms dir ss).scratch.nuh_mask.length =
        ss.scratch.nuh_mask.length ∧
      (Static.mode_loop env source_p parc parv alev ms dir ss).scratch.mode_count ≤
        ss.scratch.mode_changes.length := by
  intro ms
  induction ms with
  | nil =>
    intro dir ss hroom _ _
    exact ⟨rfl, rfl, rfl, by simpa [letter_count] using hroom⟩
  | cons ml rest ih =>
    intro dir ss hroom hrows hb
    simp only [Static.mode_loop, mode_loop]
    by_cases h1 : ml = '+'
    · rw [if_pos h1, if_pos h1]
      rw [letter_count_sign ml rest (Or.inl h1)] at hroom
      exact ih _ ss hroom hrows hb
    rw [if_neg h1, if_neg h1]
    by_cases h2 : ml = '-'
    · rw [if_pos h2, if_pos h2]
      rw [letter_count_sign ml rest (Or.inr (Or.inl h2))] at hroom
      exact ih _ ss hroom hrows hb
    rw [if_neg h2, if_neg h2]
    by_cases h3 : ml = '='
    · rw [if_pos h3, if_pos h3]
      rw [letter_count_sign ml rest (Or.inr (Or.inr h3))] at hroom
      exact ih _ ss hroom hrows hb
    rw [if_neg h3, if_neg h3]
    rw [letter_count_letter ml rest h1 h2 h3] at hroom
    obtain ⟨d1, d2, d3, d4, d5⟩ := sim_dispatch env source_p parc parv alev dir ml ss
      (by omega) hrows hb
    obtain ⟨i1, i2, i3, i4⟩ := ih dir (Static.dispatch env source_p parc parv alev dir ml ss)
      (by rw [d3]; omega) (by rw [d4]; exact hrows) d5
    rw [d1] at i1
    exact ⟨i1, by rw [i2, d3], by rw [i3, d4], by rw [← d3]; exact i4⟩

/-- The loop over the slots below `mode_count` is the loop over the slots in
use. -/
theorem for_slots_eq {σ : Type} (s : Scratch) (body : σ → Slot → σ) (init : σ) :
    Static.for_slots s body init = (s.mode_changes.take s.mode_count).foldl body init := by
  unfold Static.for_slots
  generalize s.mode_count = n
  induction n with
  | zero => rfl
  | succ m ih =>
    rw [List.range_succ, List.foldl_append, ih, List.take_succ, List.foldl_append]
    simp only [List.foldl_cons, List.foldl_nil]
    cases h : s.mode_changes[m]? <;> rfl

/-- The propagation from the storage is the propagation of the slots in use. -/
theorem static_propagation (env : Env) (source_p : Client) (chptr : Channel) (s : Scratch) :
    Static.send_mode_changes_client env source_p chptr s =
      send_mode_changes_client env source_p chptr s.in_use ∧
    Static.send_mode_changes_server env source_p chptr s =
      send_mode_changes_server env source_p chptr s.in_use := by
  constructor
  · unfold Static.send_mode_changes_client send_mode_changes_client Static.client_pass
      client_pass Scratch.in_use
    dsimp only
    rw [for_slots_eq, for_slots_eq, List.foldl_map, List.foldl_map]
    rfl
  · unfold Static.send_mode_changes_server send_mode_changes_server Scratch.in_use
    dsimp only
    rw [for_slots_eq, List.foldl_map]
    rfl

/-- One call of `set_channel_mode` on the storage, with a slot for every letter
of the mode string and a row for every argument. -/
theorem static_call (env : Env) (source_p : Client) (chptr : Channel)
    (member : Option Membership) (parc : Nat) (parv : List (List Char)) (s : Scratch)
    (hslots : letter_count (parv.headD []) ≤ s.mode_changes.length)
    (hrows : parc ≤ s.nuh_mask.length) :
    (Static.set_channel_mode env source_p chptr member parc parv s).view =
      set_channel_mode env source_p chptr member parc parv ∧
    (Static.set_channel_mode env source_p chptr member parc parv s).scratch.mode_changes.length =
      s.mode_changes.length ∧
    (Static.set_channel_mode env source_p chptr member parc parv s).scratch.nuh_mask.length =
      s.nuh_mask.length := by
  obtain ⟨l1, l2, l3, l4⟩ := sim_loop env source_p parc parv
    (get_channel_access source_p member) (parv.headD []) MODE_ADD
    { chptr := chptr, parn := 1, errors := 0, out := [],
      scratch := { s with mode_count := 0, mode_limit := 0, simple_modes_mask := 0 } }
    (by show 0 + _ ≤ s.mode_changes.length
        rw [Nat.zero_add]; exact hslots)
    hrows
    (fun slot hslot => by
      have : slot ∈ ([] : List Slot) := hslot
      cases this)
  have hinit : StaticState.view
      { chptr := chptr, parn := 1, errors := 0, out := [],
        scratch := { s with mode_count := 0, mode_limit := 0, simple_modes_mask := 0 } } =
      ModeState.init chptr := rfl
  rw [hinit] at l1
  have hscan : mode_loop env source_p parc parv (get_channel_access source_p member)
      (parv.headD []) MODE_ADD (ModeState.init chptr) =
      scan_modes env source_p chptr member parc parv := rfl
  rw [hscan] at l1
  have hcount : (scan_modes env source_p chptr member parc parv).mode_count =
      (Static.mode_loop env source_p parc parv (get_channel_access source_p member)
        (parv.headD []) MODE_ADD
        { chptr := chptr, parn := 1, errors := 0, out := [],
          scratch := { s with mode_count := 0, mode_limit := 0,
                              simple_modes_mask := 0 } }).scratch.mode_count := by
    rw [← l1]
    show (Scratch.in_use _).length = _
    unfold Scratch.in_use
    rw [List.length_map, List.length_take]
    exact Nat.min_eq_left (by rw [l2]; exact l4)
  unfold Static.set_channel_mode set_channel_mode
  dsimp only
  rw [hcount]
  by_cases h0 : (Static.mode_loop env source_p parc parv (get_channel_access source_p member)
      (parv.headD []) MODE_ADD
      { chptr := chptr, parn := 1, errors := 0, out := [],
        scratch := { s with mode_count := 0, mode_limit := 0,
                            simple_modes_mask := 0 } }).scratch.mode_count = 0
  · rw [if_pos h0, if_pos h0]
    exact ⟨l1, l2, l3⟩
  · rw [if_neg h0, if_neg h0]
    refine ⟨?_, l2, l3⟩
    obtain ⟨p1, p2⟩ := static_propagation env source_p
      (Static.mode_loop env source_p parc parv (get_channel_access source_p member)
        (parv.headD []) MODE_ADD
        { chptr := chptr, parn := 1, errors := 0, out := [],
          scratch := { s with mode_count := 0, mode_limit := 0,
                              simple_modes_mask := 0 } }).chptr
      (Static.mode_loop env source_p parc parv (get_channel_access source_p member)
        (parv.headD []) MODE_ADD
        { chptr := chptr, parn := 1, errors := 0, out := [],
          scratch := { s with mode_count := 0, mode_limit := 0,
                              simple_modes_mask := 0 } }).scratch
    rw [← l1]
    show ({ chptr := _, parn := _, errors := _, mode_changes := _, mode_limit := _,
            simple_modes_mask := _, out := _ ++ _ ++ _ } : ModeState) = _
    rw [p1, p2]
    rfl

/-- C25. The storage of `channel_mode.c` carries nothing from one call of
`set_channel_mode` to the next. The call is run on the storage as earlier calls
have left it, with whatever contents in the rows of `nuh_mask`, in the slots of
`mode_changes` and in the three counters; the arrays have a slot for every
letter of the mode string and a row for every argument. Then:
(1) the call on the storage `s` leaves the channel, the replies, the lines and
the changes in use that the call on the recorded changes, which starts from
nothing, leaves;
(2) two runs with the same requester, channel, membership and arguments on the
storages `s` and `s2` leave the same channel (modes, memberships, lists), send
the same replies and lines, and leave the same error bits, argument index and
changes in use;
(3) the arrays keep their sizes, and a further call, with any requester,
channel and arguments that fit the arrays, run on the storage this call has
left, again does what the call on the recorded changes does. -/
theorem scratch_is_fresh (env : Env) (source_p : Client) (chptr : Channel)
    (member : Option Membership) (parc : Nat) (parv : List (List Char)) (s s2 : Scratch)
    (hslots : letter_count (parv.headD []) ≤ s.mode_changes.length)
    (hrows : parc ≤ s.nuh_mask.length)
    (hslots2 : letter_count (parv.headD []) ≤ s2.mode_changes.length)
    (hrows2 : parc ≤ s2.nuh_mask.length) :
    (Static.set_channel_mode env source_p chptr member parc parv s).view =
      set_channel_mode env source_p chptr member parc parv ∧
    ((Static.set_channel_mode env source_p chptr member parc parv s).chptr =
        (Static.set_channel_mode env source_p chptr member parc parv s2).chptr ∧
      (Static.set_channel_mode env source_p chptr member parc parv s).out =
        (Static.set_channel_mode env source_p chptr member parc parv s2).out ∧
      (Static.set_channel_mode env source_p chptr member parc parv s).errors =
        (Static.set_channel_mode env source_p chptr member parc parv s2).errors ∧
      (Static.set_channel_mode env source_p chptr member parc parv s).parn =
        (Static.set_channel_mode env source_p chptr member parc parv s2).parn ∧
      (Static.set_channel_mode env source_p chptr member parc parv s).scratch.in_use =
        (Static.set_channel_mode env source_p chptr member parc parv s2).scratch.in_use) ∧
    (Static.set_channel_mode env source_p chptr member parc parv s).scratch.mode_changes.length =
      s.mode_changes.length ∧
    (Static.set_channel_mode env source_p chptr member parc parv s).scratch.nuh_mask.length =
      s.nuh_mask.length ∧
    (∀ (source_p2 : Client) (chptr2 : Channel) (member2 : Option Membership) (parc2 : Nat)
      (parv2 : List (List Char)),
      letter_count (parv2.headD []) ≤ s.mode_changes.length → parc2 ≤ s.nuh_mask.length →
      (Static.set_channel_mode env source_p2 chptr2 member2 parc2 parv2
        (Static.set_channel_mode env source_p chptr member parc parv s).scratch).view =
        set_channel_mode env source_p2 chptr2 member2 parc2 parv2) := by
  obtain ⟨a1, a2, a3⟩ := static_call env source_p chptr member parc parv s hslots hrows
  obtain ⟨b1, -, -⟩ := static_call env source_p chptr member parc parv s2 hslots2 hrows2
  have hv : (Static.set_channel_mode env source_p chptr member parc parv s).view =
      (Static.set_channel_mode env source_p chptr member parc parv s2).view := by
    rw [a1, b1]
  refine ⟨a1, ⟨?_, ?_, ?_, ?_, ?_⟩, a2, a3, ?_⟩
  · exact congrArg ModeState.chptr hv
  · exact congrArg ModeState.out hv
  · exact congrArg ModeState.errors hv
  · exact congrArg ModeState.parn hv
  · exact congrArg ModeState.mode_changes hv
  · intro source_p2 chptr2 member2 parc2 parv2 h1 h2
    exact (static_call env source_p2 chptr2 member2 parc2 parv2 _ (by rw [a2]; exact h1)
      (by rw [a3]; exact h2)).1

/-! ## The theorems at concrete inputs -/

/-- C2, witness: the plain member `n1` sends `+ntk-o key op`. -/
theorem below_halfop_changes_nothing_witness :
    get_channel_access (local_user "n1") (some (member_of "n1" 0)) < CHACCESS_HALFOP ∧
    (set_channel_mode demo_env (local_user "n1") demo_chan (some (member_of "n1" 0)) 3
      ["+ntk-o".toList, "key".toList, "op".toList]).chptr = demo_chan ∧
    (set_channel_mode demo_env (local_user "n1") demo_chan (some (member_of "n1" 0)) 3
      ["+ntk-o".toList, "key".toList, "op".toList]).mode_changes = [] ∧
    ∀ o ∈ (set_channel_mode demo_env (local_user "n1") demo_chan (some (member_of "n1" 0)) 3
      ["+ntk-o".toList, "key".toList, "op".toList]).out, o.is_numeric = true :=
  ⟨by decide, below_halfop_changes_nothing demo_env (local_user "n1") demo_chan
    (some (member_of "n1" 0)) 3 ["+ntk-o".toList, "key".toList, "op".toList] (by decide)⟩

/-- C3, witness: the plain member `n1` tries to give voice to `n2`. -/
theorem rank_gate_witness :
    (CHACCESS_PEON < if 'v' = 'v' then CHACCESS_HALFOP else CHACCESS_CHANOP) ∧
    (dispatch demo_env (local_user "n1") 2 ["+v".toList, "n2".toList] CHACCESS_PEON MODE_ADD 'v'
      (ModeState.init demo_chan)).chptr = demo_chan ∧
    (dispatch demo_env (local_user "n1") 2 ["+v".toList, "n2".toList] CHACCESS_PEON MODE_ADD 'v'
      (ModeState.init demo_chan)).mode_changes = [] :=
  ⟨by decide, rank_gate demo_env (local_user "n1") 2 ["+v".toList, "n2".toList] CHACCESS_PEON
    MODE_ADD 'v' (ModeState.init demo_chan) (Or.inr (Or.inr rfl)) (by decide)⟩

/-- C9, witness: a third mask on `demo_full_chan`, whose lists hold two. -/
theorem add_id_at_capacity_witness :
    ban_capacity demo_env demo_full_chan ≤ num_mask demo_full_chan ∧
    (MyClient (local_user "op") = true →
      add_id demo_env (local_user "op") demo_full_chan "z".toList CHFL_BAN =
        some { ret := 0, chptr := demo_full_chan, banid := "z".toList,
               out := [Out.numeric Numeric.ERR_BANLISTFULL ["#c".toList, "z".toList]] }) :=
  ⟨by decide, (add_id_at_capacity demo_env (local_user "op") demo_full_chan "z".toList CHFL_BAN
    (Or.inl rfl) (by decide)).1⟩

/-- C10, witness: a remote operator adds the ban `z` to `demo_full_chan`; the
removal is run on the mask `z` as well, which is not on the list. -/
theorem ban_cache_invalidated_witness :
    ∃ ra rd, add_id demo_env (remote_user "rop") demo_full_chan "z".toList CHFL_BAN = some ra ∧
      del_id demo_env demo_full_chan "z".toList CHFL_BAN = some rd ∧
      ra.ret = 1 ∧ cache_invalidated demo_full_chan.members ra.chptr.members :=
  ⟨_, _, rfl, rfl, rfl,
    ((ban_cache_invalidated demo_env (remote_user "rop") demo_full_chan "z".toList CHFL_BAN _ _
      rfl rfl).1 (Or.inl rfl)).1 rfl⟩

/-- C1, witness: the local operator `op` sends eight voice changes. -/
theorem counted_changes_le_max_witness :
    MyClient (local_user "op") = true ∧
    counted_changes (set_channel_mode demo_env (local_user "op") demo_chan
      (some (member_of "op" CHFL_CHANOP)) 9
      ["+vvvvvv-vv".toList, "n1".toList, "n2".toList, "n3".toList, "n4".toList, "n5".toList,
        "n6".toList, "n1".toList, "n2".toList]).mode_changes ≤ MAXMODEPARAMS :=
  ⟨rfl, counted_changes_le_max demo_env (local_user "op") demo_chan
    (some (member_of "op" CHFL_CHANOP)) 9
    ["+vvvvvv-vv".toList, "n1".toList, "n2".toList, "n3".toList, "n4".toList, "n5".toList,
      "n6".toList, "n1".toList, "n2".toList] rfl⟩

/-- C12, at a concrete input. The operator `op` sends `=m`: the handler records
a change of direction `MODE_QUERY`, and the change is propagated. -/
theorem query_direction_witness :
    (call_handler demo_env (local_user "op") 1 ["=m".toList] CHACCESS_CHANOP MODE_QUERY
      { letter := 'm', mode := MODE_MODERATED, only_opers := 0, only_servers := 0,
        func := ChmFunc.chm_simple } (ModeState.init demo_chan)).mode_changes =
      [{ letter := 'm', arg := none, id := none, flags := 0, dir := MODE_QUERY }] ∧
    cmode_map 'm' =
      some { letter := 'm', mode := MODE_MODERATED, only_opers := 0, only_servers := 0,
             func := ChmFunc.chm_simple } ∧
    (set_channel_mode demo_env (local_user "op") demo_chan (some (member_of "op" CHFL_CHANOP)) 1
      ["=m".toList]).mode_changes =
      [{ letter := 'm', arg := none, id := none, flags := 0, dir := MODE_QUERY }] :=
  ⟨((query_direction demo_env (local_user "op") 1 ["=m".toList] CHACCESS_CHANOP
      { letter := 'm', mode := MODE_MODERATED, only_opers := 0, only_servers := 0,
        func := ChmFunc.chm_simple } (ModeState.init demo_chan)).2 rfl rfl rfl (by decide)
      (by decide)).2, by decide, by decide⟩

/-- C13, counterexample. The operator `op` sends `+uI foo`: the change recorded
by the invite-exception handler, on a channel whose hide-lists flag is set, has
the filter operators and half-operators, not none. -/
theorem invex_filter_counterexample :
    (set_channel_mode demo_env (local_user "op") demo_chan (some (member_of "op" CHFL_CHANOP)) 2
      ["+uI".toList, "foo".toList]).mode_changes =
      [{ letter := 'u', arg := none, id := none, dir := MODE_ADD, flags := 0 },
       { letter := 'I', arg := some "foo!*@*".toList, id := none, dir := MODE_ADD,
         flags := CHFL_CHANOP ||| CHFL_HALFOP }] ∧
    (chm_invex demo_env (local_user "op") 2 ["+I".toList, "foo".toList] CHACCESS_CHANOP MODE_ADD
      { letter := 'I', mode := 0, only_opers := 0, only_servers := 0,
        func := ChmFunc.chm_invex }
      (ModeState.init (AddCMode demo_chan MODE_HIDEBMASKS))).mode_changes =
      [{ letter := 'I', arg := some "foo!*@*".toList, id := none, dir := MODE_ADD,
         flags := CHFL_CHANOP ||| CHFL_HALFOP }] := by
  decide

/-- C13, at a concrete input. On a channel whose hide-lists flag is set the
operator `op` adds the invite exception `foo`: the change recorded has the
filter operators and half-operators. -/
theorem list_change_visibility_witness :
    ({ letter := 'I', arg := some "foo!*@*".toList, id := none, dir := MODE_ADD,
       flags := CHFL_CHANOP ||| CHFL_HALFOP } : ChModeChange) ∈
      (chm_invex demo_env (local_user "op") 2 ["+I".toList, "foo".toList] CHACCESS_CHANOP
        MODE_ADD
        { letter := 'I', mode := 0, only_opers := 0, only_servers := 0,
          func := ChmFunc.chm_invex }
        (ModeState.init (AddCMode demo_chan MODE_HIDEBMASKS))).mode_changes ∧
    HasCMode (ModeState.init (AddCMode demo_chan MODE_HIDEBMASKS)).chptr MODE_HIDEBMASKS = true ∧
    (({ letter := 'I', arg := some "foo!*@*".toList, id := none, dir := MODE_ADD,
        flags := CHFL_CHANOP ||| CHFL_HALFOP } : ChModeChange) ∈
        (ModeState.init (AddCMode demo_chan MODE_HIDEBMASKS)).mode_changes ∨
      (CHFL_CHANOP ||| CHFL_HALFOP = CHFL_CHANOP ||| CHFL_HALFOP ↔
        HasCMode (ModeState.init (AddCMode demo_chan MODE_HIDEBMASKS)).chptr
          MODE_HIDEBMASKS = true) ∧
      (CHFL_CHANOP ||| CHFL_HALFOP = 0 ↔
        HasCMode (ModeState.init (AddCMode demo_chan MODE_HIDEBMASKS)).chptr
          MODE_HIDEBMASKS = false)) :=
  ⟨by decide, by decide,
   (list_change_visibility demo_env (local_user "op") 2 ["+I".toList, "foo".toList]
      CHACCESS_CHANOP MODE_ADD
      { letter := 'I', mode := 0, only_opers := 0, only_servers := 0,
        func := ChmFunc.chm_invex }
      (ModeState.init (AddCMode demo_chan MODE_HIDEBMASKS))).2.2.1
      { letter := 'I', arg := some "foo!*@*".toList, id := none, dir := MODE_ADD,
        flags := CHFL_CHANOP ||| CHFL_HALFOP } (by decide)⟩

/-- C14, witness: the operator membership of `op`, with the half-operator bit
set too. -/
theorem access_levels_witness :
    MyClient (local_user "op") = true ∧
    has_member_flags (member_of "op" (CHFL_CHANOP ||| CHFL_HALFOP)) CHFL_CHANOP = true ∧
    get_channel_access (local_user "op") (some (member_of "op" (CHFL_CHANOP ||| CHFL_HALFOP))) =
      CHACCESS_CHANOP :=
  ⟨rfl, rfl, (((access_levels (local_user "op")
    (some (member_of "op" (CHFL_CHANOP ||| CHFL_HALFOP)))).2.1 rfl).2 _ rfl).1 rfl⟩

/-- C15, counterexample. The operator `op` sends `+k` with the one-character
argument `0x7F` on a channel without key and limit: the key stored holds the
control character `0x7F`. -/
theorem key_del_counterexample :
    demo_chan.mode.key = [] ∧ demo_chan.mode.limit = 0 ∧
    (set_channel_mode demo_env (local_user "op") demo_chan (some (member_of "op" CHFL_CHANOP)) 2
      ["+k".toList, [Char.ofNat 0x7f]]).chptr.mode.key = [Char.ofNat 0x7f] := by
  decide

/-- C15, at a concrete input. The operator `op` sends `+kl a:b 5` on a channel
without key and limit. -/
theorem mode_invariant_witness :
    mode_ok demo_env demo_chan.mode ∧
    mode_ok demo_env (set_channel_mode demo_env (local_user "op") demo_chan
      (some (member_of "op" CHFL_CHANOP)) 3
      ["+kl".toList, "a:b".toList, "5".toList]).chptr.mode ∧
    (set_channel_mode demo_env (local_user "op") demo_chan
      (some (member_of "op" CHFL_CHANOP)) 3
      ["+kl".toList, "a:b".toList, "5".toList]).chptr.mode =
      { mode := MODE_NOPRIVMSGS ||| MODE_TOPICLIMIT, limit := 5, key := "ab".toList } :=
  ⟨⟨Or.inl rfl, by decide, fun c hc => by cases hc⟩,
   mode_invariant demo_env (local_user "op") demo_chan (some (member_of "op" CHFL_CHANOP)) 3
     ["+kl".toList, "a:b".toList, "5".toList] ⟨Or.inl rfl, by decide, fun c hc => by cases hc⟩,
   by decide⟩

/-- C16, counterexample. With `KEYLEN` 23, the argument of twenty-three colons
followed by `k` gives the empty key, not `k`: the cut comes first. The operator
`op` sends `+k` with that argument and no key is set. -/
theorem fix_key_order_counterexample :
    fix_key demo_env (List.replicate 23 ':' ++ ['k']) = [] ∧
    spec_fix_key demo_env (List.replicate 23 ':' ++ ['k']) = ['k'] ∧
    (∀ c ∈ List.replicate 23 ':' ++ ['k'], c.toNat < 128) ∧
    (set_channel_mode demo_env (local_user "op") demo_chan (some (member_of "op" CHFL_CHANOP)) 2
      ["+k".toList, List.replicate 23 ':' ++ ['k']]).chptr.mode.key = [] ∧
    (set_channel_mode demo_env (local_user "op") demo_chan (some (member_of "op" CHFL_CHANOP)) 2
      ["+k".toList, List.replicate 23 ':' ++ ['k']]).mode_changes = [] := by
  decide

/-- C16, at a concrete input. The operator `op` sends `+k` with the argument
`a:b c,d`: the key stored is `abcd`. -/
theorem fix_key_sanitizes_witness :
    (∀ c ∈ "a:b c,d".toList, c.toNat < 128) ∧
    fix_key demo_env "a:b c,d".toList =
      ("a:b c,d".toList.take demo_env.KEYLEN).filter key_char ∧
    fix_key demo_env "a:b c,d".toList = "abcd".toList ∧
    (chm_key demo_env 2 ["+k".toList, "a:b c,d".toList] CHACCESS_CHANOP MODE_ADD
      { letter := 'k', mode := 0, only_opers := 0, only_servers := 0, func := ChmFunc.chm_key }
      (ModeState.init demo_chan)).chptr.mode.key = "abcd".toList :=
  ⟨by decide,
   (fix_key_sanitizes demo_env 2 ["+k".toList, "a:b c,d".toList] CHACCESS_CHANOP
      { letter := 'k', mode := 0, only_opers := 0, only_servers := 0, func := ChmFunc.chm_key }
      (ModeState.init demo_chan)).1 "a:b c,d".toList (by decide),
   by decide,
   by
    have h := ((fix_key_sanitizes demo_env 2 ["+k".toList, "a:b c,d".toList] CHACCESS_CHANOP
      { letter := 'k', mode := 0, only_opers := 0, only_servers := 0, func := ChmFunc.chm_key }
      (ModeState.init demo_chan)).2 (by decide) (by decide)).1 (by decide)
    rw [h]
    decide⟩

/-- C19, at a concrete input. Seven voice changes on one server line would be
seven arguments; the formatter sends six on the first line, and that line is
the line of a non-empty batch with at most six arguments. -/
theorem lines_bounded_witness :
    Out.server ":0AAop TMODE 900 #c +vvvvvv".toList
      "0AAn1 0AAn2 0AAn3 0AAn4 0AAn5 0AAn6".toList ∈
      send_mode_changes_server demo_env (local_user "op") demo_chan
        ((["n1", "n2", "n3", "n4", "n5", "n6", "n7"]).map (fun n =>
          { letter := 'v', arg := some n.toList, id := some ("0AA" ++ n).toList,
            dir := MODE_ADD, flags := 0 })) ∧
    ∃ b : List ChModeChange, b ≠ [] ∧
      (b.filterMap server_arg).length ≤ MAXMODEPARAMS ∧
      (b.map ChModeChange.letter).Sublist (mode_letters MODE_QUERY b) ∧
      Out.server ":0AAop TMODE 900 #c +vvvvvv".toList
        "0AAn1 0AAn2 0AAn3 0AAn4 0AAn5 0AAn6".toList =
        Out.server (server_header (local_user "op") demo_chan ++ mode_letters MODE_QUERY b)
          (para_text [] (b.filterMap server_arg)) :=
  ⟨by decide,
   (lines_bounded demo_env (local_user "op") demo_chan
      ((["n1", "n2", "n3", "n4", "n5", "n6", "n7"]).map (fun n =>
        { letter := 'v', arg := some n.toList, id := some ("0AA" ++ n).toList,
          dir := MODE_ADD, flags := 0 }))).1 _ (by decide)⟩

/-- C20, at a concrete input. A plain member queries the ban list of a channel
with two bans: two entry replies in list order, then the end-of-list reply; the
same query again in the call sends nothing. -/
theorem list_query_witness :
    (MODE_QUERY = MODE_QUERY ∨ 1 ≤ (ModeState.init demo_full_chan).parn) ∧
    SM_ERR_RPL_B ≠ 0 ∧
    chm_ban demo_env (local_user "n1") 1 ["=b".toList] CHACCESS_PEON MODE_QUERY
      { letter := 'b', mode := 0, only_opers := 0, only_servers := 0, func := ChmFunc.chm_ban }
      (ModeState.init demo_full_chan) =
      { ModeState.init demo_full_chan with
        errors := SM_ERR_RPL_B,
        out := [entry_reply Numeric.RPL_BANLIST demo_full_chan
                  { name := "x".toList, user := "*".toList, host := "*".toList,
                    who := "op!u@h".toList, when := 990, len := 3, type := 0 },
                entry_reply Numeric.RPL_BANLIST demo_full_chan
                  { name := "y".toList, user := "*".toList, host := "*".toList,
                    who := "op!u@h".toList, when := 980, len := 3, type := 0 },
                Out.numeric Numeric.RPL_ENDOFBANLIST ["#c".toList]] } ∧
    (set_channel_mode demo_env (local_user "n1") demo_full_chan
      (some (member_of "n1" 0)) 1 ["=bb".toList]).out =
      [entry_reply Numeric.RPL_BANLIST demo_full_chan
         { name := "x".toList, user := "*".toList, host := "*".toList,
           who := "op!u@h".toList, when := 990, len := 3, type := 0 },
       entry_reply Numeric.RPL_BANLIST demo_full_chan
         { name := "y".toList, user := "*".toList, host := "*".toList,
           who := "op!u@h".toList, when := 980, len := 3, type := 0 },
       Out.numeric Numeric.RPL_ENDOFBANLIST ["#c".toList]] :=
  ⟨Or.inl rfl, by decide,
   ((list_query SM_ERR_RPL_B Channel.banlist Numeric.RPL_BANLIST Numeric.RPL_ENDOFBANLIST
      CHFL_BAN demo_env (local_user "n1") 1 ["=b".toList] CHACCESS_PEON MODE_QUERY
      { letter := 'b', mode := 0, only_opers := 0, only_servers := 0, func := ChmFunc.chm_ban }
      (ModeState.init demo_full_chan) (Or.inl rfl) (by decide)).2.1 (by decide)).1.trans
      (by decide),
   by decide⟩

/-- C21, at a concrete input. The operator `op` sends `+v n1`: the membership
of `n1`, the third of the channel, gains the voice bit, and one change with the
name and the id of `n1` is recorded. -/
theorem rank_change_frame_witness :
    ¬ CHACCESS_CHANOP < CHACCESS_HALFOP ∧
    (ModeState.init demo_chan).parn < 2 ∧
    demo_env.find_chasing (local_user "op")
      (["+v".toList, "n1".toList].getD (ModeState.init demo_chan).parn []) =
        some (local_user "n1") ∧
    find_channel_link (local_user "n1") (ModeState.init demo_chan).chptr =
      some (2, member_of "n1" 0) ∧
    has_member_flags (member_of "n1" 0) CHFL_VOICE = false ∧
    (chm_rank CHACCESS_HALFOP CHFL_VOICE demo_env (local_user "op") 2
      ["+v".toList, "n1".toList] CHACCESS_CHANOP MODE_ADD
      { letter := 'v', mode := 0, only_opers := 0, only_servers := 0,
        func := ChmFunc.chm_voice } (ModeState.init demo_chan)).chptr =
      with_member demo_chan 2 (AddMemberFlag (member_of "n1" 0) CHFL_VOICE) ∧
    (chm_rank CHACCESS_HALFOP CHFL_VOICE demo_env (local_user "op") 2
      ["+v".toList, "n1".toList] CHACCESS_CHANOP MODE_ADD
      { letter := 'v', mode := 0, only_opers := 0, only_servers := 0,
        func := ChmFunc.chm_voice } (ModeState.init demo_chan)).mode_changes =
      [{ letter := 'v', arg := some "n1".toList, id := some "0AAn1".toList, flags := 0,
         dir := MODE_ADD }] :=
  have h := (rank_change_frame CHACCESS_HALFOP CHFL_VOICE demo_env (local_user "op") 2
    ["+v".toList, "n1".toList] CHACCESS_CHANOP MODE_ADD
    { letter := 'v', mode := 0, only_opers := 0, only_servers := 0,
      func := ChmFunc.chm_voice } (ModeState.init demo_chan) (local_user "n1") 2
    (member_of "n1" 0) (by decide) (by decide) (by decide) (by decide)
    (fun _ => by decide)).2.2.1 rfl (by decide)
  ⟨by decide, by decide, by decide, by decide, by decide, h.1, h.2.2.2⟩

/-- C26, counterexample. The operator `op` sends `+n-n` on a channel that has
`n` set: the flag stays set and nothing is recorded or sent. -/
theorem simple_dedup_counterexample :
    HasCMode demo_chan MODE_NOPRIVMSGS = true ∧
    set_channel_mode demo_env (local_user "op") demo_chan (some (member_of "op" CHFL_CHANOP)) 1
      ["+n-n".toList] =
      { ModeState.init demo_chan with simple_modes_mask := MODE_NOPRIVMSGS } ∧
    HasCMode (set_channel_mode demo_env (local_user "op") demo_chan
      (some (member_of "op" CHFL_CHANOP)) 1 ["+n-n".toList]).chptr MODE_NOPRIVMSGS = true ∧
    (set_channel_mode demo_env (local_user "op") demo_chan
      (some (member_of "op" CHFL_CHANOP)) 1 ["+n-n".toList]).mode_changes = [] := by
  decide

/-- C28, at a concrete input. A state at the limit, the operator `op`, the
arguments `x` and `n1`: `+b` leaves the cursor, `+v` moves it. -/
theorem limit_hit_cursor_witness :
    chm_ban demo_env (local_user "op") 3 ["+bv".toList, "x".toList, "n1".toList]
      CHACCESS_CHANOP MODE_ADD
      { letter := 'b', mode := 0, only_opers := 0, only_servers := 0, func := ChmFunc.chm_ban }
      { ModeState.init demo_chan with mode_limit := 6 } =
      { ModeState.init demo_chan with mode_limit := 7 } ∧
    chm_voice demo_env (local_user "op") 3 ["+bv".toList, "n1".toList, "x".toList]
      CHACCESS_CHANOP MODE_ADD
      { letter := 'v', mode := 0, only_opers := 0, only_servers := 0,
        func := ChmFunc.chm_voice }
      { ModeState.init demo_chan with mode_limit := 6 } =
      { ModeState.init demo_chan with mode_limit := 7, parn := 2 } :=
  ⟨(limit_hit_cursor SM_ERR_RPL_B Channel.banlist Numeric.RPL_BANLIST Numeric.RPL_ENDOFBANLIST
      CHFL_BAN CHACCESS_HALFOP CHFL_VOICE demo_env (local_user "op") 3
      ["+bv".toList, "x".toList, "n1".toList] CHACCESS_CHANOP MODE_ADD
      { letter := 'b', mode := 0, only_opers := 0, only_servers := 0, func := ChmFunc.chm_ban }
      { ModeState.init demo_chan with mode_limit := 6 } (by decide) (by decide) (by decide)
      (by decide)).2.1 (by decide),
   (limit_hit_cursor SM_ERR_RPL_B Channel.banlist Numeric.RPL_BANLIST Numeric.RPL_ENDOFBANLIST
      CHFL_BAN CHACCESS_HALFOP CHFL_VOICE demo_env (local_user "op") 3
      ["+bv".toList, "n1".toList, "x".toList] CHACCESS_CHANOP MODE_ADD
      { letter := 'v', mode := 0, only_opers := 0, only_servers := 0,
        func := ChmFunc.chm_voice }
      { ModeState.init demo_chan with mode_limit := 6 } (by decide) (by decide) (by decide)
      (by decide)).2.2 (by decide) (local_user "n1") 2 (member_of "n1" 0) (by decide)
      (by decide)⟩

/-- C26, at a concrete input. The operator `op` and the letter `n` on a channel
that has `n` set: after the redundant `+n` the `-n` returns the state as it
is. -/
theorem simple_dedup_witness :
    chm_simple (local_user "op") CHACCESS_CHANOP MODE_DEL
      { letter := 'n', mode := MODE_NOPRIVMSGS, only_opers := 0, only_servers := 0,
        func := ChmFunc.chm_simple }
      (chm_simple (local_user "op") CHACCESS_CHANOP MODE_ADD
        { letter := 'n', mode := MODE_NOPRIVMSGS, only_opers := 0, only_servers := 0,
          func := ChmFunc.chm_simple } (ModeState.init demo_chan)) =
      chm_simple (local_user "op") CHACCESS_CHANOP MODE_ADD
        { letter := 'n', mode := MODE_NOPRIVMSGS, only_opers := 0, only_servers := 0,
          func := ChmFunc.chm_simple } (ModeState.init demo_chan) ∧
    (chm_simple (local_user "op") CHACCESS_CHANOP MODE_ADD
        { letter := 'n', mode := MODE_NOPRIVMSGS, only_opers := 0, only_servers := 0,
          func := ChmFunc.chm_simple } (ModeState.init demo_chan)).mode_changes = [] :=
  ⟨(simple_dedup (local_user "op") CHACCESS_CHANOP MODE_ADD MODE_DEL
      { letter := 'n', mode := MODE_NOPRIVMSGS, only_opers := 0, only_servers := 0,
        func := ChmFunc.chm_simple } (ModeState.init demo_chan) (by decide) (by decide)
      (by decide)).2.2 (by decide) (by decide),
   by decide⟩

/-- C22, at concrete inputs. The operator `op` sends `+n`, which is redundant:
nothing is recorded and nothing is sent. It sends `+m`: one change is recorded
and the server pass emits a line. -/
theorem propagation_iff_recorded_witness :
    (set_channel_mode demo_env (local_user "op") demo_chan (some (member_of "op" CHFL_CHANOP)) 1
      ["+n".toList]).mode_changes = [] ∧
    (∀ o ∈ (set_channel_mode demo_env (local_user "op") demo_chan
      (some (member_of "op" CHFL_CHANOP)) 1 ["+n".toList]).out, o.is_numeric = true) ∧
    (set_channel_mode demo_env (local_user "op") demo_chan (some (member_of "op" CHFL_CHANOP)) 1
      ["+m".toList]).mode_changes ≠ [] ∧
    send_mode_changes_server demo_env (local_user "op")
      (set_channel_mode demo_env (local_user "op") demo_chan
        (some (member_of "op" CHFL_CHANOP)) 1 ["+m".toList]).chptr
      (set_channel_mode demo_env (local_user "op") demo_chan
        (some (member_of "op" CHFL_CHANOP)) 1 ["+m".toList]).mode_changes ≠ [] :=
  ⟨by decide,
   ((propagation_iff_recorded demo_env (local_user "op") demo_chan
      (some (member_of "op" CHFL_CHANOP)) 1 ["+n".toList]).1 (by decide)).2,
   by decide,
   ((propagation_iff_recorded demo_env (local_user "op") demo_chan
      (some (member_of "op" CHFL_CHANOP)) 1 ["+m".toList]).2 (by decide)).2.1⟩

/-- C30, at a concrete input. The operator `op` sends `+m-i+v n1`, three
letters: at most three changes, below the size of the array; and a string
behind the arguments counted by `parc` is not read. -/
theorem changes_within_bounds_witness :
    (["+m-i+v".toList, "n1".toList].headD []).length < demo_env.IRCD_BUFSIZE ∧
    (set_channel_mode demo_env (local_user "op") demo_chan (some (member_of "op" CHFL_CHANOP)) 2
      ["+m-i+v".toList, "n1".toList]).mode_changes.length < demo_env.IRCD_BUFSIZE ∧
    (set_channel_mode demo_env (local_user "op") demo_chan (some (member_of "op" CHFL_CHANOP)) 2
      ["+m-i+v".toList, "n1".toList]).mode_changes.length ≤ 3 ∧
    parv_agree 2 ["+m-i+v".toList, "n1".toList] ["+m-i+v".toList, "n1".toList, "n2".toList] ∧
    set_channel_mode demo_env (local_user "op") demo_chan (some (member_of "op" CHFL_CHANOP)) 2
      ["+m-i+v".toList, "n1".toList, "n2".toList] =
      set_channel_mode demo_env (local_user "op") demo_chan (some (member_of "op" CHFL_CHANOP)) 2
        ["+m-i+v".toList, "n1".toList] :=
  have hagree : parv_agree 2 ["+m-i+v".toList, "n1".toList]
      ["+m-i+v".toList, "n1".toList, "n2".toList] := by
    intro i hi
    interval_cases i <;> rfl
  ⟨by decide,
   (changes_within_bounds demo_env (local_user "op") demo_chan
      (some (member_of "op" CHFL_CHANOP)) 2 ["+m-i+v".toList, "n1".toList]).2.2.1 (by decide),
   (changes_within_bounds demo_env (local_user "op") demo_chan
      (some (member_of "op" CHFL_CHANOP)) 2 ["+m-i+v".toList, "n1".toList]).1,
   hagree,
   (changes_within_bounds demo_env (local_user "op") demo_chan
      (some (member_of "op" CHFL_CHANOP)) 2 ["+m-i+v".toList, "n1".toList]).2.2.2.2.2 _
      (by decide) hagree⟩

/-- C29, at a concrete input. A client that is not on the channel asks for the
modes of a channel with the modes `nt`, the limit 5 and the key `secret`: the
mode buffer is `+ntlk`, the parameter buffer is empty, and both are the same
when the limit is 7 and the key is `other`. -/
theorem channel_modes_summary_witness :
    channel_modes demo_env (with_limit_key demo_chan 5 "secret".toList) (local_user "x") =
      ("+ntlk".toList, []) ∧
    channel_modes demo_env (with_limit_key demo_chan 5 "secret".toList) (local_user "op") =
      ("+ntlk".toList, "5 secret ".toList) ∧
    channel_modes demo_env
      (with_limit_key (with_limit_key demo_chan 5 "secret".toList) 7 "other".toList)
      (local_user "x") =
      channel_modes demo_env (with_limit_key demo_chan 5 "secret".toList) (local_user "x") :=
  ⟨by decide, by decide,
   ((channel_modes_summary demo_env (with_limit_key demo_chan 5 "secret".toList)
      (local_user "x")).2.2.2.2.2 (by decide) (by decide)).2 7 "other".toList (by decide)
      (by decide) (by decide)⟩

/-- C27, at concrete inputs. The operator `op` sends `+ub foo` and `+bu foo`
on a channel without the hide-lists flag: the ban change has the filter
operators and half-operators in the first call and none in the second. An IRC
operator that is channel operator of a channel with two masks, the plain
capacity, sends `+Lb z` and the mask is added; it sends `+bL z` and the add is
refused. -/
theorem earlier_letters_visible_witness :
    (∀ mc ∈ (set_channel_mode demo_env (local_user "op") demo_chan
        (some (member_of "op" CHFL_CHANOP)) 2 ("+ub".toList :: ["foo".toList])).mode_changes,
      mc.letter = 'b' → mc.flags = CHFL_CHANOP ||| CHFL_HALFOP) ∧
    (set_channel_mode demo_env (local_user "op") demo_chan
        (some (member_of "op" CHFL_CHANOP)) 2 ("+ub".toList :: ["foo".toList])).mode_changes =
      [{ letter := 'u', arg := none, id := none, dir := MODE_ADD, flags := 0 },
       { letter := 'b', arg := some "foo!*@*".toList, id := none, dir := MODE_ADD,
         flags := CHFL_CHANOP ||| CHFL_HALFOP }] ∧
    (set_channel_mode demo_env (local_user "op") demo_chan
        (some (member_of "op" CHFL_CHANOP)) 2 ("+bu".toList :: ["foo".toList])).mode_changes =
      [{ letter := 'b', arg := some "foo!*@*".toList, id := none, dir := MODE_ADD, flags := 0 },
       { letter := 'u', arg := none, id := none, dir := MODE_ADD, flags := 0 }] ∧
    ((set_channel_mode demo_env { local_user "op" with umode_oper := true } demo_full_chan
        (some (member_of "op" CHFL_CHANOP)) 2 ["+Lb".toList, "z".toList]).chptr.banlist.map
        Ban.name = ["z".toList, "x".toList, "y".toList]) ∧
    ((set_channel_mode demo_env { local_user "op" with umode_oper := true } demo_full_chan
        (some (member_of "op" CHFL_CHANOP)) 2 ["+bL".toList, "z".toList]).chptr.banlist.map
        Ban.name = ["x".toList, "y".toList]) ∧
    (set_channel_mode demo_env { local_user "op" with umode_oper := true } demo_full_chan
        (some (member_of "op" CHFL_CHANOP)) 2 ["+bL".toList, "z".toList]).out.head? =
      some (Out.numeric Numeric.ERR_BANLISTFULL ["#c".toList, "z".toList]) :=
  ⟨((earlier_letters_visible demo_env (local_user "op") demo_chan
      (some (member_of "op" CHFL_CHANOP)) 2 ["foo".toList] (by decide)).1 (by decide)).1,
   by decide, by decide, by decide, by decide, by decide⟩

/-- C23, counterexample. The operator `op` sends `+o-b n1 foo` on a channel
with an empty ban list: no mask is added, and the lines carry `+o n1` only. -/
theorem op_and_unban_counterexample :
    demo_chan.banlist = [] ∧
    (set_channel_mode demo_env (local_user "op") demo_chan (some (member_of "op" CHFL_CHANOP)) 3
      ["+o-b".toList, "n1".toList, "foo".toList]).chptr.banlist = [] ∧
    (set_channel_mode demo_env (local_user "op") demo_chan (some (member_of "op" CHFL_CHANOP)) 3
      ["+o-b".toList, "n1".toList, "foo".toList]).mode_changes =
      [{ letter := 'o', arg := some "n1".toList, id := some "0AAn1".toList, dir := MODE_ADD,
         flags := 0 }] ∧
    (set_channel_mode demo_env (local_user "op") demo_chan (some (member_of "op" CHFL_CHANOP)) 3
      ["+o-b".toList, "n1".toList, "foo".toList]).out =
      [Out.channel_local 0 ":op!u@h MODE #c +o".toList "n1".toList,
       Out.server ":0AAop TMODE 900 #c +o".toList "0AAn1".toList] := by
  decide

/-- C23, at a concrete input. The operator `op` sends `+o-b n1 x` on a channel
whose ban list holds `x!*@*` and `y!*@*`: `n1` gains operator rank, the ban
`x!*@*` is removed, the caches are cleared, and one client line and one server
line `+o-b` are sent. -/
theorem op_and_unban_witness :
    (set_channel_mode demo_env (local_user "op") demo_full_chan
      (some (member_of "op" CHFL_CHANOP)) 3
      ["+o-b".toList, "n1".toList, "x".toList]).chptr.banlist.map Ban.name = ["y".toList] ∧
    (set_channel_mode demo_env (local_user "op") demo_full_chan
      (some (member_of "op" CHFL_CHANOP)) 3
      ["+o-b".toList, "n1".toList, "x".toList]).chptr.members =
      [member_of "op" CHFL_CHANOP, member_of "n1" (CHFL_VOICE ||| CHFL_CHANOP),
       member_of "n2" 0] ∧
    (set_channel_mode demo_env (local_user "op") demo_full_chan
      (some (member_of "op" CHFL_CHANOP)) 3
      ["+o-b".toList, "n1".toList, "x".toList]).mode_changes =
      [rank_change mode_o MODE_ADD (local_user "n1"), unban_change "x!*@*".toList] ∧
    (set_channel_mode demo_env (local_user "op") demo_full_chan
      (some (member_of "op" CHFL_CHANOP)) 3
      ["+o-b".toList, "n1".toList, "x".toList]).out =
      [Out.channel_local 0 ":op!u@h MODE #c +o-b".toList "n1 x!*@*".toList,
       Out.server ":0AAop TMODE 900 #c +o-b".toList "0AAn1 x!*@*".toList] :=
  have h := (op_and_unban demo_env (local_user "op") demo_full_chan
    (some (member_of "op" CHFL_CHANOP)) "n1".toList "x".toList (local_user "n1") 1
    (member_of "n1" (CHFL_VOICE ||| CHFL_BAN_CHECKED ||| CHFL_BAN_SILENCED))
    (with_member demo_full_chan 1
      (AddMemberFlag (member_of "n1" (CHFL_VOICE ||| CHFL_BAN_CHECKED ||| CHFL_BAN_SILENCED))
        CHFL_CHANOP))
    "x".toList "x!*@*".toList
    (by decide) (by decide) (by decide) (by decide) (by decide) (by decide) rfl (by decide)
    (by decide) (by decide)).2.2.1 (by decide)
  ⟨by decide, by decide, h.2.1, (h.2.2 (by decide) (by decide)).trans (by decide)⟩

/-- C31, at a concrete input. With `KEYLEN` 23 the input `a:b c,d` followed by
the byte `0xE9` gives `abcdi`, five bytes in range, and `fix_key` leaves
`abcdi` as it is. -/
theorem fix_key_idempotent_witness :
    fix_key demo_env ("a:b c,d".toList ++ [Char.ofNat 0xe9]) = "abcdi".toList ∧
    'i' ∈ fix_key demo_env ("a:b c,d".toList ++ [Char.ofNat 0xe9]) ∧
    (0x21 ≤ 'i'.toNat ∧ 'i'.toNat ≤ 0x7f ∧ 'i' ≠ ':' ∧ 'i' ≠ ',') ∧
    fix_key demo_env (fix_key demo_env ("a:b c,d".toList ++ [Char.ofNat 0xe9])) =
      fix_key demo_env ("a:b c,d".toList ++ [Char.ofNat 0xe9]) :=
  ⟨by decide, by decide,
   (fix_key_idempotent demo_env ("a:b c,d".toList ++ [Char.ofNat 0xe9])).2.1 'i' (by decide),
   (fix_key_idempotent demo_env ("a:b c,d".toList ++ [Char.ofNat 0xe9])).2.2⟩

set_option maxRecDepth 100000 in
/-- C5, the failing input. The operator `op` sends `+bbbbb` with four masks
of 100 bytes and one of 86 bytes: every recorded argument is at most
30 + 10 + 63 + 3 bytes long, the header is 16 bytes long, and
`send_mode_changes_client` puts the five changes on one line that takes 515
bytes, three more than `IRCD_BUFSIZE`. -/
theorem client_line_overflow :
    (overflow_parv.map List.length).sum + 5 + "MODE #c ".length = 505 ∧
    overflow_result.mode_changes.length = 5 ∧
    (∀ mc ∈ overflow_result.mode_changes, ∀ a, mc.arg = some a → a.length ≤ 30 + 10 + 63 + 3) ∧
    (client_header wide_env (local_user "op") overflow_result.chptr).length = 16 ∧
    (send_mode_changes_client wide_env (local_user "op") overflow_result.chptr
      overflow_result.mode_changes).map Out.wire_length = [515] ∧
    wide_env.IRCD_BUFSIZE = 512 := by
  decide

set_option maxRecDepth 100000 in
/-- C8, witness: on the ban list of `demo_full_chan`, which holds `x!*@*` and
`y!*@*`, the operator `op` adds and removes the mask `X`, whose triple is on the
list, and adds the mask `foo`, whose triple is not. -/
theorem list_uniqueness_invariant_witness :
    ban_unique wide_env (list_of demo_full_chan CHFL_BAN) ∧
    (∃ ra rd, add_id wide_env (local_user "op") demo_full_chan "X".toList CHFL_BAN = some ra ∧
      del_id wide_env demo_full_chan "X".toList CHFL_BAN = some rd ∧
      ra.ret = 0 ∧ list_of ra.chptr CHFL_BAN = list_of demo_full_chan CHFL_BAN ∧
      rd.ret = 1 ∧ (list_of rd.chptr CHFL_BAN).length + 1 = 2 ∧
      (list_of rd.chptr CHFL_BAN).any
        (triple_matches wide_env (del_triple wide_env "X".toList)) = false ∧
      ban_unique wide_env (list_of rd.chptr CHFL_BAN)) ∧
    (∃ ra rd, add_id wide_env (local_user "op") demo_full_chan "foo".toList CHFL_BAN = some ra ∧
      del_id wide_env demo_full_chan "foo".toList CHFL_BAN = some rd ∧
      ra.ret = 1 ∧
      list_of ra.chptr CHFL_BAN =
        { name := "foo".toList, user := "*".toList, host := "*".toList,
          who := "op!u@h".toList, when := 1000, len := 5, type := 0 } ::
          list_of demo_full_chan CHFL_BAN ∧
      (list_of ra.chptr CHFL_BAN).countP
        (triple_matches wide_env (add_triple wide_env (local_user "op") "foo".toList)) = 1 ∧
      ban_unique wide_env (list_of ra.chptr CHFL_BAN) ∧
      rd.ret = 0 ∧ list_of rd.chptr CHFL_BAN = list_of demo_full_chan CHFL_BAN) :=
  have hu : ban_unique wide_env (list_of demo_full_chan CHFL_BAN) := by
    unfold ban_unique same_triple
    decide
  ⟨hu,
    let ⟨ra, rd, h1, h2, _, h4, h5, _, _, _, _, h10, _, h12⟩ :=
      list_uniqueness_invariant wide_env (local_user "op") demo_full_chan "X".toList CHFL_BAN
        (Or.inl rfl) hu
    ⟨ra, rd, h1, h2, (h5 (by decide)).1, (h5 (by decide)).2, h10 (by decide),
      (h12 (h10 (by decide))).2.1, (h12 (h10 (by decide))).2.2, h4⟩,
    let ⟨ra, rd, h1, h2, h3, _, _, h6, _, _, h9, _, h11, _⟩ :=
      list_uniqueness_invariant wide_env (local_user "op") demo_full_chan "foo".toList CHFL_BAN
        (Or.inl rfl) hu
    ⟨ra, rd, h1, h2, (h6 (by decide) (by decide)).1, (h6 (by decide) (by decide)).2,
      (h9 (h6 (by decide) (by decide)).1).1, h3, (h11 (by decide)).1, (h11 (by decide)).2⟩⟩

/-- C11, witness: `+n` to a channel that has `n` set, sent by the local
operator `op` (nothing is recorded, nothing is sent) and by the remote user
`rop` (the change is recorded and sent). -/
theorem redundant_simple_flag_witness :
    MyClient (local_user "op") = true ∧
    HasCMode demo_chan MODE_NOPRIVMSGS = true ∧
    (set_channel_mode demo_env (local_user "op") demo_chan (some (member_of "op" CHFL_CHANOP)) 1
      ["+n".toList]).mode_changes = [] ∧
    (set_channel_mode demo_env (local_user "op") demo_chan (some (member_of "op" CHFL_CHANOP)) 1
      ["+n".toList]).out = [] ∧
    MyClient (remote_user "rop") = false ∧
    (set_channel_mode demo_env (remote_user "rop") demo_chan none 1
      ["+n".toList]).mode_changes =
      [{ letter := 'n', arg := none, id := none, dir := MODE_ADD, flags := 0 }] ∧
    (set_channel_mode demo_env (remote_user "rop") demo_chan none 1 ["+n".toList]).out =
      [Out.channel_local 0 ":rop!u@h MODE #c +n".toList [],
       Out.server ":0AArop TMODE 900 #c +n".toList []] :=
  have h := ((redundant_simple_flag demo_env (local_user "op") demo_chan
    (some (member_of "op" CHFL_CHANOP)) 1 [] [] CHACCESS_CHANOP MODE_ADD 'n'
    { letter := 'n', mode := MODE_NOPRIVMSGS, only_opers := 0, only_servers := 0,
      func := ChmFunc.chm_simple } (ModeState.init demo_chan) (by decide) rfl).1 rfl).2.1
    (by decide)
  have r := ((redundant_simple_flag demo_env (remote_user "rop") demo_chan none 1 [] []
    CHACCESS_REMOTE MODE_ADD 'n'
    { letter := 'n', mode := MODE_NOPRIVMSGS, only_opers := 0, only_servers := 0,
      func := ChmFunc.chm_simple } (ModeState.init demo_chan) (by decide) rfl).2 rfl
    (Or.inl rfl)).2.2.1
  ⟨rfl, by decide, h.1, by decide, rfl, r.1, r.2.2⟩

set_option maxRecDepth 100000 in
/-- C24, witness: the operator `op` sends `+kmk a b`, two keys among other
letters, and `+kk a b`; then `-k` on the channel with the key `b`. -/
theorem last_key_wins_witness :
    CHACCESS_HALFOP ≤ get_channel_access (local_user "op") (some (member_of "op" CHFL_CHANOP)) ∧
    (set_channel_mode demo_env (local_user "op") demo_chan (some (member_of "op" CHFL_CHANOP)) 3
      ["+kmk".toList, "a".toList, "b".toList]).chptr.mode.key = "b".toList ∧
    (set_channel_mode demo_env (local_user "op") demo_chan (some (member_of "op" CHFL_CHANOP)) 3
      ["+kmk".toList, "a".toList, "b".toList]).mode_changes.filter (ChModeChange.is_add 'k') =
        [{ letter := 'k', arg := some "b".toList, id := none, dir := MODE_ADD, flags := 0 }] ∧
    (set_channel_mode demo_env (local_user "op") demo_chan (some (member_of "op" CHFL_CHANOP)) 3
      ["+kmk".toList, "a".toList, "b".toList]).mode_changes =
        [{ letter := Char.ofNat 0, arg := some "a".toList, id := none, dir := MODE_ADD,
           flags := 0 },
         { letter := 'm', arg := none, id := none, dir := MODE_ADD, flags := 0 },
         { letter := 'k', arg := some "b".toList, id := none, dir := MODE_ADD, flags := 0 }] ∧
    (set_channel_mode demo_env (local_user "op") demo_chan (some (member_of "op" CHFL_CHANOP)) 3
      ["+kmk".toList, "a".toList, "b".toList]).out =
        [Out.channel_local 0 ":op!u@h MODE #c +mk".toList "b".toList,
         Out.server ":0AAop TMODE 900 #c +mk".toList "b".toList] ∧
    (set_channel_mode demo_env (local_user "op") demo_chan (some (member_of "op" CHFL_CHANOP)) 3
      ["+kk".toList, "a".toList, "b".toList]).chptr = with_key demo_chan "b".toList ∧
    (set_channel_mode demo_env (local_user "op") demo_chan (some (member_of "op" CHFL_CHANOP)) 3
      ["+kk".toList, "a".toList, "b".toList]).out =
        [Out.channel_local 0 ":op!u@h MODE #c +k".toList "b".toList,
         Out.server ":0AAop TMODE 900 #c +k".toList "b".toList] ∧
    (chm_key demo_env 1 ["-k".toList]
      (get_channel_access (local_user "op") (some (member_of "op" CHFL_CHANOP))) MODE_DEL mode_k
      (ModeState.init (with_key demo_chan "b".toList))).mode_changes =
        [{ letter := 'k', arg := some "*".toList, id := none, dir := MODE_DEL, flags := 0 }] :=
  have h := last_key_wins demo_env (local_user "op") demo_chan
    (some (member_of "op" CHFL_CHANOP)) (by decide)
  have h1 := h.2.2.1 3 ["+kmk".toList, "a".toList, "b".toList] "+km".toList [] "b".toList
    (by decide) (by decide) (by decide) (by decide) (by decide) (by decide)
  have h2 := h.2.2.2.1 "+kk".toList ["a".toList] "b".toList (by decide) (by decide)
    (by decide)
  have h3 := (h.2.2.2.2 1 ["-k".toList] mode_k
    (ModeState.init (with_key demo_chan "b".toList))).1 (by decide)
  ⟨by decide, h1.1, h1.2.1, by decide, by decide, h2.1, h2.2.2.2, h3.2⟩

set_option maxRecDepth 100000 in
/-- C25, witness: the operator `op` sends `+bl-b x 5 y` on `demo_full_chan`,
once on the storage `used_scratch`, whose rows, slots and counters an earlier
call has filled, and once on `zero_scratch`. -/
theorem scratch_is_fresh_witness :
    letter_count ("+bl-b".toList) ≤ used_scratch.mode_changes.length ∧
    4 ≤ used_scratch.nuh_mask.length ∧
    (Static.set_channel_mode wide_env (local_user "op") demo_full_chan
      (some (member_of "op" CHFL_CHANOP)) 4
      ["+bl-b".toList, "z".toList, "5".toList, "y".toList] used_scratch).view =
      set_channel_mode wide_env (local_user "op") demo_full_chan
        (some (member_of "op" CHFL_CHANOP)) 4
        ["+bl-b".toList, "z".toList, "5".toList, "y".toList] ∧
    (Static.set_channel_mode wide_env (local_user "op") demo_full_chan
      (some (member_of "op" CHFL_CHANOP)) 4
      ["+bl-b".toList, "z".toList, "5".toList, "y".toList] used_scratch).out =
      (Static.set_channel_mode wide_env (local_user "op") demo_full_chan
        (some (member_of "op" CHFL_CHANOP)) 4
        ["+bl-b".toList, "z".toList, "5".toList, "y".toList] zero_scratch).out ∧
    (Static.set_channel_mode wide_env (local_user "op") demo_full_chan
      (some (member_of "op" CHFL_CHANOP)) 4
      ["+bl-b".toList, "z".toList, "5".toList, "y".toList] used_scratch).out =
      [Out.channel_local 0 ":op!u@h MODE #c +bl-b".toList "z!*@* 5 y!*@*".toList,
       Out.server ":0AAop TMODE 900 #c +bl-b".toList "z!*@* 5 y!*@*".toList] ∧
    (Static.set_channel_mode wide_env (local_user "op") demo_full_chan
      (some (member_of "op" CHFL_CHANOP)) 4
      ["+bl-b".toList, "z".toList, "5".toList, "y".toList] used_scratch).scratch.in_use =
      [{ letter := 'b', arg := some "z!*@*".toList, id := none, dir := MODE_ADD, flags := 0 },
       { letter := 'l', arg := some "5".toList, id := none, dir := MODE_ADD, flags := 0 },
       { letter := 'b', arg := some "y!*@*".toList, id := none, dir := MODE_DEL, flags := 0 }] :=
  have h := scratch_is_fresh wide_env (local_user "op") demo_full_chan
    (some (member_of "op" CHFL_CHANOP)) 4
    ["+bl-b".toList, "z".toList, "5".toList, "y".toList] used_scratch zero_scratch
    (by decide) (by decide) (by decide) (by decide)
  ⟨by decide, by decide, h.1, h.2.1.2.1, by decide, by decide⟩

end Hybrid
